import Mathlib

/-!
# Open MPI dissector (`packet-mpi.c`): a shallow embedding

The dissector's decoding functions are embedded as executable Lean functions.

* A packet buffer (`tvbuff_t`) is a list of octets together with its reported
  length; the accessors `tvb_get_*` are bounds checked and raise an exception
  when the requested octets are not all captured.
* `guint` arithmetic is arithmetic on `Nat` reduced modulo `2^32`.
* A decoder returns the offset the C function returns, together with an
  ordered log of what it did: the octets it read, the header values it
  decoded, and the items it added to the detail tree.
* The preference `pref_little_endian` and the `tree` pointer (NULL or not) are
  explicit parameters.
* The OOB data attached to a conversation is passed to `dissect_mpi_oob`
  explicitly and returned with the run; its `while` loop is run on fuel.
-/

namespace MpiDissector

/-! ## Buffers and machine arithmetic -/

/-- One octet of packet data. -/
abbrev Byte := Fin 256

/-- A `tvbuff_t`: the captured octets and the reported (on the wire) length.
The captured data never exceeds the reported length, and a reported length is
a non-negative `gint`. -/
structure tvbuff_t where
  data : List Byte
  reported_length : Nat
  captured_le : data.length ≤ reported_length
  reported_lt : reported_length < 2147483648

/-- Addition of two `guint` values (wraps modulo `2^32`). -/
def guint_add (a b : Nat) : Nat := (a + b) % 4294967296

/-- Subtraction of two `guint` values (wraps modulo `2^32`). -/
def guint_sub (a b : Nat) : Nat :=
  (a % 4294967296 + 4294967296 - b % 4294967296) % 4294967296

/-- Conversion of a `guint32` to a `gint32` (two's complement). -/
def gint32_of (n : Nat) : Int :=
  if n % 4294967296 < 2147483648 then ((n % 4294967296 : Nat) : Int)
  else ((n % 4294967296 : Nat) : Int) - 4294967296

def tvb_reported_length (tvb : tvbuff_t) : Nat := tvb.reported_length

def tvb_captured_length (tvb : tvbuff_t) : Nat := tvb.data.length

/-- Value of an octet string read least significant octet first. -/
def le_value : List Byte → Nat
  | [] => 0
  | b :: bs => b.val + 256 * le_value bs

/-- Value of an octet string read most significant octet first. -/
def be_value (bs : List Byte) : Nat :=
  bs.foldl (fun acc b => acc * 256 + b.val) 0

/-! ## Observable behaviour of a decoder -/

/-- Header values decoded by `dissect_mpi`, the BTL decoders and
`dissect_mpi_oob`: the decoder's local variables at the point where it reports
them (to the info column; to the tree text for the base and common header and
for the version and credential of an OOB message). -/
inductive Hdr where
  | base (base_base base_type base_count base_size : Nat)
  | common (common_type common_flags : Nat)
  | match_hdr (match_ctx : Nat) (match_src match_tag : Int) (match_seq : Nat)
      (match_padding : Nat)
  | rndv (rndv_msg_len rndv_src_req64 : Nat) (bfo : Option (Nat × Nat))
  | rget (rget_seg_cnt rget_padding rget_src_des64 : Nat)
  | frag (frag_padding frag_frag_offset frag_src_req64 frag_des_req64 : Nat)
  | ack (ack_padding ack_src_req64 ack_dst_req64 ack_send_offset : Nat)
  | rdma (rdma_padding rdma_seg_cnt rdma_rdma_offset rdma_seg_addr64 rdma_seg_len : Nat)
  | fin (fin_padding fin_fail fin_des32_1 fin_des32_2 fin_des64 : Nat)
  | rndvrestartnotify (padding restartseq src_req64 dst_req64 dst_rank jobid vpid : Nat)
  /-- The summary line of `dissect_mpi_oob`: the ports. -/
  | oob (srcport destport : Nat)
  | oob_hdr (jobid_origin vpid_origin jobid_dst vpid_dst msg_type rml_tag nbytes : Nat)
  | oob_msg (rml_tag : Nat)
  | oob_invalid (version credential : List Byte)
  | oob_iof (fully_des iof_type jobid vpid : Nat)
  | oob_orted_callback (jobid vpid : Nat) (nodename uri : List Byte) (hwloc_len : Nat)
  | oob_xcast (odles : Nat)
  | oob_length (nbytes : Nat)
  /-- The summary line of `dissect_mpi_sync`. -/
  | sync (srcport destport jobid vpid : Nat) (is_request : Bool)
  /-- The value of a generated item added by `proto_tree_add_uint`. -/
  | uint (hf : String) (value : Nat)
  /-- The value of a generated item added by `proto_tree_add_time`. -/
  | time (hf : String) (ns : Int)
  deriving DecidableEq

/-- Fixed texts appended to the info column by `dissect_mpi`. -/
inductive Notice where
  | not_implemented
  | something_goes_wrong
  deriving DecidableEq

/-- What a decoder does, in order. -/
inductive Ev where
  /-- A `tvb_get_*` accessor fetched `length` octets at `offset`. -/
  | read (offset length : Nat)
  /-- Header values handed to the info column. -/
  | hdr (h : Hdr)
  /-- The summary line of `dissect_mpi`: ports and base type. -/
  | summary (srcport destport base_base : Nat)
  /-- A fixed notice appended to the info column. -/
  | notice (n : Notice)
  /-- A `proto_tree_add_subtree` call. -/
  | subtree (ett : String)
  /-- A `proto_tree_add_item` call covering `length` octets at `offset`. -/
  | item (hf : String) (offset length : Nat)
  deriving DecidableEq

/-- Result of running a decoder: a value and the log, or an exception raised by
a bounds-checked accessor (with the log up to that point). -/
inductive Res (α : Type) where
  | ok (val : α) (log : List Ev)
  | exn (log : List Ev)

instance {α : Type} [DecidableEq α] : DecidableEq (Res α) := fun a b =>
  match a, b with
  | .ok v l, .ok v' l' =>
      if h : v = v' ∧ l = l' then isTrue (by rw [h.1, h.2])
      else isFalse (fun e => h (by cases e; exact ⟨rfl, rfl⟩))
  | .exn l, .exn l' =>
      if h : l = l' then isTrue (by rw [h]) else isFalse (fun e => h (by cases e; rfl))
  | .ok _ _, .exn _ => isFalse (fun e => by cases e)
  | .exn _, .ok _ _ => isFalse (fun e => by cases e)

namespace Res

/-- Put the events `l` in front of the log of a run. -/
def prepend {α : Type} (l : List Ev) : Res α → Res α
  | ok a l' => ok a (l ++ l')
  | exn l' => exn (l ++ l')

def bind {α β : Type} : Res α → (α → Res β) → Res β
  | ok a l, f => prepend l (f a)
  | exn l, _ => exn l

instance : Monad Res where
  pure a := ok a []
  bind := Res.bind

/-- The log of a run. -/
def log {α : Type} : Res α → List Ev
  | ok _ l => l
  | exn l => l

/-- The value returned by a run that raised no exception. -/
def value {α : Type} : Res α → Option α
  | ok a _ => some a
  | exn _ => none

/-- Append one event to the log. -/
def emit (e : Ev) : Res Unit := ok () [e]

end Res

/-- A fully captured buffer holding the octets `l`. -/
def tvb_of (l : List Byte) (h : l.length < 2147483648) : tvbuff_t :=
  ⟨l, l.length, le_refl _, h⟩

/-- The octet spans fetched by accessors, in order. -/
def reads : List Ev → List (Nat × Nat)
  | [] => []
  | Ev.read o n :: es => (o, n) :: reads es
  | _ :: es => reads es

/-- The header values reported, in order. -/
def hdrs : List Ev → List Hdr
  | [] => []
  | Ev.hdr h :: es => h :: hdrs es
  | _ :: es => hdrs es

/-! ## Buffer accessors -/

/-- Bounds-checked fetch of `length` octets at `offset`: raises an exception
unless all of them are captured. -/
def tvb_fetch (tvb : tvbuff_t) (offset length : Nat) : Res (List Byte) :=
  if offset + length ≤ tvb.data.length then
    Res.ok ((tvb.data.drop offset).take length) [Ev.read offset length]
  else Res.exn []

def tvb_get_guint8 (tvb : tvbuff_t) (offset : Nat) : Res Nat := do
  let bs ← tvb_fetch tvb offset 1
  pure (le_value bs)

def tvb_get_letohs (tvb : tvbuff_t) (offset : Nat) : Res Nat := do
  let bs ← tvb_fetch tvb offset 2
  pure (le_value bs)

def tvb_get_ntohs (tvb : tvbuff_t) (offset : Nat) : Res Nat := do
  let bs ← tvb_fetch tvb offset 2
  pure (be_value bs)

def tvb_get_letohl (tvb : tvbuff_t) (offset : Nat) : Res Nat := do
  let bs ← tvb_fetch tvb offset 4
  pure (le_value bs)

def tvb_get_ntohl (tvb : tvbuff_t) (offset : Nat) : Res Nat := do
  let bs ← tvb_fetch tvb offset 4
  pure (be_value bs)

def tvb_get_letoh48 (tvb : tvbuff_t) (offset : Nat) : Res Nat := do
  let bs ← tvb_fetch tvb offset 6
  pure (le_value bs)

def tvb_get_ntoh48 (tvb : tvbuff_t) (offset : Nat) : Res Nat := do
  let bs ← tvb_fetch tvb offset 6
  pure (be_value bs)

def tvb_get_letoh64 (tvb : tvbuff_t) (offset : Nat) : Res Nat := do
  let bs ← tvb_fetch tvb offset 8
  pure (le_value bs)

def tvb_get_ntoh64 (tvb : tvbuff_t) (offset : Nat) : Res Nat := do
  let bs ← tvb_fetch tvb offset 8
  pure (be_value bs)

/-- The unsigned integer held by the `length` octets at `offset`, read under
the endianness policy (`true`: little endian, `false`: big endian). -/
def tvb_value (little_endian : Bool) (tvb : tvbuff_t) (offset length : Nat) : Nat :=
  if little_endian then le_value ((tvb.data.drop offset).take length)
  else be_value ((tvb.data.drop offset).take length)

/-- The call `proto_tree_add_subtree(tree, tvb, 0, 0, ett, &ti, text)`. -/
def proto_tree_add_subtree (ett : String) : Res Unit := Res.emit (Ev.subtree ett)

/-- The call `proto_tree_add_item(tree, hf, tvb, offset, length, encoding)`: the
span is bounds checked; the item is added when `tree` is not NULL. -/
def proto_tree_add_item (tree : Bool) (hf : String) (tvb : tvbuff_t)
    (offset length : Nat) : Res Unit :=
  if offset + length ≤ tvb.data.length then
    Res.ok () (if tree then [Ev.item hf offset length] else [])
  else Res.exn []

/-! ## BTL header decoders -/

def dissect_mpi_match (pref_little_endian : Bool) (tvb : tvbuff_t) (tree : Bool)
    (the_offset : Nat) : Res Nat :=
  if 12 > guint_sub (tvb_reported_length tvb) the_offset then
    pure the_offset
  else do
    let match_padding := 1
    let offset := the_offset
    let (match_ctx, match_src, match_tag, match_seq, match_padding, offset) ←
      (if pref_little_endian then do
        let match_ctx ← tvb_get_letohs tvb offset
        let offset := guint_add offset 2
        let match_src ← tvb_get_letohl tvb offset
        let offset := guint_add offset 4
        let match_tag ← tvb_get_letohl tvb offset
        let offset := guint_add offset 4
        let match_seq ← tvb_get_letohs tvb offset
        let offset := guint_add offset 2
        if guint_add offset 2 ≤ tvb_reported_length tvb then do
          /- ugly hack :-( -/
          let tail_is_zero ←
            (if 4 = guint_sub (tvb_reported_length tvb) offset then do
              let v ← tvb_get_letohl tvb offset
              pure (decide (0 = v))
            else pure false)
          if !tail_is_zero then do
            let match_padding ← tvb_get_letohs tvb offset
            pure (match_ctx, gint32_of match_src, gint32_of match_tag, match_seq,
              match_padding, guint_add offset 2)
          else
            pure (match_ctx, gint32_of match_src, gint32_of match_tag, match_seq,
              match_padding, offset)
        else
          pure (match_ctx, gint32_of match_src, gint32_of match_tag, match_seq,
            match_padding, offset)
      else do
        let match_ctx ← tvb_get_ntohs tvb offset
        let offset := guint_add offset 2
        let match_src ← tvb_get_ntohl tvb offset
        let offset := guint_add offset 4
        let match_tag ← tvb_get_ntohl tvb offset
        let offset := guint_add offset 4
        let match_seq ← tvb_get_ntohs tvb offset
        let offset := guint_add offset 2
        if guint_add offset 2 ≤ tvb_reported_length tvb then do
          /- ugly hack :-( -/
          let tail_is_zero ←
            (if 4 = guint_sub (tvb_reported_length tvb) offset then do
              let v ← tvb_get_letohl tvb offset
              pure (decide (0 = v))
            else pure false)
          if !tail_is_zero then do
            let match_padding ← tvb_get_ntohs tvb offset
            pure (match_ctx, gint32_of match_src, gint32_of match_tag, match_seq,
              match_padding, guint_add offset 2)
          else
            pure (match_ctx, gint32_of match_src, gint32_of match_tag, match_seq,
              match_padding, offset)
        else
          pure (match_ctx, gint32_of match_src, gint32_of match_tag, match_seq,
            match_padding, offset))
    Res.emit (Ev.hdr (Hdr.match_hdr match_ctx match_src match_tag match_seq match_padding))
    if tree then do
      /- match header -/
      let offset := the_offset
      proto_tree_add_subtree "ett_mpi_match"
      proto_tree_add_item tree "hf_mpi_match_hdr_ctx" tvb offset 2
      let offset := guint_add offset 2
      proto_tree_add_item tree "hf_mpi_match_hdr_src" tvb offset 4
      let offset := guint_add offset 4
      proto_tree_add_item tree "hf_mpi_match_hdr_tag" tvb offset 4
      let offset := guint_add offset 4
      proto_tree_add_item tree "hf_mpi_match_hdr_seq" tvb offset 2
      let offset := guint_add offset 2
      /- padding for heterogeneous support -/
      if 0 = match_padding then do
        proto_tree_add_item tree "hf_mpi_padding2" tvb offset 2
        pure (guint_add offset 2)
      else
        pure offset
    else
      pure offset

def dissect_mpi_rndv (pref_little_endian : Bool) (tvb : tvbuff_t) (tree : Bool)
    (the_offset : Nat) : Res Nat :=
  /- too small for a match header -/
  if 12 > guint_sub (tvb_reported_length tvb) the_offset then
    pure the_offset
  else do
    let the_offset ← dissect_mpi_match pref_little_endian tvb tree the_offset
    /- we need 16 bytes for the minimum rendezvous header -/
    if 16 > guint_sub (tvb_reported_length tvb) the_offset then
      pure the_offset
    else do
      let offset := the_offset
      let (rndv_msg_len, rndv_src_req64, rndv_dst_req64, rndv_bfo, offset) ←
        (if pref_little_endian then do
          let rndv_msg_len ← tvb_get_letoh64 tvb offset
          let offset := guint_add offset 8
          let rndv_src_req64 ← tvb_get_letoh64 tvb offset
          let offset := guint_add offset 8
          if 9 ≤ guint_sub (tvb_reported_length tvb) offset then do
            let rndv_dst_req64 ← tvb_get_letoh64 tvb offset
            pure (rndv_msg_len, rndv_src_req64, rndv_dst_req64, true, guint_add offset 8)
          else
            pure (rndv_msg_len, rndv_src_req64, 0, false, offset)
        else do
          let rndv_msg_len ← tvb_get_ntoh64 tvb offset
          let offset := guint_add offset 8
          let rndv_src_req64 ← tvb_get_ntoh64 tvb offset
          let offset := guint_add offset 8
          if 9 ≤ guint_sub (tvb_reported_length tvb) offset then do
            let rndv_dst_req64 ← tvb_get_ntoh64 tvb offset
            pure (rndv_msg_len, rndv_src_req64, rndv_dst_req64, true, guint_add offset 8)
          else
            pure (rndv_msg_len, rndv_src_req64, 0, false, offset))
      let offset ←
        (if rndv_bfo then do
          let rndv_restartseq ← tvb_get_guint8 tvb offset
          Res.emit (Ev.hdr (Hdr.rndv rndv_msg_len rndv_src_req64
            (some (rndv_dst_req64, rndv_restartseq))))
          pure (guint_add offset 1)
        else do
          Res.emit (Ev.hdr (Hdr.rndv rndv_msg_len rndv_src_req64 none))
          pure offset)
      if tree then do
        /- rendezvous header -/
        let offset := the_offset
        proto_tree_add_subtree "ett_mpi_rndv"
        proto_tree_add_item tree "hf_mpi_rndv_hdr_len" tvb offset 8
        let offset := guint_add offset 8
        proto_tree_add_item tree "hf_mpi_src_req32_1" tvb offset 4
        proto_tree_add_item tree "hf_mpi_src_req32_2" tvb (guint_add offset 4) 4
        proto_tree_add_item tree "hf_mpi_src_req64" tvb offset 8
        let offset := guint_add offset 8
        if rndv_bfo then do
          proto_tree_add_item tree "hf_mpi_dst_req32_1" tvb offset 4
          proto_tree_add_item tree "hf_mpi_dst_req32_2" tvb (guint_add offset 4) 4
          proto_tree_add_item tree "hf_mpi_dst_req64" tvb offset 8
          let offset := guint_add offset 8
          proto_tree_add_item tree "hf_mpi_rndv_hdr_restartseq" tvb offset 1
          pure (guint_add offset 1)
        else
          pure offset
      else
        pure offset

def dissect_mpi_rget (pref_little_endian : Bool) (tvb : tvbuff_t) (tree : Bool)
    (the_offset : Nat) : Res Nat :=
  /- too small for a rendezvous header -/
  if 28 > guint_sub (tvb_reported_length tvb) the_offset then
    pure the_offset
  else do
    let the_offset ← dissect_mpi_rndv pref_little_endian tvb tree the_offset
    /- we need minimum 12 bytes for the rendezvous/get header -/
    if 12 > guint_sub (tvb_reported_length tvb) the_offset then
      pure the_offset
    else do
      let offset := the_offset
      let rget_padding := 1
      let (rget_seg_cnt, rget_padding, rget_src_des64, offset) ←
        (if pref_little_endian then do
          let rget_seg_cnt ← tvb_get_letohl tvb offset
          let offset := guint_add offset 4
          /- space for padding (4 bytes) + source descriptor (8 bytes) -/
          let (rget_padding, offset) ←
            (if 12 ≤ guint_sub (tvb_reported_length tvb) offset then do
              let rget_padding ← tvb_get_letohl tvb offset
              pure (rget_padding, guint_add offset 4)
            else pure (rget_padding, offset))
          let rget_src_des64 ← tvb_get_letoh64 tvb offset
          pure (rget_seg_cnt, rget_padding, rget_src_des64, guint_add offset 8)
        else do
          let rget_seg_cnt ← tvb_get_ntohl tvb offset
          let offset := guint_add offset 4
          let (rget_padding, offset) ←
            (if guint_sub (tvb_reported_length tvb) offset ≥ 12 then do
              let rget_padding ← tvb_get_ntohl tvb offset
              pure (rget_padding, guint_add offset 4)
            else pure (rget_padding, offset))
          let rget_src_des64 ← tvb_get_ntoh64 tvb offset
          pure (rget_seg_cnt, rget_padding, rget_src_des64, guint_add offset 8))
      Res.emit (Ev.hdr (Hdr.rget rget_seg_cnt rget_padding rget_src_des64))
      if tree then do
        let offset := the_offset
        proto_tree_add_subtree "ett_mpi_rget"
        proto_tree_add_item tree "hf_mpi_seg_cnt" tvb offset 4
        let offset := guint_add offset 4
        let offset ←
          (if 0 = rget_padding then do
            proto_tree_add_item tree "hf_mpi_padding4" tvb offset 4
            pure (guint_add offset 4)
          else pure offset)
        proto_tree_add_item tree "hf_mpi_src_des64" tvb offset 8
        pure (guint_add offset 8)
      else
        pure offset

def dissect_mpi_frag (pref_little_endian : Bool) (tvb : tvbuff_t) (tree : Bool)
    (the_offset : Nat) : Res Nat :=
  /- we need minimum 24 bytes for the frag header -/
  if 24 > guint_sub (tvb_reported_length tvb) the_offset then
    pure the_offset
  else do
    let offset := the_offset
    let frag_padding := 1
    let (frag_padding, frag_frag_offset, frag_src_req64, frag_des_req64, offset) ←
      (if pref_little_endian then do
        /- space for padding (6 bytes) + offset (8 bytes) + 2* pointer (16 bytes) -/
        let (frag_padding, offset) ←
          (if 30 ≤ guint_sub (tvb_reported_length tvb) offset then do
            let frag_padding ← tvb_get_letoh48 tvb offset
            pure (frag_padding, guint_add offset 6)
          else pure (frag_padding, offset))
        let frag_frag_offset ← tvb_get_letoh64 tvb offset
        let offset := guint_add offset 8
        let frag_src_req64 ← tvb_get_letoh64 tvb offset
        let offset := guint_add offset 8
        let frag_des_req64 ← tvb_get_letoh64 tvb offset
        pure (frag_padding, frag_frag_offset, frag_src_req64, frag_des_req64,
          guint_add offset 8)
      else do
        /- space for padding (6 bytes) + offset (8 bytes) + 2* pointer (16 bytes) -/
        let (frag_padding, offset) ←
          (if 30 ≤ guint_sub (tvb_reported_length tvb) offset then do
            let frag_padding ← tvb_get_ntoh48 tvb offset
            pure (frag_padding, guint_add offset 6)
          else pure (frag_padding, offset))
        let frag_frag_offset ← tvb_get_ntoh64 tvb offset
        let offset := guint_add offset 8
        let frag_src_req64 ← tvb_get_ntoh64 tvb offset
        let offset := guint_add offset 8
        let frag_des_req64 ← tvb_get_ntoh64 tvb offset
        pure (frag_padding, frag_frag_offset, frag_src_req64, frag_des_req64,
          guint_add offset 8))
    Res.emit (Ev.hdr (Hdr.frag frag_padding frag_frag_offset frag_src_req64 frag_des_req64))
    if tree then do
      let offset := the_offset
      proto_tree_add_subtree "ett_mpi_frag"
      let offset ←
        (if 0 = frag_padding then do
          proto_tree_add_item tree "hf_mpi_padding6" tvb offset 6
          pure (guint_add offset 6)
        else pure offset)
      proto_tree_add_item tree "hf_mpi_frag_hdr_frag_offset" tvb offset 8
      let offset := guint_add offset 8
      proto_tree_add_item tree "hf_mpi_src_req32_1" tvb offset 4
      proto_tree_add_item tree "hf_mpi_src_req32_2" tvb (guint_add offset 4) 4
      proto_tree_add_item tree "hf_mpi_src_req64" tvb offset 8
      let offset := guint_add offset 8
      proto_tree_add_item tree "hf_mpi_dst_req32_1" tvb offset 4
      proto_tree_add_item tree "hf_mpi_dst_req32_2" tvb (guint_add offset 4) 4
      proto_tree_add_item tree "hf_mpi_dst_req64" tvb offset 8
      pure (guint_add offset 8)
    else
      pure offset

def dissect_mpi_ack (pref_little_endian : Bool) (tvb : tvbuff_t) (tree : Bool)
    (the_offset : Nat) : Res Nat :=
  /- we need minimum 24 bytes for the ack header -/
  if 24 > guint_sub (tvb_reported_length tvb) the_offset then
    pure the_offset
  else do
    let offset := the_offset
    let ack_padding := 1
    let (ack_padding, ack_src_req64, ack_dst_req64, ack_send_offset, offset) ←
      (if pref_little_endian then do
        /- space for padding (6 bytes) + 2* pointer (16 bytes) + offset (8 bytes) -/
        let (ack_padding, offset) ←
          (if 30 ≤ guint_sub (tvb_reported_length tvb) offset then do
            let ack_padding ← tvb_get_letoh48 tvb offset
            pure (ack_padding, guint_add offset 6)
          else pure (ack_padding, offset))
        let ack_src_req64 ← tvb_get_letoh64 tvb offset
        let offset := guint_add offset 8
        let ack_dst_req64 ← tvb_get_letoh64 tvb offset
        let offset := guint_add offset 8
        let ack_send_offset ← tvb_get_letoh64 tvb offset
        pure (ack_padding, ack_src_req64, ack_dst_req64, ack_send_offset,
          guint_add offset 8)
      else do
        /- space for padding (6 bytes) + 2* pointer (16 bytes) + offset (8 bytes) -/
        let (ack_padding, offset) ←
          (if 30 ≤ guint_sub (tvb_reported_length tvb) offset then do
            let ack_padding ← tvb_get_ntoh48 tvb offset
            pure (ack_padding, guint_add offset 6)
          else pure (ack_padding, offset))
        let ack_src_req64 ← tvb_get_ntoh64 tvb offset
        let offset := guint_add offset 8
        let ack_dst_req64 ← tvb_get_ntoh64 tvb offset
        let offset := guint_add offset 8
        let ack_send_offset ← tvb_get_ntoh64 tvb offset
        pure (ack_padding, ack_src_req64, ack_dst_req64, ack_send_offset,
          guint_add offset 8))
    Res.emit (Ev.hdr (Hdr.ack ack_padding ack_src_req64 ack_dst_req64 ack_send_offset))
    if tree then do
      let offset := the_offset
      proto_tree_add_subtree "ett_mpi_ack"
      let offset ←
        (if 0 = ack_padding then do
          proto_tree_add_item tree "hf_mpi_padding6" tvb offset 6
          pure (guint_add offset 6)
        else pure offset)
      proto_tree_add_item tree "hf_mpi_src_req32_1" tvb offset 4
      proto_tree_add_item tree "hf_mpi_src_req32_2" tvb (guint_add offset 4) 4
      proto_tree_add_item tree "hf_mpi_src_req64" tvb offset 8
      let offset := guint_add offset 8
      proto_tree_add_item tree "hf_mpi_dst_req32_1" tvb offset 4
      proto_tree_add_item tree "hf_mpi_dst_req32_2" tvb (guint_add offset 4) 4
      proto_tree_add_item tree "hf_mpi_dst_req64" tvb offset 8
      let offset := guint_add offset 8
      proto_tree_add_item tree "hf_mpi_ack_hdr_send_offset" tvb offset 8
      pure (guint_add offset 8)
    else
      pure offset

def dissect_mpi_rdma (pref_little_endian : Bool) (tvb : tvbuff_t) (tree : Bool)
    (the_offset : Nat) : Res Nat :=
  /- we need minimum 52 bytes for the rdma header -/
  if 52 > guint_sub (tvb_reported_length tvb) the_offset then
    pure the_offset
  else do
    let offset := the_offset
    let rdma_padding := 1
    let (rdma_padding, rdma_seg_cnt, rdma_rdma_offset, rdma_seg_addr64, rdma_seg_len,
        offset) ←
      (if pref_little_endian then do
        /- space for padding (2 bytes) + rdma header (52 bytes) -/
        let (rdma_padding, offset) ←
          (if 54 ≤ guint_sub (tvb_reported_length tvb) offset then do
            let rdma_padding ← tvb_get_letohs tvb offset
            pure (rdma_padding, guint_add offset 2)
          else pure (rdma_padding, offset))
        let rdma_seg_cnt ← tvb_get_letohl tvb offset
        let offset := guint_add offset 4
        /- destination request, source descriptor, source descriptor -/
        let offset := guint_add offset 24
        let rdma_rdma_offset ← tvb_get_letoh64 tvb offset
        let offset := guint_add offset 8
        let rdma_seg_addr64 ← tvb_get_letoh64 tvb offset
        let offset := guint_add offset 8
        let rdma_seg_len ← tvb_get_letoh64 tvb offset
        pure (rdma_padding, rdma_seg_cnt, rdma_rdma_offset, rdma_seg_addr64,
          rdma_seg_len, guint_add offset 8)
      else do
        /- space for padding (2 bytes) + rdma header (52 bytes) -/
        let (rdma_padding, offset) ←
          (if 54 ≤ guint_sub (tvb_reported_length tvb) offset then do
            let rdma_padding ← tvb_get_letohs tvb offset
            pure (rdma_padding, guint_add offset 2)
          else pure (rdma_padding, offset))
        let rdma_seg_cnt ← tvb_get_ntohl tvb offset
        let offset := guint_add offset 4
        /- destination request, source descriptor, source descriptor -/
        let offset := guint_add offset 24
        let rdma_rdma_offset ← tvb_get_ntoh64 tvb offset
        let offset := guint_add offset 8
        let rdma_seg_addr64 ← tvb_get_ntoh64 tvb offset
        let offset := guint_add offset 8
        let rdma_seg_len ← tvb_get_ntoh64 tvb offset
        pure (rdma_padding, rdma_seg_cnt, rdma_rdma_offset, rdma_seg_addr64,
          rdma_seg_len, guint_add offset 8))
    Res.emit (Ev.hdr (Hdr.rdma rdma_padding rdma_seg_cnt rdma_rdma_offset rdma_seg_addr64
      rdma_seg_len))
    if tree then do
      let offset := the_offset
      proto_tree_add_subtree "ett_mpi_rdma"
      let offset ←
        (if 0 = rdma_padding then do
          proto_tree_add_item tree "hf_mpi_padding2" tvb offset 2
          pure (guint_add offset 2)
        else pure offset)
      proto_tree_add_item tree "hf_mpi_seg_cnt" tvb offset 4
      let offset := guint_add offset 4
      proto_tree_add_item tree "hf_mpi_dst_req32_1" tvb offset 4
      proto_tree_add_item tree "hf_mpi_dst_req32_2" tvb (guint_add offset 4) 4
      proto_tree_add_item tree "hf_mpi_dst_req64" tvb offset 8
      let offset := guint_add offset 8
      proto_tree_add_item tree "hf_mpi_src_des32_1" tvb offset 4
      proto_tree_add_item tree "hf_mpi_src_des32_2" tvb (guint_add offset 4) 4
      proto_tree_add_item tree "hf_mpi_src_des64" tvb offset 8
      let offset := guint_add offset 8
      proto_tree_add_item tree "hf_mpi_rdma_hdr_recv_req32_1" tvb offset 4
      proto_tree_add_item tree "hf_mpi_rdma_hdr_recv_req32_2" tvb (guint_add offset 4) 4
      proto_tree_add_item tree "hf_mpi_rdma_hdr_recv_req64" tvb offset 8
      let offset := guint_add offset 8
      proto_tree_add_item tree "hf_mpi_rdma_hdr_rdma_offset" tvb offset 8
      let offset := guint_add offset 8
      proto_tree_add_item tree "hf_mpi_rdma_hdr_seg_addr32_1" tvb offset 4
      proto_tree_add_item tree "hf_mpi_rdma_hdr_seg_addr32_2" tvb (guint_add offset 4) 4
      proto_tree_add_item tree "hf_mpi_rdma_hdr_seg_addr64" tvb offset 8
      let offset := guint_add offset 8
      proto_tree_add_item tree "hf_mpi_rdma_hdr_seg_len" tvb offset 4
      pure (guint_add offset 4)
    else
      pure offset

def dissect_mpi_fin (pref_little_endian : Bool) (tvb : tvbuff_t) (tree : Bool)
    (the_offset : Nat) : Res Nat :=
  /- we need minimum 12 bytes for the minimum fin header -/
  if 12 > guint_sub (tvb_reported_length tvb) the_offset then
    pure the_offset
  else do
    let offset := the_offset
    let fin_padding := 1
    let (fin_padding, fin_fail, fin_des32_1, fin_des32_2, fin_des64, offset) ←
      (if pref_little_endian then do
        /- space for padding (2 bytes) + fail (4 bytes) + hdr_des (8 bytes)
           or additional with bfo + 14 for match header (also with padding) -/
        let (fin_padding, offset) ←
          (if 14 = guint_sub (tvb_reported_length tvb) offset ∨
              28 = guint_sub (tvb_reported_length tvb) offset then do
            let fin_padding ← tvb_get_letohs tvb offset
            pure (fin_padding, guint_add offset 2)
          else pure (fin_padding, offset))
        /- space for match header 12 bytes (14 with padding) + 12 fin header -/
        let offset ←
          (if 26 = guint_sub (tvb_reported_length tvb) offset ∨
              24 = guint_sub (tvb_reported_length tvb) offset then
            dissect_mpi_match pref_little_endian tvb tree offset
          else pure offset)
        let fin_fail ← tvb_get_letohl tvb offset
        let offset := guint_add offset 4
        let fin_des32_1 ← tvb_get_letohl tvb offset
        let fin_des32_2 ← tvb_get_letohl tvb (guint_add offset 4)
        let fin_des64 ← tvb_get_letoh64 tvb offset
        pure (fin_padding, fin_fail, fin_des32_1, fin_des32_2, fin_des64,
          guint_add offset 8)
      else do
        /- space for padding (2 bytes) + fail (4 bytes) + hdr_des (8 bytes)
           or additional with bfo + 14 for match header (also with padding) -/
        let (fin_padding, offset) ←
          (if 14 = guint_sub (tvb_reported_length tvb) offset ∨
              28 = guint_sub (tvb_reported_length tvb) offset then do
            let fin_padding ← tvb_get_ntohs tvb offset
            pure (fin_padding, guint_add offset 2)
          else pure (fin_padding, offset))
        /- space for match header 12 bytes (14 with padding) + 12 fin header -/
        let offset ←
          (if 26 = guint_sub (tvb_reported_length tvb) offset ∨
              24 = guint_sub (tvb_reported_length tvb) offset then
            dissect_mpi_match pref_little_endian tvb tree offset
          else pure offset)
        let fin_fail ← tvb_get_ntohl tvb offset
        let offset := guint_add offset 4
        let fin_des32_1 ← tvb_get_ntohl tvb offset
        let fin_des32_2 ← tvb_get_ntohl tvb (guint_add offset 4)
        let fin_des64 ← tvb_get_ntoh64 tvb offset
        pure (fin_padding, fin_fail, fin_des32_1, fin_des32_2, fin_des64,
          guint_add offset 8))
    Res.emit (Ev.hdr (Hdr.fin fin_padding fin_fail fin_des32_1 fin_des32_2 fin_des64))
    if tree then do
      let offset := the_offset
      proto_tree_add_subtree "ett_mpi_fin"
      let offset ←
        (if 0 = fin_padding then do
          proto_tree_add_item tree "hf_mpi_padding2" tvb offset 2
          pure (guint_add offset 2)
        else pure offset)
      proto_tree_add_item tree "hf_mpi_fin_hdr_fail" tvb offset 4
      let offset := guint_add offset 4
      proto_tree_add_item tree "hf_mpi_fin_hdr_des32_1" tvb offset 4
      proto_tree_add_item tree "hf_mpi_fin_hdr_des32_2" tvb (guint_add offset 4) 4
      proto_tree_add_item tree "hf_mpi_fin_hdr_des64" tvb offset 8
      pure (guint_add offset 8)
    else
      pure offset

def dissect_mpi_rndvrestartnotify (pref_little_endian : Bool) (tvb : tvbuff_t)
    (tree : Bool) (the_offset : Nat) : Res Nat :=
  /- too small for the minimum match header (12 bytes) + restart header (29 bytes) -/
  if 41 > guint_sub (tvb_reported_length tvb) the_offset then
    pure the_offset
  else do
    let the_offset ← dissect_mpi_match pref_little_endian tvb tree the_offset
    let offset := the_offset
    let rndvrestartnotify_padding := 1
    let rndvrestartnotify_restartseq ← tvb_get_guint8 tvb offset
    let offset := guint_add offset 1
    let (padding, src_req64, dst_req64, dst_rank, jobid, vpid, offset) ←
      (if pref_little_endian then do
        let (padding, offset) ←
          (if 31 ≤ guint_sub (tvb_reported_length tvb) offset then do
            let padding ← tvb_get_letoh48 tvb offset
            if 0 = padding then pure (padding, guint_add offset 3)
            else pure (padding, offset)
          else pure (rndvrestartnotify_padding, offset))
        let src_req64 ← tvb_get_letoh64 tvb offset
        let offset := guint_add offset 8
        let dst_req64 ← tvb_get_letoh64 tvb offset
        let offset := guint_add offset 8
        let dst_rank ← tvb_get_letohl tvb offset
        let offset := guint_add offset 4
        let jobid ← tvb_get_letohl tvb offset
        let offset := guint_add offset 4
        let vpid ← tvb_get_letohl tvb offset
        pure (padding, src_req64, dst_req64, dst_rank, jobid, vpid, guint_add offset 4)
      else do
        let (padding, offset) ←
          (if 31 ≤ guint_sub (tvb_reported_length tvb) offset then do
            let padding ← tvb_get_ntoh48 tvb offset
            if 0 = padding then pure (padding, guint_add offset 3)
            else pure (padding, offset)
          else pure (rndvrestartnotify_padding, offset))
        let src_req64 ← tvb_get_ntoh64 tvb offset
        let offset := guint_add offset 8
        let dst_req64 ← tvb_get_ntoh64 tvb offset
        let offset := guint_add offset 8
        let dst_rank ← tvb_get_ntohl tvb offset
        let offset := guint_add offset 4
        let jobid ← tvb_get_ntohl tvb offset
        let offset := guint_add offset 4
        let vpid ← tvb_get_ntohl tvb offset
        pure (padding, src_req64, dst_req64, dst_rank, jobid, vpid, guint_add offset 4))
    Res.emit (Ev.hdr (Hdr.rndvrestartnotify padding rndvrestartnotify_restartseq
      src_req64 dst_req64 dst_rank jobid vpid))
    if tree then do
      let offset := the_offset
      proto_tree_add_subtree "ett_mpi_rndvrestartnotify"
      let offset ←
        (if 0 = padding then do
          proto_tree_add_item tree "hf_mpi_padding3" tvb offset 3
          pure (guint_add offset 3)
        else pure offset)
      proto_tree_add_item tree "hf_mpi_src_req32_1" tvb offset 4
      proto_tree_add_item tree "hf_mpi_src_req32_2" tvb (guint_add offset 4) 4
      proto_tree_add_item tree "hf_mpi_src_req64" tvb offset 8
      let offset := guint_add offset 8
      proto_tree_add_item tree "hf_mpi_dst_req32_1" tvb offset 4
      proto_tree_add_item tree "hf_mpi_dst_req32_2" tvb (guint_add offset 4) 4
      proto_tree_add_item tree "hf_mpi_dst_req64" tvb offset 8
      let offset := guint_add offset 8
      proto_tree_add_item tree "hf_mpi_dst_vpid" tvb offset 4
      let offset := guint_add offset 4
      proto_tree_add_item tree "hf_mpi_jobid" tvb offset 4
      let offset := guint_add offset 4
      proto_tree_add_item tree "hf_mpi_vpid" tvb offset 4
      pure (guint_add offset 4)
    else
      pure offset

/-! ## The entry point `dissect_mpi` -/

/-- The fields of `packet_info` the dissector uses: the ports, and the frame
number, visited flag and absolute time stamp of `pinfo->fd`. -/
structure packet_info where
  srcport : Nat
  destport : Nat
  num : Nat
  visited : Bool
  abs_ts : Int

/-- mpi_abort with 5 bytes -/
def MPI_MIN_LENGTH : Nat := 5

/-- Modelled from the spec: the macro `MAX_TCP_PORT` comes from a header that is
not part of the source file; the port range of the OOB path is
`[32768, 65535]`. -/
def MAX_TCP_PORT : Nat := 65535

def MPI_PML_OB1_HDR_TYPE_MATCH : Nat := 65
def MPI_PML_BFO_HDR_TYPE_RNDV : Nat := 66
def MPI_PML_OB1_HDR_TYPE_RGET : Nat := 67
def MPI_PML_OB1_HDR_TYPE_ACK : Nat := 68
def MPI_PML_OB1_HDR_TYPE_NACK : Nat := 69
def MPI_PML_OB1_HDR_TYPE_FRAG : Nat := 70
def MPI_PML_OB1_HDR_TYPE_GET : Nat := 71
def MPI_PML_OB1_HDR_TYPE_PUT : Nat := 72
def MPI_PML_OB1_HDR_TYPE_FIN : Nat := 73
def MPI_PML_BFO_HDR_TYPE_RNDVRESTARTNOTIFY : Nat := 74
def MPI_PML_BFO_HDR_TYPE_RNDVRESTARTACK : Nat := 75
def MPI_PML_BFO_HDR_TYPE_RNDVRESTARTNACK : Nat := 76
def MPI_PML_BFO_HDR_TYPE_RECVERRNOTIFY : Nat := 77

/-- The `switch (base_base)` statement of `dissect_mpi`; `mpi_tree` is the
subtree pointer (NULL exactly when `tree` is). -/
def dissect_mpi_switch (pref_little_endian : Bool) (tvb : tvbuff_t) (mpi_tree : Bool)
    (base_base offset : Nat) : Res Nat :=
  if base_base = MPI_PML_OB1_HDR_TYPE_MATCH then
    dissect_mpi_match pref_little_endian tvb mpi_tree offset
  else if base_base = MPI_PML_BFO_HDR_TYPE_RNDV then
    dissect_mpi_rndv pref_little_endian tvb mpi_tree offset
  else if base_base = MPI_PML_OB1_HDR_TYPE_RGET then
    dissect_mpi_rget pref_little_endian tvb mpi_tree offset
  else if base_base = MPI_PML_OB1_HDR_TYPE_FRAG then
    dissect_mpi_frag pref_little_endian tvb mpi_tree offset
  else if base_base = MPI_PML_OB1_HDR_TYPE_ACK then
    dissect_mpi_ack pref_little_endian tvb mpi_tree offset
  else if base_base = MPI_PML_OB1_HDR_TYPE_PUT then
    dissect_mpi_rdma pref_little_endian tvb mpi_tree offset
  else if base_base = MPI_PML_OB1_HDR_TYPE_FIN then
    dissect_mpi_fin pref_little_endian tvb mpi_tree offset
  else if base_base = MPI_PML_BFO_HDR_TYPE_RNDVRESTARTNOTIFY then
    dissect_mpi_rndvrestartnotify pref_little_endian tvb mpi_tree offset
  else if base_base = MPI_PML_OB1_HDR_TYPE_NACK ∨
      base_base = MPI_PML_OB1_HDR_TYPE_GET ∨
      base_base = MPI_PML_BFO_HDR_TYPE_RNDVRESTARTACK ∨
      base_base = MPI_PML_BFO_HDR_TYPE_RNDVRESTARTNACK ∨
      base_base = MPI_PML_BFO_HDR_TYPE_RECVERRNOTIFY then do
    Res.emit (Ev.notice Notice.not_implemented)
    pure offset
  else do
    Res.emit (Ev.notice Notice.something_goes_wrong)
    pure offset

/-- The part of `dissect_mpi` that follows the OOB and Sync tests: the reject
branch and the BTL path. It uses no conversation data. -/
def dissect_mpi_btl (pref_little_endian : Bool) (tvb : tvbuff_t) (pinfo : packet_info)
    (tree : Bool) : Res Nat := do
  let base_base ← tvb_get_guint8 tvb 0
  if 10 > tvb_reported_length tvb ∨ 65 > base_base ∨ 77 < base_base then
    pure 0
  else do
    Res.emit (Ev.summary pinfo.srcport pinfo.destport base_base)
    let offset := 0
    let offset ←
      (if tree then do
        proto_tree_add_item tree "proto_mpi" tvb 0 (tvb_captured_length tvb)
        let base_type ← tvb_get_guint8 tvb 1
        let common_type ← tvb_get_guint8 tvb 8
        let common_flags ← tvb_get_guint8 tvb 9
        let (base_count, base_size) ←
          (if pref_little_endian then do
            let base_count ← tvb_get_letohs tvb 2
            let base_size ← tvb_get_letohl tvb 4
            pure (base_count, base_size)
          else do
            let base_count ← tvb_get_ntohs tvb 2
            let base_size ← tvb_get_ntohl tvb 4
            pure (base_count, base_size))
        /- base header -/
        proto_tree_add_subtree "ett_mpi_base"
        proto_tree_add_item tree "hf_mpi_base_hdr_base" tvb offset 1
        let offset := guint_add offset 1
        proto_tree_add_item tree "hf_mpi_base_hdr_type" tvb offset 1
        let offset := guint_add offset 1
        proto_tree_add_item tree "hf_mpi_base_hdr_count" tvb offset 2
        let offset := guint_add offset 2
        proto_tree_add_item tree "hf_mpi_base_hdr_size" tvb offset 4
        let offset := guint_add offset 4
        Res.emit (Ev.hdr (Hdr.base base_base base_type base_count base_size))
        /- common header -/
        proto_tree_add_subtree "ett_mpi_common"
        proto_tree_add_item tree "hf_mpi_common_hdr_type" tvb offset 1
        let offset := guint_add offset 1
        /- add a flag tree -/
        proto_tree_add_item tree "hf_mpi_common_hdr_flags" tvb offset 1
        let offset := guint_add offset 1
        Res.emit (Ev.hdr (Hdr.common common_type common_flags))
        pure offset
      else
        pure 10)
    let offset ← dissect_mpi_switch pref_little_endian tvb tree base_base offset
    if tvb_captured_length tvb > offset then do
      proto_tree_add_item tree "hf_mpi_oob_data" tvb offset
        (guint_sub (tvb_captured_length tvb) offset)
      pure (tvb_captured_length tvb)
    else
      pure offset

/-- A sub-dissector that works on the conversation data `σ` of the packet's
connection: it is given the buffer, the packet information, the tree pointer,
the entry offset and the conversation data, and yields its run together with
the conversation data it leaves behind. -/
abbrev SubDissector (σ : Type) :=
  tvbuff_t → packet_info → Bool → Nat → σ → Res Nat × σ

/-- The entry point. The stateful sub-dissectors `dissect_mpi_oob` and
`dissect_mpi_sync` it calls are parameters, as is the conversation data `conv`
they work on. -/
def dissect_mpi {σ : Type} (dissect_mpi_oob dissect_mpi_sync : SubDissector σ)
    (pref_little_endian : Bool) (tvb : tvbuff_t) (pinfo : packet_info) (tree : Bool)
    (conv : σ) : Res Nat × σ :=
  let offset := 0
  /- Check that the packet is long enough for it to belong to us. -/
  if MPI_MIN_LENGTH > tvb_reported_length tvb then
    (pure 0, conv)
  /- oob packet: src and dst port in range of 2^15 and 2^16 -1 -/
  else if 32768 ≤ pinfo.srcport ∧ MAX_TCP_PORT ≥ pinfo.srcport ∧
      32768 ≤ pinfo.destport ∧ MAX_TCP_PORT ≥ pinfo.destport then
    dissect_mpi_oob tvb pinfo tree offset conv
  /- sync packet: length == 8 -/
  else if 8 = tvb_captured_length tvb then
    dissect_mpi_sync tvb pinfo tree offset conv
  else
    (dissect_mpi_btl pref_little_endian tvb pinfo tree, conv)

/-! ## The OOB reassembler `dissect_mpi_oob` -/

/-- The pending values of one frame, kept in the table `old`. -/
structure mpi_oob_old_t where
  rml_tag : Nat
  nbytes : Nat
  deriving DecidableEq

/-- The OOB data of a conversation: the pending `rml_tag` and `nbytes` of the
two directions, and the table `old`. The C table is keyed by the address of
the frame's `num` field, which identifies the frame; here the key is the frame
number. -/
structure mpi_oob_trans_t where
  rml_tag_1 : Nat
  nbytes_1 : Nat
  rml_tag_2 : Nat
  nbytes_2 : Nat
  old : List (Nat × mpi_oob_old_t)
  deriving DecidableEq

def g_hash_table_lookup (table : List (Nat × mpi_oob_old_t)) (key : Nat) :
    Option mpi_oob_old_t :=
  (table.find? (fun e => e.1 = key)).map (fun e => e.2)

/-- Insertion into the table; the value of a key already present is replaced. -/
def g_hash_table_insert :
    List (Nat × mpi_oob_old_t) → Nat → mpi_oob_old_t → List (Nat × mpi_oob_old_t)
  | [], key, value => [(key, value)]
  | e :: es, key, value =>
    if e.1 = key then (key, value) :: es else e :: g_hash_table_insert es key value

def ORTE_RML_TAG_INVALID : Nat := 0
def ORTE_RML_TAG_IOF_HNP : Nat := 2
def ORTE_RML_TAG_IOF_PROXY : Nat := 3
def ORTE_RML_TAG_ORTED_CALLBACK : Nat := 10
def ORTE_RML_TAG_XCAST : Nat := 15

/-- The call `tvb_get_const_stringz(tvb, offset, &len)`: the octets from
`offset` up to the first NUL octet, and their number including the NUL; raises
an exception when no NUL octet is captured at or after `offset`. -/
def tvb_get_const_stringz (tvb : tvbuff_t) (offset : Nat) : Res (List Byte × Nat) :=
  let s := (tvb.data.drop offset).takeWhile (fun b => b ≠ 0)
  if offset + s.length < tvb.data.length then
    Res.ok (s, s.length + 1) [Ev.read offset (s.length + 1)]
  else Res.exn []

/-- The call `proto_tree_add_string(tree, hf, tvb, offset, length, value)`, made
only with a tree. -/
def proto_tree_add_string (hf : String) (offset length : Nat) : Res Unit :=
  Res.emit (Ev.item hf offset length)

/-- A call of `proto_tree_add_item` whose `gint` length argument is given a
`guint32`: the value `0xFFFFFFFF` is the length `-1`, which for a field of type
FT_BYTES stands for "up to the end of the captured data"; any other value is
taken as it is (a negative length fails the bounds check). -/
def proto_tree_add_item_bytes (tree : Bool) (hf : String) (tvb : tvbuff_t)
    (offset length : Nat) : Res Unit :=
  if length = 4294967295 then
    proto_tree_add_item tree hf tvb offset (tvb_captured_length tvb - offset)
  else proto_tree_add_item tree hf tvb offset length

def dissect_mpi_oop_opal_string (tvb : tvbuff_t) (tree : Bool) (offset : Nat)
    (debug : Bool) : Res Nat :=
  if debug then do
    proto_tree_add_item tree "hf_mpi_oob_opal_data_type" tvb offset 1
    let offset := guint_add offset 1
    proto_tree_add_item tree "hf_mpi_oob_num_vals" tvb offset 4
    let offset := guint_add offset 4
    proto_tree_add_item tree "hf_mpi_oob_opal_data_type" tvb offset 1
    let offset := guint_add offset 1
    proto_tree_add_item tree "hf_mpi_oob_len" tvb offset 4
    pure (guint_add offset 4)
  else do
    proto_tree_add_item tree "hf_mpi_oob_num_vals" tvb offset 4
    let offset := guint_add offset 4
    proto_tree_add_item tree "hf_mpi_oob_len" tvb offset 4
    pure (guint_add offset 4)

def dissect_mpi_oob_name (tvb : tvbuff_t) (tree : Bool) (offset : Nat) (debug : Bool) :
    Res Nat :=
  if debug then do
    proto_tree_add_item tree "hf_mpi_oob_opal_data_type" tvb offset 1
    let offset := guint_add offset 1
    proto_tree_add_item tree "hf_mpi_oob_num_vals" tvb offset 4
    let offset := guint_add offset 4
    proto_tree_add_item tree "hf_mpi_oob_orte_data_type" tvb offset 1
    let offset := guint_add offset 1
    proto_tree_add_item tree "hf_mpi_oob_opal_data_type" tvb offset 1
    let offset := guint_add offset 1
    proto_tree_add_item tree "hf_mpi_jobid" tvb offset 4
    let offset := guint_add offset 4
    proto_tree_add_item tree "hf_mpi_oob_opal_data_type" tvb offset 1
    let offset := guint_add offset 1
    proto_tree_add_item tree "hf_mpi_vpid" tvb offset 4
    pure (guint_add offset 4)
  else do
    proto_tree_add_item tree "hf_mpi_oob_num_vals" tvb offset 4
    let offset := guint_add offset 4
    proto_tree_add_item tree "hf_mpi_jobid" tvb offset 4
    let offset := guint_add offset 4
    proto_tree_add_item tree "hf_mpi_vpid" tvb offset 4
    pure (guint_add offset 4)

/-- The `switch (rml_tag)` statement of the message branch of `dissect_mpi_oob`:
it yields the local `offset` after the statement. `nbytes` is the number of
message octets in this buffer and `the_offset` the start of the message
part. -/
def dissect_mpi_oob_msg (tvb : tvbuff_t) (tree : Bool) (rml_tag nbytes the_offset : Nat) :
    Res Nat :=
  let offset := the_offset
  if rml_tag = ORTE_RML_TAG_INVALID then
    /- mpi-version "1.8.4\0" + credential "1234567\0" = 14 bytes -/
    if 14 = nbytes then do
      let (version, vers_len) ← tvb_get_const_stringz tvb offset
      if tree then proto_tree_add_string "hf_mpi_oob_version" offset vers_len
      let offset := guint_add offset vers_len
      let (credential, cred_len) ← tvb_get_const_stringz tvb offset
      if tree then proto_tree_add_string "hf_mpi_oob_credential" offset cred_len
      let offset := guint_add offset cred_len
      if tree then Res.emit (Ev.hdr (Hdr.oob_invalid version credential))
      pure offset
    else
      /- else: don't know -/
      pure offset
  else if rml_tag = ORTE_RML_TAG_IOF_HNP ∨ rml_tag = ORTE_RML_TAG_IOF_PROXY then do
    let fully_des ← tvb_get_guint8 tvb offset
    if 9 = fully_des then
      /- with debug information -/
      if 30 > nbytes then
        pure offset
      else do
        let offset := guint_add offset 7
        let iof_type ← tvb_get_guint8 tvb offset
        let offset := guint_add offset 8
        let jobid ← tvb_get_ntohl tvb offset
        let offset := guint_add offset 5
        let vpid ← tvb_get_ntohl tvb offset
        let offset := guint_add offset 10
        let offset ←
          (if tree then do
            let offset := the_offset
            proto_tree_add_item tree "hf_mpi_oob_opal_data_type" tvb offset 1
            let offset := guint_add offset 1
            proto_tree_add_item tree "hf_mpi_oob_num_vals" tvb offset 4
            let offset := guint_add offset 4
            proto_tree_add_item tree "hf_mpi_oob_orte_data_type" tvb offset 1
            let offset := guint_add offset 1
            proto_tree_add_item tree "hf_mpi_oob_opal_data_type" tvb offset 1
            let offset := guint_add offset 1
            proto_tree_add_item tree "hf_mpi_oob_iof_type" tvb offset 1
            let offset := guint_add offset 1
            let offset ← dissect_mpi_oob_name tvb tree offset true
            proto_tree_add_item tree "hf_mpi_oob_opal_data_type" tvb offset 1
            let offset := guint_add offset 1
            proto_tree_add_item tree "hf_mpi_oob_num_vals" tvb offset 4
            let offset := guint_add offset 4
            proto_tree_add_item tree "hf_mpi_oob_opal_data_type" tvb offset 1
            pure (guint_add offset 1)
          else pure offset)
        Res.emit (Ev.hdr (Hdr.oob_iof fully_des iof_type jobid vpid))
        pure offset
    else
      /- without debug information -/
      if 21 > nbytes then
        pure offset
      else do
        let offset := guint_add offset 4
        let iof_type ← tvb_get_guint8 tvb offset
        let offset := guint_add offset 5
        let jobid ← tvb_get_ntohl tvb offset
        let offset := guint_add offset 4
        let vpid ← tvb_get_ntohl tvb offset
        let offset := guint_add offset 8
        let offset ←
          (if tree then do
            let offset := the_offset
            proto_tree_add_item tree "hf_mpi_oob_num_vals" tvb offset 4
            let offset := guint_add offset 4
            proto_tree_add_item tree "hf_mpi_oob_iof_type" tvb offset 1
            let offset := guint_add offset 1
            let offset ← dissect_mpi_oob_name tvb tree offset false
            proto_tree_add_item tree "hf_mpi_oob_num_vals" tvb offset 4
            pure (guint_add offset 4)
          else pure offset)
        Res.emit (Ev.hdr (Hdr.oob_iof fully_des iof_type jobid vpid))
        pure offset
  else if rml_tag = ORTE_RML_TAG_ORTED_CALLBACK then do
    let fully_des ← tvb_get_guint8 tvb offset
    if 9 = fully_des then
      /- with debug information -/
      if 54 > nbytes then
        pure offset
      else do
        let num_vals ← tvb_get_ntohl tvb (guint_add offset 1)
        if 1 ≠ num_vals then
          /- min length up to the hwloc or a segment -/
          pure offset
        else do
          let offset := guint_add offset 7
          let jobid ← tvb_get_ntohl tvb offset
          let offset := guint_add offset 5
          let vpid ← tvb_get_ntohl tvb offset
          let offset := guint_add offset 14
          let (uri, uri_len) ← tvb_get_const_stringz tvb offset
          let offset := guint_add offset uri_len
          let offset := guint_add offset 10
          let (nodename, nodename_len) ← tvb_get_const_stringz tvb offset
          let offset := guint_add offset nodename_len
          let offset := guint_add offset 14
          let hwloc_len ← tvb_get_ntohl tvb offset
          let offset := guint_add offset 4
          let offset ←
            (if tree then do
              let offset ← dissect_mpi_oob_name tvb tree the_offset true
              let offset ← dissect_mpi_oop_opal_string tvb tree offset true
              proto_tree_add_string "hf_mpi_oob_uri" offset uri_len
              let offset := guint_add offset uri_len
              let offset ← dissect_mpi_oop_opal_string tvb tree offset true
              proto_tree_add_string "hf_mpi_oob_nodename" offset nodename_len
              let offset := guint_add offset nodename_len
              proto_tree_add_item tree "hf_mpi_oob_opal_data_type" tvb offset 1
              let offset := guint_add offset 1
              proto_tree_add_item tree "hf_mpi_oob_num_vals" tvb offset 4
              let offset := guint_add offset 4
              proto_tree_add_item tree "hf_mpi_oob_opal_data_type" tvb offset 1
              let offset := guint_add offset 1
              dissect_mpi_oop_opal_string tvb tree offset true
            else pure offset)
          Res.emit (Ev.hdr (Hdr.oob_orted_callback jobid vpid nodename uri hwloc_len))
          pure offset
    else
      /- without debug information -/
      if 40 > nbytes then
        pure offset
      else do
        let num_vals ← tvb_get_ntohl tvb offset
        if 1 ≠ num_vals then
          /- min length up to the hwloc or a segment -/
          pure offset
        else do
          let offset := guint_add offset 4
          let jobid ← tvb_get_ntohl tvb offset
          let offset := guint_add offset 4
          let vpid ← tvb_get_ntohl tvb offset
          let offset := guint_add offset 12
          let (uri, uri_len) ← tvb_get_const_stringz tvb offset
          let offset := guint_add offset uri_len
          let offset := guint_add offset 8
          let (nodename, nodename_len) ← tvb_get_const_stringz tvb offset
          let offset := guint_add offset nodename_len
          let offset := guint_add offset 8
          let hwloc_len ← tvb_get_ntohl tvb offset
          let offset := guint_add offset 4
          let offset ←
            (if tree then do
              let offset ← dissect_mpi_oob_name tvb tree the_offset false
              let offset ← dissect_mpi_oop_opal_string tvb tree offset false
              proto_tree_add_string "hf_mpi_oob_uri" offset uri_len
              let offset := guint_add offset uri_len
              let offset ← dissect_mpi_oop_opal_string tvb tree offset false
              proto_tree_add_string "hf_mpi_oob_nodename" offset nodename_len
              let offset := guint_add offset nodename_len
              proto_tree_add_item tree "hf_mpi_oob_num_vals" tvb offset 4
              let offset := guint_add offset 4
              dissect_mpi_oop_opal_string tvb tree offset false
            else pure offset)
          Res.emit (Ev.hdr (Hdr.oob_orted_callback jobid vpid nodename uri hwloc_len))
          pure offset
  else if rml_tag = ORTE_RML_TAG_XCAST then do
    let fully_des ← tvb_get_guint8 tvb offset
    if 9 = fully_des then
      /- with debug information -/
      if 8 > nbytes then
        /- MPI_Abort: 09:00:00:00:01:31:0c:07 -/
        pure offset
      else do
        let offset := guint_add offset 7
        let odles ← tvb_get_guint8 tvb offset
        let offset := guint_add offset 1
        let offset ←
          (if tree then do
            let offset := the_offset
            proto_tree_add_item tree "hf_mpi_oob_opal_data_type" tvb offset 1
            let offset := guint_add offset 1
            proto_tree_add_item tree "hf_mpi_oob_num_vals" tvb offset 4
            let offset := guint_add offset 4
            proto_tree_add_item tree "hf_mpi_oob_orte_data_type" tvb offset 1
            let offset := guint_add offset 1
            proto_tree_add_item tree "hf_mpi_oob_opal_data_type" tvb offset 1
            let offset := guint_add offset 1
            proto_tree_add_item tree "hf_mpi_oob_odles_data_type" tvb offset 1
            pure (guint_add offset 1)
          else pure offset)
        Res.emit (Ev.hdr (Hdr.oob_xcast odles))
        pure offset
    else
      /- without debug information -/
      if 5 > nbytes then
        /- MPI_Abort: 00:00:00:01:07 -/
        pure offset
      else do
        let offset := guint_add offset 4
        let odles ← tvb_get_guint8 tvb offset
        let offset := guint_add offset 1
        let offset ←
          (if tree then do
            let offset := the_offset
            proto_tree_add_item tree "hf_mpi_oob_num_vals" tvb offset 4
            let offset := guint_add offset 4
            proto_tree_add_item tree "hf_mpi_oob_odles_data_type" tvb offset 1
            pure (guint_add offset 1)
          else pure offset)
        Res.emit (Ev.hdr (Hdr.oob_xcast odles))
        pure offset
  else
    pure offset

/-- How one pass through the body of the `while` loop of `dissect_mpi_oob`
ends. -/
inductive oob_flow where
  /-- The statement `return offset;` was reached. -/
  | ret (offset : Nat)
  /-- The end of the body was reached with this value of `the_offset`. -/
  | next (the_offset : Nat)
  deriving DecidableEq

/-- The body of the `while` loop of `dissect_mpi_oob`: the run, and the OOB data
of the conversation it leaves behind (also when an accessor raises an
exception). -/
def dissect_mpi_oob_body (tvb : tvbuff_t) (pinfo : packet_info) (tree : Bool)
    (the_offset : Nat) (mpi_oob_trans : mpi_oob_trans_t) :
    Res oob_flow × mpi_oob_trans_t :=
  let offset := the_offset
  let (nbytes, rml_tag) :=
    if pinfo.srcport > pinfo.destport then
      (mpi_oob_trans.nbytes_1, mpi_oob_trans.rml_tag_1)
    else
      (mpi_oob_trans.nbytes_2, mpi_oob_trans.rml_tag_2)
  if 0 = nbytes then
    /- header -/
    if 28 > guint_sub (tvb_captured_length tvb) offset then
      (pure (oob_flow.ret offset), mpi_oob_trans)
    else
      let run : Res (Nat × Nat × Nat) := do
        let jobid_origin ← tvb_get_ntohl tvb offset
        let offset := guint_add offset 4
        let vpid_origin ← tvb_get_ntohl tvb offset
        let offset := guint_add offset 4
        let jobid_dst ← tvb_get_ntohl tvb offset
        let offset := guint_add offset 4
        let vpid_dst ← tvb_get_ntohl tvb offset
        let offset := guint_add offset 4
        let msg_type ← tvb_get_ntohl tvb offset
        let offset := guint_add offset 4
        let rml_tag ← tvb_get_ntohl tvb offset
        let offset := guint_add offset 4
        let nbytes ← tvb_get_ntohl tvb offset
        let offset := guint_add offset 4
        Res.emit (Ev.hdr (Hdr.oob_hdr jobid_origin vpid_origin jobid_dst vpid_dst msg_type
          rml_tag nbytes))
        let offset ←
          (if tree then do
            /- reset offset -/
            let offset := the_offset
            proto_tree_add_subtree "ett_mpi_oob_hdr"
            proto_tree_add_item tree "hf_mpi_oob_hdr_jobid_origin" tvb offset 4
            let offset := guint_add offset 4
            proto_tree_add_item tree "hf_mpi_oob_hdr_vpid_origin" tvb offset 4
            let offset := guint_add offset 4
            proto_tree_add_item tree "hf_mpi_oob_hdr_jobid_dst" tvb offset 4
            let offset := guint_add offset 4
            proto_tree_add_item tree "hf_mpi_oob_hdr_vpid_dst" tvb offset 4
            let offset := guint_add offset 4
            proto_tree_add_item tree "hf_mpi_oob_hdr_msg_type" tvb offset 4
            let offset := guint_add offset 4
            proto_tree_add_item tree "hf_mpi_oob_hdr_rml_tag" tvb offset 4
            let offset := guint_add offset 4
            proto_tree_add_item tree "hf_mpi_oob_hdr_nbytes" tvb offset 4
            pure (guint_add offset 4)
          else pure offset)
        pure (rml_tag, nbytes, offset)
      match run with
      | Res.exn lg => (Res.exn lg, mpi_oob_trans)
      | Res.ok (rml_tag, nbytes, offset) lg =>
        (Res.ok (oob_flow.next offset) lg,
          if pinfo.srcport > pinfo.destport then
            { mpi_oob_trans with rml_tag_1 := rml_tag, nbytes_1 := nbytes }
          else
            { mpi_oob_trans with rml_tag_2 := rml_tag, nbytes_2 := nbytes })
  else
    /- message -/
    let (mpi_oob_trans, nbytes) :=
      if guint_sub (tvb_captured_length tvb) offset < nbytes then
        (if pinfo.srcport > pinfo.destport then
          { mpi_oob_trans with
            nbytes_1 := guint_sub nbytes (guint_sub (tvb_captured_length tvb) offset) }
        else
          { mpi_oob_trans with
            nbytes_2 := guint_sub nbytes (guint_sub (tvb_captured_length tvb) offset) },
         guint_sub (tvb_captured_length tvb) offset)
      else
        (if pinfo.srcport > pinfo.destport then { mpi_oob_trans with nbytes_1 := 0 }
        else { mpi_oob_trans with nbytes_2 := 0 },
         nbytes)
    let run : Res oob_flow := do
      Res.emit (Ev.hdr (Hdr.oob_msg rml_tag))
      if tree then proto_tree_add_subtree "ett_mpi_oob_msg"
      let offset ← dissect_mpi_oob_msg tvb tree rml_tag nbytes the_offset
      let nbytes := guint_sub nbytes (guint_sub offset the_offset)
      if 0 < nbytes then Res.emit (Ev.hdr (Hdr.oob_length nbytes))
      let offset ←
        (if tvb_captured_length tvb > offset then do
          proto_tree_add_item_bytes tree "hf_mpi_oob_data" tvb offset nbytes
          pure (guint_add offset nbytes)
        else pure offset)
      pure (oob_flow.next offset)
    (run, mpi_oob_trans)

/-- The `while (tvb_captured_length(tvb) > the_offset)` loop of
`dissect_mpi_oob`, run for at most `fuel` passes through its body; `none` when
the passes do not suffice. -/
def dissect_mpi_oob_loop (tvb : tvbuff_t) (pinfo : packet_info) (tree : Bool) :
    Nat → Nat → mpi_oob_trans_t → Option (Res Nat × mpi_oob_trans_t)
  | 0, the_offset, mpi_oob_trans =>
    if tvb_captured_length tvb > the_offset then none
    else some (pure the_offset, mpi_oob_trans)
  | fuel + 1, the_offset, mpi_oob_trans =>
    if tvb_captured_length tvb > the_offset then
      match dissect_mpi_oob_body tvb pinfo tree the_offset mpi_oob_trans with
      | (Res.exn lg, mpi_oob_trans) => some (Res.exn lg, mpi_oob_trans)
      | (Res.ok (oob_flow.ret offset) lg, mpi_oob_trans) =>
        some (Res.ok offset lg, mpi_oob_trans)
      | (Res.ok (oob_flow.next the_offset) lg, mpi_oob_trans) =>
        (dissect_mpi_oob_loop tvb pinfo tree fuel the_offset mpi_oob_trans).map
          (fun r => (Res.prepend lg r.1, r.2))
    else some (pure the_offset, mpi_oob_trans)

/-- The OOB reassembler. `conv_data` is the OOB data attached to the packet's
conversation (`none`: nothing attached yet); the result holds the run and the
OOB data attached afterwards. A pass through the loop body that does not end
the run moves `the_offset` forward, so the loop is given as many passes as the
buffer has captured octets; the result is `none` if they do not suffice. -/
def dissect_mpi_oob (tvb : tvbuff_t) (pinfo : packet_info) (tree : Bool) (the_offset : Nat)
    (conv_data : Option mpi_oob_trans_t) : Option (Res Nat × Option mpi_oob_trans_t) :=
  if ¬ (32768 ≤ pinfo.srcport ∧ MAX_TCP_PORT ≥ pinfo.srcport ∧
      32768 ≤ pinfo.destport ∧ MAX_TCP_PORT ≥ pinfo.destport) then
    some (pure the_offset, conv_data)
  else
    let start : Res Unit := do
      Res.emit (Ev.hdr (Hdr.oob pinfo.srcport pinfo.destport))
      if tree then proto_tree_add_item tree "proto_mpi" tvb 0 (tvb_captured_length tvb)
    match start with
    | Res.exn lg => some (Res.exn lg, conv_data)
    | Res.ok _ lg =>
      let rest (mpi_oob_trans : mpi_oob_trans_t) :
          Option (Res Nat × Option mpi_oob_trans_t) :=
        let value : mpi_oob_old_t :=
          match g_hash_table_lookup mpi_oob_trans.old pinfo.num with
          | some value => value
          | none => { rml_tag := 0, nbytes := 0 }
        /- (re)store the old values -/
        let (mpi_oob_trans, value) :=
          if pinfo.visited then
            (if pinfo.srcport > pinfo.destport then
              { mpi_oob_trans with rml_tag_1 := value.rml_tag, nbytes_1 := value.nbytes }
            else
              { mpi_oob_trans with rml_tag_2 := value.rml_tag, nbytes_2 := value.nbytes },
             value)
          else
            (mpi_oob_trans,
             if pinfo.srcport > pinfo.destport then
               { rml_tag := mpi_oob_trans.rml_tag_1, nbytes := mpi_oob_trans.nbytes_1 }
             else
               { rml_tag := mpi_oob_trans.rml_tag_2, nbytes := mpi_oob_trans.nbytes_2 })
        let mpi_oob_trans :=
          { mpi_oob_trans with old := g_hash_table_insert mpi_oob_trans.old pinfo.num value }
        (dissect_mpi_oob_loop tvb pinfo tree (tvb_captured_length tvb) the_offset
            mpi_oob_trans).map
          (fun r => (Res.prepend lg r.1, some r.2))
      match conv_data with
      | some mpi_oob_trans => rest mpi_oob_trans
      | none =>
        if 28 > guint_sub (tvb_captured_length tvb) the_offset then
          /- start new conversation without a header? -/
          some (Res.ok the_offset lg, none)
        else
          rest { rml_tag_1 := 0, nbytes_1 := 0, rml_tag_2 := 0, nbytes_2 := 0, old := [] }

/-- Daemon command `ORTE_DAEMON_EXIT_CMD` of `odls_types.h` ("Exit CMD"). -/
def ORTE_DAEMON_EXIT_CMD : Nat := 7

/-! ## The Sync transaction matcher `dissect_mpi_sync` -/

structure mpi_sync_trans_t where
  jobid : Nat
  vpid : Nat
  req_frame : Nat
  rep_frame : Nat
  req_time : Int
  deriving DecidableEq

/-- The Sync data of a conversation: the tree `pdus`. Its keys are the pairs
(`jobid`, frame number) of the two-level key array of the C code. -/
structure mpi_info_t where
  pdus : List ((Nat × Nat) × mpi_sync_trans_t)
  deriving DecidableEq

/-- Insertion into the tree; the value of a key already present is replaced. -/
def wmem_tree_insert32_array :
    List ((Nat × Nat) × mpi_sync_trans_t) → Nat × Nat → mpi_sync_trans_t →
      List ((Nat × Nat) × mpi_sync_trans_t)
  | [], key, data => [(key, data)]
  | e :: es, key, data =>
    if e.1 = key then (key, data) :: es else e :: wmem_tree_insert32_array es key data

/-- The greatest of the keys `ks` that is less than or equal to `k`
(`wmem_tree_lookup32_le` on one level of the tree). -/
def wmem_tree_lookup32_le : List Nat → Nat → Option Nat
  | [], _ => none
  | x :: xs, k =>
    match wmem_tree_lookup32_le xs k with
    | none => if x ≤ k then some x else none
    | some b => if x ≤ k ∧ b < x then some x else some b

/-- The call `wmem_tree_lookup32_array_le(tree, key)`: on the first level the
greatest `jobid` key not above `key.1` is taken, and in its subtree the entry
with the greatest frame number not above `key.2`; the result is the entry found
(its key and the transaction), if any. -/
def wmem_tree_lookup32_array_le (pdus : List ((Nat × Nat) × mpi_sync_trans_t))
    (key : Nat × Nat) : Option ((Nat × Nat) × mpi_sync_trans_t) :=
  match wmem_tree_lookup32_le (pdus.map (fun e => e.1.1)) key.1 with
  | none => none
  | some j =>
    match wmem_tree_lookup32_le
        ((pdus.filter (fun e => e.1.1 = j)).map (fun e => e.1.2)) key.2 with
    | none => none
    | some f => pdus.find? (fun e => e.1 = (j, f))

/-- The call `proto_tree_add_uint(tree, hf, tvb, 0, 0, value)`: a generated
item that carries `value`; nothing is added when `tree` is NULL. -/
def proto_tree_add_uint (tree : Bool) (hf : String) (value : Nat) : Res Unit :=
  if tree then Res.emit (Ev.hdr (Hdr.uint hf value)) else pure ()

/-- The call `proto_tree_add_time(tree, hf, tvb, 0, 0, &ns)`. -/
def proto_tree_add_time (tree : Bool) (hf : String) (ns : Int) : Res Unit :=
  if tree then Res.emit (Ev.hdr (Hdr.time hf ns)) else pure ()

/-- The Sync matcher. `conv_data` is the Sync data attached to the packet's
conversation (`none`: nothing attached yet); the result holds the run and the
Sync data attached afterwards. Time stamps (`nstime_t`) are integers. -/
def dissect_mpi_sync (tvb : tvbuff_t) (pinfo : packet_info) (tree : Bool) (the_offset : Nat)
    (conv_data : Option mpi_info_t) : Res Nat × Option mpi_info_t :=
  if 8 ≠ guint_sub (tvb_captured_length tvb) the_offset then
    (pure the_offset, conv_data)
  else
    /- Network-to-host-order accessors for 32-bit integers (guint32) -/
    let fetch : Res (Nat × Nat) := do
      let jobid ← tvb_get_ntohl tvb 0
      let vpid ← tvb_get_ntohl tvb 4
      pure (jobid, vpid)
    match fetch with
    | Res.exn lg => (Res.exn lg, conv_data)
    | Res.ok (jobid, vpid) lg =>
      /- create conversation data if this not exist -/
      let (mpi_info, is_request) : mpi_info_t × Bool :=
        match conv_data with
        | none => ({ pdus := [] }, true)
        | some mpi_info => (mpi_info, false)
      let key : Nat × Nat := (jobid, pinfo.num)
      /- fill the mpi_sync_trans struct only the first time -/
      let (mpi_info, mpi_sync_trans, is_request) :
          mpi_info_t × Option mpi_sync_trans_t × Bool :=
        if ¬ pinfo.visited then
          if is_request then
            let mpi_sync_trans : mpi_sync_trans_t :=
              { jobid := jobid, vpid := vpid, req_frame := pinfo.num, rep_frame := 0,
                req_time := pinfo.abs_ts }
            ({ pdus := wmem_tree_insert32_array mpi_info.pdus key mpi_sync_trans },
              some mpi_sync_trans, is_request)
          else
            match wmem_tree_lookup32_array_le mpi_info.pdus key with
            | none => (mpi_info, none, is_request)
            | some (k, mpi_sync_trans) =>
              if mpi_sync_trans.jobid ≠ jobid then (mpi_info, none, is_request)
              else
                let mpi_sync_trans := { mpi_sync_trans with rep_frame := pinfo.num }
                ({ pdus := wmem_tree_insert32_array mpi_info.pdus k mpi_sync_trans },
                  some mpi_sync_trans, is_request)
        else
          match wmem_tree_lookup32_array_le mpi_info.pdus key with
          | none => (mpi_info, none, is_request)
          | some (_, mpi_sync_trans) =>
            if mpi_sync_trans.jobid ≠ jobid then (mpi_info, none, is_request)
            /- redetermine the request, because the dissector is called a few times... -/
            else if mpi_sync_trans.vpid ≠ vpid then (mpi_info, some mpi_sync_trans, false)
            else (mpi_info, some mpi_sync_trans, true)
      /- create a "fake" mpi_sync_trans structure (its fields jobid and vpid are
         left unset and are not read) -/
      let mpi_sync_trans : mpi_sync_trans_t :=
        match mpi_sync_trans with
        | some mpi_sync_trans => mpi_sync_trans
        | none =>
          { jobid := 0, vpid := 0, req_frame := 0, rep_frame := 0, req_time := pinfo.abs_ts }
      let run : Res Nat := do
        Res.emit (Ev.hdr (Hdr.sync pinfo.srcport pinfo.destport jobid vpid is_request))
        if tree then proto_tree_add_item tree "proto_mpi" tvb 0 (tvb_captured_length tvb)
        /- print in the tree -/
        if is_request then
          if mpi_sync_trans.rep_frame ≠ 0 then
            proto_tree_add_uint tree "hf_mpi_response_in" mpi_sync_trans.rep_frame
        else
          if mpi_sync_trans.req_frame ≠ 0 then do
            proto_tree_add_uint tree "hf_mpi_response_to" mpi_sync_trans.req_frame
            proto_tree_add_time tree "hf_mpi_time" (pinfo.abs_ts - mpi_sync_trans.req_time)
        if tree then do
          proto_tree_add_item tree "hf_mpi_jobid" tvb 0 4
          proto_tree_add_item tree "hf_mpi_vpid" tvb 4 4
        pure (tvb_captured_length tvb)
      (Res.prepend lg run, some mpi_info)

/-! ## Properties of runs used in the statements -/

/-- The run never took the default branch of the `switch` of `dissect_mpi`: its
log holds no "something goes wrong" notice. -/
def no_wrong {α : Type} (r : Res α) : Prop :=
  Ev.notice Notice.something_goes_wrong ∉ r.log

/-- The padding rule of the Match decoder: at least 2 octets remain after `seq`
(which ends 12 octets after `offset`) and the remainder is not exactly 4 octets
that are all zero. -/
def match_reads_padding (tvb : tvbuff_t) (offset : Nat) : Prop :=
  offset + 14 ≤ tvb_reported_length tvb ∧
    ¬ (tvb_reported_length tvb - (offset + 12) = 4 ∧
        ∀ b ∈ (tvb.data.drop (offset + 12)).take 4, b = 0)

instance (tvb : tvbuff_t) (offset : Nat) : Decidable (match_reads_padding tvb offset) := by
  unfold match_reads_padding; infer_instance

/-- Every octet span fetched in the run `r` satisfies `P`. -/
def reads_sat {α : Type} (P : Nat × Nat → Prop) (r : Res α) : Prop :=
  ∀ x ∈ reads r.log, P x

/-- The pending `(rml_tag, nbytes)` of the direction of the packet `pinfo` in
the OOB data `t`: the fields `_1` if the source port is greater than the
destination port, the fields `_2` otherwise. -/
def oob_pending (pinfo : packet_info) (t : mpi_oob_trans_t) : Nat × Nat :=
  if pinfo.srcport > pinfo.destport then (t.rml_tag_1, t.nbytes_1)
  else (t.rml_tag_2, t.nbytes_2)

/-- The pending `(rml_tag, nbytes)` of the direction opposite to the packet's. -/
def oob_other (pinfo : packet_info) (t : mpi_oob_trans_t) : Nat × Nat :=
  if pinfo.srcport > pinfo.destport then (t.rml_tag_2, t.nbytes_2)
  else (t.rml_tag_1, t.nbytes_1)

/-- The pending values of the packet's direction on a conversation that may
have no OOB data yet (the values are then those of fresh OOB data). -/
def oob_pending_of (pinfo : packet_info) (conv_data : Option mpi_oob_trans_t) : Nat × Nat :=
  match conv_data with
  | none => (0, 0)
  | some t => oob_pending pinfo t

/-- The values kept for the frame `num` in the table `old` (zero when the frame
has no entry). -/
def oob_snapshot (conv_data : Option mpi_oob_trans_t) (num : Nat) : Nat × Nat :=
  match conv_data with
  | none => (0, 0)
  | some t =>
    match g_hash_table_lookup t.old num with
    | none => (0, 0)
    | some value => (value.rml_tag, value.nbytes)

/-- A `rml_tag` for which the `switch` of the message branch has no case. -/
def oob_no_case (rml_tag : Nat) : Prop :=
  rml_tag ≠ ORTE_RML_TAG_INVALID ∧ rml_tag ≠ ORTE_RML_TAG_IOF_HNP ∧
  rml_tag ≠ ORTE_RML_TAG_IOF_PROXY ∧ rml_tag ≠ ORTE_RML_TAG_ORTED_CALLBACK ∧
  rml_tag ≠ ORTE_RML_TAG_XCAST

instance (rml_tag : Nat) : Decidable (oob_no_case rml_tag) := by
  unfold oob_no_case; infer_instance

/-- A complete OOB frame with an opaque body: the 28 octets of the header, whose
last field `nbytes` (octets 24..27, big endian) is the number of the octets that
follow, and whose field `rml_tag` (octets 20..23) is opaque. -/
def oob_frame (f : List Byte) : Prop :=
  f.length = 28 + be_value ((f.drop 24).take 4) ∧ oob_no_case (be_value ((f.drop 20).take 4))

instance (f : List Byte) : Decidable (oob_frame f) := by
  unfold oob_frame; infer_instance

/-- The values `dissect_mpi_oob` is to report for the frame `f`: the seven
header fields, and for a body that is not empty the message record and its
length. -/
def oob_frame_hdrs (f : List Byte) : List Hdr :=
  [Hdr.oob_hdr (be_value (f.take 4)) (be_value ((f.drop 4).take 4))
    (be_value ((f.drop 8).take 4)) (be_value ((f.drop 12).take 4))
    (be_value ((f.drop 16).take 4)) (be_value ((f.drop 20).take 4))
    (be_value ((f.drop 24).take 4))]
  ++ (if be_value ((f.drop 24).take 4) = 0 then []
      else [Hdr.oob_msg (be_value ((f.drop 20).take 4)),
            Hdr.oob_length (be_value ((f.drop 24).take 4))])

/-- One analysis pass of the host over the packets of one connection:
`dissect_mpi_oob` is called on each packet in order, entered at offset 0, and
the OOB data of the conversation is handed from one call to the next. For each
packet the run is kept, together with the pending values of the packet's
direction after it. The result is `none` if a call runs out of fuel. -/
def oob_pass (tree : Bool) :
    List (tvbuff_t × packet_info) → Option mpi_oob_trans_t →
      Option (List (Res Nat × (Nat × Nat)) × Option mpi_oob_trans_t)
  | [], conv_data => some ([], conv_data)
  | p :: ps, conv_data =>
    match dissect_mpi_oob p.1 p.2 tree 0 conv_data with
    | none => none
    | some (r, conv_data) =>
      (oob_pass tree ps conv_data).map
        (fun rest => ((r, oob_pending_of p.2 conv_data) :: rest.1, rest.2))

/-- The packets as the host presents them on a later pass: the same buffers
and frames, flagged as visited. -/
def revisit (ps : List (tvbuff_t × packet_info)) : List (tvbuff_t × packet_info) :=
  ps.map (fun p => (p.1, { p.2 with visited := true }))

/-! ## Comparing runs, and passes over Sync packets -/

/-- The events of a log that carry no decoded value: the spans fetched, the
items and subtrees added, the summary and the notices. -/
def shape : List Ev → List Ev
  | [] => []
  | Ev.hdr _ :: es => shape es
  | e :: es => e :: shape es

/-- Two runs take the same course: both raise an exception or both return, the
values returned are related by `Q`, and the logs differ at most in the decoded
values reported. -/
def same_course {α β : Type} (Q : α → β → Prop) : Res α → Res β → Prop
  | Res.ok a l, Res.ok b m => Q a b ∧ shape l = shape m
  | Res.exn l, Res.exn m => shape l = shape m
  | _, _ => False

/-- One analysis pass of the host over the Sync packets of one connection:
`dissect_mpi_sync` is called on each packet in order, entered at offset 0, and
the Sync data of the conversation is handed from one call to the next. -/
def sync_pass (tree : Bool) :
    List (tvbuff_t × packet_info) → Option mpi_info_t → List (Res Nat) × Option mpi_info_t
  | [], conv_data => ([], conv_data)
  | p :: ps, conv_data =>
    ((dissect_mpi_sync p.1 p.2 tree 0 conv_data).1
        :: (sync_pass tree ps (dissect_mpi_sync p.1 p.2 tree 0 conv_data).2).1,
      (sync_pass tree ps (dissect_mpi_sync p.1 p.2 tree 0 conv_data).2).2)

/-- The role a run of `dissect_mpi_sync` reports in its summary: `true` for a
request, `false` for a response (`none` if the run has no summary). -/
def sync_role (r : Res Nat) : Option Bool :=
  match hdrs r.log with
  | Hdr.sync _ _ _ _ is_request :: _ => some is_request
  | _ => none

/-- The parts of a stored transaction that are written when it is created:
its key, `jobid`, `vpid`, `req_frame` and `req_time`. -/
def sync_fixed (e : (Nat × Nat) × mpi_sync_trans_t) : (Nat × Nat) × Nat × Nat × Nat × Int :=
  (e.1, e.2.jobid, e.2.vpid, e.2.req_frame, e.2.req_time)

/-! ## Re-encoding of the Match fields

The dissector only decodes. The encoder below writes the four Match fields
`ctx:u16, src:i32, tag:i32, seq:u16` in that order under an endianness policy;
it is the counterpart used to state the round trip of the spec. -/

/-- The `n` low octets of `v`, least significant first. -/
def le_bytes : Nat → Nat → List Byte
  | 0, _ => []
  | n + 1, v => ⟨v % 256, Nat.mod_lt _ (by decide)⟩ :: le_bytes n (v / 256)

/-- The `n` low octets of `v`, most significant first. -/
def be_bytes (n v : Nat) : List Byte := (le_bytes n v).reverse

/-- An unsigned field of `n` octets under the endianness policy. -/
def encode_uint (little_endian : Bool) (n v : Nat) : List Byte :=
  if little_endian then le_bytes n v else be_bytes n v

/-- A signed 32-bit field (two's complement) under the endianness policy. -/
def encode_int32 (little_endian : Bool) (v : Int) : List Byte :=
  encode_uint little_endian 4 (v % 4294967296).toNat

/-- The 12 octets of a Match header with the given field values. -/
def encode_match (little_endian : Bool) (ctx : Nat) (src tag : Int) (seq : Nat) :
    List Byte :=
  encode_uint little_endian 2 ctx ++ encode_int32 little_endian src
    ++ encode_int32 little_endian tag ++ encode_uint little_endian 2 seq

/-! ## Sample inputs used in the worked instances -/

/-- A sub-dissector standing for the OOB reassembler in worked instances: it
reports the whole buffer as consumed and records its call in the conversation
data. -/
def sample_oob : SubDissector (List String) :=
  fun tvb _ _ _ conv => (Res.ok (tvb_captured_length tvb) [], "oob" :: conv)

/-- A sub-dissector standing for the Sync matcher in worked instances. -/
def sample_sync : SubDissector (List String) :=
  fun tvb _ _ _ conv => (Res.ok (tvb_captured_length tvb) [], "sync" :: conv)

/-- A packet between two ports of the OOB range. -/
def pinfo_oob : packet_info :=
  { srcport := 40000, destport := 50000, num := 1, visited := false, abs_ts := 0 }

/-- A packet whose destination port lies below the OOB range. -/
def pinfo_btl : packet_info :=
  { srcport := 40000, destport := 1024, num := 1, visited := false, abs_ts := 0 }

/-! ## Basic facts about the embedding -/

section basics

variable {α β : Type}

@[simp] theorem Res.pure_eq (a : α) : (pure a : Res α) = Res.ok a [] := rfl

@[simp] theorem Res.bind_eq (m : Res α) (f : α → Res β) : (m >>= f) = Res.bind m f := rfl

@[simp] theorem Res.bind_ok (a : α) (l : List Ev) (f : α → Res β) :
    Res.bind (Res.ok a l) f = Res.prepend l (f a) := rfl

@[simp] theorem Res.bind_exn (l : List Ev) (f : α → Res β) :
    Res.bind (Res.exn l : Res α) f = Res.exn l := rfl

@[simp] theorem Res.prepend_ok (l l' : List Ev) (a : α) :
    Res.prepend l (Res.ok a l') = Res.ok a (l ++ l') := rfl

@[simp] theorem Res.prepend_exn (l l' : List Ev) :
    Res.prepend l (Res.exn l' : Res α) = Res.exn (l ++ l') := rfl

@[simp] theorem Res.prepend_nil (r : Res α) : Res.prepend [] r = r := by
  cases r <;> rfl

@[simp] theorem Res.prepend_prepend (l l' : List Ev) (r : Res α) :
    Res.prepend l (Res.prepend l' r) = Res.prepend (l ++ l') r := by
  cases r <;> simp [Res.prepend]

@[simp] theorem Res.log_ok (a : α) (l : List Ev) : (Res.ok a l).log = l := rfl

@[simp] theorem Res.log_exn (l : List Ev) : (Res.exn l : Res α).log = l := rfl

@[simp] theorem Res.value_ok (a : α) (l : List Ev) : (Res.ok a l).value = some a := rfl

@[simp] theorem Res.value_exn (l : List Ev) : (Res.exn l : Res α).value = none := rfl

@[simp] theorem Res.emit_eq (e : Ev) : Res.emit e = Res.ok () [e] := rfl

end basics

theorem guint_add_eq {a b : Nat} (h : a + b < 4294967296) : guint_add a b = a + b := by
  unfold guint_add; omega

theorem guint_sub_eq {a b : Nat} (hb : b ≤ a) (ha : a < 4294967296) :
    guint_sub a b = a - b := by
  unfold guint_sub; omega

theorem tvb_fetch_ok {tvb : tvbuff_t} {offset length : Nat}
    (h : offset + length ≤ tvb.data.length) :
    tvb_fetch tvb offset length
      = Res.ok ((tvb.data.drop offset).take length) [Ev.read offset length] := by
  unfold tvb_fetch; rw [if_pos h]

theorem tvb_fetch_exn {tvb : tvbuff_t} {offset length : Nat}
    (h : tvb.data.length < offset + length) :
    tvb_fetch tvb offset length = Res.exn [] := by
  unfold tvb_fetch; rw [if_neg (by omega)]

@[simp] theorem reads_nil : reads [] = [] := rfl

@[simp] theorem reads_read (o n : Nat) (es : List Ev) :
    reads (Ev.read o n :: es) = (o, n) :: reads es := rfl

@[simp] theorem reads_hdr (h : Hdr) (es : List Ev) : reads (Ev.hdr h :: es) = reads es := rfl

@[simp] theorem reads_summary (a b c : Nat) (es : List Ev) :
    reads (Ev.summary a b c :: es) = reads es := rfl

@[simp] theorem reads_notice (n : Notice) (es : List Ev) :
    reads (Ev.notice n :: es) = reads es := rfl

@[simp] theorem reads_subtree (e : String) (es : List Ev) :
    reads (Ev.subtree e :: es) = reads es := rfl

@[simp] theorem reads_item (f : String) (o n : Nat) (es : List Ev) :
    reads (Ev.item f o n :: es) = reads es := rfl

@[simp] theorem reads_append (l l' : List Ev) : reads (l ++ l') = reads l ++ reads l' := by
  induction l with
  | nil => rfl
  | cons e es ih => cases e <;> simp [ih]

@[simp] theorem hdrs_nil : hdrs [] = [] := rfl

@[simp] theorem hdrs_hdr (h : Hdr) (es : List Ev) : hdrs (Ev.hdr h :: es) = h :: hdrs es := rfl

@[simp] theorem hdrs_read (o n : Nat) (es : List Ev) : hdrs (Ev.read o n :: es) = hdrs es := rfl

@[simp] theorem hdrs_summary (a b c : Nat) (es : List Ev) :
    hdrs (Ev.summary a b c :: es) = hdrs es := rfl

@[simp] theorem hdrs_notice (n : Notice) (es : List Ev) :
    hdrs (Ev.notice n :: es) = hdrs es := rfl

@[simp] theorem hdrs_subtree (e : String) (es : List Ev) :
    hdrs (Ev.subtree e :: es) = hdrs es := rfl

@[simp] theorem hdrs_item (f : String) (o n : Nat) (es : List Ev) :
    hdrs (Ev.item f o n :: es) = hdrs es := rfl

@[simp] theorem hdrs_append (l l' : List Ev) : hdrs (l ++ l') = hdrs l ++ hdrs l' := by
  induction l with
  | nil => rfl
  | cons e es ih => cases e <;> simp [ih]

/-! ## Runs of the decoders never report "something goes wrong" -/

theorem no_wrong_ok_nil {α : Type} (a : α) : no_wrong (Res.ok a []) := by
  simp [no_wrong]

theorem no_wrong_bind {α β : Type} {m : Res α} {f : α → Res β} (hm : no_wrong m)
    (hf : ∀ a, no_wrong (f a)) : no_wrong (m.bind f) := by
  unfold no_wrong at *
  cases m with
  | exn l => exact hm
  | ok a l =>
    have h2 := hf a
    simp only [Res.bind_ok]
    cases hfa : f a with
    | ok b l' => rw [hfa] at h2; simp at hm h2 ⊢; exact ⟨hm, h2⟩
    | exn l' => rw [hfa] at h2; simp at hm h2 ⊢; exact ⟨hm, h2⟩

theorem no_wrong_ite {α : Type} (c : Prop) [Decidable c] {t e : Res α}
    (ht : no_wrong t) (he : no_wrong e) : no_wrong (if c then t else e) := by
  split <;> assumption

theorem no_wrong_fetch (tvb : tvbuff_t) (o n : Nat) : no_wrong (tvb_fetch tvb o n) := by
  unfold tvb_fetch no_wrong; split <;> simp

theorem no_wrong_item (tree : Bool) (hf : String) (tvb : tvbuff_t) (o n : Nat) :
    no_wrong (proto_tree_add_item tree hf tvb o n) := by
  unfold proto_tree_add_item no_wrong; split <;> cases tree <;> simp

theorem no_wrong_subtree (e : String) : no_wrong (proto_tree_add_subtree e) := by
  simp [proto_tree_add_subtree, no_wrong]

theorem no_wrong_hdr (h : Hdr) : no_wrong (Res.emit (Ev.hdr h)) := by
  simp [no_wrong]

theorem no_wrong_summary (a b c : Nat) : no_wrong (Res.emit (Ev.summary a b c)) := by
  simp [no_wrong]

theorem no_wrong_not_implemented :
    no_wrong (Res.emit (Ev.notice Notice.not_implemented)) := by
  simp [no_wrong]

theorem no_wrong_match (le : Bool) (tvb : tvbuff_t) (tree : Bool) (off : Nat) :
    no_wrong (dissect_mpi_match le tvb tree off) := by
  unfold dissect_mpi_match tvb_get_letohs tvb_get_letohl tvb_get_ntohs tvb_get_ntohl
  simp only [Res.bind_eq, Res.pure_eq]
  repeat' first
    | with_reducible exact no_wrong_ok_nil _
    | with_reducible exact no_wrong_fetch _ _ _
    | with_reducible exact no_wrong_item _ _ _ _ _
    | with_reducible exact no_wrong_subtree _
    | with_reducible exact no_wrong_hdr _
    | with_reducible apply no_wrong_ite
    | with_reducible apply no_wrong_bind
    | intro x

theorem no_wrong_rndv (le : Bool) (tvb : tvbuff_t) (tree : Bool) (off : Nat) :
    no_wrong (dissect_mpi_rndv le tvb tree off) := by
  unfold dissect_mpi_rndv tvb_get_letoh64 tvb_get_ntoh64 tvb_get_guint8
  simp only [Res.bind_eq, Res.pure_eq]
  repeat' first
    | with_reducible exact no_wrong_ok_nil _
    | with_reducible exact no_wrong_fetch _ _ _
    | with_reducible exact no_wrong_item _ _ _ _ _
    | with_reducible exact no_wrong_subtree _
    | with_reducible exact no_wrong_hdr _
    | with_reducible exact no_wrong_match _ _ _ _
    | with_reducible apply no_wrong_ite
    | with_reducible apply no_wrong_bind
    | intro x

theorem no_wrong_rget (le : Bool) (tvb : tvbuff_t) (tree : Bool) (off : Nat) :
    no_wrong (dissect_mpi_rget le tvb tree off) := by
  unfold dissect_mpi_rget tvb_get_letoh64 tvb_get_ntoh64 tvb_get_letohl tvb_get_ntohl
  simp only [Res.bind_eq, Res.pure_eq]
  repeat' first
    | with_reducible exact no_wrong_ok_nil _
    | with_reducible exact no_wrong_fetch _ _ _
    | with_reducible exact no_wrong_item _ _ _ _ _
    | with_reducible exact no_wrong_subtree _
    | with_reducible exact no_wrong_hdr _
    | with_reducible exact no_wrong_rndv _ _ _ _
    | with_reducible apply no_wrong_ite
    | with_reducible apply no_wrong_bind
    | intro x

theorem no_wrong_frag (le : Bool) (tvb : tvbuff_t) (tree : Bool) (off : Nat) :
    no_wrong (dissect_mpi_frag le tvb tree off) := by
  unfold dissect_mpi_frag tvb_get_letoh64 tvb_get_ntoh64 tvb_get_letoh48 tvb_get_ntoh48
  simp only [Res.bind_eq, Res.pure_eq]
  repeat' first
    | with_reducible exact no_wrong_ok_nil _
    | with_reducible exact no_wrong_fetch _ _ _
    | with_reducible exact no_wrong_item _ _ _ _ _
    | with_reducible exact no_wrong_subtree _
    | with_reducible exact no_wrong_hdr _
    | with_reducible apply no_wrong_ite
    | with_reducible apply no_wrong_bind
    | intro x

theorem no_wrong_ack (le : Bool) (tvb : tvbuff_t) (tree : Bool) (off : Nat) :
    no_wrong (dissect_mpi_ack le tvb tree off) := by
  unfold dissect_mpi_ack tvb_get_letoh64 tvb_get_ntoh64 tvb_get_letoh48 tvb_get_ntoh48
  simp only [Res.bind_eq, Res.pure_eq]
  repeat' first
    | with_reducible exact no_wrong_ok_nil _
    | with_reducible exact no_wrong_fetch _ _ _
    | with_reducible exact no_wrong_item _ _ _ _ _
    | with_reducible exact no_wrong_subtree _
    | with_reducible exact no_wrong_hdr _
    | with_reducible apply no_wrong_ite
    | with_reducible apply no_wrong_bind
    | intro x

theorem no_wrong_rdma (le : Bool) (tvb : tvbuff_t) (tree : Bool) (off : Nat) :
    no_wrong (dissect_mpi_rdma le tvb tree off) := by
  unfold dissect_mpi_rdma tvb_get_letoh64 tvb_get_ntoh64 tvb_get_letohl tvb_get_ntohl
    tvb_get_letohs
  simp only [Res.bind_eq, Res.pure_eq]
  repeat' first
    | with_reducible exact no_wrong_ok_nil _
    | with_reducible exact no_wrong_fetch _ _ _
    | with_reducible exact no_wrong_item _ _ _ _ _
    | with_reducible exact no_wrong_subtree _
    | with_reducible exact no_wrong_hdr _
    | with_reducible apply no_wrong_ite
    | with_reducible apply no_wrong_bind
    | intro x

theorem no_wrong_fin (le : Bool) (tvb : tvbuff_t) (tree : Bool) (off : Nat) :
    no_wrong (dissect_mpi_fin le tvb tree off) := by
  unfold dissect_mpi_fin tvb_get_letoh64 tvb_get_ntoh64 tvb_get_letohl tvb_get_ntohl
    tvb_get_letohs tvb_get_ntohs
  simp only [Res.bind_eq, Res.pure_eq]
  repeat' first
    | with_reducible exact no_wrong_ok_nil _
    | with_reducible exact no_wrong_fetch _ _ _
    | with_reducible exact no_wrong_item _ _ _ _ _
    | with_reducible exact no_wrong_subtree _
    | with_reducible exact no_wrong_hdr _
    | with_reducible exact no_wrong_match _ _ _ _
    | with_reducible apply no_wrong_ite
    | with_reducible apply no_wrong_bind
    | intro x

theorem no_wrong_rndvrestartnotify (le : Bool) (tvb : tvbuff_t) (tree : Bool) (off : Nat) :
    no_wrong (dissect_mpi_rndvrestartnotify le tvb tree off) := by
  unfold dissect_mpi_rndvrestartnotify tvb_get_letoh64 tvb_get_ntoh64 tvb_get_letohl
    tvb_get_ntohl tvb_get_letoh48 tvb_get_ntoh48 tvb_get_guint8
  simp only [Res.bind_eq, Res.pure_eq]
  repeat' first
    | with_reducible exact no_wrong_ok_nil _
    | with_reducible exact no_wrong_fetch _ _ _
    | with_reducible exact no_wrong_item _ _ _ _ _
    | with_reducible exact no_wrong_subtree _
    | with_reducible exact no_wrong_hdr _
    | with_reducible exact no_wrong_match _ _ _ _
    | with_reducible apply no_wrong_ite
    | with_reducible apply no_wrong_bind
    | intro x

theorem no_wrong_switch (le : Bool) (tvb : tvbuff_t) (tree : Bool) (b off : Nat)
    (hb : 65 ≤ b ∧ b ≤ 77) : no_wrong (dissect_mpi_switch le tvb tree b off) := by
  unfold dissect_mpi_switch
  unfold MPI_PML_OB1_HDR_TYPE_MATCH MPI_PML_BFO_HDR_TYPE_RNDV MPI_PML_OB1_HDR_TYPE_RGET
    MPI_PML_OB1_HDR_TYPE_ACK MPI_PML_OB1_HDR_TYPE_NACK MPI_PML_OB1_HDR_TYPE_FRAG
    MPI_PML_OB1_HDR_TYPE_GET MPI_PML_OB1_HDR_TYPE_PUT MPI_PML_OB1_HDR_TYPE_FIN
    MPI_PML_BFO_HDR_TYPE_RNDVRESTARTNOTIFY MPI_PML_BFO_HDR_TYPE_RNDVRESTARTACK
    MPI_PML_BFO_HDR_TYPE_RNDVRESTARTNACK MPI_PML_BFO_HDR_TYPE_RECVERRNOTIFY
  split
  · exact no_wrong_match _ _ _ _
  split
  · exact no_wrong_rndv _ _ _ _
  split
  · exact no_wrong_rget _ _ _ _
  split
  · exact no_wrong_frag _ _ _ _
  split
  · exact no_wrong_ack _ _ _ _
  split
  · exact no_wrong_rdma _ _ _ _
  split
  · exact no_wrong_fin _ _ _ _
  split
  · exact no_wrong_rndvrestartnotify _ _ _ _
  split
  · simp [no_wrong]
  · omega

/-! ## The packet classifier -/

/-- C1, as stated, fails: a 4-octet buffer between two ports of the OOB range
is rejected by the minimum-length test (zero bytes consumed, conversation data
untouched) and is not handed to the OOB reassembler. -/
theorem C1_short_buffer_not_oob :
    dissect_mpi sample_oob sample_sync true (tvb_of [0, 0, 0, 1] (by decide)) pinfo_oob
        false []
      = (Res.ok 0 [], [])
    ∧ dissect_mpi sample_oob sample_sync true (tvb_of [0, 0, 0, 1] (by decide)) pinfo_oob
        false []
      ≠ sample_oob (tvb_of [0, 0, 0, 1] (by decide)) pinfo_oob false 0 [] := by
  decide

/-- C1 (amended): for every packet whose reported length is at least
`MPI_MIN_LENGTH` (5) and whose source and destination ports both lie in
[32768, 65535], `dissect_mpi` is the OOB reassembler run on the buffer at
offset 0, whatever the length and the first byte; neither the Sync path nor
the reject branch is taken. -/
theorem C1_oob_path {σ : Type} (dissect_mpi_oob dissect_mpi_sync : SubDissector σ)
    (pref_little_endian : Bool) (tvb : tvbuff_t) (pinfo : packet_info) (tree : Bool)
    (conv : σ)
    (hlen : 5 ≤ tvb_reported_length tvb)
    (hsrc : 32768 ≤ pinfo.srcport ∧ pinfo.srcport ≤ 65535)
    (hdst : 32768 ≤ pinfo.destport ∧ pinfo.destport ≤ 65535) :
    dissect_mpi dissect_mpi_oob dissect_mpi_sync pref_little_endian tvb pinfo tree conv
      = dissect_mpi_oob tvb pinfo tree 0 conv := by
  unfold dissect_mpi
  have h1 : ¬ MPI_MIN_LENGTH > tvb_reported_length tvb := by
    unfold MPI_MIN_LENGTH; omega
  have h2 : 32768 ≤ pinfo.srcport ∧ MAX_TCP_PORT ≥ pinfo.srcport ∧
      32768 ≤ pinfo.destport ∧ MAX_TCP_PORT ≥ pinfo.destport := by
    unfold MAX_TCP_PORT; omega
  simp only [if_neg h1, if_pos h2]

/-- Worked instance of C1: an 8-octet buffer whose first octet is a BTL base type,
between two OOB ports, goes to the OOB reassembler. -/
theorem C1_oob_path_witness :
    dissect_mpi sample_oob sample_sync true
        (tvb_of [65, 0, 0, 0, 0, 0, 0, 7] (by decide)) pinfo_oob false []
      = (Res.ok 8 [], ["oob"]) :=
  C1_oob_path sample_oob sample_sync true (tvb_of [65, 0, 0, 0, 0, 0, 0, 7] (by decide))
    pinfo_oob false [] (by decide) (by decide) (by decide)

/-- C2: for every fully captured packet whose ports are not both in
[32768, 65535] and whose length is not 8, if the length is below 10 or the first
octet is outside [65, 77], `dissect_mpi` returns 0 and leaves the conversation
data unchanged. It fetches nothing when the length is below 5 and otherwise
only the first octet, so every octet span it reads lies inside the buffer. -/
theorem C2_reject {σ : Type} (dissect_mpi_oob dissect_mpi_sync : SubDissector σ)
    (pref_little_endian : Bool) (tvb : tvbuff_t) (pinfo : packet_info) (tree : Bool)
    (conv : σ)
    (hfull : tvb_captured_length tvb = tvb_reported_length tvb)
    (hports : ¬ ((32768 ≤ pinfo.srcport ∧ pinfo.srcport ≤ 65535) ∧
      (32768 ≤ pinfo.destport ∧ pinfo.destport ≤ 65535)))
    (h8 : tvb_captured_length tvb ≠ 8)
    (hrej : tvb_captured_length tvb < 10 ∨
      ∃ b, tvb.data.head? = some b ∧ (b.val < 65 ∨ 77 < b.val)) :
    dissect_mpi dissect_mpi_oob dissect_mpi_sync pref_little_endian tvb pinfo tree conv
        = (Res.ok 0 (if tvb_captured_length tvb < 5 then [] else [Ev.read 0 1]), conv)
    ∧ ∀ o n, (o, n) ∈ reads (dissect_mpi dissect_mpi_oob dissect_mpi_sync
          pref_little_endian tvb pinfo tree conv).1.log →
        o + n ≤ tvb_captured_length tvb := by
  have key : dissect_mpi dissect_mpi_oob dissect_mpi_sync pref_little_endian tvb pinfo
      tree conv
        = (Res.ok 0 (if tvb_captured_length tvb < 5 then [] else [Ev.read 0 1]), conv) := by
    unfold dissect_mpi
    unfold tvb_captured_length tvb_reported_length at *
    by_cases h5 : MPI_MIN_LENGTH > tvb.reported_length
    · rw [if_pos h5]
      unfold MPI_MIN_LENGTH at h5
      rw [if_pos (by omega)]; rfl
    · have hp : ¬ (32768 ≤ pinfo.srcport ∧ MAX_TCP_PORT ≥ pinfo.srcport ∧
          32768 ≤ pinfo.destport ∧ MAX_TCP_PORT ≥ pinfo.destport) := by
        unfold MAX_TCP_PORT; omega
      have h8' : ¬ (8 = tvb.data.length) := fun h => h8 h.symm
      rw [if_neg h5, if_neg hp, if_neg h8']
      unfold MPI_MIN_LENGTH at h5
      rw [if_neg (by omega)]
      have hfetch : tvb_fetch tvb 0 1
          = Res.ok ((tvb.data.drop 0).take 1) [Ev.read 0 1] := tvb_fetch_ok (by omega)
      unfold dissect_mpi_btl tvb_get_guint8 tvb_reported_length
      have hcond : 10 > tvb.reported_length ∨ 65 > le_value ((tvb.data.drop 0).take 1) ∨
          77 < le_value ((tvb.data.drop 0).take 1) := by
        rcases hrej with h | ⟨b, hb, hb'⟩
        · left; omega
        · right
          cases hd : tvb.data with
          | nil => rw [hd] at hb; simp at hb
          | cons x xs =>
            rw [hd] at hb
            simp only [List.head?_cons, Option.some.injEq] at hb
            subst hb
            simp only [List.drop_zero, List.take_succ_cons, List.take_zero, le_value]
            omega
      simp only [hfetch, Res.bind_eq, Res.bind_ok, Res.pure_eq, Res.prepend_ok,
        List.append_nil, if_pos hcond]
  refine ⟨key, ?_⟩
  rw [key]
  intro o n h
  simp only [Res.log_ok] at h
  split at h
  · simp at h
  · simp only [reads_read, reads_nil, List.mem_singleton, Prod.mk.injEq] at h
    omega

/-- Worked instance of C2: a fully captured 12-octet buffer whose first octet is
64, towards a port below the OOB range, is rejected after the fetch of its
first octet, with the conversation data unchanged. -/
theorem C2_reject_witness :
    dissect_mpi sample_oob sample_sync true
        (tvb_of [64, 0, 0, 0, 0, 0, 0, 0, 0, 0, 0, 0] (by decide)) pinfo_btl true
        ["kept"]
      = (Res.ok 0 [Ev.read 0 1], ["kept"]) :=
  (C2_reject sample_oob sample_sync true
    (tvb_of [64, 0, 0, 0, 0, 0, 0, 0, 0, 0, 0, 0] (by decide)) pinfo_btl true ["kept"]
    (by decide) (by decide) (by decide) (Or.inr ⟨64, by decide, by decide⟩)).1

/-- C3: for every packet whose ports are not both in [32768, 65535] and whose
captured length is exactly 8, `dissect_mpi` is the Sync matcher run on the
buffer at offset 0, whatever the first octet (also when it lies in the BTL
base range [65, 77]); and the entry test of the Sync matcher,
`8 != tvb_captured_length(tvb) - the_offset`, does not fire at that offset. -/
theorem C3_sync_path {σ : Type} (dissect_mpi_oob dissect_mpi_sync : SubDissector σ)
    (pref_little_endian : Bool) (tvb : tvbuff_t) (pinfo : packet_info) (tree : Bool)
    (conv : σ)
    (hports : ¬ ((32768 ≤ pinfo.srcport ∧ pinfo.srcport ≤ 65535) ∧
      (32768 ≤ pinfo.destport ∧ pinfo.destport ≤ 65535)))
    (h8 : tvb_captured_length tvb = 8) :
    dissect_mpi dissect_mpi_oob dissect_mpi_sync pref_little_endian tvb pinfo tree conv
      = dissect_mpi_sync tvb pinfo tree 0 conv
    ∧ guint_sub (tvb_captured_length tvb) 0 = 8 := by
  refine ⟨?_, by rw [h8]; rfl⟩
  unfold dissect_mpi
  have hcap := tvb.captured_le
  unfold tvb_captured_length at h8
  have h1 : ¬ MPI_MIN_LENGTH > tvb_reported_length tvb := by
    unfold MPI_MIN_LENGTH tvb_reported_length; omega
  have hp : ¬ (32768 ≤ pinfo.srcport ∧ MAX_TCP_PORT ≥ pinfo.srcport ∧
      32768 ≤ pinfo.destport ∧ MAX_TCP_PORT ≥ pinfo.destport) := by
    unfold MAX_TCP_PORT; omega
  have h8' : 8 = tvb_captured_length tvb := by
    unfold tvb_captured_length; omega
  simp only [if_neg h1, if_neg hp, if_pos h8']

/-- Worked instance of C3: an 8-octet buffer starting with the Match base type 65,
towards a port below the OOB range, goes to the Sync matcher. -/
theorem C3_sync_path_witness :
    dissect_mpi sample_oob sample_sync true
        (tvb_of [65, 0, 0, 7, 0, 0, 0, 3] (by decide)) pinfo_btl false []
      = (Res.ok 8 [], ["sync"]) :=
  (C3_sync_path sample_oob sample_sync true (tvb_of [65, 0, 0, 7, 0, 0, 0, 3] (by decide))
    pinfo_btl false [] (by decide) (by decide)).1

/-! ## Dispatch on the base type -/

theorem no_wrong_btl (le : Bool) (tvb : tvbuff_t) (pinfo : packet_info) (tree : Bool) :
    no_wrong (dissect_mpi_btl le tvb pinfo tree) := by
  unfold dissect_mpi_btl tvb_get_guint8 tvb_get_letohs tvb_get_letohl tvb_get_ntohs
    tvb_get_ntohl
  simp only [Res.bind_eq, Res.pure_eq]
  refine no_wrong_bind (no_wrong_bind (no_wrong_fetch _ _ _) (fun _ => no_wrong_ok_nil _)) ?_
  intro b
  split
  · exact no_wrong_ok_nil _
  · rename_i hb
    refine no_wrong_bind (no_wrong_summary _ _ _) (fun _ => ?_)
    refine no_wrong_bind ?_ (fun off => ?_)
    · repeat' first
        | with_reducible exact no_wrong_ok_nil _
        | with_reducible exact no_wrong_fetch _ _ _
        | with_reducible exact no_wrong_item _ _ _ _ _
        | with_reducible exact no_wrong_subtree _
        | with_reducible exact no_wrong_hdr _
        | with_reducible apply no_wrong_ite
        | with_reducible apply no_wrong_bind
        | intro x
    · refine no_wrong_bind (no_wrong_switch _ _ _ _ _ (by omega)) (fun off' => ?_)
      repeat' first
        | with_reducible exact no_wrong_ok_nil _
        | with_reducible exact no_wrong_item _ _ _ _ _
        | with_reducible apply no_wrong_ite
        | with_reducible apply no_wrong_bind
        | intro x

theorem log_bind {α β : Type} (m : Res α) (f : α → Res β) :
    ∃ post, (m.bind f).log = m.log ++ post := by
  cases m with
  | exn l => exact ⟨[], by simp⟩
  | ok a l =>
    cases h : f a with
    | ok b l' => exact ⟨l', by simp [h]⟩
    | exn l' => exact ⟨l', by simp [h]⟩

theorem log_prepend {α : Type} (l : List Ev) (r : Res α) :
    (Res.prepend l r).log = l ++ r.log := by
  cases r <;> rfl

theorem log_prepend_bind {α β : Type} (l : List Ev) (m : Res α) (f : α → Res β) :
    ∃ pre post, (Res.prepend l (m.bind f)).log = pre ++ m.log ++ post := by
  obtain ⟨post, hp⟩ := log_bind m f
  exact ⟨l, post, by rw [log_prepend, hp, List.append_assoc]⟩

theorem le_value_head (tvb : tvbuff_t) (b : Byte) (hb : tvb.data.head? = some b) :
    le_value ((tvb.data.drop 0).take 1) = b.val := by
  cases hd : tvb.data with
  | nil => rw [hd] at hb; simp at hb
  | cons x xs =>
    rw [hd] at hb
    simp only [List.head?_cons, Option.some.injEq] at hb
    subst hb
    simp [le_value]

/-- On a buffer accepted on the BTL path, `dissect_mpi` runs the `switch` on
the first octet at offset 10. -/
theorem btl_runs_switch (le : Bool) (tvb : tvbuff_t) (pinfo : packet_info) (tree : Bool)
    (b : Byte) (hb : tvb.data.head? = some b) (hcap : 10 ≤ tvb_captured_length tvb)
    (hacc : 65 ≤ b.val ∧ b.val ≤ 77) :
    ∃ pre post, (dissect_mpi_btl le tvb pinfo tree).log
      = pre ++ (dissect_mpi_switch le tvb tree b.val 10).log ++ post := by
  unfold tvb_captured_length at hcap
  have hrep := tvb.captured_le
  have hv := le_value_head tvb b hb
  unfold dissect_mpi_btl
  have hg : ¬ (10 > tvb.reported_length ∨ 65 > b.val ∨ 77 < b.val) := by omega
  cases tree <;> cases le <;>
  simp (disch := omega) only [tvb_get_guint8, tvb_get_letohs, tvb_get_letohl, tvb_get_ntohs,
    tvb_get_ntohl, tvb_fetch_ok, Res.bind_eq, Res.bind_ok, Res.pure_eq, Res.prepend_ok,
    Res.prepend_prepend, Res.emit_eq, hv, tvb_reported_length, if_neg hg, Bool.false_eq_true,
    if_false, if_true, proto_tree_add_item, proto_tree_add_subtree, tvb_captured_length,
    guint_add_eq, Nat.zero_add, if_pos, List.append_nil, List.nil_append, Nat.reduceAdd,
    Nat.reduceLeDiff] <;>
  exact log_prepend_bind _ _ _

theorem switch_eq (le : Bool) (tvb : tvbuff_t) (tree : Bool) (v off : Nat)
    (hacc : 65 ≤ v ∧ v ≤ 77) :
    dissect_mpi_switch le tvb tree v off
      = (if v = 65 then dissect_mpi_match le tvb tree off
        else if v = 66 then dissect_mpi_rndv le tvb tree off
        else if v = 67 then dissect_mpi_rget le tvb tree off
        else if v = 68 then dissect_mpi_ack le tvb tree off
        else if v = 70 then dissect_mpi_frag le tvb tree off
        else if v = 72 then dissect_mpi_rdma le tvb tree off
        else if v = 73 then dissect_mpi_fin le tvb tree off
        else if v = 74 then dissect_mpi_rndvrestartnotify le tvb tree off
        else Res.ok off [Ev.notice Notice.not_implemented]) := by
  unfold dissect_mpi_switch
  unfold MPI_PML_OB1_HDR_TYPE_MATCH MPI_PML_BFO_HDR_TYPE_RNDV MPI_PML_OB1_HDR_TYPE_RGET
    MPI_PML_OB1_HDR_TYPE_ACK MPI_PML_OB1_HDR_TYPE_NACK MPI_PML_OB1_HDR_TYPE_FRAG
    MPI_PML_OB1_HDR_TYPE_GET MPI_PML_OB1_HDR_TYPE_PUT MPI_PML_OB1_HDR_TYPE_FIN
    MPI_PML_BFO_HDR_TYPE_RNDVRESTARTNOTIFY MPI_PML_BFO_HDR_TYPE_RNDVRESTARTACK
    MPI_PML_BFO_HDR_TYPE_RNDVRESTARTNACK MPI_PML_BFO_HDR_TYPE_RECVERRNOTIFY
  simp only [Res.bind_eq, Res.emit_eq, Res.bind_ok, Res.pure_eq, Res.prepend_ok,
    List.append_nil]
  split_ifs <;> first | rfl | omega

/-- C4: on every buffer accepted on the BTL path (at least 10 octets, first
octet `b` in 65..77) `dissect_mpi` runs the `switch` on `b` at offset 10, and
the `switch` selects the decoder as follows: 65 Match, 66 Rendezvous,
67 RendezvousGet, 68 Ack, 70 Fragment, 72 Rdma, 73 Fin,
74 RendezvousRestartNotify, and for 69, 71, 75, 76, 77 only the
"not implemented" notice with the offset unchanged. The default
"something goes wrong" branch is not reached. -/
theorem C4_dispatch (le : Bool) (tvb : tvbuff_t) (pinfo : packet_info) (tree : Bool)
    (b : Byte) (hb : tvb.data.head? = some b) (hcap : 10 ≤ tvb_captured_length tvb)
    (hacc : 65 ≤ b.val ∧ b.val ≤ 77) :
    (∃ pre post, (dissect_mpi_btl le tvb pinfo tree).log
        = pre ++ (dissect_mpi_switch le tvb tree b.val 10).log ++ post)
    ∧ dissect_mpi_switch le tvb tree b.val 10
        = (if b.val = 65 then dissect_mpi_match le tvb tree 10
          else if b.val = 66 then dissect_mpi_rndv le tvb tree 10
          else if b.val = 67 then dissect_mpi_rget le tvb tree 10
          else if b.val = 68 then dissect_mpi_ack le tvb tree 10
          else if b.val = 70 then dissect_mpi_frag le tvb tree 10
          else if b.val = 72 then dissect_mpi_rdma le tvb tree 10
          else if b.val = 73 then dissect_mpi_fin le tvb tree 10
          else if b.val = 74 then dissect_mpi_rndvrestartnotify le tvb tree 10
          else Res.ok 10 [Ev.notice Notice.not_implemented])
    ∧ no_wrong (dissect_mpi_switch le tvb tree b.val 10)
    ∧ no_wrong (dissect_mpi_btl le tvb pinfo tree) := by
  refine ⟨btl_runs_switch le tvb pinfo tree b hb hcap hacc, ?_,
    no_wrong_switch le tvb tree b.val 10 hacc, no_wrong_btl le tvb pinfo tree⟩
  exact switch_eq le tvb tree b.val 10 hacc

/-- Worked instance of C4: a 12-octet buffer whose first octet is 69 (Nack). -/
theorem C4_dispatch_witness :
    (∃ pre post,
      (dissect_mpi_btl true (tvb_of [69, 1, 2, 3, 4, 5, 6, 7, 8, 9, 10, 11] (by decide))
          pinfo_btl false).log
        = pre ++ (dissect_mpi_switch true
            (tvb_of [69, 1, 2, 3, 4, 5, 6, 7, 8, 9, 10, 11] (by decide)) false
            (69 : Byte).val 10).log ++ post)
    ∧ dissect_mpi_switch true (tvb_of [69, 1, 2, 3, 4, 5, 6, 7, 8, 9, 10, 11] (by decide))
          false (69 : Byte).val 10
        = Res.ok 10 [Ev.notice Notice.not_implemented]
    ∧ no_wrong (dissect_mpi_btl true
        (tvb_of [69, 1, 2, 3, 4, 5, 6, 7, 8, 9, 10, 11] (by decide)) pinfo_btl false) :=
  have h := C4_dispatch true (tvb_of [69, 1, 2, 3, 4, 5, 6, 7, 8, 9, 10, 11] (by decide))
    pinfo_btl false 69 (by decide) (by decide) (by decide)
  ⟨h.1, h.2.1, h.2.2.2⟩

/-! ## Minimum-length guards -/

/-- C5, as stated for every entry offset, fails: with the entry offset 10 beyond
the end of a 5-octet buffer, fewer than the minimum number of octets remain,
yet the unsigned difference `length - offset` wraps around, the guard of each
decoder lets the call through, and the first fetch raises an exception
instead of the entry offset being returned. -/
theorem C5_offset_beyond_end :
    tvb_reported_length (tvb_of [1, 2, 3, 4, 5] (by decide)) - 10 < 12
    ∧ dissect_mpi_match true (tvb_of [1, 2, 3, 4, 5] (by decide)) false 10 = Res.exn []
    ∧ dissect_mpi_frag true (tvb_of [1, 2, 3, 4, 5] (by decide)) false 10 = Res.exn []
    ∧ dissect_mpi_ack true (tvb_of [1, 2, 3, 4, 5] (by decide)) false 10 = Res.exn []
    ∧ dissect_mpi_rdma true (tvb_of [1, 2, 3, 4, 5] (by decide)) false 10 = Res.exn []
    ∧ dissect_mpi_fin true (tvb_of [1, 2, 3, 4, 5] (by decide)) false 10 = Res.exn []
    ∧ dissect_mpi_rndvrestartnotify true (tvb_of [1, 2, 3, 4, 5] (by decide)) false 10
        = Res.exn []
    ∧ dissect_mpi_match true (tvb_of [1, 2, 3, 4, 5] (by decide)) false 10
        ≠ Res.ok 10 [] := by
  decide

/-- C5 (amended): for each of the Match (minimum 12), Fragment (24), Ack (24),
Rdma (52), Fin (12) and RendezvousRestartNotify (41) decoders, every buffer,
either endianness policy, with or without a tree, and every entry offset not
beyond the end of the buffer: if fewer than the minimum number of octets remain
after the offset, the decoder returns the entry offset unchanged and its log is
empty (no octet is read, nothing is decoded). -/
theorem C5_truncated (le : Bool) (tvb : tvbuff_t) (tree : Bool) (off : Nat)
    (hoff : off ≤ tvb_reported_length tvb) :
    (tvb_reported_length tvb - off < 12 →
      dissect_mpi_match le tvb tree off = Res.ok off [])
    ∧ (tvb_reported_length tvb - off < 24 →
      dissect_mpi_frag le tvb tree off = Res.ok off [])
    ∧ (tvb_reported_length tvb - off < 24 →
      dissect_mpi_ack le tvb tree off = Res.ok off [])
    ∧ (tvb_reported_length tvb - off < 52 →
      dissect_mpi_rdma le tvb tree off = Res.ok off [])
    ∧ (tvb_reported_length tvb - off < 12 →
      dissect_mpi_fin le tvb tree off = Res.ok off [])
    ∧ (tvb_reported_length tvb - off < 41 →
      dissect_mpi_rndvrestartnotify le tvb tree off = Res.ok off []) := by
  have hlt := tvb.reported_lt
  unfold tvb_reported_length at *
  have g : guint_sub tvb.reported_length off = tvb.reported_length - off :=
    guint_sub_eq hoff (by omega)
  refine ⟨?_, ?_, ?_, ?_, ?_, ?_⟩
  · intro h
    unfold dissect_mpi_match tvb_reported_length
    rw [if_pos (by rw [g]; omega)]; rfl
  · intro h
    unfold dissect_mpi_frag tvb_reported_length
    rw [if_pos (by rw [g]; omega)]; rfl
  · intro h
    unfold dissect_mpi_ack tvb_reported_length
    rw [if_pos (by rw [g]; omega)]; rfl
  · intro h
    unfold dissect_mpi_rdma tvb_reported_length
    rw [if_pos (by rw [g]; omega)]; rfl
  · intro h
    unfold dissect_mpi_fin tvb_reported_length
    rw [if_pos (by rw [g]; omega)]; rfl
  · intro h
    unfold dissect_mpi_rndvrestartnotify tvb_reported_length
    rw [if_pos (by rw [g]; omega)]; rfl

/-- Worked instance of C5: on an 11-octet buffer entered at offset 0 all six
decoders return 0 with an empty log. -/
theorem C5_truncated_witness :
    dissect_mpi_match true (tvb_of [1, 2, 3, 4, 5, 6, 7, 8, 9, 10, 11] (by decide)) true 0
      = Res.ok 0 []
    ∧ dissect_mpi_frag true (tvb_of [1, 2, 3, 4, 5, 6, 7, 8, 9, 10, 11] (by decide)) true 0
      = Res.ok 0 []
    ∧ dissect_mpi_ack true (tvb_of [1, 2, 3, 4, 5, 6, 7, 8, 9, 10, 11] (by decide)) true 0
      = Res.ok 0 []
    ∧ dissect_mpi_rdma true (tvb_of [1, 2, 3, 4, 5, 6, 7, 8, 9, 10, 11] (by decide)) true 0
      = Res.ok 0 []
    ∧ dissect_mpi_fin true (tvb_of [1, 2, 3, 4, 5, 6, 7, 8, 9, 10, 11] (by decide)) true 0
      = Res.ok 0 []
    ∧ dissect_mpi_rndvrestartnotify true
        (tvb_of [1, 2, 3, 4, 5, 6, 7, 8, 9, 10, 11] (by decide)) true 0
      = Res.ok 0 [] :=
  have h := C5_truncated true (tvb_of [1, 2, 3, 4, 5, 6, 7, 8, 9, 10, 11] (by decide)) true 0
    (by decide)
  ⟨h.1 (by decide), h.2.1 (by decide), h.2.2.1 (by decide), h.2.2.2.1 (by decide),
    h.2.2.2.2.1 (by decide), h.2.2.2.2.2 (by decide)⟩

/-! ## The Match decoder -/

theorem le_value_eq_zero_iff (l : List Byte) : le_value l = 0 ↔ ∀ b ∈ l, b = 0 := by
  induction l with
  | nil => simp [le_value]
  | cons x xs ih =>
    simp only [le_value, List.mem_cons, forall_eq_or_imp]
    constructor
    · intro h
      have h1 : x.val = 0 := by omega
      have h2 : le_value xs = 0 := by omega
      exact ⟨Fin.ext h1, ih.mp h2⟩
    · rintro ⟨h1, h2⟩
      have := ih.mpr h2
      subst h1
      simp [this]

theorem match_run (le : Bool) (tvb : tvbuff_t) (tree : Bool) (off : Nat)
    (hfull : tvb_captured_length tvb = tvb_reported_length tvb)
    (h12 : off + 12 ≤ tvb_reported_length tvb) :
    ∃ lg,
      dissect_mpi_match le tvb tree off
        = Res.ok (if match_reads_padding tvb off ∧
            (tree = true → tvb_value le tvb (off + 12) 2 = 0) then off + 14 else off + 12) lg
      ∧ hdrs lg = [Hdr.match_hdr (tvb_value le tvb off 2)
          (gint32_of (tvb_value le tvb (off + 2) 4))
          (gint32_of (tvb_value le tvb (off + 6) 4))
          (tvb_value le tvb (off + 10) 2)
          (if match_reads_padding tvb off then tvb_value le tvb (off + 12) 2 else 1)]
      ∧ reads lg = [(off, 2), (off + 2, 4), (off + 6, 4), (off + 10, 2)]
          ++ (if off + 14 ≤ tvb_reported_length tvb ∧
                tvb_reported_length tvb - (off + 12) = 4 then [(off + 12, 4)] else [])
          ++ (if match_reads_padding tvb off then [(off + 12, 2)] else []) := by
  have hlt := tvb.reported_lt
  unfold tvb_captured_length tvb_reported_length at *
  unfold dissect_mpi_match match_reads_padding tvb_value
  have g : guint_sub tvb.reported_length off = tvb.reported_length - off :=
    guint_sub_eq (by omega) (by omega)
  simp only [tvb_reported_length, ← le_value_eq_zero_iff]
  rw [if_neg (by rw [g]; omega)]
  cases le <;>
  simp (disch := omega) only [tvb_get_ntohs, tvb_get_ntohl, tvb_get_letohl, tvb_get_letohs,
    Bool.false_eq_true, if_false, if_true, tvb_fetch_ok, guint_add_eq, guint_sub_eq,
    Res.bind_eq, Res.bind_ok, Res.pure_eq, Res.prepend_ok, Res.prepend_prepend, Res.emit_eq,
    Res.prepend_nil, List.append_nil, List.nil_append,
    proto_tree_add_item, proto_tree_add_subtree, Nat.add_assoc, Nat.reduceAdd, ↓reduceIte]
  all_goals
    by_cases h14 : off + 14 ≤ tvb.reported_length <;>
    by_cases h4 : tvb.reported_length - (off + 12) = 4 <;>
    by_cases hz : le_value (List.take 4 (List.drop (off + 12) tvb.data)) = 0 <;>
    cases tree <;>
    simp (disch := omega) only [h14, h4, hz, if_pos, if_neg, Bool.false_eq_true, if_false, if_true,
      Res.bind_ok, Res.prepend_ok, Res.prepend_prepend, Res.prepend_nil, List.append_nil,
      List.nil_append, ↓reduceIte, decide_True, decide_False, Bool.not_false, Bool.not_true,
      false_and, and_false, true_and, and_true, not_true_eq_false, not_false_eq_true,
      false_implies, true_implies, and_self,
      eq_comm (a := 4) (b := tvb.reported_length - (off + 12)),
      eq_comm (a := 0) (b := le_value (List.take 4 (List.drop (off + 12) tvb.data))),
      eq_comm (a := 0) (b := le_value (List.take 2 (List.drop (off + 12) tvb.data))),
      eq_comm (a := 0) (b := be_value (List.take 2 (List.drop (off + 12) tvb.data)))]
  all_goals first
    | omega
    | exact ⟨_, rfl, by simp, by simp⟩
    | (split_ifs <;> first | omega | exact ⟨_, rfl, by simp, by simp⟩)

theorem le_value_lt (l : List Byte) : le_value l < 256 ^ l.length := by
  induction l with
  | nil => simp [le_value]
  | cons x xs ih =>
    have hx := x.isLt
    simp only [le_value, List.length_cons, pow_succ]
    omega

theorem le_bytes_le_value (l : List Byte) : le_bytes l.length (le_value l) = l := by
  induction l with
  | nil => rfl
  | cons x xs ih =>
    have hx := x.isLt
    simp only [List.length_cons, le_value, le_bytes]
    have h1 : (x.val + 256 * le_value xs) % 256 = x.val := by omega
    have h2 : (x.val + 256 * le_value xs) / 256 = le_value xs := by omega
    congr 1
    · exact Fin.ext h1
    · rw [h2]; exact ih

theorem be_value_eq (l : List Byte) : be_value l = le_value l.reverse := by
  unfold be_value
  rw [← List.foldr_reverse]
  generalize l.reverse = r
  induction r with
  | nil => rfl
  | cons x xs ih => simp only [List.foldr_cons, le_value, ih]; omega

theorem be_bytes_be_value (l : List Byte) : be_bytes l.length (be_value l) = l := by
  unfold be_bytes
  rw [be_value_eq, ← List.length_reverse l, le_bytes_le_value, List.reverse_reverse]

theorem gint32_of_mod (v : Nat) (hv : v < 4294967296) :
    (gint32_of v % 4294967296).toNat = v := by
  unfold gint32_of
  split <;> omega

theorem encode_uint_value (le : Bool) (l : List Byte) :
    encode_uint le l.length (if le then le_value l else be_value l) = l := by
  cases le
  · simp [encode_uint, be_bytes_be_value]
  · simp [encode_uint, le_bytes_le_value]


theorem take12_split (d : List Byte) (off : Nat) :
    (d.drop off).take 12 = (d.drop off).take 2 ++ (d.drop (off + 2)).take 4
      ++ (d.drop (off + 6)).take 4 ++ (d.drop (off + 10)).take 2 := by
  have e1 : d.drop (off + 2) = (d.drop off).drop 2 := by rw [List.drop_drop]
  have e2 : d.drop (off + 6) = (d.drop off).drop 6 := by rw [List.drop_drop]
  have e3 : d.drop (off + 10) = (d.drop off).drop 10 := by rw [List.drop_drop]
  rw [e1, e2, e3]
  generalize d.drop off = r
  have a1 : r.take 12 = r.take 2 ++ (r.drop 2).take 10 := List.take_add r 2 10
  have a2 : (r.drop 2).take 10 = (r.drop 2).take 4 ++ ((r.drop 2).drop 4).take 6 :=
    List.take_add (r.drop 2) 4 6
  have a3 : ((r.drop 2).drop 4).take 6
      = ((r.drop 2).drop 4).take 4 ++ (((r.drop 2).drop 4).drop 4).take 2 :=
    List.take_add ((r.drop 2).drop 4) 4 2
  rw [a1, a2, a3]
  simp only [List.drop_drop, List.append_assoc]

theorem length_take_drop (d : List Byte) (off n : Nat) (h : off + n ≤ d.length) :
    ((d.drop off).take n).length = n := by
  simp only [List.length_take, List.length_drop]; omega

theorem encode_tvb_value (le : Bool) (tvb : tvbuff_t) (off n : Nat)
    (h : off + n ≤ tvb.data.length) :
    encode_uint le n (tvb_value le tvb off n) = (tvb.data.drop off).take n := by
  have hl := length_take_drop tvb.data off n h
  have := encode_uint_value le ((tvb.data.drop off).take n)
  rw [hl] at this
  unfold tvb_value
  exact this

theorem tvb_value_lt (le : Bool) (tvb : tvbuff_t) (off n : Nat)
    (h : off + n ≤ tvb.data.length) : tvb_value le tvb off n < 256 ^ n := by
  have hl := length_take_drop tvb.data off n h
  unfold tvb_value
  split
  · have := le_value_lt ((tvb.data.drop off).take n); rwa [hl] at this
  · rw [be_value_eq]
    have := le_value_lt ((tvb.data.drop off).take n).reverse
    rwa [List.length_reverse, hl] at this

theorem encode_int32_tvb_value (le : Bool) (tvb : tvbuff_t) (off : Nat)
    (h : off + 4 ≤ tvb.data.length) :
    encode_int32 le (gint32_of (tvb_value le tvb off 4)) = (tvb.data.drop off).take 4 := by
  unfold encode_int32
  rw [gint32_of_mod _ (by have := tvb_value_lt le tvb off 4 h; omega)]
  exact encode_tvb_value le tvb off 4 h

/-- C7: for every fully captured buffer with at least 12 octets remaining at the
offset, either endianness policy, with or without a tree: the Match decoder
reports exactly one header, and re-encoding its four fields `ctx:u16, src:i32,
tag:i32, seq:u16` in that order under the same policy yields exactly the 12
octets `buffer[offset .. offset+12)`. -/
theorem C7_match_roundtrip (le : Bool) (tvb : tvbuff_t) (tree : Bool) (off : Nat)
    (hfull : tvb_captured_length tvb = tvb_reported_length tvb)
    (h12 : off + 12 ≤ tvb_reported_length tvb) :
    ∃ ctx src tag seq pad,
      hdrs (dissect_mpi_match le tvb tree off).log = [Hdr.match_hdr ctx src tag seq pad]
      ∧ encode_match le ctx src tag seq = (tvb.data.drop off).take 12 := by
  obtain ⟨lg, hrun, hh, _⟩ := match_run le tvb tree off hfull h12
  unfold tvb_captured_length tvb_reported_length at *
  refine ⟨_, _, _, _, _, by rw [hrun]; exact hh, ?_⟩
  unfold encode_match
  rw [encode_tvb_value le tvb off 2 (by omega),
    encode_int32_tvb_value le tvb (off + 2) (by omega),
    encode_int32_tvb_value le tvb (off + 6) (by omega),
    encode_tvb_value le tvb (off + 10) 2 (by omega), take12_split]

/-- Worked instance of C7: a big-endian Match header with a negative tag, entered
at offset 2 of a 16-octet buffer. -/
theorem C7_match_roundtrip_witness :
    ∃ ctx src tag seq pad,
      hdrs (dissect_mpi_match false
          (tvb_of [9, 9, 0, 1, 0, 0, 0, 2, 255, 255, 255, 240, 0, 7, 0, 0] (by decide))
          false 2).log = [Hdr.match_hdr ctx src tag seq pad]
      ∧ encode_match false ctx src tag seq
        = [0, 1, 0, 0, 0, 2, 255, 255, 255, 240, 0, 7] :=
  C7_match_roundtrip false
    (tvb_of [9, 9, 0, 1, 0, 0, 0, 2, 255, 255, 255, 240, 0, 7, 0, 0] (by decide)) false 2
    (by decide) (by decide)

/-- C8, as stated, fails when a detail tree is built: on a 14-octet buffer whose
2 octets after `seq` are 01 00, at least 2 octets remain after `seq` and the
remainder is not 4 zero octets, yet with a tree the Match decoder returns
offset+12, not offset+14. -/
theorem C8_tree_nonzero_padding :
    match_reads_padding (tvb_of [1, 0, 2, 0, 0, 0, 3, 0, 0, 0, 4, 0, 1, 0] (by decide)) 0
    ∧ (dissect_mpi_match true
        (tvb_of [1, 0, 2, 0, 0, 0, 3, 0, 0, 0, 4, 0, 1, 0] (by decide)) true 0).value
      = some 12
    ∧ (dissect_mpi_match true
        (tvb_of [1, 0, 2, 0, 0, 0, 3, 0, 0, 0, 4, 0, 1, 0] (by decide)) false 0).value
      = some 14 := by
  decide

/-- C8 (amended): for every fully captured buffer with at least 12 octets
remaining at the offset, the Match decoder fetches the 2 octets after `seq` as
padding if and only if at least 2 octets remain after `seq` and the remainder
is not exactly 4 octets that are all zero. It returns offset+14 if and only if
that holds and, when a detail tree is built, the 2 octets are moreover zero; in
every other case it returns offset+12. -/
theorem C8_match_padding (le : Bool) (tvb : tvbuff_t) (tree : Bool) (off : Nat)
    (hfull : tvb_captured_length tvb = tvb_reported_length tvb)
    (h12 : off + 12 ≤ tvb_reported_length tvb) :
    (dissect_mpi_match le tvb tree off).value
      = some (if match_reads_padding tvb off ∧
          (tree = true → tvb_value le tvb (off + 12) 2 = 0) then off + 14 else off + 12)
    ∧ ((off + 12, 2) ∈ reads (dissect_mpi_match le tvb tree off).log
        ↔ match_reads_padding tvb off) := by
  obtain ⟨lg, hrun, _, hr⟩ := match_run le tvb tree off hfull h12
  rw [hrun]
  refine ⟨rfl, ?_⟩
  rw [Res.log_ok, hr]
  by_cases hp : match_reads_padding tvb off
  · simp [hp]
  · simp only [hp, if_false, List.append_nil, iff_false]
    split <;> simp

set_option maxRecDepth 8000 in
/-- Worked instance of C8: without a tree, a 16-octet buffer whose 4 trailing
octets are zero yields offset+12. -/
theorem C8_match_padding_witness :
    (dissect_mpi_match true
        (tvb_of [1, 0, 2, 0, 0, 0, 3, 0, 0, 0, 4, 0, 0, 0, 0, 0] (by decide)) false 0).value
      = some 12 :=
  (C8_match_padding true
    (tvb_of [1, 0, 2, 0, 0, 0, 3, 0, 0, 0, 4, 0, 0, 0, 0, 0] (by decide)) false 0
    (by decide) (by decide)).1.trans (by decide)

/-! ## The composite decoders Rendezvous and RendezvousGet -/

theorem match_guard (le : Bool) (tvb : tvbuff_t) (tree : Bool) (off : Nat)
    (hg : 12 > guint_sub (tvb_reported_length tvb) off) :
    dissect_mpi_match le tvb tree off = Res.ok off [] := by
  unfold dissect_mpi_match
  rw [if_pos hg]; rfl

set_option maxHeartbeats 1000000 in
theorem rndv_run (le : Bool) (tvb : tvbuff_t) (tree : Bool) (off p : Nat) (lg : List Ev)
    (hfull : tvb_captured_length tvb = tvb_reported_length tvb)
    (hm : dissect_mpi_match le tvb tree off = Res.ok p lg)
    (hE : 16 ≤ tvb_reported_length tvb - p) :
    ∃ lg',
      dissect_mpi_rndv le tvb tree off
        = Res.ok (if 25 ≤ tvb_reported_length tvb - p then p + 25 else p + 16) (lg ++ lg')
      ∧ hdrs lg' = [Hdr.rndv (tvb_value le tvb p 8) (tvb_value le tvb (p + 8) 8)
          (if 25 ≤ tvb_reported_length tvb - p then
            some (tvb_value le tvb (p + 16) 8, tvb_value true tvb (p + 24) 1) else none)]
      ∧ reads lg' = [(p, 8), (p + 8, 8)]
          ++ (if 25 ≤ tvb_reported_length tvb - p then [(p + 16, 8), (p + 24, 1)] else []) := by
  have hlt := tvb.reported_lt
  by_cases hg : 12 > guint_sub (tvb_reported_length tvb) off
  · exfalso
    rw [match_guard le tvb tree off hg] at hm
    injection hm with h1 h2
    subst h1
    unfold tvb_reported_length at *
    rw [guint_sub_eq (by omega) (by omega)] at hg
    omega
  · unfold tvb_captured_length tvb_reported_length at *
    unfold dissect_mpi_rndv tvb_value
    simp only [tvb_reported_length]
    rw [if_neg hg]
    simp only [Res.bind_eq, hm, Res.bind_ok]
    have g : guint_sub tvb.reported_length p = tvb.reported_length - p :=
      guint_sub_eq (by omega) (by omega)
    rw [if_neg (by rw [g]; omega)]
    cases le <;>
    simp (disch := omega) only [tvb_get_ntoh64, tvb_get_letoh64, tvb_get_guint8,
      Bool.false_eq_true, if_false, if_true, tvb_fetch_ok, guint_add_eq, guint_sub_eq,
      Res.bind_eq, Res.bind_ok, Res.pure_eq, Res.prepend_ok, Res.prepend_prepend, Res.emit_eq,
      Res.prepend_nil, List.append_nil, List.nil_append,
      proto_tree_add_item, proto_tree_add_subtree, Nat.add_assoc, Nat.reduceAdd, ↓reduceIte]
    all_goals
      by_cases h25 : 25 ≤ tvb.reported_length - p <;>
      cases tree <;>
      simp (disch := omega) only [h25, if_pos, if_neg, Bool.false_eq_true, if_false, if_true,
        tvb_fetch_ok, guint_add_eq, Nat.add_assoc, Nat.reduceAdd,
        Res.bind_ok, Res.prepend_ok, Res.prepend_prepend, Res.prepend_nil, List.append_nil,
        List.nil_append, ↓reduceIte, Res.pure_eq, Res.bind_eq]
    all_goals exact ⟨_, rfl, by simp, by simp⟩

theorem rndv_guard (le : Bool) (tvb : tvbuff_t) (tree : Bool) (off : Nat)
    (hg : 12 > guint_sub (tvb_reported_length tvb) off) :
    dissect_mpi_rndv le tvb tree off = Res.ok off [] := by
  unfold dissect_mpi_rndv
  rw [if_pos hg]; rfl

theorem rget_guard (le : Bool) (tvb : tvbuff_t) (tree : Bool) (off : Nat)
    (hg : 28 > guint_sub (tvb_reported_length tvb) off) :
    dissect_mpi_rget le tvb tree off = Res.ok off [] := by
  unfold dissect_mpi_rget
  rw [if_pos hg]; rfl

/-- With 12 to 27 octets remaining the Rendezvous decoder is the Match decoder:
it stops after the Match part. -/
theorem rndv_short (le : Bool) (tvb : tvbuff_t) (tree : Bool) (off : Nat)
    (hfull : tvb_captured_length tvb = tvb_reported_length tvb)
    (h12 : off + 12 ≤ tvb_reported_length tvb)
    (h28 : tvb_reported_length tvb < off + 28) :
    ∃ p lg, dissect_mpi_match le tvb tree off = Res.ok p lg
      ∧ (p = off + 12 ∨ p = off + 14)
      ∧ dissect_mpi_rndv le tvb tree off = Res.ok p lg := by
  have hlt := tvb.reported_lt
  obtain ⟨lg, hrun, _, _⟩ := match_run le tvb tree off hfull h12
  have hp : (if match_reads_padding tvb off ∧
      (tree = true → tvb_value le tvb (off + 12) 2 = 0) then off + 14 else off + 12)
        = off + 12 ∨
      ((if match_reads_padding tvb off ∧
      (tree = true → tvb_value le tvb (off + 12) 2 = 0) then off + 14 else off + 12)
        = off + 14 ∧ off + 14 ≤ tvb_reported_length tvb) := by
    by_cases hc : match_reads_padding tvb off ∧
        (tree = true → tvb_value le tvb (off + 12) 2 = 0)
    · right; rw [if_pos hc]; exact ⟨rfl, hc.1.1⟩
    · left; rw [if_neg hc]
  generalize (if match_reads_padding tvb off ∧
      (tree = true → tvb_value le tvb (off + 12) 2 = 0) then off + 14 else off + 12) = p
    at hrun hp
  refine ⟨p, lg, hrun, by omega, ?_⟩
  unfold tvb_reported_length at *
  have g : guint_sub tvb.reported_length off = tvb.reported_length - off :=
    guint_sub_eq (by omega) (by omega)
  have g' : guint_sub tvb.reported_length p = tvb.reported_length - p :=
    guint_sub_eq (by omega) (by omega)
  unfold dissect_mpi_rndv
  simp only [tvb_reported_length]
  rw [if_neg (by rw [g]; omega)]
  simp only [Res.bind_eq, hrun, Res.bind_ok]
  rw [if_pos (by rw [g']; omega)]
  simp

/-- C6, as stated, fails: with 20 octets remaining (fewer than 28) the Rendezvous
decoder decodes the leading Match part and returns entry+14, and with 30
octets remaining (fewer than 40) the RendezvousGet decoder decodes the Match
and Rendezvous parts and returns entry+30; neither returns the entry offset. -/
theorem C6_partial_decode :
    (dissect_mpi_rndv true
        (tvb_of [1, 0, 2, 0, 0, 0, 3, 0, 0, 0, 4, 0, 0, 0, 5, 0, 0, 0, 6, 0] (by decide))
        false 0).value = some 14
    ∧ hdrs (dissect_mpi_rndv true
        (tvb_of [1, 0, 2, 0, 0, 0, 3, 0, 0, 0, 4, 0, 0, 0, 5, 0, 0, 0, 6, 0] (by decide))
        false 0).log = [Hdr.match_hdr 1 2 3 4 0]
    ∧ (dissect_mpi_rget true
        (tvb_of [1, 0, 2, 0, 0, 0, 3, 0, 0, 0, 4, 0, 0, 0, 5, 0, 0, 0, 6, 0, 0, 0,
          7, 0, 0, 0, 8, 0, 0, 0] (by decide))
        false 0).value = some 30
    ∧ hdrs (dissect_mpi_rget true
        (tvb_of [1, 0, 2, 0, 0, 0, 3, 0, 0, 0, 4, 0, 0, 0, 5, 0, 0, 0, 6, 0, 0, 0,
          7, 0, 0, 0, 8, 0, 0, 0] (by decide))
        false 0).log = [Hdr.match_hdr 1 2 3 4 0, Hdr.rndv 25769803781 34359738375 none] := by
  decide

/-- C6 (amended): for every fully captured buffer and every entry offset not
beyond its end: if fewer than 12 octets remain at entry to the Rendezvous
decoder, or fewer than 28 octets remain at entry to the RendezvousGet decoder,
the decoder returns the entry offset unchanged with an empty log (nothing read,
nothing decoded). With 12 to 27 octets remaining at entry, the Rendezvous
decoder runs the leading Match part only: it returns the offset after the
Match part (entry+12 or entry+14) with the log of the Match decoder. -/
theorem C6_composite_guards (le : Bool) (tvb : tvbuff_t) (tree : Bool) (off : Nat)
    (hfull : tvb_captured_length tvb = tvb_reported_length tvb)
    (hoff : off ≤ tvb_reported_length tvb) :
    (tvb_reported_length tvb - off < 12 →
      dissect_mpi_rndv le tvb tree off = Res.ok off [])
    ∧ (tvb_reported_length tvb - off < 28 →
      dissect_mpi_rget le tvb tree off = Res.ok off [])
    ∧ (12 ≤ tvb_reported_length tvb - off → tvb_reported_length tvb - off < 28 →
      ∃ p lg, dissect_mpi_match le tvb tree off = Res.ok p lg
        ∧ (p = off + 12 ∨ p = off + 14)
        ∧ dissect_mpi_rndv le tvb tree off = Res.ok p lg) := by
  have hlt := tvb.reported_lt
  have g : guint_sub (tvb_reported_length tvb) off = tvb_reported_length tvb - off := by
    unfold tvb_reported_length at *
    exact guint_sub_eq hoff (by omega)
  refine ⟨?_, ?_, ?_⟩
  · intro h
    exact rndv_guard le tvb tree off (by rw [g]; omega)
  · intro h
    exact rget_guard le tvb tree off (by rw [g]; omega)
  · intro h1 h2
    exact rndv_short le tvb tree off hfull (by omega) (by omega)

/-- Worked instance of C6: 11 octets for Rendezvous, 27 octets for RendezvousGet,
and 20 octets for the Rendezvous decoder stopping after the Match part. -/
theorem C6_composite_guards_witness :
    dissect_mpi_rget true
        (tvb_of [1, 0, 2, 0, 0, 0, 3, 0, 0, 0, 4, 0, 0, 0, 5, 0, 0, 0, 6, 0] (by decide))
        true 0 = Res.ok 0 []
    ∧ ∃ p lg, dissect_mpi_match true
          (tvb_of [1, 0, 2, 0, 0, 0, 3, 0, 0, 0, 4, 0, 0, 0, 5, 0, 0, 0, 6, 0] (by decide))
          true 0 = Res.ok p lg
        ∧ (p = 0 + 12 ∨ p = 0 + 14)
        ∧ dissect_mpi_rndv true
          (tvb_of [1, 0, 2, 0, 0, 0, 3, 0, 0, 0, 4, 0, 0, 0, 5, 0, 0, 0, 6, 0] (by decide))
          true 0 = Res.ok p lg :=
  have h := C6_composite_guards true
    (tvb_of [1, 0, 2, 0, 0, 0, 3, 0, 0, 0, 4, 0, 0, 0, 5, 0, 0, 0, 6, 0] (by decide)) true 0
    (by decide) (by decide)
  ⟨h.2.1 (by decide), h.2.2 (by decide) (by decide)⟩

/-- C9: let `p` be the offset returned by the Match part inside the Rendezvous
decoder, with the buffer fully captured and at least 16 octets remaining after
`p`. Then the decoder fetches `msg_len` as the u64 at `p` and `src_request` as
the u64 at `p+8`; if at least 25 octets remain after `p` it produces the
extended variant, with `dst_request` the u64 at `p+16` and `restart_seq` the
octet at `p+24`, and returns `p+25`; otherwise (16 to 24 octets remaining) it
produces the non-extended variant and returns `p+16`. -/
theorem C9_rndv_extension (le : Bool) (tvb : tvbuff_t) (tree : Bool) (off p : Nat)
    (lg : List Ev)
    (hfull : tvb_captured_length tvb = tvb_reported_length tvb)
    (hm : dissect_mpi_match le tvb tree off = Res.ok p lg)
    (hE : 16 ≤ tvb_reported_length tvb - p) :
    ∃ lg',
      dissect_mpi_rndv le tvb tree off
        = Res.ok (if 25 ≤ tvb_reported_length tvb - p then p + 25 else p + 16) (lg ++ lg')
      ∧ hdrs lg' = [Hdr.rndv (tvb_value le tvb p 8) (tvb_value le tvb (p + 8) 8)
          (if 25 ≤ tvb_reported_length tvb - p then
            some (tvb_value le tvb (p + 16) 8, tvb_value true tvb (p + 24) 1) else none)]
      ∧ reads lg' = [(p, 8), (p + 8, 8)]
          ++ (if 25 ≤ tvb_reported_length tvb - p then [(p + 16, 8), (p + 24, 1)]
              else []) :=
  rndv_run le tvb tree off p lg hfull hm hE

/-- Worked instance of C9: exactly 16 octets after a Match header with padding
(30 octets in all) give the non-extended variant and the offset 30. -/
theorem C9_rndv_extension_witness :
    (dissect_mpi_rndv true
        (tvb_of [1, 0, 2, 0, 0, 0, 3, 0, 0, 0, 4, 0, 0, 0, 5, 0, 0, 0, 6, 0, 0, 0,
          7, 0, 0, 0, 8, 0, 0, 0] (by decide))
        false 0).value = some 30 := by
  obtain ⟨lg', h, _, _⟩ := C9_rndv_extension true
    (tvb_of [1, 0, 2, 0, 0, 0, 3, 0, 0, 0, 4, 0, 0, 0, 5, 0, 0, 0, 6, 0, 0, 0,
      7, 0, 0, 0, 8, 0, 0, 0] (by decide))
    false 0 14
    [Ev.read 0 2, Ev.read 2 4, Ev.read 6 4, Ev.read 10 2, Ev.read 12 2,
      Ev.hdr (Hdr.match_hdr 1 2 3 4 0)]
    (by decide) (by decide) (by decide)
  rw [h]
  rfl

/-! ## The Fin decoder with an embedded Match header -/

/-- C10 fails on the code for 24 remaining octets: the Fin decoder (little
endian, no tree) entered with exactly 24 octets remaining runs the embedded
Match decoder, which takes 14 octets (it fetches the 2 octets after `seq` as
padding), so only 10 octets are left for `fail:u32` and `descriptor:u64`, and
the fetch of the second descriptor half at entry+22 raises an out-of-bounds
exception; the same happens through `dissect_mpi` on the 34-octet packet with
base type 73. With 26 octets remaining the fields are decoded inside the
buffer, as the source comment "12 bytes (14 with padding) + 12 fin header"
intends for both lengths. -/
theorem C10_fin_24_out_of_bounds :
    dissect_mpi_fin true
        (tvb_of [1, 0, 2, 0, 0, 0, 3, 0, 0, 0, 4, 0, 9, 9, 5, 0, 0, 0, 6, 0, 0, 0, 7, 0]
          (by decide)) false 0
      = Res.exn [Ev.read 0 2, Ev.read 2 4, Ev.read 6 4, Ev.read 10 2, Ev.read 12 2,
          Ev.hdr (Hdr.match_hdr 1 2 3 4 2313), Ev.read 14 4, Ev.read 18 4]
    ∧ (dissect_mpi sample_oob sample_sync true
        (tvb_of [73, 1, 0, 0, 0, 0, 0, 0, 73, 0,
          1, 0, 2, 0, 0, 0, 3, 0, 0, 0, 4, 0, 9, 9, 5, 0, 0, 0, 6, 0, 0, 0, 7, 0]
          (by decide)) pinfo_btl false []).1.value = none
    ∧ (dissect_mpi_fin true
        (tvb_of [1, 0, 2, 0, 0, 0, 3, 0, 0, 0, 4, 0, 9, 9, 5, 0, 0, 0, 6, 0, 0, 0, 7, 0,
          8, 8] (by decide)) false 0).value = some 26 := by
  decide

/-! ## Facts about the spans fetched in a run -/

theorem reads_sat_ok {α : Type} (P : Nat × Nat → Prop) (a : α) (l : List Ev)
    (h : ∀ x ∈ reads l, P x) : reads_sat P (Res.ok a l) := h

theorem reads_sat_ok_nil {α : Type} (P : Nat × Nat → Prop) (a : α) :
    reads_sat P (Res.ok a []) := by
  intro x hx; simp [reads] at hx

theorem reads_sat_bind {α β : Type} {P : Nat × Nat → Prop} {m : Res α} {f : α → Res β}
    (hm : reads_sat P m) (hf : ∀ a, reads_sat P (f a)) : reads_sat P (m.bind f) := by
  unfold reads_sat at *
  cases m with
  | exn l => exact hm
  | ok a l =>
    have h2 := hf a
    simp only [Res.bind_ok]
    cases hfa : f a with
    | ok b l' =>
      rw [hfa] at h2
      simp only [Res.prepend_ok, Res.log_ok, reads_append, List.mem_append] at hm h2 ⊢
      intro x hx
      rcases hx with hx | hx
      · exact hm x hx
      · exact h2 x hx
    | exn l' =>
      rw [hfa] at h2
      simp only [Res.prepend_exn, Res.log_ok, Res.log_exn, reads_append, List.mem_append]
        at hm h2 ⊢
      intro x hx
      rcases hx with hx | hx
      · exact hm x hx
      · exact h2 x hx

theorem reads_sat_ite {α : Type} {P : Nat × Nat → Prop} (c : Prop) [Decidable c]
    {t e : Res α} (ht : reads_sat P t) (he : reads_sat P e) :
    reads_sat P (if c then t else e) := by
  split <;> assumption

theorem reads_sat_fetch {P : Nat × Nat → Prop} (tvb : tvbuff_t) (o n : Nat)
    (h : o + n ≤ tvb.data.length → P (o, n)) : reads_sat P (tvb_fetch tvb o n) := by
  unfold tvb_fetch reads_sat
  split
  · intro x hx
    simp [reads] at hx
    rw [hx]; exact h (by assumption)
  · intro x hx; simp [reads] at hx

theorem reads_sat_item (P : Nat × Nat → Prop) (tree : Bool) (hf : String) (tvb : tvbuff_t)
    (o n : Nat) : reads_sat P (proto_tree_add_item tree hf tvb o n) := by
  unfold proto_tree_add_item reads_sat
  split <;> cases tree <;> simp [reads]

theorem reads_sat_subtree (P : Nat × Nat → Prop) (e : String) :
    reads_sat P (proto_tree_add_subtree e) := by
  simp [proto_tree_add_subtree, reads_sat, reads]

theorem reads_sat_emit_hdr (P : Nat × Nat → Prop) (h : Hdr) :
    reads_sat P (Res.emit (Ev.hdr h)) := by
  simp [reads_sat, reads]

theorem reads_sat_emit_summary (P : Nat × Nat → Prop) (a b c : Nat) :
    reads_sat P (Res.emit (Ev.summary a b c)) := by
  simp [reads_sat, reads]

theorem reads_sat_emit_notice (P : Nat × Nat → Prop) (n : Notice) :
    reads_sat P (Res.emit (Ev.notice n)) := by
  simp [reads_sat, reads]

theorem Res.bind_assoc {α β γ : Type} (m : Res α) (f : α → Res β) (g : β → Res γ) :
    (m.bind f).bind g = m.bind (fun a => (f a).bind g) := by
  cases m with
  | exn l => rfl
  | ok a l =>
    simp only [Res.bind_ok]
    cases f a with
    | ok b l' =>
      simp only [Res.prepend_ok, Res.bind_ok, Res.prepend_prepend]
    | exn l' => rfl

theorem log_bind_sat {α β : Type} (P : Nat × Nat → Prop) (m : Res α) (f : α → Res β)
    (hf : ∀ a, reads_sat P (f a)) :
    ∃ post, (m.bind f).log = m.log ++ post ∧ ∀ x ∈ reads post, P x := by
  cases m with
  | exn l => exact ⟨[], by simp, by simp⟩
  | ok a l =>
    have h2 := hf a
    unfold reads_sat at h2
    cases h : f a with
    | ok b l' => rw [h] at h2; exact ⟨l', by simp [h], h2⟩
    | exn l' => rw [h] at h2; exact ⟨l', by simp [h], h2⟩

theorem log_bind_bind_sat {α β γ : Type} (P : Nat × Nat → Prop) (m : Res α)
    (f : α → Res β) (g : β → Res γ)
    (hf : ∀ a, reads_sat P (f a)) (hg : ∀ b, reads_sat P (g b)) :
    ∃ post, ((m.bind f).bind g).log = m.log ++ post ∧ ∀ x ∈ reads post, P x := by
  rw [Res.bind_assoc]
  exact log_bind_sat P m _ (fun a => reads_sat_bind (hf a) hg)

theorem log_prepend_bind_eq {α β : Type} (l : List Ev) (m : Res α) (f : α → Res β) :
    ∃ post, (Res.prepend l (m.bind f)).log = l ++ m.log ++ post := by
  obtain ⟨post, hp⟩ := log_bind m f
  exact ⟨post, by rw [log_prepend, hp, List.append_assoc]⟩

theorem log_bind_prepend_bind {α β γ : Type} (l : List Ev) (m : Res α) (f : α → Res β)
    (g : β → Res γ) :
    ∃ post, ((Res.prepend l (m.bind f)).bind g).log = l ++ m.log ++ post := by
  obtain ⟨p1, h1⟩ := log_bind (Res.prepend l (m.bind f)) g
  obtain ⟨p2, h2⟩ := log_prepend_bind_eq l m f
  exact ⟨p2 ++ p1, by rw [h1, h2, List.append_assoc]⟩

/-! ## The Fin decoder: padding and layout -/

set_option maxHeartbeats 1000000 in
theorem fin_run (le : Bool) (tvb : tvbuff_t) (tree : Bool) (off : Nat)
    (hfull : tvb_captured_length tvb = tvb_reported_length tvb)
    (hoff : off ≤ tvb_reported_length tvb)
    (hR : 12 ≤ tvb_reported_length tvb - off) :
    (tvb_reported_length tvb - off ≠ 14 → tvb_reported_length tvb - off ≠ 24 →
      tvb_reported_length tvb - off ≠ 26 → tvb_reported_length tvb - off ≠ 28 →
      ∃ lg, dissect_mpi_fin le tvb tree off = Res.ok (off + 12) lg
        ∧ reads lg = [(off, 4), (off + 4, 4), (off + 8, 4), (off + 4, 8)]
        ∧ hdrs lg = [Hdr.fin 1 (tvb_value le tvb off 4) (tvb_value le tvb (off + 4) 4)
            (tvb_value le tvb (off + 8) 4) (tvb_value le tvb (off + 4) 8)])
    ∧ (tvb_reported_length tvb - off = 14 →
      ∃ lg, dissect_mpi_fin le tvb tree off
          = Res.ok (if tree = true → tvb_value le tvb off 2 = 0 then off + 14 else off + 12) lg
        ∧ reads lg = [(off, 2), (off + 2, 4), (off + 6, 4), (off + 10, 4), (off + 6, 8)]
        ∧ hdrs lg = [Hdr.fin (tvb_value le tvb off 2) (tvb_value le tvb (off + 2) 4)
            (tvb_value le tvb (off + 6) 4) (tvb_value le tvb (off + 10) 4)
            (tvb_value le tvb (off + 6) 8)])
    ∧ (tvb_reported_length tvb - off = 28 →
      ∃ post, (dissect_mpi_fin le tvb tree off).log
        = [Ev.read off 2] ++ (dissect_mpi_match le tvb tree (off + 2)).log ++ post)
    ∧ (tvb_reported_length tvb - off = 24 ∨ tvb_reported_length tvb - off = 26 →
      ∃ post, (dissect_mpi_fin le tvb tree off).log
        = (dissect_mpi_match le tvb tree off).log ++ post
        ∧ ∀ x ∈ reads post, x.2 = 4 ∨ x.2 = 8) := by
  have hlt := tvb.reported_lt
  unfold tvb_captured_length tvb_reported_length at *
  have g : guint_sub tvb.reported_length off = tvb.reported_length - off :=
    guint_sub_eq (by omega) (by omega)
  unfold dissect_mpi_fin tvb_value
  simp only [tvb_reported_length]
  rw [if_neg (by rw [g]; omega)]
  refine ⟨?_, ?_, ?_, ?_⟩
  · intro h14 h24 h26 h28
    cases le <;> cases tree <;>
    simp (disch := omega) only [tvb_get_ntohs, tvb_get_ntohl, tvb_get_letohl, tvb_get_letohs,
      tvb_get_letoh64, tvb_get_ntoh64,
      Bool.false_eq_true, if_false, if_true, tvb_fetch_ok, guint_add_eq, guint_sub_eq,
      Res.bind_eq, Res.bind_ok, Res.pure_eq, Res.prepend_ok, Res.prepend_prepend, Res.emit_eq,
      Res.prepend_nil, List.append_nil, List.nil_append, if_pos, if_neg,
      proto_tree_add_item, proto_tree_add_subtree, Nat.add_assoc, Nat.reduceAdd, ↓reduceIte,
      g, eq_comm (a := 14) (b := tvb.reported_length - off),
      eq_comm (a := 28) (b := tvb.reported_length - off),
      eq_comm (a := 26) (b := tvb.reported_length - off),
      eq_comm (a := 24) (b := tvb.reported_length - off), h14, h24, h26, h28, or_self,
      OfNat.zero_ne_ofNat, OfNat.ofNat_ne_zero, Nat.zero_ne_one]
    all_goals exact ⟨_, rfl, by simp, by simp⟩
  · intro h14
    have e : tvb.reported_length - (off + 2) = 12 := by omega
    cases le <;> cases tree <;>
    simp (disch := omega) only [tvb_get_ntohs, tvb_get_ntohl, tvb_get_letohl, tvb_get_letohs,
      tvb_get_letoh64, tvb_get_ntoh64,
      Bool.false_eq_true, if_false, if_true, tvb_fetch_ok, guint_add_eq, guint_sub_eq,
      Res.bind_eq, Res.bind_ok, Res.pure_eq, Res.prepend_ok, Res.prepend_prepend, Res.emit_eq,
      Res.prepend_nil, List.append_nil, List.nil_append, if_pos, if_neg,
      proto_tree_add_item, proto_tree_add_subtree, Nat.add_assoc, Nat.reduceAdd, ↓reduceIte,
      g, h14, e, true_or, or_self, Nat.reduceEqDiff, false_implies, true_implies,
      eq_comm (a := 0) (b := le_value (List.take 2 (List.drop off tvb.data))),
      eq_comm (a := 0) (b := be_value (List.take 2 (List.drop off tvb.data)))]
    all_goals first
      | exact ⟨_, rfl, by simp, by simp⟩
      | (split_ifs <;>
          simp (disch := omega) only [Res.bind_ok, Res.prepend_ok, Res.prepend_prepend,
            Res.prepend_nil, List.append_nil, List.nil_append, if_pos, guint_add_eq,
            Nat.add_assoc, Nat.reduceAdd] <;>
          exact ⟨_, rfl, by simp, by simp⟩)
  · intro h28
    have e : tvb.reported_length - (off + 2) = 26 := by omega
    cases le <;>
    simp (disch := omega) only [tvb_get_ntohs, tvb_get_letohs,
      Bool.false_eq_true, if_false, if_true, tvb_fetch_ok, guint_add_eq, guint_sub_eq,
      Res.bind_eq, Res.bind_ok, Res.pure_eq, Res.prepend_ok, Res.prepend_prepend, Res.emit_eq,
      Res.prepend_nil, List.append_nil, List.nil_append, if_pos, if_neg,
      Nat.add_assoc, Nat.reduceAdd, ↓reduceIte,
      g, h28, e, true_or, or_true, or_self, Nat.reduceEqDiff]
    all_goals exact log_bind_prepend_bind _ _ _ _
  · intro h
    have e : (26 = tvb.reported_length - off ∨ 24 = tvb.reported_length - off) := by omega
    have e14 : ¬ (14 = tvb.reported_length - off ∨ 28 = tvb.reported_length - off) := by omega
    cases le <;>
    simp (disch := omega) only [tvb_get_ntohl, tvb_get_letohl, tvb_get_letoh64, tvb_get_ntoh64,
      Bool.false_eq_true, if_false, if_true,
      Res.bind_eq, Res.bind_ok, Res.pure_eq, Res.prepend_nil, if_pos, if_neg,
      ↓reduceIte, g, e, e14]
    all_goals
      refine log_bind_bind_sat _ _ _ _ ?_ ?_ <;>
      repeat' first
        | with_reducible exact reads_sat_ok_nil _ _
        | with_reducible exact reads_sat_item _ _ _ _ _ _
        | with_reducible exact reads_sat_subtree _ _
        | with_reducible exact reads_sat_emit_hdr _ _
        | with_reducible exact reads_sat_fetch _ _ 4 (fun _ => Or.inl rfl)
        | with_reducible exact reads_sat_fetch _ _ 8 (fun _ => Or.inr rfl)
        | with_reducible apply reads_sat_ite
        | with_reducible apply reads_sat_bind
        | intro x

/-- C11: for every fully captured buffer with `R ≥ 12` octets remaining at entry
to the Fin decoder (either policy, with or without a tree), the 2 padding
octets at the entry offset are fetched if and only if `R` is 14 or 28:
* when `R` is none of 14, 24, 26, 28 the fetches are exactly `fail` (u32 at
  entry), the two descriptor halves (u32 at entry+4 and entry+8) and the
  descriptor (u64 at entry+4), and the decoder returns entry+12;
* when `R = 14` the padding (u16 at entry) is fetched first, then `fail` at
  entry+2 and the descriptor at entry+6;
* when `R = 28` the padding (u16 at entry) is fetched first and the embedded
  Match decoder then runs at entry+2;
* when `R` is 24 or 26 the run starts with the embedded Match decoder at the
  entry offset, and every fetch after the Match part has 4 or 8 octets, so no
  2-octet padding is fetched. -/
theorem C11_fin_padding (le : Bool) (tvb : tvbuff_t) (tree : Bool) (off : Nat)
    (hfull : tvb_captured_length tvb = tvb_reported_length tvb)
    (hoff : off ≤ tvb_reported_length tvb)
    (hR : 12 ≤ tvb_reported_length tvb - off) :
    (tvb_reported_length tvb - off ≠ 14 → tvb_reported_length tvb - off ≠ 24 →
      tvb_reported_length tvb - off ≠ 26 → tvb_reported_length tvb - off ≠ 28 →
      ∃ lg, dissect_mpi_fin le tvb tree off = Res.ok (off + 12) lg
        ∧ reads lg = [(off, 4), (off + 4, 4), (off + 8, 4), (off + 4, 8)]
        ∧ hdrs lg = [Hdr.fin 1 (tvb_value le tvb off 4) (tvb_value le tvb (off + 4) 4)
            (tvb_value le tvb (off + 8) 4) (tvb_value le tvb (off + 4) 8)])
    ∧ (tvb_reported_length tvb - off = 14 →
      ∃ lg, dissect_mpi_fin le tvb tree off
          = Res.ok (if tree = true → tvb_value le tvb off 2 = 0 then off + 14 else off + 12) lg
        ∧ reads lg = [(off, 2), (off + 2, 4), (off + 6, 4), (off + 10, 4), (off + 6, 8)]
        ∧ hdrs lg = [Hdr.fin (tvb_value le tvb off 2) (tvb_value le tvb (off + 2) 4)
            (tvb_value le tvb (off + 6) 4) (tvb_value le tvb (off + 10) 4)
            (tvb_value le tvb (off + 6) 8)])
    ∧ (tvb_reported_length tvb - off = 28 →
      ∃ post, (dissect_mpi_fin le tvb tree off).log
        = [Ev.read off 2] ++ (dissect_mpi_match le tvb tree (off + 2)).log ++ post)
    ∧ (tvb_reported_length tvb - off = 24 ∨ tvb_reported_length tvb - off = 26 →
      ∃ post, (dissect_mpi_fin le tvb tree off).log
        = (dissect_mpi_match le tvb tree off).log ++ post
        ∧ ∀ x ∈ reads post, x.2 = 4 ∨ x.2 = 8) :=
  fin_run le tvb tree off hfull hoff hR

/-- Worked instance of C11: 14 octets, little endian, no tree: padding 0 at 0,
`fail` 5 at 2, descriptor halves 6 and 7 at 6 and 10. -/
theorem C11_fin_padding_witness :
    ∃ lg, dissect_mpi_fin true
          (tvb_of [0, 0, 5, 0, 0, 0, 6, 0, 0, 0, 7, 0, 0, 0] (by decide)) false 0
        = Res.ok 14 lg
      ∧ reads lg = [(0, 2), (2, 4), (6, 4), (10, 4), (6, 8)]
      ∧ hdrs lg = [Hdr.fin 0 5 6 7 30064771078] := by
  obtain ⟨lg, h, hr, hh⟩ := (C11_fin_padding true
    (tvb_of [0, 0, 5, 0, 0, 0, 6, 0, 0, 0, 7, 0, 0, 0] (by decide)) false 0
    (by decide) (by decide) (by decide)).2.1 (by decide)
  exact ⟨lg, h, hr, hh⟩

/-! ## The RendezvousRestartNotify decoder -/

/-- C12 fails on the code for exactly 41 remaining octets: the decoder (either
policy, no tree) passes its guard `41 > remaining`, the Match part takes 14
octets (it fetches the 2 octets after `seq` as padding), `restart_seq` is the
octet at entry+14, and the remaining 26 octets do not hold the 28 octets of
`src_request`, `dst_request`, `dst_rank`, `job_id`, `process_id`: the fetch
of `process_id` at entry+39 raises an out-of-bounds exception and no
RendezvousRestartNotify values are reported. The same happens through
`dissect_mpi` on the 51-octet packet with base type 74. With 43 octets the
decode completes. The source comment "minimum match header (12 bytes) +
restart header (29 bytes)" states the intent of the guard. -/
theorem C12_restartnotify_41_out_of_bounds :
    dissect_mpi_rndvrestartnotify true
        (tvb_of [1, 0, 2, 0, 0, 0, 3, 0, 0, 0, 4, 0, 5, 6, 0, 0, 0, 0, 0, 0, 0,
          7, 0, 0, 0, 0, 0, 0, 0, 8, 0, 0, 0, 9, 0, 0, 0, 10, 0, 0, 0] (by decide))
        false 0
      = Res.exn [Ev.read 0 2, Ev.read 2 4, Ev.read 6 4, Ev.read 10 2, Ev.read 12 2,
          Ev.hdr (Hdr.match_hdr 1 2 3 4 1541), Ev.read 14 1, Ev.read 15 8, Ev.read 23 8,
          Ev.read 31 4, Ev.read 35 4]
    ∧ (dissect_mpi_rndvrestartnotify false
        (tvb_of [0, 1, 0, 0, 0, 2, 0, 0, 0, 3, 0, 4, 5, 0, 0, 0, 0, 0, 0, 0, 6,
          0, 0, 0, 0, 0, 0, 0, 7, 0, 0, 0, 8, 0, 0, 0, 9, 0, 0, 0, 10] (by decide))
        false 0).value = none
    ∧ (dissect_mpi sample_oob sample_sync true
        (tvb_of [74, 1, 0, 0, 0, 0, 0, 0, 74, 0,
          1, 0, 2, 0, 0, 0, 3, 0, 0, 0, 4, 0, 5, 6, 0, 0, 0, 0, 0, 0, 0,
          7, 0, 0, 0, 0, 0, 0, 0, 8, 0, 0, 0, 9, 0, 0, 0, 10, 0, 0, 0] (by decide))
        pinfo_btl false []).1.value = none
    ∧ (dissect_mpi_rndvrestartnotify true
        (tvb_of [1, 0, 2, 0, 0, 0, 3, 0, 0, 0, 4, 0, 5, 6, 0, 0, 0, 0, 0, 0, 0,
          7, 0, 0, 0, 0, 0, 0, 0, 8, 0, 0, 0, 9, 0, 0, 0, 10, 0, 0, 0, 0, 0] (by decide))
        false 0).value = some 43 := by
  decide

/-- C13 fails on the code: the zero test after `restart_seq` is made on the 6
octets fetched by `tvb_get_letoh48` / `tvb_get_ntoh48`, not on the 3 padding
octets. In the first buffer (46 octets, little endian, no tree) 31 octets remain
after `restart_seq` (the octet 5 at 14), the 3 padding octets at 15..17 are
zero and `src_request` is 6 (octets 18..25): the padding is not skipped,
`src_request` is decoded at 15 as 100663296 and the decoder returns 43. In the
second buffer the first 3 octets of `src_request` are zero as well: only then
is the padding skipped, `src_request` decoded at 18 and 46 returned. -/
theorem C13_restartnotify_padding_test :
    dissect_mpi_rndvrestartnotify true
        (tvb_of [1, 0, 2, 0, 0, 0, 3, 0, 0, 0, 4, 0, 0, 0, 5, 0, 0, 0,
          6, 0, 0, 0, 0, 0, 0, 0, 7, 0, 0, 0, 0, 0, 0, 0, 8, 0, 0, 0, 9, 0, 0, 0,
          10, 0, 0, 0] (by decide))
        false 0
      = Res.ok 43 [Ev.read 0 2, Ev.read 2 4, Ev.read 6 4, Ev.read 10 2, Ev.read 12 2,
          Ev.hdr (Hdr.match_hdr 1 2 3 4 0), Ev.read 14 1, Ev.read 15 6, Ev.read 15 8,
          Ev.read 23 8, Ev.read 31 4, Ev.read 35 4, Ev.read 39 4,
          Ev.hdr (Hdr.rndvrestartnotify 100663296 5 100663296 117440512 134217728
            150994944 167772160)]
    ∧ dissect_mpi_rndvrestartnotify true
        (tvb_of [1, 0, 2, 0, 0, 0, 3, 0, 0, 0, 4, 0, 0, 0, 5, 0, 0, 0,
          0, 0, 0, 6, 0, 0, 0, 0, 7, 0, 0, 0, 0, 0, 0, 0, 8, 0, 0, 0, 9, 0, 0, 0,
          10, 0, 0, 0] (by decide))
        false 0
      = Res.ok 46 [Ev.read 0 2, Ev.read 2 4, Ev.read 6 4, Ev.read 10 2, Ev.read 12 2,
          Ev.hdr (Hdr.match_hdr 1 2 3 4 0), Ev.read 14 1, Ev.read 15 6, Ev.read 18 8,
          Ev.read 26 8, Ev.read 34 4, Ev.read 38 4, Ev.read 42 4,
          Ev.hdr (Hdr.rndvrestartnotify 0 5 100663296 7 8 9 10)] := by
  decide

/-! ## The RendezvousGet decoder -/

theorem rndv_of_match_short (le : Bool) (tvb : tvbuff_t) (tree : Bool) (off p : Nat)
    (lg : List Ev)
    (hm : dissect_mpi_match le tvb tree off = Res.ok p lg)
    (hp : p ≤ tvb_reported_length tvb) (hE : tvb_reported_length tvb - p < 16) :
    dissect_mpi_rndv le tvb tree off = Res.ok p lg := by
  have hlt := tvb.reported_lt
  by_cases hg : 12 > guint_sub (tvb_reported_length tvb) off
  · rw [match_guard le tvb tree off hg] at hm
    rw [rndv_guard le tvb tree off hg]
    exact hm
  · unfold tvb_reported_length at *
    have g' : guint_sub tvb.reported_length p = tvb.reported_length - p :=
      guint_sub_eq (by omega) (by omega)
    unfold dissect_mpi_rndv
    simp only [tvb_reported_length]
    rw [if_neg hg]
    simp only [Res.bind_eq, hm, Res.bind_ok]
    rw [if_pos (by rw [g']; omega)]
    simp

theorem rget_of_rndv_short (le : Bool) (tvb : tvbuff_t) (tree : Bool) (off p : Nat)
    (lg : List Ev)
    (hm : dissect_mpi_rndv le tvb tree off = Res.ok p lg)
    (hg : ¬ 28 > guint_sub (tvb_reported_length tvb) off)
    (hp : p ≤ tvb_reported_length tvb) (hE : tvb_reported_length tvb - p < 12) :
    dissect_mpi_rget le tvb tree off = Res.ok p lg := by
  have hlt := tvb.reported_lt
  unfold tvb_reported_length at *
  have g' : guint_sub tvb.reported_length p = tvb.reported_length - p :=
    guint_sub_eq (by omega) (by omega)
  unfold dissect_mpi_rget
  simp only [tvb_reported_length]
  rw [if_neg hg]
  simp only [Res.bind_eq, hm, Res.bind_ok]
  rw [if_pos (by rw [g']; omega)]
  simp

set_option maxHeartbeats 1000000 in
theorem rget_run (le : Bool) (tvb : tvbuff_t) (tree : Bool) (off p : Nat) (lg : List Ev)
    (hfull : tvb_captured_length tvb = tvb_reported_length tvb)
    (hg : ¬ 28 > guint_sub (tvb_reported_length tvb) off)
    (hm : dissect_mpi_rndv le tvb tree off = Res.ok p lg)
    (hE : 12 ≤ tvb_reported_length tvb - p) :
    ∃ lg',
      dissect_mpi_rget le tvb tree off
        = Res.ok (if 16 ≤ tvb_reported_length tvb - p ∧
            (tree = true → tvb_value le tvb (p + 4) 4 = 0) then p + 16 else p + 12) (lg ++ lg')
      ∧ hdrs lg' = [Hdr.rget (tvb_value le tvb p 4)
          (if 16 ≤ tvb_reported_length tvb - p then tvb_value le tvb (p + 4) 4 else 1)
          (tvb_value le tvb (if 16 ≤ tvb_reported_length tvb - p then p + 8 else p + 4) 8)]
      ∧ reads lg' = [(p, 4)]
          ++ (if 16 ≤ tvb_reported_length tvb - p then [(p + 4, 4)] else [])
          ++ [(if 16 ≤ tvb_reported_length tvb - p then p + 8 else p + 4, 8)] := by
  have hlt := tvb.reported_lt
  unfold tvb_captured_length tvb_reported_length at *
  unfold dissect_mpi_rget tvb_value
  simp only [tvb_reported_length]
  rw [if_neg hg]
  simp only [Res.bind_eq, hm, Res.bind_ok]
  have g : guint_sub tvb.reported_length p = tvb.reported_length - p :=
    guint_sub_eq (by omega) (by omega)
  rw [if_neg (by rw [g]; omega)]
  by_cases h16 : 16 ≤ tvb.reported_length - p
  · have e : 12 ≤ tvb.reported_length - (p + 4) := by omega
    cases le <;> cases tree <;>
    simp (disch := omega) only [tvb_get_ntohl, tvb_get_letohl, tvb_get_letoh64, tvb_get_ntoh64,
      Bool.false_eq_true, if_false, if_true, tvb_fetch_ok, guint_add_eq, guint_sub_eq,
      Res.bind_eq, Res.bind_ok, Res.pure_eq, Res.prepend_ok, Res.prepend_prepend, Res.emit_eq,
      Res.prepend_nil, List.append_nil, List.nil_append, if_pos, if_neg,
      proto_tree_add_item, proto_tree_add_subtree, Nat.add_assoc, Nat.reduceAdd, ↓reduceIte,
      h16, e, ge_iff_le, true_and, false_implies, true_implies,
      eq_comm (a := 0) (b := le_value (List.take 4 (List.drop (p + 4) tvb.data))),
      eq_comm (a := 0) (b := be_value (List.take 4 (List.drop (p + 4) tvb.data)))]
    all_goals first
      | exact ⟨_, rfl, by simp, by simp⟩
      | (split_ifs <;>
          simp (disch := omega) only [Res.bind_ok, Res.prepend_ok, Res.prepend_prepend,
            Res.prepend_nil, List.append_nil, List.nil_append, if_pos, guint_add_eq,
            Nat.add_assoc, Nat.reduceAdd, List.append_assoc] <;>
          exact ⟨_, rfl, by simp, by simp⟩)
  · have e : ¬ 12 ≤ tvb.reported_length - (p + 4) := by omega
    cases le <;> cases tree <;>
    simp (disch := omega) only [tvb_get_ntohl, tvb_get_letohl, tvb_get_letoh64, tvb_get_ntoh64,
      Bool.false_eq_true, if_false, if_true, tvb_fetch_ok, guint_add_eq, guint_sub_eq,
      Res.bind_eq, Res.bind_ok, Res.pure_eq, Res.prepend_ok, Res.prepend_prepend, Res.emit_eq,
      Res.prepend_nil, List.append_nil, List.nil_append, if_pos, if_neg,
      proto_tree_add_item, proto_tree_add_subtree, Nat.add_assoc, Nat.reduceAdd, ↓reduceIte,
      h16, e, ge_iff_le, false_and, OfNat.zero_ne_ofNat, Nat.zero_ne_one]
    all_goals exact ⟨_, rfl, by simp, by simp⟩

/-- C14: inside the RendezvousGet decoder (at least 28 octets remaining at
entry, so that the Rendezvous part runs), let `p` be the offset returned by the
Rendezvous part, with the buffer fully captured and at least 12 octets
remaining after `p`. Then `seg_count` is the u32 at `p`; the 4 octets after it
are fetched and skipped as padding if and only if at least 16 octets remain
after `p`; and `src_descriptor` is the u64 at `p+8` when the padding is skipped
and at `p+4` otherwise. The decoder returns `p+16` when the padding is skipped
(with a tree: only if moreover the padding value is zero) and `p+12`
otherwise. -/
theorem C14_rget_padding (le : Bool) (tvb : tvbuff_t) (tree : Bool) (off p : Nat)
    (lg : List Ev)
    (hfull : tvb_captured_length tvb = tvb_reported_length tvb)
    (hoff : off ≤ tvb_reported_length tvb)
    (h28 : 28 ≤ tvb_reported_length tvb - off)
    (hm : dissect_mpi_rndv le tvb tree off = Res.ok p lg)
    (hE : 12 ≤ tvb_reported_length tvb - p) :
    ∃ lg',
      dissect_mpi_rget le tvb tree off
        = Res.ok (if 16 ≤ tvb_reported_length tvb - p ∧
            (tree = true → tvb_value le tvb (p + 4) 4 = 0) then p + 16 else p + 12) (lg ++ lg')
      ∧ hdrs lg' = [Hdr.rget (tvb_value le tvb p 4)
          (if 16 ≤ tvb_reported_length tvb - p then tvb_value le tvb (p + 4) 4 else 1)
          (tvb_value le tvb (if 16 ≤ tvb_reported_length tvb - p then p + 8 else p + 4) 8)]
      ∧ reads lg' = [(p, 4)]
          ++ (if 16 ≤ tvb_reported_length tvb - p then [(p + 4, 4)] else [])
          ++ [(if 16 ≤ tvb_reported_length tvb - p then p + 8 else p + 4, 8)] := by
  have hlt := tvb.reported_lt
  have hg : ¬ 28 > guint_sub (tvb_reported_length tvb) off := by
    unfold tvb_reported_length at *
    rw [guint_sub_eq hoff (by omega)]
    omega
  exact rget_run le tvb tree off p lg hfull hg hm hE

/-- Worked instance of C14: 51 octets, the Rendezvous part returns 39 and exactly
12 octets remain: `seg_count` 9 at 39, no padding, `src_descriptor` 10 at 43. -/
theorem C14_rget_padding_witness :
    ∃ lg', dissect_mpi_rget true
        (tvb_of [1, 0, 2, 0, 0, 0, 3, 0, 0, 0, 4, 0, 0, 0,
          5, 0, 0, 0, 0, 0, 0, 0, 6, 0, 0, 0, 0, 0, 0, 0, 7, 0, 0, 0, 0, 0, 0, 0, 8,
          9, 0, 0, 0, 10, 0, 0, 0, 0, 0, 0, 0] (by decide)) false 0
        = Res.ok 51 ([Ev.read 0 2, Ev.read 2 4, Ev.read 6 4, Ev.read 10 2, Ev.read 12 2,
            Ev.hdr (Hdr.match_hdr 1 2 3 4 0), Ev.read 14 8, Ev.read 22 8, Ev.read 30 8,
            Ev.read 38 1, Ev.hdr (Hdr.rndv 5 6 (some (7, 8)))] ++ lg')
      ∧ hdrs lg' = [Hdr.rget 9 1 10]
      ∧ reads lg' = [(39, 4), (43, 8)] := by
  obtain ⟨lg', h, hh, hr⟩ := C14_rget_padding true
    (tvb_of [1, 0, 2, 0, 0, 0, 3, 0, 0, 0, 4, 0, 0, 0,
      5, 0, 0, 0, 0, 0, 0, 0, 6, 0, 0, 0, 0, 0, 0, 0, 7, 0, 0, 0, 0, 0, 0, 0, 8,
      9, 0, 0, 0, 10, 0, 0, 0, 0, 0, 0, 0] (by decide)) false 0 39
    [Ev.read 0 2, Ev.read 2 4, Ev.read 6 4, Ev.read 10 2, Ev.read 12 2,
      Ev.hdr (Hdr.match_hdr 1 2 3 4 0), Ev.read 14 8, Ev.read 22 8, Ev.read 30 8,
      Ev.read 38 1, Ev.hdr (Hdr.rndv 5 6 (some (7, 8)))]
    (by decide) (by decide) (by decide) (by decide) (by decide)
  exact ⟨lg', h, hh, hr⟩

/-! ## The Fragment and Ack decoders -/

set_option maxHeartbeats 1000000 in
theorem frag_run (le : Bool) (tvb : tvbuff_t) (tree : Bool) (off : Nat)
    (hfull : tvb_captured_length tvb = tvb_reported_length tvb)
    (hoff : off ≤ tvb_reported_length tvb)
    (hR : 24 ≤ tvb_reported_length tvb - off) :
    ∃ lg,
      dissect_mpi_frag le tvb tree off
        = Res.ok (if 30 ≤ tvb_reported_length tvb - off ∧
            (tree = true → tvb_value le tvb off 6 = 0) then off + 30 else off + 24) lg
      ∧ hdrs lg = [Hdr.frag
          (if 30 ≤ tvb_reported_length tvb - off then tvb_value le tvb off 6 else 1)
          (tvb_value le tvb (if 30 ≤ tvb_reported_length tvb - off then off + 6 else off) 8)
          (tvb_value le tvb (if 30 ≤ tvb_reported_length tvb - off then off + 14 else off + 8) 8)
          (tvb_value le tvb
            (if 30 ≤ tvb_reported_length tvb - off then off + 22 else off + 16) 8)]
      ∧ reads lg = (if 30 ≤ tvb_reported_length tvb - off then [(off, 6)] else [])
          ++ [(if 30 ≤ tvb_reported_length tvb - off then off + 6 else off, 8),
              (if 30 ≤ tvb_reported_length tvb - off then off + 14 else off + 8, 8),
              (if 30 ≤ tvb_reported_length tvb - off then off + 22 else off + 16, 8)] := by
  have hlt := tvb.reported_lt
  unfold tvb_captured_length tvb_reported_length at *
  have g : guint_sub tvb.reported_length off = tvb.reported_length - off :=
    guint_sub_eq (by omega) (by omega)
  unfold dissect_mpi_frag tvb_value
  simp only [tvb_reported_length]
  rw [if_neg (by rw [g]; omega)]
  by_cases h30 : 30 ≤ tvb.reported_length - off
  · cases le <;> cases tree <;>
    simp (disch := omega) only [tvb_get_letoh48, tvb_get_ntoh48, tvb_get_letoh64, tvb_get_ntoh64,
      Bool.false_eq_true, if_false, if_true, tvb_fetch_ok, guint_add_eq, guint_sub_eq,
      Res.bind_eq, Res.bind_ok, Res.pure_eq, Res.prepend_ok, Res.prepend_prepend, Res.emit_eq,
      Res.prepend_nil, List.append_nil, List.nil_append, if_pos, if_neg,
      proto_tree_add_item, proto_tree_add_subtree, Nat.add_assoc, Nat.reduceAdd, ↓reduceIte,
      g, h30, ge_iff_le, true_and, false_implies, true_implies,
      eq_comm (a := 0) (b := le_value (List.take 6 (List.drop off tvb.data))),
      eq_comm (a := 0) (b := be_value (List.take 6 (List.drop off tvb.data)))]
    all_goals first
      | exact ⟨_, rfl, by simp, by simp⟩
      | (split_ifs <;>
          simp (disch := omega) only [Res.bind_ok, Res.prepend_ok, Res.prepend_prepend,
            Res.prepend_nil, List.append_nil, List.nil_append, if_pos, guint_add_eq,
            Nat.add_assoc, Nat.reduceAdd, List.append_assoc] <;>
          exact ⟨_, rfl, by simp, by simp⟩)
  · cases le <;> cases tree <;>
    simp (disch := omega) only [tvb_get_letoh48, tvb_get_ntoh48, tvb_get_letoh64, tvb_get_ntoh64,
      Bool.false_eq_true, if_false, if_true, tvb_fetch_ok, guint_add_eq, guint_sub_eq,
      Res.bind_eq, Res.bind_ok, Res.pure_eq, Res.prepend_ok, Res.prepend_prepend, Res.emit_eq,
      Res.prepend_nil, List.append_nil, List.nil_append, if_pos, if_neg,
      proto_tree_add_item, proto_tree_add_subtree, Nat.add_assoc, Nat.reduceAdd, ↓reduceIte,
      g, h30, ge_iff_le, false_and, OfNat.zero_ne_ofNat, Nat.zero_ne_one]
    all_goals exact ⟨_, rfl, by simp, by simp⟩

set_option maxHeartbeats 1000000 in
theorem ack_run (le : Bool) (tvb : tvbuff_t) (tree : Bool) (off : Nat)
    (hfull : tvb_captured_length tvb = tvb_reported_length tvb)
    (hoff : off ≤ tvb_reported_length tvb)
    (hR : 24 ≤ tvb_reported_length tvb - off) :
    ∃ lg,
      dissect_mpi_ack le tvb tree off
        = Res.ok (if 30 ≤ tvb_reported_length tvb - off ∧
            (tree = true → tvb_value le tvb off 6 = 0) then off + 30 else off + 24) lg
      ∧ hdrs lg = [Hdr.ack
          (if 30 ≤ tvb_reported_length tvb - off then tvb_value le tvb off 6 else 1)
          (tvb_value le tvb (if 30 ≤ tvb_reported_length tvb - off then off + 6 else off) 8)
          (tvb_value le tvb (if 30 ≤ tvb_reported_length tvb - off then off + 14 else off + 8) 8)
          (tvb_value le tvb
            (if 30 ≤ tvb_reported_length tvb - off then off + 22 else off + 16) 8)]
      ∧ reads lg = (if 30 ≤ tvb_reported_length tvb - off then [(off, 6)] else [])
          ++ [(if 30 ≤ tvb_reported_length tvb - off then off + 6 else off, 8),
              (if 30 ≤ tvb_reported_length tvb - off then off + 14 else off + 8, 8),
              (if 30 ≤ tvb_reported_length tvb - off then off + 22 else off + 16, 8)] := by
  have hlt := tvb.reported_lt
  unfold tvb_captured_length tvb_reported_length at *
  have g : guint_sub tvb.reported_length off = tvb.reported_length - off :=
    guint_sub_eq (by omega) (by omega)
  unfold dissect_mpi_ack tvb_value
  simp only [tvb_reported_length]
  rw [if_neg (by rw [g]; omega)]
  by_cases h30 : 30 ≤ tvb.reported_length - off
  · cases le <;> cases tree <;>
    simp (disch := omega) only [tvb_get_letoh48, tvb_get_ntoh48, tvb_get_letoh64, tvb_get_ntoh64,
      Bool.false_eq_true, if_false, if_true, tvb_fetch_ok, guint_add_eq, guint_sub_eq,
      Res.bind_eq, Res.bind_ok, Res.pure_eq, Res.prepend_ok, Res.prepend_prepend, Res.emit_eq,
      Res.prepend_nil, List.append_nil, List.nil_append, if_pos, if_neg,
      proto_tree_add_item, proto_tree_add_subtree, Nat.add_assoc, Nat.reduceAdd, ↓reduceIte,
      g, h30, ge_iff_le, true_and, false_implies, true_implies,
      eq_comm (a := 0) (b := le_value (List.take 6 (List.drop off tvb.data))),
      eq_comm (a := 0) (b := be_value (List.take 6 (List.drop off tvb.data)))]
    all_goals first
      | exact ⟨_, rfl, by simp, by simp⟩
      | (split_ifs <;>
          simp (disch := omega) only [Res.bind_ok, Res.prepend_ok, Res.prepend_prepend,
            Res.prepend_nil, List.append_nil, List.nil_append, if_pos, guint_add_eq,
            Nat.add_assoc, Nat.reduceAdd, List.append_assoc] <;>
          exact ⟨_, rfl, by simp, by simp⟩)
  · cases le <;> cases tree <;>
    simp (disch := omega) only [tvb_get_letoh48, tvb_get_ntoh48, tvb_get_letoh64, tvb_get_ntoh64,
      Bool.false_eq_true, if_false, if_true, tvb_fetch_ok, guint_add_eq, guint_sub_eq,
      Res.bind_eq, Res.bind_ok, Res.pure_eq, Res.prepend_ok, Res.prepend_prepend, Res.emit_eq,
      Res.prepend_nil, List.append_nil, List.nil_append, if_pos, if_neg,
      proto_tree_add_item, proto_tree_add_subtree, Nat.add_assoc, Nat.reduceAdd, ↓reduceIte,
      g, h30, ge_iff_le, false_and, OfNat.zero_ne_ofNat, Nat.zero_ne_one]
    all_goals exact ⟨_, rfl, by simp, by simp⟩

/-- C15: for each of the Fragment and Ack decoders, every fully captured buffer
with `R ≥ 24` octets remaining at the entry offset, either policy, with or
without a tree: the 6 octets at entry are fetched and skipped as padding if and
only if `R ≥ 30`; with `q` the position after the optional padding, the three
u64 values at `q`, `q+8`, `q+16` are decoded under the policy as
(`frag_offset`, `src_request`, `dst_request`) by Fragment and as
(`src_request`, `dst_request`, `send_offset`) by Ack. The decoder returns
entry+30 when the padding is skipped (with a tree: only if moreover the padding
value is zero) and entry+24 otherwise. -/
theorem C15_frag_ack_layout (le : Bool) (tvb : tvbuff_t) (tree : Bool) (off : Nat)
    (hfull : tvb_captured_length tvb = tvb_reported_length tvb)
    (hoff : off ≤ tvb_reported_length tvb)
    (hR : 24 ≤ tvb_reported_length tvb - off) :
    (∃ lg,
      dissect_mpi_frag le tvb tree off
        = Res.ok (if 30 ≤ tvb_reported_length tvb - off ∧
            (tree = true → tvb_value le tvb off 6 = 0) then off + 30 else off + 24) lg
      ∧ hdrs lg = [Hdr.frag
          (if 30 ≤ tvb_reported_length tvb - off then tvb_value le tvb off 6 else 1)
          (tvb_value le tvb (if 30 ≤ tvb_reported_length tvb - off then off + 6 else off) 8)
          (tvb_value le tvb (if 30 ≤ tvb_reported_length tvb - off then off + 14 else off + 8) 8)
          (tvb_value le tvb
            (if 30 ≤ tvb_reported_length tvb - off then off + 22 else off + 16) 8)]
      ∧ reads lg = (if 30 ≤ tvb_reported_length tvb - off then [(off, 6)] else [])
          ++ [(if 30 ≤ tvb_reported_length tvb - off then off + 6 else off, 8),
              (if 30 ≤ tvb_reported_length tvb - off then off + 14 else off + 8, 8),
              (if 30 ≤ tvb_reported_length tvb - off then off + 22 else off + 16, 8)])
    ∧ (∃ lg,
      dissect_mpi_ack le tvb tree off
        = Res.ok (if 30 ≤ tvb_reported_length tvb - off ∧
            (tree = true → tvb_value le tvb off 6 = 0) then off + 30 else off + 24) lg
      ∧ hdrs lg = [Hdr.ack
          (if 30 ≤ tvb_reported_length tvb - off then tvb_value le tvb off 6 else 1)
          (tvb_value le tvb (if 30 ≤ tvb_reported_length tvb - off then off + 6 else off) 8)
          (tvb_value le tvb (if 30 ≤ tvb_reported_length tvb - off then off + 14 else off + 8) 8)
          (tvb_value le tvb
            (if 30 ≤ tvb_reported_length tvb - off then off + 22 else off + 16) 8)]
      ∧ reads lg = (if 30 ≤ tvb_reported_length tvb - off then [(off, 6)] else [])
          ++ [(if 30 ≤ tvb_reported_length tvb - off then off + 6 else off, 8),
              (if 30 ≤ tvb_reported_length tvb - off then off + 14 else off + 8, 8),
              (if 30 ≤ tvb_reported_length tvb - off then off + 22 else off + 16, 8)]) :=
  ⟨frag_run le tvb tree off hfull hoff hR, ack_run le tvb tree off hfull hoff hR⟩

/-- Worked instance of C15: 24 octets, big endian, no tree: no padding, the
values 5, 6, 7 at 0, 8, 16, by the Fragment and by the Ack decoder. -/
theorem C15_frag_ack_layout_witness :
    (∃ lg, dissect_mpi_frag false
        (tvb_of [0, 0, 0, 0, 0, 0, 0, 5, 0, 0, 0, 0, 0, 0, 0, 6, 0, 0, 0, 0, 0, 0, 0, 7]
          (by decide)) false 0 = Res.ok 24 lg
      ∧ hdrs lg = [Hdr.frag 1 5 6 7] ∧ reads lg = [(0, 8), (8, 8), (16, 8)])
    ∧ (∃ lg, dissect_mpi_ack false
        (tvb_of [0, 0, 0, 0, 0, 0, 0, 5, 0, 0, 0, 0, 0, 0, 0, 6, 0, 0, 0, 0, 0, 0, 0, 7]
          (by decide)) false 0 = Res.ok 24 lg
      ∧ hdrs lg = [Hdr.ack 1 5 6 7] ∧ reads lg = [(0, 8), (8, 8), (16, 8)]) := by
  obtain ⟨⟨lg, h, hh, hr⟩, ⟨lg2, h2, hh2, hr2⟩⟩ := C15_frag_ack_layout false
    (tvb_of [0, 0, 0, 0, 0, 0, 0, 5, 0, 0, 0, 0, 0, 0, 0, 6, 0, 0, 0, 0, 0, 0, 0, 7]
      (by decide)) false 0 (by decide) (by decide) (by decide)
  exact ⟨⟨lg, h, hh, hr⟩, ⟨lg2, h2, hh2, hr2⟩⟩

/-! ## The Rdma decoder -/

set_option maxHeartbeats 2000000 in
theorem rdma_run (le : Bool) (tvb : tvbuff_t) (tree : Bool) (off : Nat)
    (hfull : tvb_captured_length tvb = tvb_reported_length tvb)
    (hoff : off ≤ tvb_reported_length tvb)
    (hR : 52 ≤ tvb_reported_length tvb - off) :
    ∃ lg,
      dissect_mpi_rdma le tvb tree off
        = Res.ok (if tree = true then
            (if 54 ≤ tvb_reported_length tvb - off ∧ tvb_value true tvb off 2 = 0
              then off + 50 else off + 48)
          else (if 54 ≤ tvb_reported_length tvb - off then off + 54 else off + 52)) lg
      ∧ hdrs lg = [Hdr.rdma
          (if 54 ≤ tvb_reported_length tvb - off then tvb_value true tvb off 2 else 1)
          (tvb_value le tvb (if 54 ≤ tvb_reported_length tvb - off then off + 2 else off) 4)
          (tvb_value le tvb (if 54 ≤ tvb_reported_length tvb - off then off + 30 else off + 28) 8)
          (tvb_value le tvb (if 54 ≤ tvb_reported_length tvb - off then off + 38 else off + 36) 8)
          (tvb_value le tvb
            (if 54 ≤ tvb_reported_length tvb - off then off + 46 else off + 44) 8)]
      ∧ reads lg = (if 54 ≤ tvb_reported_length tvb - off then [(off, 2)] else [])
          ++ [(if 54 ≤ tvb_reported_length tvb - off then off + 2 else off, 4),
              (if 54 ≤ tvb_reported_length tvb - off then off + 30 else off + 28, 8),
              (if 54 ≤ tvb_reported_length tvb - off then off + 38 else off + 36, 8),
              (if 54 ≤ tvb_reported_length tvb - off then off + 46 else off + 44, 8)] := by
  have hlt := tvb.reported_lt
  unfold tvb_captured_length tvb_reported_length at *
  have g : guint_sub tvb.reported_length off = tvb.reported_length - off :=
    guint_sub_eq (by omega) (by omega)
  unfold dissect_mpi_rdma tvb_value
  simp only [tvb_reported_length]
  rw [if_neg (by rw [g]; omega)]
  by_cases h54 : 54 ≤ tvb.reported_length - off
  · cases le <;> cases tree <;>
    simp (disch := omega) only [tvb_get_letohs, tvb_get_letohl, tvb_get_ntohl,
      tvb_get_letoh64, tvb_get_ntoh64,
      Bool.false_eq_true, if_false, if_true, tvb_fetch_ok, guint_add_eq, guint_sub_eq,
      Res.bind_eq, Res.bind_ok, Res.pure_eq, Res.prepend_ok, Res.prepend_prepend, Res.emit_eq,
      Res.prepend_nil, List.append_nil, List.nil_append, if_pos, if_neg,
      proto_tree_add_item, proto_tree_add_subtree, Nat.add_assoc, Nat.reduceAdd, ↓reduceIte,
      g, h54, ge_iff_le, true_and, false_implies, true_implies,
      eq_comm (a := 0) (b := le_value (List.take 2 (List.drop off tvb.data)))]
    all_goals first
      | exact ⟨_, rfl, by simp, by simp⟩
      | (split_ifs <;>
          simp (disch := omega) only [Res.bind_ok, Res.prepend_ok, Res.prepend_prepend,
            Res.prepend_nil, List.append_nil, List.nil_append, if_pos, guint_add_eq,
            Nat.add_assoc, Nat.reduceAdd, List.append_assoc] <;>
          exact ⟨_, rfl, by simp, by simp⟩)
  · cases le <;> cases tree <;>
    simp (disch := omega) only [tvb_get_letohs, tvb_get_letohl, tvb_get_ntohl,
      tvb_get_letoh64, tvb_get_ntoh64,
      Bool.false_eq_true, if_false, if_true, tvb_fetch_ok, guint_add_eq, guint_sub_eq,
      Res.bind_eq, Res.bind_ok, Res.pure_eq, Res.prepend_ok, Res.prepend_prepend, Res.emit_eq,
      Res.prepend_nil, List.append_nil, List.nil_append, if_pos, if_neg,
      proto_tree_add_item, proto_tree_add_subtree, Nat.add_assoc, Nat.reduceAdd, ↓reduceIte,
      g, h54, ge_iff_le, false_and, OfNat.zero_ne_ofNat, Nat.zero_ne_one]
    all_goals exact ⟨_, rfl, by simp, by simp⟩

/-- C16 fails on the code when a detail tree is built: on a buffer with exactly
52 octets remaining (no padding, so `q` is the entry offset 0) the decoder
fetches `seg_len` as the u64 at 44, yet adds the item `hf_mpi_rdma_hdr_seg_len`
with 4 octets and returns 48, not 52; through `dissect_mpi` (62-octet packet,
base type 72) the last 4 octets of `seg_len` are then surfaced as opaque data
at 58. Without a tree the same buffer gives 52. -/
theorem C16_rdma_tree_offset :
    dissect_mpi_rdma true
        (tvb_of [1, 0, 0, 0, 2, 0, 0, 0, 0, 0, 0, 0, 3, 0, 0, 0, 0, 0, 0, 0,
          4, 0, 0, 0, 0, 0, 0, 0, 5, 0, 0, 0, 0, 0, 0, 0, 6, 0, 0, 0, 0, 0, 0, 0,
          7, 0, 0, 0, 0, 0, 0, 0] (by decide)) false 0
      = Res.ok 52 [Ev.read 0 4, Ev.read 28 8, Ev.read 36 8, Ev.read 44 8,
          Ev.hdr (Hdr.rdma 1 1 5 6 7)]
    ∧ (dissect_mpi_rdma true
        (tvb_of [1, 0, 0, 0, 2, 0, 0, 0, 0, 0, 0, 0, 3, 0, 0, 0, 0, 0, 0, 0,
          4, 0, 0, 0, 0, 0, 0, 0, 5, 0, 0, 0, 0, 0, 0, 0, 6, 0, 0, 0, 0, 0, 0, 0,
          7, 0, 0, 0, 0, 0, 0, 0] (by decide)) true 0).value = some 48
    ∧ Ev.item "hf_mpi_rdma_hdr_seg_len" 44 4 ∈ (dissect_mpi_rdma true
        (tvb_of [1, 0, 0, 0, 2, 0, 0, 0, 0, 0, 0, 0, 3, 0, 0, 0, 0, 0, 0, 0,
          4, 0, 0, 0, 0, 0, 0, 0, 5, 0, 0, 0, 0, 0, 0, 0, 6, 0, 0, 0, 0, 0, 0, 0,
          7, 0, 0, 0, 0, 0, 0, 0] (by decide)) true 0).log
    ∧ Ev.item "hf_mpi_oob_data" 58 4 ∈ (dissect_mpi sample_oob sample_sync true
        (tvb_of [72, 1, 0, 0, 0, 0, 0, 0, 72, 0,
          1, 0, 0, 0, 2, 0, 0, 0, 0, 0, 0, 0, 3, 0, 0, 0, 0, 0, 0, 0,
          4, 0, 0, 0, 0, 0, 0, 0, 5, 0, 0, 0, 0, 0, 0, 0, 6, 0, 0, 0, 0, 0, 0, 0,
          7, 0, 0, 0, 0, 0, 0, 0] (by decide)) pinfo_btl true []).1.log := by
  decide

/-! ## No decoder of the Match, Rendezvous, Fragment families leaves the buffer -/

theorem match_safe (le : Bool) (tvb : tvbuff_t) (tree : Bool) (off : Nat)
    (hfull : tvb_captured_length tvb = tvb_reported_length tvb)
    (hoff : off ≤ tvb_reported_length tvb) :
    ∃ p lg, dissect_mpi_match le tvb tree off = Res.ok p lg
      ∧ off ≤ p ∧ p ≤ tvb_reported_length tvb := by
  have hlt := tvb.reported_lt
  have g : guint_sub (tvb_reported_length tvb) off = tvb_reported_length tvb - off := by
    unfold tvb_reported_length at *
    exact guint_sub_eq hoff (by omega)
  by_cases h12 : off + 12 ≤ tvb_reported_length tvb
  · obtain ⟨lg, hrun, _, _⟩ := match_run le tvb tree off hfull h12
    refine ⟨_, lg, hrun, ?_, ?_⟩
    · split_ifs <;> omega
    · split_ifs with hc
      · exact hc.1.1
      · omega
  · exact ⟨off, [], match_guard le tvb tree off (by rw [g]; omega), le_refl _, hoff⟩

theorem rndv_safe (le : Bool) (tvb : tvbuff_t) (tree : Bool) (off : Nat)
    (hfull : tvb_captured_length tvb = tvb_reported_length tvb)
    (hoff : off ≤ tvb_reported_length tvb) :
    ∃ p lg, dissect_mpi_rndv le tvb tree off = Res.ok p lg
      ∧ off ≤ p ∧ p ≤ tvb_reported_length tvb := by
  obtain ⟨p, lg, hm, h1, h2⟩ := match_safe le tvb tree off hfull hoff
  by_cases hE : 16 ≤ tvb_reported_length tvb - p
  · obtain ⟨lg', hrun, _, _⟩ := rndv_run le tvb tree off p lg hfull hm hE
    refine ⟨_, _, hrun, ?_, ?_⟩ <;> split_ifs <;> omega
  · exact ⟨p, lg, rndv_of_match_short le tvb tree off p lg hm h2 (by omega), h1, h2⟩

theorem rget_safe (le : Bool) (tvb : tvbuff_t) (tree : Bool) (off : Nat)
    (hfull : tvb_captured_length tvb = tvb_reported_length tvb)
    (hoff : off ≤ tvb_reported_length tvb) :
    ∃ p lg, dissect_mpi_rget le tvb tree off = Res.ok p lg
      ∧ off ≤ p ∧ p ≤ tvb_reported_length tvb := by
  by_cases hg : 28 > guint_sub (tvb_reported_length tvb) off
  · exact ⟨off, [], rget_guard le tvb tree off hg, le_refl _, hoff⟩
  · obtain ⟨p, lg, hm, h1, h2⟩ := rndv_safe le tvb tree off hfull hoff
    by_cases hE : 12 ≤ tvb_reported_length tvb - p
    · obtain ⟨lg', hrun, _, _⟩ := rget_run le tvb tree off p lg hfull hg hm hE
      refine ⟨_, _, hrun, ?_, ?_⟩ <;> split_ifs <;> omega
    · exact ⟨p, lg, rget_of_rndv_short le tvb tree off p lg hm hg h2 (by omega), h1, h2⟩

theorem frag_guard (le : Bool) (tvb : tvbuff_t) (tree : Bool) (off : Nat)
    (hg : 24 > guint_sub (tvb_reported_length tvb) off) :
    dissect_mpi_frag le tvb tree off = Res.ok off [] := by
  unfold dissect_mpi_frag
  rw [if_pos hg]; rfl

theorem ack_guard (le : Bool) (tvb : tvbuff_t) (tree : Bool) (off : Nat)
    (hg : 24 > guint_sub (tvb_reported_length tvb) off) :
    dissect_mpi_ack le tvb tree off = Res.ok off [] := by
  unfold dissect_mpi_ack
  rw [if_pos hg]; rfl

theorem rdma_guard (le : Bool) (tvb : tvbuff_t) (tree : Bool) (off : Nat)
    (hg : 52 > guint_sub (tvb_reported_length tvb) off) :
    dissect_mpi_rdma le tvb tree off = Res.ok off [] := by
  unfold dissect_mpi_rdma
  rw [if_pos hg]; rfl

theorem frag_safe (le : Bool) (tvb : tvbuff_t) (tree : Bool) (off : Nat)
    (hfull : tvb_captured_length tvb = tvb_reported_length tvb)
    (hoff : off ≤ tvb_reported_length tvb) :
    ∃ p lg, dissect_mpi_frag le tvb tree off = Res.ok p lg
      ∧ off ≤ p ∧ p ≤ tvb_reported_length tvb := by
  have hlt := tvb.reported_lt
  have g : guint_sub (tvb_reported_length tvb) off = tvb_reported_length tvb - off := by
    unfold tvb_reported_length at *
    exact guint_sub_eq hoff (by omega)
  by_cases hR : 24 ≤ tvb_reported_length tvb - off
  · obtain ⟨lg, hrun, _, _⟩ := frag_run le tvb tree off hfull hoff hR
    refine ⟨_, _, hrun, ?_, ?_⟩ <;> split_ifs <;> omega
  · exact ⟨off, [], frag_guard le tvb tree off (by rw [g]; omega), le_refl _, hoff⟩

theorem ack_safe (le : Bool) (tvb : tvbuff_t) (tree : Bool) (off : Nat)
    (hfull : tvb_captured_length tvb = tvb_reported_length tvb)
    (hoff : off ≤ tvb_reported_length tvb) :
    ∃ p lg, dissect_mpi_ack le tvb tree off = Res.ok p lg
      ∧ off ≤ p ∧ p ≤ tvb_reported_length tvb := by
  have hlt := tvb.reported_lt
  have g : guint_sub (tvb_reported_length tvb) off = tvb_reported_length tvb - off := by
    unfold tvb_reported_length at *
    exact guint_sub_eq hoff (by omega)
  by_cases hR : 24 ≤ tvb_reported_length tvb - off
  · obtain ⟨lg, hrun, _, _⟩ := ack_run le tvb tree off hfull hoff hR
    refine ⟨_, _, hrun, ?_, ?_⟩ <;> split_ifs <;> omega
  · exact ⟨off, [], ack_guard le tvb tree off (by rw [g]; omega), le_refl _, hoff⟩

theorem rdma_safe (le : Bool) (tvb : tvbuff_t) (tree : Bool) (off : Nat)
    (hfull : tvb_captured_length tvb = tvb_reported_length tvb)
    (hoff : off ≤ tvb_reported_length tvb) :
    ∃ p lg, dissect_mpi_rdma le tvb tree off = Res.ok p lg
      ∧ off ≤ p ∧ p ≤ tvb_reported_length tvb := by
  have hlt := tvb.reported_lt
  have g : guint_sub (tvb_reported_length tvb) off = tvb_reported_length tvb - off := by
    unfold tvb_reported_length at *
    exact guint_sub_eq hoff (by omega)
  by_cases hR : 52 ≤ tvb_reported_length tvb - off
  · obtain ⟨lg, hrun, _, _⟩ := rdma_run le tvb tree off hfull hoff hR
    refine ⟨_, _, hrun, ?_, ?_⟩ <;> split_ifs <;> omega
  · exact ⟨off, [], rdma_guard le tvb tree off (by rw [g]; omega), le_refl _, hoff⟩

theorem reads_inside_fetch (tvb : tvbuff_t) (o n : Nat) :
    reads_sat (fun x => x.1 + x.2 ≤ tvb_captured_length tvb) (tvb_fetch tvb o n) :=
  reads_sat_fetch tvb o n (fun h => h)

theorem reads_inside_match (le : Bool) (tvb : tvbuff_t) (tree : Bool) (off : Nat) :
    reads_sat (fun x => x.1 + x.2 ≤ tvb_captured_length tvb)
      (dissect_mpi_match le tvb tree off) := by
  unfold dissect_mpi_match tvb_get_letohs tvb_get_letohl tvb_get_ntohs tvb_get_ntohl
  simp only [Res.bind_eq, Res.pure_eq]
  repeat' first
    | with_reducible exact reads_sat_ok_nil _ _
    | with_reducible exact reads_sat_item _ _ _ _ _ _
    | with_reducible exact reads_sat_subtree _ _
    | with_reducible exact reads_sat_emit_hdr _ _
    | with_reducible exact reads_inside_fetch _ _ _
    | with_reducible apply reads_sat_ite
    | with_reducible apply reads_sat_bind
    | intro x

theorem reads_inside_rndv (le : Bool) (tvb : tvbuff_t) (tree : Bool) (off : Nat) :
    reads_sat (fun x => x.1 + x.2 ≤ tvb_captured_length tvb)
      (dissect_mpi_rndv le tvb tree off) := by
  unfold dissect_mpi_rndv tvb_get_letoh64 tvb_get_ntoh64 tvb_get_guint8
  simp only [Res.bind_eq, Res.pure_eq]
  repeat' first
    | with_reducible exact reads_sat_ok_nil _ _
    | with_reducible exact reads_sat_item _ _ _ _ _ _
    | with_reducible exact reads_sat_subtree _ _
    | with_reducible exact reads_sat_emit_hdr _ _
    | with_reducible exact reads_inside_fetch _ _ _
    | with_reducible exact reads_inside_match _ _ _ _
    | with_reducible apply reads_sat_ite
    | with_reducible apply reads_sat_bind
    | intro x

theorem reads_inside_rget (le : Bool) (tvb : tvbuff_t) (tree : Bool) (off : Nat) :
    reads_sat (fun x => x.1 + x.2 ≤ tvb_captured_length tvb)
      (dissect_mpi_rget le tvb tree off) := by
  unfold dissect_mpi_rget tvb_get_letoh64 tvb_get_ntoh64 tvb_get_letohl tvb_get_ntohl
  simp only [Res.bind_eq, Res.pure_eq]
  repeat' first
    | with_reducible exact reads_sat_ok_nil _ _
    | with_reducible exact reads_sat_item _ _ _ _ _ _
    | with_reducible exact reads_sat_subtree _ _
    | with_reducible exact reads_sat_emit_hdr _ _
    | with_reducible exact reads_inside_fetch _ _ _
    | with_reducible exact reads_inside_rndv _ _ _ _
    | with_reducible apply reads_sat_ite
    | with_reducible apply reads_sat_bind
    | intro x

theorem reads_inside_frag (le : Bool) (tvb : tvbuff_t) (tree : Bool) (off : Nat) :
    reads_sat (fun x => x.1 + x.2 ≤ tvb_captured_length tvb)
      (dissect_mpi_frag le tvb tree off) := by
  unfold dissect_mpi_frag tvb_get_letoh64 tvb_get_ntoh64 tvb_get_letoh48 tvb_get_ntoh48
  simp only [Res.bind_eq, Res.pure_eq]
  repeat' first
    | with_reducible exact reads_sat_ok_nil _ _
    | with_reducible exact reads_sat_item _ _ _ _ _ _
    | with_reducible exact reads_sat_subtree _ _
    | with_reducible exact reads_sat_emit_hdr _ _
    | with_reducible exact reads_inside_fetch _ _ _
    | with_reducible apply reads_sat_ite
    | with_reducible apply reads_sat_bind
    | intro x

theorem reads_inside_ack (le : Bool) (tvb : tvbuff_t) (tree : Bool) (off : Nat) :
    reads_sat (fun x => x.1 + x.2 ≤ tvb_captured_length tvb)
      (dissect_mpi_ack le tvb tree off) := by
  unfold dissect_mpi_ack tvb_get_letoh64 tvb_get_ntoh64 tvb_get_letoh48 tvb_get_ntoh48
  simp only [Res.bind_eq, Res.pure_eq]
  repeat' first
    | with_reducible exact reads_sat_ok_nil _ _
    | with_reducible exact reads_sat_item _ _ _ _ _ _
    | with_reducible exact reads_sat_subtree _ _
    | with_reducible exact reads_sat_emit_hdr _ _
    | with_reducible exact reads_inside_fetch _ _ _
    | with_reducible apply reads_sat_ite
    | with_reducible apply reads_sat_bind
    | intro x

theorem reads_inside_rdma (le : Bool) (tvb : tvbuff_t) (tree : Bool) (off : Nat) :
    reads_sat (fun x => x.1 + x.2 ≤ tvb_captured_length tvb)
      (dissect_mpi_rdma le tvb tree off) := by
  unfold dissect_mpi_rdma tvb_get_letoh64 tvb_get_ntoh64 tvb_get_letohl tvb_get_ntohl
    tvb_get_letohs
  simp only [Res.bind_eq, Res.pure_eq]
  repeat' first
    | with_reducible exact reads_sat_ok_nil _ _
    | with_reducible exact reads_sat_item _ _ _ _ _ _
    | with_reducible exact reads_sat_subtree _ _
    | with_reducible exact reads_sat_emit_hdr _ _
    | with_reducible exact reads_inside_fetch _ _ _
    | with_reducible apply reads_sat_ite
    | with_reducible apply reads_sat_bind
    | intro x

theorem safe_of (tvb : tvbuff_t) (r : Res Nat) (off : Nat)
    (hfull : tvb_captured_length tvb = tvb_reported_length tvb)
    (h : ∃ p lg, r = Res.ok p lg ∧ off ≤ p ∧ p ≤ tvb_reported_length tvb)
    (hr : reads_sat (fun x => x.1 + x.2 ≤ tvb_captured_length tvb) r) :
    ∃ p lg, r = Res.ok p lg ∧ off ≤ p ∧ p ≤ tvb_reported_length tvb
      ∧ ∀ x ∈ reads lg, x.1 + x.2 ≤ tvb_reported_length tvb := by
  obtain ⟨p, lg, h1, h2, h3⟩ := h
  refine ⟨p, lg, h1, h2, h3, ?_⟩
  intro x hx
  have := hr x (by rw [h1]; exact hx)
  rw [← hfull]
  exact this

/-- C17: for each of the Match, Rendezvous, RendezvousGet, Fragment, Ack and
Rdma decoders, every fully captured buffer, every entry offset not beyond the
buffer end, either policy, with or without a tree: the decoder raises no
exception, every span it fetches lies inside the buffer, and the offset it
returns is at least the entry offset and at most the buffer length. -/
theorem C17_decoders_safe (le : Bool) (tvb : tvbuff_t) (tree : Bool) (off : Nat)
    (hfull : tvb_captured_length tvb = tvb_reported_length tvb)
    (hoff : off ≤ tvb_reported_length tvb) :
    ∀ dec ∈ [dissect_mpi_match, dissect_mpi_rndv, dissect_mpi_rget, dissect_mpi_frag,
        dissect_mpi_ack, dissect_mpi_rdma],
      ∃ p lg, dec le tvb tree off = Res.ok p lg
        ∧ off ≤ p ∧ p ≤ tvb_reported_length tvb
        ∧ ∀ x ∈ reads lg, x.1 + x.2 ≤ tvb_reported_length tvb := by
  intro dec hdec
  simp only [List.mem_cons, List.mem_singleton, List.not_mem_nil, or_false] at hdec
  rcases hdec with h | h | h | h | h | h <;> subst h
  · exact safe_of tvb _ off hfull (match_safe le tvb tree off hfull hoff)
      (reads_inside_match le tvb tree off)
  · exact safe_of tvb _ off hfull (rndv_safe le tvb tree off hfull hoff)
      (reads_inside_rndv le tvb tree off)
  · exact safe_of tvb _ off hfull (rget_safe le tvb tree off hfull hoff)
      (reads_inside_rget le tvb tree off)
  · exact safe_of tvb _ off hfull (frag_safe le tvb tree off hfull hoff)
      (reads_inside_frag le tvb tree off)
  · exact safe_of tvb _ off hfull (ack_safe le tvb tree off hfull hoff)
      (reads_inside_ack le tvb tree off)
  · exact safe_of tvb _ off hfull (rdma_safe le tvb tree off hfull hoff)
      (reads_inside_rdma le tvb tree off)

/-- Worked instance of C17: the RendezvousGet decoder on a 20-octet buffer
entered at offset 3, little endian, with a tree. -/
theorem C17_decoders_safe_witness :
    ∃ p lg, dissect_mpi_rget true
        (tvb_of [1, 0, 2, 0, 0, 0, 3, 0, 0, 0, 4, 0, 0, 0, 5, 0, 0, 0, 6, 0] (by decide))
        true 3 = Res.ok p lg
      ∧ 3 ≤ p ∧ p ≤ 20 ∧ ∀ x ∈ reads lg, x.1 + x.2 ≤ 20 :=
  C17_decoders_safe true
    (tvb_of [1, 0, 2, 0, 0, 0, 3, 0, 0, 0, 4, 0, 0, 0, 5, 0, 0, 0, 6, 0] (by decide))
    true 3 (by decide) (by decide) dissect_mpi_rget (by simp)

/-! ## Kinds that are recognised but not decoded -/

theorem btl_not_implemented (le : Bool) (tvb : tvbuff_t) (pinfo : packet_info) (tree : Bool)
    (b : Byte) (hb : tvb.data.head? = some b) (hcap : 10 ≤ tvb_captured_length tvb)
    (hkind : b.val = 69 ∨ b.val = 71 ∨ b.val = 75 ∨ b.val = 76 ∨ b.val = 77) :
    dissect_mpi_switch le tvb tree b.val 10 = Res.ok 10 [Ev.notice Notice.not_implemented]
    ∧ ∃ pre,
        dissect_mpi_btl le tvb pinfo tree
          = Res.ok (tvb_captured_length tvb)
              (pre ++ [Ev.notice Notice.not_implemented]
                ++ (if tree = true ∧ 10 < tvb_captured_length tvb then
                      [Ev.item "hf_mpi_oob_data" 10 (tvb_captured_length tvb - 10)] else []))
        ∧ (∀ x ∈ reads pre, x.1 + x.2 ≤ 10)
        ∧ (∀ h ∈ hdrs pre, (∃ v1 v2 v3 v4, h = Hdr.base v1 v2 v3 v4)
            ∨ (∃ v1 v2, h = Hdr.common v1 v2)) := by
  have hsw : dissect_mpi_switch le tvb tree b.val 10
      = Res.ok 10 [Ev.notice Notice.not_implemented] := by
    rw [switch_eq le tvb tree b.val 10 (by omega)]
    rcases hkind with h | h | h | h | h <;> rw [h] <;> simp
  refine ⟨hsw, ?_⟩
  unfold tvb_captured_length at hcap
  have hlt := tvb.reported_lt
  have hrep := tvb.captured_le
  have hv := le_value_head tvb b hb
  unfold dissect_mpi_btl
  have hg : ¬ (10 > tvb.reported_length ∨ 65 > b.val ∨ 77 < b.val) := by omega
  have g : guint_sub tvb.data.length 10 = tvb.data.length - 10 :=
    guint_sub_eq (by omega) (by omega)
  by_cases h10 : 10 < tvb.data.length
  · cases tree <;> cases le <;>
    simp (disch := omega) only [tvb_get_guint8, tvb_get_letohs, tvb_get_letohl, tvb_get_ntohs,
      tvb_get_ntohl, tvb_fetch_ok, Res.bind_eq, Res.bind_ok, Res.pure_eq, Res.prepend_ok,
      Res.prepend_prepend, Res.emit_eq, hv, tvb_reported_length, if_neg hg, Bool.false_eq_true,
      if_false, if_true, proto_tree_add_item, proto_tree_add_subtree, tvb_captured_length,
      guint_add_eq, Nat.zero_add, if_pos, List.append_nil, List.nil_append, Nat.reduceAdd,
      Nat.reduceLeDiff, hsw, g, h10, gt_iff_lt, ↓reduceIte, and_self, false_and, true_and,
      List.append_assoc, List.singleton_append, List.cons_append, Res.ok.injEq, true_and]
    all_goals first
      | exact ⟨[_, _], rfl, by simp, by simp⟩
      | exact ⟨[_, _, _, _, _, _, _, _, _, _, _, _, _, _, _, _, _, _], rfl, by simp, by simp⟩
  · have e : tvb.data.length = 10 := by omega
    cases tree <;> cases le <;>
    simp (disch := omega) only [tvb_get_guint8, tvb_get_letohs, tvb_get_letohl, tvb_get_ntohs,
      tvb_get_ntohl, tvb_fetch_ok, Res.bind_eq, Res.bind_ok, Res.pure_eq, Res.prepend_ok,
      Res.prepend_prepend, Res.emit_eq, hv, tvb_reported_length, if_neg hg, Bool.false_eq_true,
      if_false, if_true, proto_tree_add_item, proto_tree_add_subtree, tvb_captured_length,
      guint_add_eq, Nat.zero_add, if_pos, List.append_nil, List.nil_append, Nat.reduceAdd,
      Nat.reduceLeDiff, hsw, g, h10, gt_iff_lt, ↓reduceIte, and_self, false_and, and_false,
      List.append_assoc, List.singleton_append, List.cons_append, Res.ok.injEq, true_and, e,
      lt_self_iff_false]
    all_goals first
      | exact ⟨[_, _], rfl, by simp, by simp⟩
      | exact ⟨[_, _, _, _, _, _, _, _, _, _, _, _, _, _, _, _, _, _], rfl, by simp, by simp⟩

/-- C18: on every buffer accepted on the BTL path (at least 10 captured octets)
whose first octet is 69 (Nack), 71 (Get), 75 (RestartAck), 76 (RestartNack) or
77 (RecvErrorNotify), either policy, with or without a tree: the `switch` only
appends the "not implemented" notice and leaves the offset at 10 (nothing is
fetched, no kind-specific value is reported); `dissect_mpi` returns the buffer
length, its log up to the notice fetches only octets of the 10-octet prefix and
reports only the base and common header, and after the notice the octets from
10 to the end of the buffer are added as one `hf_mpi_oob_data` item (when a
tree is built and the buffer has more than 10 octets). -/
theorem C18_not_implemented (le : Bool) (tvb : tvbuff_t) (pinfo : packet_info)
    (tree : Bool) (b : Byte) (hb : tvb.data.head? = some b)
    (hcap : 10 ≤ tvb_captured_length tvb)
    (hkind : b.val = 69 ∨ b.val = 71 ∨ b.val = 75 ∨ b.val = 76 ∨ b.val = 77) :
    dissect_mpi_switch le tvb tree b.val 10 = Res.ok 10 [Ev.notice Notice.not_implemented]
    ∧ ∃ pre,
        dissect_mpi_btl le tvb pinfo tree
          = Res.ok (tvb_captured_length tvb)
              (pre ++ [Ev.notice Notice.not_implemented]
                ++ (if tree = true ∧ 10 < tvb_captured_length tvb then
                      [Ev.item "hf_mpi_oob_data" 10 (tvb_captured_length tvb - 10)] else []))
        ∧ (∀ x ∈ reads pre, x.1 + x.2 ≤ 10)
        ∧ (∀ h ∈ hdrs pre, (∃ v1 v2 v3 v4, h = Hdr.base v1 v2 v3 v4)
            ∨ (∃ v1 v2, h = Hdr.common v1 v2)) :=
  btl_not_implemented le tvb pinfo tree b hb hcap hkind

/-- Worked instance of C18: a 12-octet buffer whose first octet is 75, with a
tree. -/
theorem C18_not_implemented_witness :
    ∃ pre,
      dissect_mpi_btl true (tvb_of [75, 1, 2, 3, 4, 5, 6, 7, 8, 9, 10, 11] (by decide))
          pinfo_btl true
        = Res.ok 12 (pre ++ [Ev.notice Notice.not_implemented]
            ++ [Ev.item "hf_mpi_oob_data" 10 2])
      ∧ (∀ x ∈ reads pre, x.1 + x.2 ≤ 10) := by
  obtain ⟨pre, h, hr, _⟩ := (C18_not_implemented true
    (tvb_of [75, 1, 2, 3, 4, 5, 6, 7, 8, 9, 10, 11] (by decide)) pinfo_btl true 75
    (by decide) (by decide) (by decide)).2
  exact ⟨pre, h, hr⟩

/-! ## The OOB reassembler: the frame header -/

theorem oob_body_header (tvb : tvbuff_t) (pinfo : packet_info) (tree : Bool) (c : Nat)
    (t : mpi_oob_trans_t)
    (hstate : (if pinfo.srcport > pinfo.destport then t.nbytes_1 else t.nbytes_2) = 0)
    (h28 : c + 28 ≤ tvb_captured_length tvb) :
    ∃ lg,
      dissect_mpi_oob_body tvb pinfo tree c t
        = (Res.ok (oob_flow.next (c + 28)) lg,
            if pinfo.srcport > pinfo.destport then
              { t with rml_tag_1 := tvb_value false tvb (c + 20) 4,
                       nbytes_1 := tvb_value false tvb (c + 24) 4 }
            else
              { t with rml_tag_2 := tvb_value false tvb (c + 20) 4,
                       nbytes_2 := tvb_value false tvb (c + 24) 4 })
      ∧ hdrs lg = [Hdr.oob_hdr (tvb_value false tvb c 4) (tvb_value false tvb (c + 4) 4)
          (tvb_value false tvb (c + 8) 4) (tvb_value false tvb (c + 12) 4)
          (tvb_value false tvb (c + 16) 4) (tvb_value false tvb (c + 20) 4)
          (tvb_value false tvb (c + 24) 4)]
      ∧ reads lg = [(c, 4), (c + 4, 4), (c + 8, 4), (c + 12, 4), (c + 16, 4), (c + 20, 4),
          (c + 24, 4)] := by
  have hlt := tvb.reported_lt
  have hcap := tvb.captured_le
  unfold tvb_captured_length at *
  have g : guint_sub tvb.data.length c = tvb.data.length - c :=
    guint_sub_eq (by omega) (by omega)
  unfold dissect_mpi_oob_body tvb_value
  by_cases hd : pinfo.srcport > pinfo.destport
  · rw [if_pos hd] at hstate
    cases tree <;>
    simp (disch := omega) only [hd, hstate, tvb_get_ntohl, tvb_captured_length,
      Bool.false_eq_true, if_false, if_true, tvb_fetch_ok, guint_add_eq, guint_sub_eq,
      Res.bind_eq, Res.bind_ok, Res.pure_eq, Res.prepend_ok, Res.prepend_prepend, Res.emit_eq,
      Res.prepend_nil, List.append_nil, List.nil_append, if_pos, if_neg,
      proto_tree_add_item, proto_tree_add_subtree, Nat.add_assoc, Nat.reduceAdd, ↓reduceIte,
      g]
    all_goals exact ⟨_, rfl, by simp, by simp⟩
  · rw [if_neg hd] at hstate
    cases tree <;>
    simp (disch := omega) only [hd, hstate, tvb_get_ntohl, tvb_captured_length,
      Bool.false_eq_true, if_false, if_true, tvb_fetch_ok, guint_add_eq, guint_sub_eq,
      Res.bind_eq, Res.bind_ok, Res.pure_eq, Res.prepend_ok, Res.prepend_prepend, Res.emit_eq,
      Res.prepend_nil, List.append_nil, List.nil_append, if_pos, if_neg,
      proto_tree_add_item, proto_tree_add_subtree, Nat.add_assoc, Nat.reduceAdd, ↓reduceIte,
      g]
    all_goals exact ⟨_, rfl, by simp, by simp⟩

/-- C19: one pass through the loop body of `dissect_mpi_oob` (which has no
endianness parameter) at cursor `c`, when the pending `nbytes` of the packet's
direction is 0 and at least 28 captured octets are available at `c`, with or
without a tree: the seven values `jobid_origin`, `vpid_origin`, `jobid_dst`,
`vpid_dst`, `msg_type`, `rml_tag`, `nbytes` are the big-endian u32 at `c`,
`c+4`, ..., `c+24`, fetched in that order; `rml_tag` and `nbytes` are stored in
the fields of the packet's direction (`_1` if the source port is greater than
the destination port, `_2` otherwise) and nothing else of the OOB data changes;
and the pass ends with the cursor at `c+28`. -/
theorem C19_oob_header (tvb : tvbuff_t) (pinfo : packet_info) (tree : Bool) (c : Nat)
    (t : mpi_oob_trans_t)
    (hstate : (if pinfo.srcport > pinfo.destport then t.nbytes_1 else t.nbytes_2) = 0)
    (h28 : c + 28 ≤ tvb_captured_length tvb) :
    ∃ lg,
      dissect_mpi_oob_body tvb pinfo tree c t
        = (Res.ok (oob_flow.next (c + 28)) lg,
            if pinfo.srcport > pinfo.destport then
              { t with rml_tag_1 := tvb_value false tvb (c + 20) 4,
                       nbytes_1 := tvb_value false tvb (c + 24) 4 }
            else
              { t with rml_tag_2 := tvb_value false tvb (c + 20) 4,
                       nbytes_2 := tvb_value false tvb (c + 24) 4 })
      ∧ hdrs lg = [Hdr.oob_hdr (tvb_value false tvb c 4) (tvb_value false tvb (c + 4) 4)
          (tvb_value false tvb (c + 8) 4) (tvb_value false tvb (c + 12) 4)
          (tvb_value false tvb (c + 16) 4) (tvb_value false tvb (c + 20) 4)
          (tvb_value false tvb (c + 24) 4)]
      ∧ reads lg = [(c, 4), (c + 4, 4), (c + 8, 4), (c + 12, 4), (c + 16, 4), (c + 20, 4),
          (c + 24, 4)] :=
  oob_body_header tvb pinfo tree c t hstate h28

/-- Worked instance of C19: a 28-octet header with `rml_tag` 99 and `nbytes` 3
followed by 3 octets, from port 40000 to port 50000 (direction 2). -/
theorem C19_oob_header_witness :
    ∃ lg,
      dissect_mpi_oob_body
          (tvb_of [0, 0, 0, 1, 0, 0, 0, 2, 0, 0, 0, 3, 0, 0, 0, 4, 0, 0, 0, 5,
            0, 0, 0, 99, 0, 0, 0, 3, 7, 8, 9] (by decide))
          pinfo_oob false 0
          { rml_tag_1 := 0, nbytes_1 := 0, rml_tag_2 := 0, nbytes_2 := 0, old := [] }
        = (Res.ok (oob_flow.next 28) lg,
            { rml_tag_1 := 0, nbytes_1 := 0, rml_tag_2 := 99, nbytes_2 := 3, old := [] })
      ∧ hdrs lg = [Hdr.oob_hdr 1 2 3 4 5 99 3] := by
  obtain ⟨lg, h, hh, _⟩ := C19_oob_header
    (tvb_of [0, 0, 0, 1, 0, 0, 0, 2, 0, 0, 0, 3, 0, 0, 0, 4, 0, 0, 0, 5,
      0, 0, 0, 99, 0, 0, 0, 3, 7, 8, 9] (by decide))
    pinfo_oob false 0
    { rml_tag_1 := 0, nbytes_1 := 0, rml_tag_2 := 0, nbytes_2 := 0, old := [] }
    (by decide) (by decide)
  exact ⟨lg, h, hh⟩

theorem oob_body_short (tvb : tvbuff_t) (pinfo : packet_info) (tree : Bool) (c : Nat)
    (t : mpi_oob_trans_t)
    (hstate : (if pinfo.srcport > pinfo.destport then t.nbytes_1 else t.nbytes_2) = 0)
    (hc : c ≤ tvb_captured_length tvb)
    (hshort : tvb_captured_length tvb - c < 28) :
    dissect_mpi_oob_body tvb pinfo tree c t = (Res.ok (oob_flow.ret c) [], t) := by
  have hlt := tvb.reported_lt
  have hcap := tvb.captured_le
  unfold tvb_captured_length at *
  have g : guint_sub tvb.data.length c = tvb.data.length - c :=
    guint_sub_eq (by omega) (by omega)
  unfold dissect_mpi_oob_body
  by_cases hd : pinfo.srcport > pinfo.destport
  · rw [if_pos hd] at hstate
    simp (disch := omega) only [hd, hstate, tvb_captured_length, g, if_pos, ↓reduceIte,
      Res.pure_eq]
  · rw [if_neg hd] at hstate
    simp (disch := omega) only [hd, hstate, tvb_captured_length, g, if_pos, ↓reduceIte,
      Res.pure_eq]

theorem oob_loop_short (tvb : tvbuff_t) (pinfo : packet_info) (tree : Bool) (fuel c : Nat)
    (t : mpi_oob_trans_t)
    (hstate : (if pinfo.srcport > pinfo.destport then t.nbytes_1 else t.nbytes_2) = 0)
    (hc : c ≤ tvb_captured_length tvb)
    (hshort : tvb_captured_length tvb - c < 28)
    (hfuel : 0 < fuel ∨ tvb_captured_length tvb ≤ c) :
    dissect_mpi_oob_loop tvb pinfo tree fuel c t = some (Res.ok c [], t) := by
  cases fuel with
  | zero =>
    have h : ¬ tvb_captured_length tvb > c := by omega
    unfold dissect_mpi_oob_loop
    rw [if_neg h]; rfl
  | succ n =>
    unfold dissect_mpi_oob_loop
    by_cases h : tvb_captured_length tvb > c
    · rw [if_pos h, oob_body_short tvb pinfo tree c t hstate hc hshort]
    · rw [if_neg h]; rfl

theorem oob_no_state_short (tvb : tvbuff_t) (pinfo : packet_info) (tree : Bool)
    (the_offset : Nat)
    (hports : 32768 ≤ pinfo.srcport ∧ MAX_TCP_PORT ≥ pinfo.srcport ∧
      32768 ≤ pinfo.destport ∧ MAX_TCP_PORT ≥ pinfo.destport)
    (hc : the_offset ≤ tvb_captured_length tvb)
    (hshort : tvb_captured_length tvb - the_offset < 28) :
    dissect_mpi_oob tvb pinfo tree the_offset none
      = some (Res.ok the_offset ([Ev.hdr (Hdr.oob pinfo.srcport pinfo.destport)]
          ++ (if tree = true then [Ev.item "proto_mpi" 0 (tvb_captured_length tvb)] else [])),
          none) := by
  have hlt := tvb.reported_lt
  have hcap := tvb.captured_le
  unfold tvb_captured_length at *
  have g : guint_sub tvb.data.length the_offset = tvb.data.length - the_offset :=
    guint_sub_eq (by omega) (by omega)
  unfold dissect_mpi_oob
  rw [if_neg (not_not.mpr hports)]
  cases tree <;>
  simp (disch := omega) only [tvb_captured_length, g, Res.bind_eq, Res.emit_eq, Res.bind_ok,
    Res.pure_eq, Res.prepend_ok, proto_tree_add_item, Bool.false_eq_true, if_false, if_true,
    ↓reduceIte, if_pos, List.append_nil, Nat.zero_add, le_refl]

theorem oob_state_short (tvb : tvbuff_t) (pinfo : packet_info) (tree : Bool)
    (the_offset : Nat) (t : mpi_oob_trans_t)
    (hports : 32768 ≤ pinfo.srcport ∧ MAX_TCP_PORT ≥ pinfo.srcport ∧
      32768 ≤ pinfo.destport ∧ MAX_TCP_PORT ≥ pinfo.destport)
    (hvis : pinfo.visited = false)
    (hstate : (if pinfo.srcport > pinfo.destport then t.nbytes_1 else t.nbytes_2) = 0)
    (hc : the_offset ≤ tvb_captured_length tvb)
    (hshort : tvb_captured_length tvb - the_offset < 28) :
    dissect_mpi_oob tvb pinfo tree the_offset (some t)
      = some (Res.ok the_offset ([Ev.hdr (Hdr.oob pinfo.srcport pinfo.destport)]
          ++ (if tree = true then [Ev.item "proto_mpi" 0 (tvb_captured_length tvb)] else [])),
          some { t with old := (g_hash_table_insert t.old pinfo.num
            (if pinfo.srcport > pinfo.destport then
              { rml_tag := t.rml_tag_1, nbytes := t.nbytes_1 }
            else { rml_tag := t.rml_tag_2, nbytes := t.nbytes_2 })) }) := by
  have hlt := tvb.reported_lt
  have hcap := tvb.captured_le
  unfold dissect_mpi_oob
  rw [if_neg (not_not.mpr hports)]
  have hloop := oob_loop_short tvb pinfo tree (tvb_captured_length tvb) the_offset
    { t with old := (g_hash_table_insert t.old pinfo.num
            (if pinfo.srcport > pinfo.destport then
              { rml_tag := t.rml_tag_1, nbytes := t.nbytes_1 }
            else { rml_tag := t.rml_tag_2, nbytes := t.nbytes_2 })) }
    hstate hc hshort (by omega)
  unfold tvb_captured_length at hloop
  cases tree <;>
  simp (disch := omega) only [Res.bind_eq, Res.emit_eq, Res.bind_ok,
    Res.pure_eq, Res.prepend_ok, proto_tree_add_item, Bool.false_eq_true, if_false, if_true,
    ↓reduceIte, if_pos, List.append_nil, Nat.zero_add, le_refl, hvis, hloop, Option.map_some',
    tvb_captured_length, List.nil_append]

/-- C20: let fewer than 28 captured octets be available at the cursor `c` (not
beyond the buffer end), with or without a tree.
* If the pending `nbytes` of the packet's direction is 0, a pass through the
  loop body returns `c` with an empty log and leaves the OOB data unchanged,
  and so does the loop (given at least one pass).
* If the conversation has no OOB data yet, `dissect_mpi_oob` entered at `c`
  returns `c`, having only set the summary (and added the protocol item), and
  the conversation still has no OOB data.
* If the conversation has OOB data, the packet is visited for the first time
  and the pending `nbytes` of its direction is 0, `dissect_mpi_oob` returns
  `c`; the pending `rml_tag` and `nbytes` of both directions are unchanged, and
  the table `old` has got the snapshot of the direction's pending values under
  the frame number. -/
theorem C20_oob_short (tvb : tvbuff_t) (pinfo : packet_info) (tree : Bool) (c : Nat)
    (hc : c ≤ tvb_captured_length tvb)
    (hshort : tvb_captured_length tvb - c < 28) :
    (∀ t : mpi_oob_trans_t,
      (if pinfo.srcport > pinfo.destport then t.nbytes_1 else t.nbytes_2) = 0 →
      dissect_mpi_oob_body tvb pinfo tree c t = (Res.ok (oob_flow.ret c) [], t)
      ∧ ∀ fuel, 0 < fuel →
          dissect_mpi_oob_loop tvb pinfo tree fuel c t = some (Res.ok c [], t))
    ∧ ((32768 ≤ pinfo.srcport ∧ MAX_TCP_PORT ≥ pinfo.srcport ∧
          32768 ≤ pinfo.destport ∧ MAX_TCP_PORT ≥ pinfo.destport) →
      dissect_mpi_oob tvb pinfo tree c none
        = some (Res.ok c ([Ev.hdr (Hdr.oob pinfo.srcport pinfo.destport)]
            ++ (if tree = true then [Ev.item "proto_mpi" 0 (tvb_captured_length tvb)]
                else [])),
            none))
    ∧ (∀ t : mpi_oob_trans_t,
      (32768 ≤ pinfo.srcport ∧ MAX_TCP_PORT ≥ pinfo.srcport ∧
          32768 ≤ pinfo.destport ∧ MAX_TCP_PORT ≥ pinfo.destport) →
      pinfo.visited = false →
      (if pinfo.srcport > pinfo.destport then t.nbytes_1 else t.nbytes_2) = 0 →
      dissect_mpi_oob tvb pinfo tree c (some t)
        = some (Res.ok c ([Ev.hdr (Hdr.oob pinfo.srcport pinfo.destport)]
            ++ (if tree = true then [Ev.item "proto_mpi" 0 (tvb_captured_length tvb)]
                else [])),
            some { t with old := (g_hash_table_insert t.old pinfo.num
              (if pinfo.srcport > pinfo.destport then
                { rml_tag := t.rml_tag_1, nbytes := t.nbytes_1 }
              else { rml_tag := t.rml_tag_2, nbytes := t.nbytes_2 })) })) := by
  refine ⟨?_, ?_, ?_⟩
  · intro t hstate
    refine ⟨oob_body_short tvb pinfo tree c t hstate hc hshort, ?_⟩
    intro fuel hfuel
    exact oob_loop_short tvb pinfo tree fuel c t hstate hc hshort (Or.inl hfuel)
  · intro hports
    exact oob_no_state_short tvb pinfo tree c hports hc hshort
  · intro t hports hvis hstate
    exact oob_state_short tvb pinfo tree c t hports hvis hstate hc hshort

/-- Worked instance of C20: a 2-octet buffer on a conversation without OOB
data, from port 40000 to port 50000. -/
theorem C20_oob_short_witness :
    dissect_mpi_oob (tvb_of [7, 8] (by decide)) pinfo_oob false 0 none
      = some (Res.ok 0 [Ev.hdr (Hdr.oob 40000 50000)], none) := by
  have h := (C20_oob_short (tvb_of [7, 8] (by decide)) pinfo_oob false 0
    (by decide) (by decide)).2.1 (by decide)
  rw [h]
  rfl

/-! ## The OOB reassembler: the switch on `rml_tag` and the message branch -/

set_option maxHeartbeats 1000000 in
theorem oob_msg_iof (tvb : tvbuff_t) (tree : Bool) (rml_tag m b : Nat)
    (htag : rml_tag = ORTE_RML_TAG_IOF_HNP ∨ rml_tag = ORTE_RML_TAG_IOF_PROXY)
    (hm : 1 ≤ m) (hb : b + m ≤ tvb_captured_length tvb) :
    (tvb_value true tvb b 1 = 9 → 30 ≤ m →
      ∃ lg, dissect_mpi_oob_msg tvb tree rml_tag m b = Res.ok (b + 30) lg
        ∧ hdrs lg = [Hdr.oob_iof 9 (tvb_value true tvb (b + 7) 1)
            (tvb_value false tvb (b + 15) 4) (tvb_value false tvb (b + 20) 4)]
        ∧ reads lg = [(b, 1), (b + 7, 1), (b + 15, 4), (b + 20, 4)])
    ∧ (tvb_value true tvb b 1 ≠ 9 → 21 ≤ m →
      ∃ lg, dissect_mpi_oob_msg tvb tree rml_tag m b = Res.ok (b + 21) lg
        ∧ hdrs lg = [Hdr.oob_iof (tvb_value true tvb b 1) (tvb_value true tvb (b + 4) 1)
            (tvb_value false tvb (b + 9) 4) (tvb_value false tvb (b + 13) 4)]
        ∧ reads lg = [(b, 1), (b + 4, 1), (b + 9, 4), (b + 13, 4)])
    ∧ ((tvb_value true tvb b 1 = 9 ∧ m < 30) ∨ (tvb_value true tvb b 1 ≠ 9 ∧ m < 21) →
      dissect_mpi_oob_msg tvb tree rml_tag m b = Res.ok b [Ev.read b 1]) := by
  have hlt := tvb.reported_lt
  have hcap := tvb.captured_le
  unfold tvb_captured_length at hb
  have htag' : rml_tag ≠ 0 ∧ (rml_tag = 2 ∨ rml_tag = 3) := by
    unfold ORTE_RML_TAG_IOF_HNP ORTE_RML_TAG_IOF_PROXY at htag
    omega
  unfold dissect_mpi_oob_msg tvb_value
  unfold ORTE_RML_TAG_INVALID ORTE_RML_TAG_IOF_HNP ORTE_RML_TAG_IOF_PROXY
  simp only [if_true, Bool.false_eq_true, if_false]
  rw [if_neg htag'.1, if_pos htag'.2]
  refine ⟨?_, ?_, ?_⟩
  · intro h9 h30
    cases tree <;>
    simp (disch := omega) only [tvb_get_guint8, tvb_get_ntohl, dissect_mpi_oob_name,
      Bool.false_eq_true, if_false, if_true, tvb_fetch_ok, guint_add_eq, guint_sub_eq,
      Res.bind_eq, Res.bind_ok, Res.pure_eq, Res.prepend_ok, Res.prepend_prepend, Res.emit_eq,
      Res.prepend_nil, List.append_nil, List.nil_append, if_pos, if_neg,
      proto_tree_add_item, proto_tree_add_subtree, Nat.add_assoc, Nat.reduceAdd, ↓reduceIte,
      h9, gt_iff_lt]
    all_goals exact ⟨_, rfl, by simp, by simp⟩
  · intro h9 h21
    cases tree <;>
    simp (disch := omega) only [tvb_get_guint8, tvb_get_ntohl, dissect_mpi_oob_name,
      Bool.false_eq_true, if_false, if_true, tvb_fetch_ok, guint_add_eq, guint_sub_eq,
      Res.bind_eq, Res.bind_ok, Res.pure_eq, Res.prepend_ok, Res.prepend_prepend, Res.emit_eq,
      Res.prepend_nil, List.append_nil, List.nil_append, if_pos, if_neg,
      proto_tree_add_item, proto_tree_add_subtree, Nat.add_assoc, Nat.reduceAdd, ↓reduceIte,
      h9, gt_iff_lt, eq_comm (a := 9) (b := le_value (List.take 1 (List.drop b tvb.data)))]
    all_goals exact ⟨_, rfl, by simp, by simp⟩
  · intro h
    rcases h with ⟨h9, hlt30⟩ | ⟨h9, hlt21⟩
    · simp (disch := omega) only [tvb_get_guint8, tvb_fetch_ok,
        Res.bind_eq, Res.bind_ok, Res.pure_eq, Res.prepend_ok, Res.prepend_prepend,
        Res.prepend_nil, List.append_nil, List.nil_append, if_pos, if_neg, ↓reduceIte,
        h9, gt_iff_lt]
    · simp (disch := omega) only [tvb_get_guint8, tvb_fetch_ok,
        Res.bind_eq, Res.bind_ok, Res.pure_eq, Res.prepend_ok, Res.prepend_prepend,
        Res.prepend_nil, List.append_nil, List.nil_append, if_pos, if_neg, ↓reduceIte,
        h9, gt_iff_lt, eq_comm (a := 9) (b := le_value (List.take 1 (List.drop b tvb.data)))]

set_option maxHeartbeats 1000000 in
theorem oob_msg_xcast (tvb : tvbuff_t) (tree : Bool) (m b : Nat)
    (hm : 1 ≤ m) (hb : b + m ≤ tvb_captured_length tvb) :
    (tvb_value true tvb b 1 = 9 → 8 ≤ m →
      ∃ lg, dissect_mpi_oob_msg tvb tree ORTE_RML_TAG_XCAST m b = Res.ok (b + 8) lg
        ∧ hdrs lg = [Hdr.oob_xcast (tvb_value true tvb (b + 7) 1)]
        ∧ reads lg = [(b, 1), (b + 7, 1)])
    ∧ (tvb_value true tvb b 1 ≠ 9 → 5 ≤ m →
      ∃ lg, dissect_mpi_oob_msg tvb tree ORTE_RML_TAG_XCAST m b = Res.ok (b + 5) lg
        ∧ hdrs lg = [Hdr.oob_xcast (tvb_value true tvb (b + 4) 1)]
        ∧ reads lg = [(b, 1), (b + 4, 1)])
    ∧ ((tvb_value true tvb b 1 = 9 ∧ m < 8) ∨ (tvb_value true tvb b 1 ≠ 9 ∧ m < 5) →
      dissect_mpi_oob_msg tvb tree ORTE_RML_TAG_XCAST m b = Res.ok b [Ev.read b 1]) := by
  have hlt := tvb.reported_lt
  have hcap := tvb.captured_le
  unfold tvb_captured_length at hb
  unfold dissect_mpi_oob_msg tvb_value
  unfold ORTE_RML_TAG_INVALID ORTE_RML_TAG_IOF_HNP ORTE_RML_TAG_IOF_PROXY
    ORTE_RML_TAG_ORTED_CALLBACK ORTE_RML_TAG_XCAST
  simp only [if_true, Bool.false_eq_true, if_false, Nat.reduceEqDiff, or_self, ↓reduceIte]
  refine ⟨?_, ?_, ?_⟩
  · intro h9 h8
    cases tree <;>
    simp (disch := omega) only [tvb_get_guint8, tvb_get_ntohl,
      Bool.false_eq_true, if_false, if_true, tvb_fetch_ok, guint_add_eq, guint_sub_eq,
      Res.bind_eq, Res.bind_ok, Res.pure_eq, Res.prepend_ok, Res.prepend_prepend, Res.emit_eq,
      Res.prepend_nil, List.append_nil, List.nil_append, if_pos, if_neg,
      proto_tree_add_item, proto_tree_add_subtree, Nat.add_assoc, Nat.reduceAdd, ↓reduceIte,
      h9, gt_iff_lt]
    all_goals exact ⟨_, rfl, by simp, by simp⟩
  · intro h9 h5
    cases tree <;>
    simp (disch := omega) only [tvb_get_guint8, tvb_get_ntohl,
      Bool.false_eq_true, if_false, if_true, tvb_fetch_ok, guint_add_eq, guint_sub_eq,
      Res.bind_eq, Res.bind_ok, Res.pure_eq, Res.prepend_ok, Res.prepend_prepend, Res.emit_eq,
      Res.prepend_nil, List.append_nil, List.nil_append, if_pos, if_neg,
      proto_tree_add_item, proto_tree_add_subtree, Nat.add_assoc, Nat.reduceAdd, ↓reduceIte,
      h9, gt_iff_lt, eq_comm (a := 9) (b := le_value (List.take 1 (List.drop b tvb.data)))]
    all_goals exact ⟨_, rfl, by simp, by simp⟩
  · intro h
    rcases h with ⟨h9, hlt8⟩ | ⟨h9, hlt5⟩
    · simp (disch := omega) only [tvb_get_guint8, tvb_fetch_ok,
        Res.bind_eq, Res.bind_ok, Res.pure_eq, Res.prepend_ok, Res.prepend_prepend,
        Res.prepend_nil, List.append_nil, List.nil_append, if_pos, if_neg, ↓reduceIte,
        h9, gt_iff_lt]
    · simp (disch := omega) only [tvb_get_guint8, tvb_fetch_ok,
        Res.bind_eq, Res.bind_ok, Res.pure_eq, Res.prepend_ok, Res.prepend_prepend,
        Res.prepend_nil, List.append_nil, List.nil_append, if_pos, if_neg, ↓reduceIte,
        h9, gt_iff_lt, eq_comm (a := 9) (b := le_value (List.take 1 (List.drop b tvb.data)))]

theorem oob_msg_no_case (tvb : tvbuff_t) (tree : Bool) (rml_tag m c : Nat)
    (h : oob_no_case rml_tag) :
    dissect_mpi_oob_msg tvb tree rml_tag m c = Res.ok c [] := by
  obtain ⟨h0, h2, h3, h10, h15⟩ := h
  unfold dissect_mpi_oob_msg
  simp only [h0, h2, h3, h10, h15, or_self, if_false, Res.pure_eq]

/-- The message branch of the loop body, in general: the state is updated
first, then the switch is run on `m` octets. -/
theorem oob_body_message (tvb : tvbuff_t) (pinfo : packet_info) (tree : Bool) (c : Nat)
    (t : mpi_oob_trans_t) (T N m : Nat)
    (hT : oob_pending pinfo t = (T, N)) (hN : N ≠ 0)
    (hc : c < tvb_captured_length tvb)
    (hm : m = min N (tvb_captured_length tvb - c)) :
    dissect_mpi_oob_body tvb pinfo tree c t
      = ((do
          Res.emit (Ev.hdr (Hdr.oob_msg T))
          if tree then proto_tree_add_subtree "ett_mpi_oob_msg"
          let offset ← dissect_mpi_oob_msg tvb tree T m c
          let nbytes := guint_sub m (guint_sub offset c)
          if 0 < nbytes then Res.emit (Ev.hdr (Hdr.oob_length nbytes))
          let offset ←
            (if tvb_captured_length tvb > offset then do
              proto_tree_add_item_bytes tree "hf_mpi_oob_data" tvb offset nbytes
              pure (guint_add offset nbytes)
            else pure offset)
          pure (oob_flow.next offset)),
        if pinfo.srcport > pinfo.destport then
          { t with nbytes_1 := (if tvb_captured_length tvb - c < N then
              guint_sub N (tvb_captured_length tvb - c) else 0) }
        else
          { t with nbytes_2 := (if tvb_captured_length tvb - c < N then
              guint_sub N (tvb_captured_length tvb - c) else 0) }) := by
  have hlt := tvb.reported_lt
  have hcap := tvb.captured_le
  unfold tvb_captured_length at *
  have g : guint_sub tvb.data.length c = tvb.data.length - c :=
    guint_sub_eq (by omega) (by omega)
  unfold oob_pending at hT
  unfold dissect_mpi_oob_body
  simp only [tvb_captured_length, g]
  by_cases hd : pinfo.srcport > pinfo.destport
  · rw [if_pos hd] at hT
    injection hT with h1 h2
    subst h1; subst h2
    have hN' : ¬ 0 = t.nbytes_1 := by omega
    by_cases hs : tvb.data.length - c < t.nbytes_1
    · have : m = tvb.data.length - c := by omega
      subst this
      simp only [hd, if_true, hN', if_false, hs]
    · have : m = t.nbytes_1 := by omega
      subst this
      simp only [hd, if_true, hN', if_false, hs]
  · rw [if_neg hd] at hT
    injection hT with h1 h2
    subst h1; subst h2
    have hN' : ¬ 0 = t.nbytes_2 := by omega
    by_cases hs : tvb.data.length - c < t.nbytes_2
    · have : m = tvb.data.length - c := by omega
      subst this
      simp only [hd, if_false, hN', hs, if_true]
    · have : m = t.nbytes_2 := by omega
      subst this
      simp only [hd, if_false, hN', hs]

theorem oob_body_no_case (tvb : tvbuff_t) (pinfo : packet_info) (tree : Bool) (c : Nat)
    (t : mpi_oob_trans_t) (T N m : Nat)
    (hT : oob_pending pinfo t = (T, N)) (hN : N ≠ 0) (hN32 : N < 4294967296)
    (hc : c < tvb_captured_length tvb)
    (hm : m = min N (tvb_captured_length tvb - c))
    (hop : oob_no_case T) :
    dissect_mpi_oob_body tvb pinfo tree c t
      = (Res.ok (oob_flow.next (c + m))
          ([Ev.hdr (Hdr.oob_msg T)]
            ++ (if tree = true then [Ev.subtree "ett_mpi_oob_msg"] else [])
            ++ [Ev.hdr (Hdr.oob_length m)]
            ++ (if tree = true then [Ev.item "hf_mpi_oob_data" c m] else [])),
        if pinfo.srcport > pinfo.destport then { t with nbytes_1 := N - m }
        else { t with nbytes_2 := N - m }) := by
  have hlt := tvb.reported_lt
  have hcap := tvb.captured_le
  rw [oob_body_message tvb pinfo tree c t T N m hT hN hc hm, oob_msg_no_case _ _ _ _ _ hop]
  unfold tvb_captured_length at *
  have hm1 : 0 < m := by omega
  have hm2 : c + m ≤ tvb.data.length := by omega
  have g0 : guint_sub c c = 0 := by unfold guint_sub; omega
  have g1 : guint_sub m 0 = m := by unfold guint_sub; omega
  have g2 : guint_add c m = c + m := guint_add_eq (by omega)
  have hne : ¬ m = 4294967295 := by omega
  have e1 : (if tvb.data.length - c < N then guint_sub N (tvb.data.length - c) else 0)
      = N - m := by
    split_ifs with h
    · rw [guint_sub_eq (by omega) hN32]; omega
    · omega
  rw [e1]
  cases tree <;>
  simp (disch := omega) only [Res.bind_eq, Res.emit_eq, Res.bind_ok, Res.pure_eq,
    Res.prepend_ok, Res.prepend_prepend, Res.prepend_nil, proto_tree_add_subtree,
    proto_tree_add_item_bytes, proto_tree_add_item, tvb_captured_length,
    Bool.false_eq_true, if_false, if_true, ↓reduceIte, g0, g1, g2, hm1, hne, if_pos, if_neg,
    List.append_nil, List.nil_append, List.append_assoc, List.singleton_append, gt_iff_lt,
    List.cons_append]

/-! ## The OOB reassembler: the loop -/

theorem oob_loop_end (tvb : tvbuff_t) (pinfo : packet_info) (tree : Bool) (fuel c : Nat)
    (t : mpi_oob_trans_t) (h : ¬ tvb_captured_length tvb > c) :
    dissect_mpi_oob_loop tvb pinfo tree fuel c t = some (Res.ok c [], t) := by
  cases fuel <;> (unfold dissect_mpi_oob_loop; rw [if_neg h]; rfl)

theorem oob_loop_next (tvb : tvbuff_t) (pinfo : packet_info) (tree : Bool) (fuel c c' : Nat)
    (t t' : mpi_oob_trans_t) (lg : List Ev) (h : tvb_captured_length tvb > c)
    (hb : dissect_mpi_oob_body tvb pinfo tree c t = (Res.ok (oob_flow.next c') lg, t')) :
    dissect_mpi_oob_loop tvb pinfo tree (fuel + 1) c t
      = (dissect_mpi_oob_loop tvb pinfo tree fuel c' t').map
          (fun r => (Res.prepend lg r.1, r.2)) := by
  conv_lhs => unfold dissect_mpi_oob_loop
  rw [if_pos h, hb]

theorem oob_loop_ret (tvb : tvbuff_t) (pinfo : packet_info) (tree : Bool) (fuel c c' : Nat)
    (t t' : mpi_oob_trans_t) (lg : List Ev) (h : tvb_captured_length tvb > c)
    (hb : dissect_mpi_oob_body tvb pinfo tree c t = (Res.ok (oob_flow.ret c') lg, t')) :
    dissect_mpi_oob_loop tvb pinfo tree (fuel + 1) c t = some (Res.ok c' lg, t') := by
  conv_lhs => unfold dissect_mpi_oob_loop
  rw [if_pos h, hb]

theorem oob_loop_exn (tvb : tvbuff_t) (pinfo : packet_info) (tree : Bool) (fuel c : Nat)
    (t t' : mpi_oob_trans_t) (lg : List Ev) (h : tvb_captured_length tvb > c)
    (hb : dissect_mpi_oob_body tvb pinfo tree c t = (Res.exn lg, t')) :
    dissect_mpi_oob_loop tvb pinfo tree (fuel + 1) c t = some (Res.exn lg, t') := by
  conv_lhs => unfold dissect_mpi_oob_loop
  rw [if_pos h, hb]

/-! Setting the pending values of a direction. -/

theorem oob_pending_set (pinfo : packet_info) (t : mpi_oob_trans_t) (a b : Nat) :
    oob_pending pinfo (if pinfo.srcport > pinfo.destport then
        { t with rml_tag_1 := a, nbytes_1 := b }
      else { t with rml_tag_2 := a, nbytes_2 := b }) = (a, b) := by
  unfold oob_pending; split_ifs <;> rfl

theorem oob_other_set (pinfo : packet_info) (t : mpi_oob_trans_t) (a b : Nat) :
    oob_other pinfo (if pinfo.srcport > pinfo.destport then
        { t with rml_tag_1 := a, nbytes_1 := b }
      else { t with rml_tag_2 := a, nbytes_2 := b }) = oob_other pinfo t := by
  unfold oob_other; split_ifs <;> rfl

theorem oob_old_set (pinfo : packet_info) (t : mpi_oob_trans_t) (a b : Nat) :
    (if pinfo.srcport > pinfo.destport then
        { t with rml_tag_1 := a, nbytes_1 := b }
      else { t with rml_tag_2 := a, nbytes_2 := b }).old = t.old := by
  split_ifs <;> rfl

theorem oob_pending_set_nbytes (pinfo : packet_info) (t : mpi_oob_trans_t) (b : Nat) :
    oob_pending pinfo (if pinfo.srcport > pinfo.destport then { t with nbytes_1 := b }
      else { t with nbytes_2 := b }) = ((oob_pending pinfo t).1, b) := by
  unfold oob_pending; split_ifs <;> rfl

theorem oob_other_set_nbytes (pinfo : packet_info) (t : mpi_oob_trans_t) (b : Nat) :
    oob_other pinfo (if pinfo.srcport > pinfo.destport then { t with nbytes_1 := b }
      else { t with nbytes_2 := b }) = oob_other pinfo t := by
  unfold oob_other; split_ifs <;> rfl

theorem oob_old_set_nbytes (pinfo : packet_info) (t : mpi_oob_trans_t) (b : Nat) :
    (if pinfo.srcport > pinfo.destport then { t with nbytes_1 := b }
      else { t with nbytes_2 := b }).old = t.old := by
  split_ifs <;> rfl

theorem oob_pending_nbytes (pinfo : packet_info) (t : mpi_oob_trans_t) :
    (if pinfo.srcport > pinfo.destport then t.nbytes_1 else t.nbytes_2)
      = (oob_pending pinfo t).2 := by
  unfold oob_pending; split_ifs <;> rfl

/-- The octets of a frame, seen through the buffer that holds it at `c`. -/
theorem frame_value (tvb : tvbuff_t) (c i : Nat) (f r : List Byte)
    (hd : tvb.data.drop c = f ++ r) (hi : i + 4 ≤ f.length) :
    tvb_value false tvb (c + i) 4 = be_value ((f.drop i).take 4) := by
  unfold tvb_value
  simp only [Bool.false_eq_true, if_false]
  rw [← List.drop_drop, hd, List.drop_append_of_le_length (by omega),
    List.take_append_of_le_length (by simp; omega)]

theorem frame_value_zero (tvb : tvbuff_t) (c : Nat) (f r : List Byte)
    (hd : tvb.data.drop c = f ++ r) (hi : 4 ≤ f.length) :
    tvb_value false tvb c 4 = be_value (f.take 4) := by
  have := frame_value tvb c 0 f r hd (by omega)
  simpa using this


theorem hdrs_no_case_log (tree : Bool) (T m c : Nat) :
    hdrs ([Ev.hdr (Hdr.oob_msg T)]
      ++ (if tree = true then [Ev.subtree "ett_mpi_oob_msg"] else [])
      ++ [Ev.hdr (Hdr.oob_length m)]
      ++ (if tree = true then [Ev.item "hf_mpi_oob_data" c m] else []))
      = [Hdr.oob_msg T, Hdr.oob_length m] := by
  cases tree <;> simp

theorem oob_frame_hdrs_eq (tvb : tvbuff_t) (c : Nat) (f r : List Byte)
    (hd : tvb.data.drop c = f ++ r) (hl : 28 ≤ f.length) :
    oob_frame_hdrs f
      = [Hdr.oob_hdr (tvb_value false tvb c 4) (tvb_value false tvb (c + 4) 4)
          (tvb_value false tvb (c + 8) 4) (tvb_value false tvb (c + 12) 4)
          (tvb_value false tvb (c + 16) 4) (tvb_value false tvb (c + 20) 4)
          (tvb_value false tvb (c + 24) 4)]
        ++ (if tvb_value false tvb (c + 24) 4 = 0 then []
            else [Hdr.oob_msg (tvb_value false tvb (c + 20) 4),
                  Hdr.oob_length (tvb_value false tvb (c + 24) 4)]) := by
  unfold oob_frame_hdrs
  rw [frame_value_zero tvb c f r hd (by omega), frame_value tvb c 4 f r hd (by omega),
    frame_value tvb c 8 f r hd (by omega), frame_value tvb c 12 f r hd (by omega),
    frame_value tvb c 16 f r hd (by omega), frame_value tvb c 20 f r hd (by omega),
    frame_value tvb c 24 f r hd (by omega)]

theorem oob_loop_frames (tvb : tvbuff_t) (pinfo : packet_info) (tree : Bool) :
    ∀ (frames : List (List Byte)) (fuel c : Nat) (t : mpi_oob_trans_t),
      (∀ f ∈ frames, oob_frame f) → tvb.data.drop c = frames.flatten →
      c ≤ tvb_captured_length tvb → (oob_pending pinfo t).2 = 0 →
      2 * frames.length ≤ fuel →
      ∃ lg t', dissect_mpi_oob_loop tvb pinfo tree fuel c t
          = some (Res.ok (tvb_captured_length tvb) lg, t')
        ∧ hdrs lg = (frames.map oob_frame_hdrs).flatten
        ∧ (oob_pending pinfo t').2 = 0
        ∧ oob_other pinfo t' = oob_other pinfo t ∧ t'.old = t.old := by
  intro frames
  induction frames with
  | nil =>
    intro fuel c t _ hd hc hp _
    have hlen : tvb.data.length ≤ c := by
      simpa [List.drop_eq_nil_iff] using hd
    have hcc : c = tvb_captured_length tvb := by
      unfold tvb_captured_length at *; omega
    refine ⟨[], t, ?_, by simp, hp, rfl, rfl⟩
    rw [oob_loop_end tvb pinfo tree fuel c t (by omega), hcc]
  | cons f rest ih =>
    intro fuel c t hfr hd hc hp hfuel
    have hf := hfr f (List.mem_cons_self _ _)
    have hrest : ∀ g ∈ rest, oob_frame g := fun g hg => hfr g (List.mem_cons_of_mem _ hg)
    simp only [List.flatten_cons] at hd
    obtain ⟨hfl, hop⟩ := hf
    have hlt := tvb.reported_lt
    have hcap := tvb.captured_le
    have hlen : (tvb.data.drop c).length = f.length + rest.flatten.length := by
      rw [hd, List.length_append]
    rw [List.length_drop] at hlen
    have hn := frame_value tvb c 24 f rest.flatten hd (by omega)
    have htag := frame_value tvb c 20 f rest.flatten hd (by omega)
    rw [← hn] at hfl
    rw [← htag] at hop
    have hn32 : tvb_value false tvb (c + 24) 4 < 4294967296 := by
      have := tvb_value_lt false tvb (c + 24) 4 (by omega)
      simpa using this
    have hcapd : tvb_captured_length tvb = tvb.data.length := rfl
    obtain ⟨lg1, hb1, hh1, _⟩ := oob_body_header tvb pinfo tree c t
      (by rw [oob_pending_nbytes]; exact hp) (by rw [hcapd]; omega)
    simp only [List.length_cons] at hfuel
    obtain ⟨S1, hS1⟩ : ∃ S1 : mpi_oob_trans_t, S1 = (if pinfo.srcport > pinfo.destport then
        { t with rml_tag_1 := tvb_value false tvb (c + 20) 4,
                 nbytes_1 := tvb_value false tvb (c + 24) 4 }
      else
        { t with rml_tag_2 := tvb_value false tvb (c + 20) 4,
                 nbytes_2 := tvb_value false tvb (c + 24) 4 }) := ⟨_, rfl⟩
    rw [← hS1] at hb1
    have hpS1 : oob_pending pinfo S1
        = (tvb_value false tvb (c + 20) 4, tvb_value false tvb (c + 24) 4) := by
      rw [hS1]; exact oob_pending_set pinfo t _ _
    have hoS1 : oob_other pinfo S1 = oob_other pinfo t := by
      rw [hS1]; exact oob_other_set pinfo t _ _
    have holdS1 : S1.old = t.old := by
      rw [hS1]; exact oob_old_set pinfo t _ _
    obtain ⟨fuel1, rfl⟩ : ∃ k, fuel = k + 1 := ⟨fuel - 1, by omega⟩
    rw [oob_loop_next tvb pinfo tree fuel1 c (c + 28) t S1 lg1 (by rw [hcapd]; omega) hb1]
    rw [List.map_cons, List.flatten_cons,
      oob_frame_hdrs_eq tvb c f rest.flatten hd (by omega)]
    by_cases hz : tvb_value false tvb (c + 24) 4 = 0
    · have hd' : tvb.data.drop (c + 28) = rest.flatten := by
        rw [← List.drop_drop, hd, List.drop_left' (by omega)]
      obtain ⟨lg2, t', hl2, hh2, hp2, ho2, hold2⟩ := ih fuel1 (c + 28) S1 hrest hd'
        (by rw [hcapd]; omega) (by rw [hpS1]; exact hz) (by omega)
      refine ⟨lg1 ++ lg2, t', ?_, ?_, hp2, ?_, ?_⟩
      · rw [hl2]; rfl
      · rw [hdrs_append, hh1, hh2, if_pos hz, List.append_nil]
      · rw [ho2, hoS1]
      · rw [hold2, holdS1]
    · obtain ⟨fuel2, rfl⟩ : ∃ k, fuel1 = k + 1 := ⟨fuel1 - 1, by omega⟩
      have hb2 := oob_body_no_case tvb pinfo tree (c + 28) S1
        (tvb_value false tvb (c + 20) 4) (tvb_value false tvb (c + 24) 4)
        (tvb_value false tvb (c + 24) 4) hpS1 hz hn32
        (by rw [hcapd]; omega) (by rw [hcapd]; omega) hop
      obtain ⟨S2, hS2⟩ : ∃ S2 : mpi_oob_trans_t, S2 = (if pinfo.srcport > pinfo.destport then
          { S1 with nbytes_1 := tvb_value false tvb (c + 24) 4 - tvb_value false tvb (c + 24) 4 }
        else
          { S1 with nbytes_2 := tvb_value false tvb (c + 24) 4
              - tvb_value false tvb (c + 24) 4 }) := ⟨_, rfl⟩
      rw [← hS2] at hb2
      obtain ⟨lgm, hlgm⟩ : ∃ l : List Ev, l = ([Ev.hdr (Hdr.oob_msg (tvb_value false tvb (c + 20) 4))]
          ++ (if tree = true then [Ev.subtree "ett_mpi_oob_msg"] else [])
          ++ [Ev.hdr (Hdr.oob_length (tvb_value false tvb (c + 24) 4))]
          ++ (if tree = true then
                [Ev.item "hf_mpi_oob_data" (c + 28) (tvb_value false tvb (c + 24) 4)]
              else [])) := ⟨_, rfl⟩
      rw [← hlgm] at hb2
      have hhm : hdrs lgm = [Hdr.oob_msg (tvb_value false tvb (c + 20) 4),
          Hdr.oob_length (tvb_value false tvb (c + 24) 4)] := by
        rw [hlgm]; exact hdrs_no_case_log tree _ _ _
      have hpS2 : (oob_pending pinfo S2).2 = 0 := by
        rw [hS2, oob_pending_set_nbytes]; simp
      have hoS2 : oob_other pinfo S2 = oob_other pinfo S1 := by
        rw [hS2]; exact oob_other_set_nbytes pinfo S1 _
      have holdS2 : S2.old = S1.old := by
        rw [hS2]; exact oob_old_set_nbytes pinfo S1 _
      rw [oob_loop_next tvb pinfo tree fuel2 (c + 28) _ S1 S2 lgm (by rw [hcapd]; omega) hb2]
      have hd' : tvb.data.drop (c + 28 + tvb_value false tvb (c + 24) 4) = rest.flatten := by
        rw [Nat.add_assoc, ← List.drop_drop, hd, List.drop_left' (by omega)]
      obtain ⟨lg2, t', hl2, hh2, hp2, ho2, hold2⟩ := ih fuel2
        (c + 28 + tvb_value false tvb (c + 24) 4) S2 hrest hd'
        (by rw [hcapd]; omega) hpS2 (by omega)
      refine ⟨lg1 ++ (lgm ++ lg2), t', ?_, ?_, hp2, ?_, ?_⟩
      · rw [hl2]; rfl
      · rw [hdrs_append, hdrs_append, hh1, hh2, hhm, if_neg hz]
        simp
      · rw [ho2, hoS2, hoS1]
      · rw [hold2, holdS2, holdS1]


theorem oob_first_visit (tvb : tvbuff_t) (pinfo : packet_info) (tree : Bool)
    (the_offset : Nat) (conv_data : Option mpi_oob_trans_t) (t0 : mpi_oob_trans_t)
    (hports : 32768 ≤ pinfo.srcport ∧ MAX_TCP_PORT ≥ pinfo.srcport ∧
      32768 ≤ pinfo.destport ∧ MAX_TCP_PORT ≥ pinfo.destport)
    (hvis : pinfo.visited = false)
    (ht0 : t0 = conv_data.getD
      { rml_tag_1 := 0, nbytes_1 := 0, rml_tag_2 := 0, nbytes_2 := 0, old := [] })
    (hreg : conv_data = none → ¬ 28 > guint_sub (tvb_captured_length tvb) the_offset) :
    dissect_mpi_oob tvb pinfo tree the_offset conv_data
      = (dissect_mpi_oob_loop tvb pinfo tree (tvb_captured_length tvb) the_offset
          { t0 with old := (g_hash_table_insert t0.old pinfo.num
            (if pinfo.srcport > pinfo.destport then
              { rml_tag := t0.rml_tag_1, nbytes := t0.nbytes_1 }
            else { rml_tag := t0.rml_tag_2, nbytes := t0.nbytes_2 })) }).map
          (fun r => (Res.prepend ([Ev.hdr (Hdr.oob pinfo.srcport pinfo.destport)]
            ++ (if tree = true then [Ev.item "proto_mpi" 0 (tvb_captured_length tvb)]
                else [])) r.1, some r.2)) := by
  unfold dissect_mpi_oob
  rw [if_neg (not_not.mpr hports)]
  cases conv_data with
  | none =>
    have h := hreg rfl
    unfold tvb_captured_length at h
    simp only [Option.getD_none] at ht0
    subst ht0
    cases tree <;>
    simp (disch := omega) only [Res.bind_eq, Res.emit_eq, Res.bind_ok,
      Res.pure_eq, Res.prepend_ok, proto_tree_add_item, Bool.false_eq_true, if_false, if_true,
      ↓reduceIte, if_pos, List.append_nil, Nat.zero_add, le_refl, hvis, h,
      tvb_captured_length, List.nil_append]
  | some t =>
    simp only [Option.getD_some] at ht0
    subst ht0
    cases tree <;>
    simp (disch := omega) only [Res.bind_eq, Res.emit_eq, Res.bind_ok,
      Res.pure_eq, Res.prepend_ok, proto_tree_add_item, Bool.false_eq_true, if_false, if_true,
      ↓reduceIte, if_pos, List.append_nil, Nat.zero_add, le_refl, hvis,
      tvb_captured_length, List.nil_append]

theorem oob_revisit (tvb : tvbuff_t) (pinfo : packet_info) (tree : Bool)
    (the_offset : Nat) (conv_data : Option mpi_oob_trans_t) (t0 : mpi_oob_trans_t)
    (value : mpi_oob_old_t)
    (hports : 32768 ≤ pinfo.srcport ∧ MAX_TCP_PORT ≥ pinfo.srcport ∧
      32768 ≤ pinfo.destport ∧ MAX_TCP_PORT ≥ pinfo.destport)
    (hvis : pinfo.visited = true)
    (ht0 : t0 = conv_data.getD
      { rml_tag_1 := 0, nbytes_1 := 0, rml_tag_2 := 0, nbytes_2 := 0, old := [] })
    (hv : value = (g_hash_table_lookup t0.old pinfo.num).getD { rml_tag := 0, nbytes := 0 })
    (hreg : conv_data = none → ¬ 28 > guint_sub (tvb_captured_length tvb) the_offset) :
    dissect_mpi_oob tvb pinfo tree the_offset conv_data
      = (dissect_mpi_oob_loop tvb pinfo tree (tvb_captured_length tvb) the_offset
          { (if pinfo.srcport > pinfo.destport then
              { t0 with rml_tag_1 := value.rml_tag, nbytes_1 := value.nbytes }
            else { t0 with rml_tag_2 := value.rml_tag, nbytes_2 := value.nbytes }) with
            old := (g_hash_table_insert t0.old pinfo.num value) }).map
          (fun r => (Res.prepend ([Ev.hdr (Hdr.oob pinfo.srcport pinfo.destport)]
            ++ (if tree = true then [Ev.item "proto_mpi" 0 (tvb_captured_length tvb)]
                else [])) r.1, some r.2)) := by
  unfold dissect_mpi_oob
  rw [if_neg (not_not.mpr hports)]
  cases conv_data with
  | none =>
    have h := hreg rfl
    unfold tvb_captured_length at h
    simp only [Option.getD_none] at ht0
    subst ht0
    have hv' : value = { rml_tag := 0, nbytes := 0 } := by
      rw [hv]; rfl
    subst hv'
    by_cases hd : pinfo.srcport > pinfo.destport <;> cases tree <;>
    simp (disch := omega) only [Res.bind_eq, Res.emit_eq, Res.bind_ok,
      Res.pure_eq, Res.prepend_ok, proto_tree_add_item, Bool.false_eq_true, if_false, if_true,
      ↓reduceIte, if_pos, List.append_nil, Nat.zero_add, le_refl, hvis, h, hd,
      tvb_captured_length, List.nil_append, g_hash_table_lookup, List.find?_nil,
      Option.map_none']
  | some t =>
    simp only [Option.getD_some] at ht0
    subst ht0
    subst hv
    by_cases hd : pinfo.srcport > pinfo.destport <;> cases tree <;>
    cases hl : g_hash_table_lookup t0.old pinfo.num <;>
    simp (disch := omega) only [Res.bind_eq, Res.emit_eq, Res.bind_ok,
      Res.pure_eq, Res.prepend_ok, proto_tree_add_item, Bool.false_eq_true, if_false, if_true,
      ↓reduceIte, if_pos, List.append_nil, Nat.zero_add, le_refl, hvis, hd, hl,
      tvb_captured_length, List.nil_append, Option.getD_none, Option.getD_some]


theorem oob_pending_old (pinfo : packet_info) (t : mpi_oob_trans_t)
    (o : List (Nat × mpi_oob_old_t)) :
    oob_pending pinfo { t with old := o } = oob_pending pinfo t := by
  unfold oob_pending; split_ifs <;> rfl

theorem oob_other_old (pinfo : packet_info) (t : mpi_oob_trans_t)
    (o : List (Nat × mpi_oob_old_t)) :
    oob_other pinfo { t with old := o } = oob_other pinfo t := by
  unfold oob_other; split_ifs <;> rfl

theorem oob_pending_of_getD (pinfo : packet_info) (conv_data : Option mpi_oob_trans_t) :
    oob_pending pinfo (conv_data.getD
      { rml_tag_1 := 0, nbytes_1 := 0, rml_tag_2 := 0, nbytes_2 := 0, old := [] })
      = oob_pending_of pinfo conv_data := by
  cases conv_data with
  | none => unfold oob_pending oob_pending_of; simp
  | some t => rfl

theorem flatten_length_frames (frames : List (List Byte)) (h : ∀ f ∈ frames, oob_frame f) :
    28 * frames.length ≤ frames.flatten.length := by
  induction frames with
  | nil => simp
  | cons f rest ih =>
    have hf := (h f (List.mem_cons_self _ _)).1
    have := ih (fun g hg => h g (List.mem_cons_of_mem _ hg))
    simp only [List.flatten_cons, List.length_append, List.length_cons]
    omega

theorem oob_first_visit_ex (tvb : tvbuff_t) (pinfo : packet_info) (tree : Bool)
    (the_offset : Nat) (conv_data : Option mpi_oob_trans_t)
    (hports : 32768 ≤ pinfo.srcport ∧ MAX_TCP_PORT ≥ pinfo.srcport ∧
      32768 ≤ pinfo.destport ∧ MAX_TCP_PORT ≥ pinfo.destport)
    (hvis : pinfo.visited = false)
    (hreg : conv_data = none → ¬ 28 > guint_sub (tvb_captured_length tvb) the_offset) :
    ∃ T0 : mpi_oob_trans_t, oob_pending pinfo T0 = oob_pending_of pinfo conv_data
      ∧ dissect_mpi_oob tvb pinfo tree the_offset conv_data
        = (dissect_mpi_oob_loop tvb pinfo tree (tvb_captured_length tvb) the_offset T0).map
          (fun r => (Res.prepend ([Ev.hdr (Hdr.oob pinfo.srcport pinfo.destport)]
            ++ (if tree = true then [Ev.item "proto_mpi" 0 (tvb_captured_length tvb)]
                else [])) r.1, some r.2)) :=
  ⟨_, by rw [oob_pending_old, oob_pending_of_getD],
    oob_first_visit tvb pinfo tree the_offset conv_data _ hports hvis rfl hreg⟩

theorem oob_frames_run (tvb : tvbuff_t) (pinfo : packet_info) (tree : Bool)
    (frames : List (List Byte)) (conv_data : Option mpi_oob_trans_t)
    (hports : 32768 ≤ pinfo.srcport ∧ MAX_TCP_PORT ≥ pinfo.srcport ∧
      32768 ≤ pinfo.destport ∧ MAX_TCP_PORT ≥ pinfo.destport)
    (hvis : pinfo.visited = false)
    (hne : frames ≠ [])
    (hfr : ∀ f ∈ frames, oob_frame f)
    (hdata : tvb.data = frames.flatten)
    (hp : (oob_pending_of pinfo conv_data).2 = 0) :
    ∃ lg t',
      dissect_mpi_oob tvb pinfo tree 0 conv_data
        = some (Res.ok (tvb_captured_length tvb) lg, some t')
      ∧ hdrs lg = Hdr.oob pinfo.srcport pinfo.destport
          :: (frames.map oob_frame_hdrs).flatten
      ∧ (oob_pending pinfo t').2 = 0 := by
  have hlt := tvb.reported_lt
  have hcap := tvb.captured_le
  have hcapd : tvb_captured_length tvb = tvb.data.length := rfl
  have hlen := flatten_length_frames frames hfr
  rw [← hdata] at hlen
  have hpos : 0 < frames.length := List.length_pos.mpr hne
  have g : guint_sub (tvb_captured_length tvb) 0 = tvb_captured_length tvb := by
    rw [hcapd]; exact guint_sub_eq (by omega) (by omega)
  obtain ⟨T0, hpT0, hrun⟩ := oob_first_visit_ex tvb pinfo tree 0 conv_data hports hvis
    (by intro _; rw [g, hcapd]; omega)
  rw [hrun]
  obtain ⟨lg, t', hl, hh, hp', _, _⟩ := oob_loop_frames tvb pinfo tree frames
    (tvb_captured_length tvb) 0 T0 hfr (by simpa using hdata) (by omega)
    (by rw [hpT0]; exact hp) (by rw [hcapd]; omega)
  rw [hl]
  refine ⟨_, t', rfl, ?_, hp'⟩
  cases tree <;> simp [hh]


theorem oob_split_first (tvb : tvbuff_t) (pinfo : packet_info) (tree : Bool)
    (conv_data : Option mpi_oob_trans_t) (n k : Nat)
    (hports : 32768 ≤ pinfo.srcport ∧ MAX_TCP_PORT ≥ pinfo.srcport ∧
      32768 ≤ pinfo.destport ∧ MAX_TCP_PORT ≥ pinfo.destport)
    (hvis : pinfo.visited = false)
    (hp : (oob_pending_of pinfo conv_data).2 = 0)
    (hlen : tvb_captured_length tvb = 28 + k)
    (hn : tvb_value false tvb 24 4 = n)
    (hop : oob_no_case (tvb_value false tvb 20 4))
    (hk : 0 < k) (hkn : k ≤ n) :
    ∃ lg st,
      dissect_mpi_oob tvb pinfo tree 0 conv_data = some (Res.ok (28 + k) lg, some st)
      ∧ oob_pending pinfo st = (tvb_value false tvb 20 4, n - k)
      ∧ hdrs lg = [Hdr.oob pinfo.srcport pinfo.destport,
          Hdr.oob_hdr (tvb_value false tvb 0 4) (tvb_value false tvb 4 4)
            (tvb_value false tvb 8 4) (tvb_value false tvb 12 4) (tvb_value false tvb 16 4)
            (tvb_value false tvb 20 4) n,
          Hdr.oob_msg (tvb_value false tvb 20 4), Hdr.oob_length k] := by
  have hlt := tvb.reported_lt
  have hcap := tvb.captured_le
  have hcapd : tvb_captured_length tvb = tvb.data.length := rfl
  have g : guint_sub (tvb_captured_length tvb) 0 = tvb_captured_length tvb := by
    rw [hcapd]; exact guint_sub_eq (by omega) (by omega)
  have hn32 : n < 4294967296 := by
    have := tvb_value_lt false tvb 24 4 (by omega)
    rw [hn] at this; simpa using this
  obtain ⟨T0, hpT0, hrun⟩ := oob_first_visit_ex tvb pinfo tree 0 conv_data hports hvis
    (by intro _; rw [g, hlen]; omega)
  rw [hrun, hlen]
  obtain ⟨lg1, hb1, hh1, _⟩ := oob_body_header tvb pinfo tree 0 T0
    (by rw [oob_pending_nbytes, hpT0]; exact hp) (by rw [hlen]; omega)
  simp only [Nat.zero_add] at hb1 hh1
  rw [hn] at hb1 hh1
  obtain ⟨S1, hS1⟩ : ∃ S1 : mpi_oob_trans_t, S1 = (if pinfo.srcport > pinfo.destport then
      { T0 with rml_tag_1 := tvb_value false tvb 20 4, nbytes_1 := n }
    else { T0 with rml_tag_2 := tvb_value false tvb 20 4, nbytes_2 := n }) := ⟨_, rfl⟩
  rw [← hS1] at hb1
  have hpS1 : oob_pending pinfo S1 = (tvb_value false tvb 20 4, n) := by
    rw [hS1]; exact oob_pending_set pinfo T0 _ _
  have hb2 := oob_body_no_case tvb pinfo tree 28 S1 (tvb_value false tvb 20 4) n k hpS1
    (by omega) hn32 (by rw [hlen]; omega) (by rw [hlen]; omega) hop
  obtain ⟨S2, hS2⟩ : ∃ S2 : mpi_oob_trans_t, S2 = (if pinfo.srcport > pinfo.destport then
      { S1 with nbytes_1 := n - k } else { S1 with nbytes_2 := n - k }) := ⟨_, rfl⟩
  rw [← hS2] at hb2
  have hpS2 : oob_pending pinfo S2 = (tvb_value false tvb 20 4, n - k) := by
    rw [hS2, oob_pending_set_nbytes, hpS1]
  obtain ⟨lgm, hlgm⟩ : ∃ l : List Ev, l = ([Ev.hdr (Hdr.oob_msg (tvb_value false tvb 20 4))]
      ++ (if tree = true then [Ev.subtree "ett_mpi_oob_msg"] else [])
      ++ [Ev.hdr (Hdr.oob_length k)]
      ++ (if tree = true then [Ev.item "hf_mpi_oob_data" 28 k] else [])) := ⟨_, rfl⟩
  rw [← hlgm] at hb2
  have hhm : hdrs lgm = [Hdr.oob_msg (tvb_value false tvb 20 4), Hdr.oob_length k] := by
    rw [hlgm]; exact hdrs_no_case_log tree _ _ _
  obtain ⟨fuel, hfuel⟩ : ∃ fuel, 28 + k = fuel + 1 + 1 := ⟨26 + k, by omega⟩
  have hl : dissect_mpi_oob_loop tvb pinfo tree (28 + k) 0 T0
      = some (Res.ok (28 + k) (lg1 ++ lgm), S2) := by
    conv_lhs => rw [hfuel]
    rw [oob_loop_next tvb pinfo tree (fuel + 1) 0 28 T0 S1 lg1 (by rw [hlen]; omega) hb1,
      oob_loop_next tvb pinfo tree fuel 28 (28 + k) S1 S2 lgm (by rw [hlen]; omega) hb2,
      oob_loop_end tvb pinfo tree fuel (28 + k) S2 (by rw [hlen]; omega)]
    simp
  rw [hl]
  refine ⟨_, S2, rfl, hpS2, ?_⟩
  cases tree <;> simp [hh1, hhm]

theorem oob_split_rest (tvb : tvbuff_t) (pinfo : packet_info) (tree : Bool)
    (st : mpi_oob_trans_t) (T N : Nat)
    (hports : 32768 ≤ pinfo.srcport ∧ MAX_TCP_PORT ≥ pinfo.srcport ∧
      32768 ≤ pinfo.destport ∧ MAX_TCP_PORT ≥ pinfo.destport)
    (hvis : pinfo.visited = false)
    (hp : oob_pending pinfo st = (T, N))
    (hop : oob_no_case T) (hN : 0 < N) (hN32 : N < 4294967296)
    (hlen : tvb_captured_length tvb = N) :
    ∃ lg st',
      dissect_mpi_oob tvb pinfo tree 0 (some st) = some (Res.ok N lg, some st')
      ∧ oob_pending pinfo st' = (T, 0)
      ∧ hdrs lg = [Hdr.oob pinfo.srcport pinfo.destport, Hdr.oob_msg T, Hdr.oob_length N] := by
  have hlt := tvb.reported_lt
  have hcap := tvb.captured_le
  have hcapd : tvb_captured_length tvb = tvb.data.length := rfl
  obtain ⟨T0, hpT0, hrun⟩ := oob_first_visit_ex tvb pinfo tree 0 (some st) hports hvis
    (by intro h; cases h)
  rw [hrun, hlen]
  have hpT0' : oob_pending pinfo T0 = (T, N) := by rw [hpT0]; exact hp
  have hb2 := oob_body_no_case tvb pinfo tree 0 T0 T N N hpT0'
    (by omega) hN32 (by rw [hlen]; omega) (by rw [hlen]; omega) hop
  obtain ⟨S2, hS2⟩ : ∃ S2 : mpi_oob_trans_t, S2 = (if pinfo.srcport > pinfo.destport then
      { T0 with nbytes_1 := N - N } else { T0 with nbytes_2 := N - N }) := ⟨_, rfl⟩
  rw [← hS2] at hb2
  have hpS2 : oob_pending pinfo S2 = (T, 0) := by
    rw [hS2, oob_pending_set_nbytes, hpT0']; simp
  obtain ⟨lgm, hlgm⟩ : ∃ l : List Ev, l = ([Ev.hdr (Hdr.oob_msg T)]
      ++ (if tree = true then [Ev.subtree "ett_mpi_oob_msg"] else [])
      ++ [Ev.hdr (Hdr.oob_length N)]
      ++ (if tree = true then [Ev.item "hf_mpi_oob_data" 0 N] else [])) := ⟨_, rfl⟩
  rw [← hlgm] at hb2
  have hhm : hdrs lgm = [Hdr.oob_msg T, Hdr.oob_length N] := by
    rw [hlgm]; exact hdrs_no_case_log tree _ _ _
  simp only [Nat.zero_add] at hb2
  obtain ⟨fuel, hfuel⟩ : ∃ fuel, N = fuel + 1 := ⟨N - 1, by omega⟩
  have hl : dissect_mpi_oob_loop tvb pinfo tree N 0 T0 = some (Res.ok N lgm, S2) := by
    conv_lhs => rw [hfuel]
    rw [oob_loop_next tvb pinfo tree fuel 0 N T0 S2 lgm (by rw [hlen]; omega) hb2,
      oob_loop_end tvb pinfo tree fuel N S2 (by rw [hlen]; omega)]
    simp
  rw [hl]
  refine ⟨_, S2, rfl, hpS2, ?_⟩
  cases tree <;> simp [hhm]


/-! ## The OOB reassembler: direction isolation and progress -/

theorem oob_body_frame (tvb : tvbuff_t) (pinfo : packet_info) (tree : Bool) (c : Nat)
    (t : mpi_oob_trans_t) :
    oob_other pinfo (dissect_mpi_oob_body tvb pinfo tree c t).2 = oob_other pinfo t
    ∧ (dissect_mpi_oob_body tvb pinfo tree c t).2.old = t.old := by
  unfold dissect_mpi_oob_body oob_other
  by_cases hd : pinfo.srcport > pinfo.destport
  · simp only [hd, if_true]
    split_ifs
    all_goals first | exact ⟨rfl, rfl⟩ | (split <;> exact ⟨rfl, rfl⟩)
  · simp only [hd, if_false]
    split_ifs
    all_goals first | exact ⟨rfl, rfl⟩ | (split <;> exact ⟨rfl, rfl⟩)


theorem oob_body_iso (tvb : tvbuff_t) (pinfo : packet_info) (tree : Bool) (c : Nat)
    (t u : mpi_oob_trans_t) (h : oob_pending pinfo t = oob_pending pinfo u) :
    (dissect_mpi_oob_body tvb pinfo tree c t).1 = (dissect_mpi_oob_body tvb pinfo tree c u).1
    ∧ oob_pending pinfo (dissect_mpi_oob_body tvb pinfo tree c t).2
        = oob_pending pinfo (dissect_mpi_oob_body tvb pinfo tree c u).2 := by
  obtain ⟨a1, b1, a2, b2, o⟩ := t
  obtain ⟨a1', b1', a2', b2', o'⟩ := u
  unfold oob_pending at h
  unfold dissect_mpi_oob_body oob_pending
  by_cases hd : pinfo.srcport > pinfo.destport
  · simp only [hd, if_true] at h ⊢
    injection h with h1 h2
    subst h1; subst h2
    by_cases hz : 0 = b1
    · simp only [hz, if_true]
      by_cases hs : 28 > guint_sub (tvb_captured_length tvb) c
      · simp only [hs, if_true, and_self]
      · simp only [hs, if_false]
        split <;> with_reducible exact ⟨rfl, rfl⟩
    · simp only [hz, if_false]
      by_cases hs : guint_sub (tvb_captured_length tvb) c < b1
      · simp only [hs, if_true, and_self]
      · simp only [hs, if_false, and_self]
  · simp only [hd, if_false] at h ⊢
    injection h with h1 h2
    subst h1; subst h2
    by_cases hz : 0 = b2
    · simp only [hz, if_true]
      by_cases hs : 28 > guint_sub (tvb_captured_length tvb) c
      · simp only [hs, if_true, and_self]
      · simp only [hs, if_false]
        split <;> with_reducible exact ⟨rfl, rfl⟩
    · simp only [hz, if_false]
      by_cases hs : guint_sub (tvb_captured_length tvb) c < b2
      · simp only [hs, if_true, and_self]
      · simp only [hs, if_false, and_self]


theorem guint_add_sub_sub (o m c : Nat) :
    guint_add o (guint_sub m (guint_sub o c)) = (c + m) % 4294967296 := by
  unfold guint_add guint_sub
  omega

/-- A pass through the loop body that reaches the end of the body has moved
the cursor forward. -/
theorem oob_body_advance (tvb : tvbuff_t) (pinfo : packet_info) (tree : Bool) (c c' : Nat)
    (t t' : mpi_oob_trans_t) (lg : List Ev)
    (hc : c < tvb_captured_length tvb)
    (h : dissect_mpi_oob_body tvb pinfo tree c t = (Res.ok (oob_flow.next c') lg, t')) :
    c < c' := by
  have hlt := tvb.reported_lt
  have hcap := tvb.captured_le
  obtain ⟨T, N, hT⟩ : ∃ T N, oob_pending pinfo t = (T, N) := ⟨_, _, rfl⟩
  by_cases hN : N = 0
  · have hstate : (if pinfo.srcport > pinfo.destport then t.nbytes_1 else t.nbytes_2) = 0 := by
      unfold oob_pending at hT
      split_ifs at hT ⊢ <;> (injection hT with h1 h2; omega)
    by_cases h28 : c + 28 ≤ tvb_captured_length tvb
    · obtain ⟨lg', hb, _⟩ := oob_body_header tvb pinfo tree c t hstate h28
      rw [hb] at h
      injection h with h1 h2
      injection h1 with h3 h4
      injection h3 with h5
      omega
    · rw [oob_body_short tvb pinfo tree c t hstate (by omega) (by omega)] at h
      injection h with h1 h2
      injection h1 with h3 h4
      cases h3
  · rw [oob_body_message tvb pinfo tree c t T N _ hT hN hc rfl] at h
    injection h with h1 h2
    unfold tvb_captured_length at *
    cases hm : dissect_mpi_oob_msg tvb tree T (min N (tvb.data.length - c)) c with
    | exn l =>
      rw [hm] at h1
      cases tree <;> simp [Res.prepend, proto_tree_add_subtree] at h1
    | ok o l =>
      rw [hm] at h1
      by_cases ho : tvb.data.length > o
      · have hadv := guint_add_sub_sub o (min N (tvb.data.length - c)) c
        cases hi : proto_tree_add_item_bytes tree "hf_mpi_oob_data" tvb o
            (guint_sub (min N (tvb.data.length - c)) (guint_sub o c)) with
        | exn l2 =>
          cases tree <;>
          simp [Res.prepend, tvb_captured_length, ho, hi, proto_tree_add_subtree] at h1 <;>
          split_ifs at h1
        | ok v l2 =>
          have hv : c' = guint_add o (guint_sub (min N (tvb.data.length - c)) (guint_sub o c)) := by
            cases tree <;>
            simp [Res.prepend, tvb_captured_length, ho, hi, proto_tree_add_subtree] at h1 <;>
            split_ifs at h1 <;> simp [Res.prepend] at h1 <;> exact h1.1.symm
          rw [hv, hadv]
          omega
      · have hv : c' = o := by
          cases tree <;>
          simp [Res.prepend, tvb_captured_length, ho, proto_tree_add_subtree] at h1 <;>
          split_ifs at h1 <;> simp [Res.prepend] at h1 <;> exact h1.1.symm
        omega


theorem oob_loop_total (tvb : tvbuff_t) (pinfo : packet_info) (tree : Bool) :
    ∀ (fuel c : Nat) (t : mpi_oob_trans_t), tvb_captured_length tvb - c ≤ fuel →
      ∃ r t', dissect_mpi_oob_loop tvb pinfo tree fuel c t = some (r, t') := by
  intro fuel
  induction fuel with
  | zero =>
    intro c t h
    exact ⟨_, _, oob_loop_end tvb pinfo tree 0 c t (by omega)⟩
  | succ n ih =>
    intro c t h
    by_cases hc : tvb_captured_length tvb > c
    · rcases hb : dissect_mpi_oob_body tvb pinfo tree c t with ⟨rb, t1⟩
      rcases rb with ⟨fl, lg⟩ | lg
      · rcases fl with c' | c'
        · exact ⟨_, _, oob_loop_ret tvb pinfo tree n c c' t t1 lg hc hb⟩
        · have hadv := oob_body_advance tvb pinfo tree c c' t t1 lg hc hb
          obtain ⟨r, t', hl⟩ := ih c' t1 (by omega)
          rw [oob_loop_next tvb pinfo tree n c c' t t1 lg hc hb, hl]
          exact ⟨_, _, rfl⟩
      · exact ⟨_, _, oob_loop_exn tvb pinfo tree n c t t1 lg hc hb⟩
    · exact ⟨_, _, oob_loop_end tvb pinfo tree (n + 1) c t hc⟩

theorem oob_loop_frame (tvb : tvbuff_t) (pinfo : packet_info) (tree : Bool) :
    ∀ (fuel c : Nat) (t : mpi_oob_trans_t) (r : Res Nat) (t' : mpi_oob_trans_t),
      dissect_mpi_oob_loop tvb pinfo tree fuel c t = some (r, t') →
      oob_other pinfo t' = oob_other pinfo t ∧ t'.old = t.old := by
  intro fuel
  induction fuel with
  | zero =>
    intro c t r t' h
    by_cases hc : tvb_captured_length tvb > c
    · unfold dissect_mpi_oob_loop at h
      rw [if_pos hc] at h
      cases h
    · rw [oob_loop_end tvb pinfo tree 0 c t hc] at h
      injection h with h
      injection h with h1 h2
      subst h2
      exact ⟨rfl, rfl⟩
  | succ n ih =>
    intro c t r t' h
    by_cases hc : tvb_captured_length tvb > c
    · have hf := oob_body_frame tvb pinfo tree c t
      rcases hb : dissect_mpi_oob_body tvb pinfo tree c t with ⟨rb, t1⟩
      rw [hb] at hf
      rcases rb with ⟨fl, lg⟩ | lg
      · rcases fl with c' | c'
        · rw [oob_loop_ret tvb pinfo tree n c c' t t1 lg hc hb] at h
          injection h with h
          injection h with h1 h2
          subst h2
          exact hf
        · rw [oob_loop_next tvb pinfo tree n c c' t t1 lg hc hb] at h
          cases hl : dissect_mpi_oob_loop tvb pinfo tree n c' t1 with
          | none => rw [hl] at h; cases h
          | some x =>
            rw [hl] at h
            obtain ⟨rx, tx⟩ := x
            simp only [Option.map_some'] at h
            injection h with h
            injection h with h1 h2
            subst h2
            have := ih c' t1 rx tx hl
            exact ⟨this.1.trans hf.1, this.2.trans hf.2⟩
      · rw [oob_loop_exn tvb pinfo tree n c t t1 lg hc hb] at h
        injection h with h
        injection h with h1 h2
        subst h2
        exact hf
    · rw [oob_loop_end tvb pinfo tree (n + 1) c t hc] at h
      injection h with h
      injection h with h1 h2
      subst h2
      exact ⟨rfl, rfl⟩

theorem oob_loop_iso (tvb : tvbuff_t) (pinfo : packet_info) (tree : Bool) :
    ∀ (fuel c : Nat) (t u : mpi_oob_trans_t), oob_pending pinfo t = oob_pending pinfo u →
      ∀ (r : Res Nat) (t' : mpi_oob_trans_t),
        dissect_mpi_oob_loop tvb pinfo tree fuel c t = some (r, t') →
        ∃ u', dissect_mpi_oob_loop tvb pinfo tree fuel c u = some (r, u')
          ∧ oob_pending pinfo u' = oob_pending pinfo t' := by
  intro fuel
  induction fuel with
  | zero =>
    intro c t u hp r t' h
    by_cases hc : tvb_captured_length tvb > c
    · unfold dissect_mpi_oob_loop at h
      rw [if_pos hc] at h
      cases h
    · rw [oob_loop_end tvb pinfo tree 0 c t hc] at h
      injection h with h
      injection h with h1 h2
      subst h1; subst h2
      exact ⟨u, oob_loop_end tvb pinfo tree 0 c u hc, hp.symm⟩
  | succ n ih =>
    intro c t u hp r t' h
    by_cases hc : tvb_captured_length tvb > c
    · have hi := oob_body_iso tvb pinfo tree c t u hp
      rcases hb : dissect_mpi_oob_body tvb pinfo tree c t with ⟨rb, t1⟩
      rcases hbu : dissect_mpi_oob_body tvb pinfo tree c u with ⟨rbu, u1⟩
      rw [hb, hbu] at hi
      obtain ⟨hi1, hi2⟩ := hi
      simp only at hi1 hi2
      subst hi1
      rcases rb with ⟨fl, lg⟩ | lg
      · rcases fl with c' | c'
        · rw [oob_loop_ret tvb pinfo tree n c c' t t1 lg hc hb] at h
          injection h with h
          injection h with h1 h2
          subst h1; subst h2
          exact ⟨u1, oob_loop_ret tvb pinfo tree n c c' u u1 lg hc hbu, hi2.symm⟩
        · rw [oob_loop_next tvb pinfo tree n c c' t t1 lg hc hb] at h
          cases hl : dissect_mpi_oob_loop tvb pinfo tree n c' t1 with
          | none => rw [hl] at h; cases h
          | some x =>
            rw [hl] at h
            obtain ⟨rx, tx⟩ := x
            simp only [Option.map_some'] at h
            injection h with h
            injection h with h1 h2
            subst h1; subst h2
            obtain ⟨u', hu', hpu'⟩ := ih c' t1 u1 hi2 rx tx hl
            refine ⟨u', ?_, hpu'⟩
            rw [oob_loop_next tvb pinfo tree n c c' u u1 lg hc hbu, hu']
            rfl
      · rw [oob_loop_exn tvb pinfo tree n c t t1 lg hc hb] at h
        injection h with h
        injection h with h1 h2
        subst h1; subst h2
        exact ⟨u1, oob_loop_exn tvb pinfo tree n c u u1 lg hc hbu, hi2.symm⟩
    · rw [oob_loop_end tvb pinfo tree (n + 1) c t hc] at h
      injection h with h
      injection h with h1 h2
      subst h1; subst h2
      exact ⟨u, oob_loop_end tvb pinfo tree (n + 1) c u hc, hp.symm⟩


/-! ## The OOB reassembler: the table `old` and whole calls -/

theorem g_hash_table_lookup_insert (table : List (Nat × mpi_oob_old_t)) (key : Nat)
    (value : mpi_oob_old_t) :
    g_hash_table_lookup (g_hash_table_insert table key value) key = some value := by
  induction table with
  | nil => simp [g_hash_table_insert, g_hash_table_lookup]
  | cons e es ih =>
    unfold g_hash_table_insert
    by_cases h : e.1 = key
    · rw [if_pos h]; simp [g_hash_table_lookup]
    · rw [if_neg h]
      unfold g_hash_table_lookup at ih ⊢
      rw [List.find?_cons_of_neg _ (by simpa using h)]
      exact ih

theorem g_hash_table_lookup_insert_ne (table : List (Nat × mpi_oob_old_t)) (key k : Nat)
    (value : mpi_oob_old_t) (hk : k ≠ key) :
    g_hash_table_lookup (g_hash_table_insert table key value) k
      = g_hash_table_lookup table k := by
  induction table with
  | nil =>
    have : ¬ key = k := fun h => hk h.symm
    simp [g_hash_table_insert, g_hash_table_lookup, this]
  | cons e es ih =>
    unfold g_hash_table_insert
    by_cases h : e.1 = key
    · rw [if_pos h]
      have h1 : ¬ key = k := fun h => hk h.symm
      have h2 : ¬ e.1 = k := by rw [h]; exact h1
      unfold g_hash_table_lookup
      rw [List.find?_cons_of_neg _ (by simpa using h1),
        List.find?_cons_of_neg _ (by simpa using h2)]
    · rw [if_neg h]
      unfold g_hash_table_lookup at ih ⊢
      by_cases h2 : e.1 = k
      · rw [List.find?_cons_of_pos _ (by simpa using h2),
          List.find?_cons_of_pos _ (by simpa using h2)]
      · rw [List.find?_cons_of_neg _ (by simpa using h2),
          List.find?_cons_of_neg _ (by simpa using h2)]
        exact ih

/-- The loop body uses only the ports of the packet. -/
theorem oob_body_ports (tvb : tvbuff_t) (p q : packet_info) (tree : Bool) (c : Nat)
    (t : mpi_oob_trans_t) (h1 : p.srcport = q.srcport) (h2 : p.destport = q.destport) :
    dissect_mpi_oob_body tvb p tree c t = dissect_mpi_oob_body tvb q tree c t := by
  unfold dissect_mpi_oob_body
  rw [h1, h2]

theorem oob_loop_ports (tvb : tvbuff_t) (p q : packet_info) (tree : Bool)
    (h1 : p.srcport = q.srcport) (h2 : p.destport = q.destport) :
    ∀ (fuel c : Nat) (t : mpi_oob_trans_t),
      dissect_mpi_oob_loop tvb p tree fuel c t = dissect_mpi_oob_loop tvb q tree fuel c t := by
  intro fuel
  induction fuel with
  | zero => intro c t; unfold dissect_mpi_oob_loop; rfl
  | succ n ih =>
    intro c t
    unfold dissect_mpi_oob_loop
    rw [oob_body_ports tvb p q tree c t h1 h2]
    by_cases hc : tvb_captured_length tvb > c
    · rw [if_pos hc, if_pos hc]
      rcases dissect_mpi_oob_body tvb q tree c t with ⟨rb, t1⟩
      rcases rb with ⟨fl, lg⟩ | lg
      · rcases fl with c' | c'
        · rfl
        · simp only [ih]
      · rfl
    · rw [if_neg hc, if_neg hc]

/-- The values with which a call of `dissect_mpi_oob` enters the loop for the
packet's direction: the snapshot of the frame for a visited packet, the pending
values of the conversation otherwise. -/
theorem oob_top (tvb : tvbuff_t) (pinfo : packet_info) (tree : Bool)
    (the_offset : Nat) (conv_data : Option mpi_oob_trans_t)
    (hports : 32768 ≤ pinfo.srcport ∧ MAX_TCP_PORT ≥ pinfo.srcport ∧
      32768 ≤ pinfo.destport ∧ MAX_TCP_PORT ≥ pinfo.destport)
    (hreg : conv_data = none → ¬ 28 > guint_sub (tvb_captured_length tvb) the_offset) :
    ∃ T0 : mpi_oob_trans_t,
      oob_pending pinfo T0
          = (if pinfo.visited = true then oob_snapshot conv_data pinfo.num
             else oob_pending_of pinfo conv_data)
      ∧ oob_snapshot (some T0) pinfo.num
          = (if pinfo.visited = true then oob_snapshot conv_data pinfo.num
             else oob_pending_of pinfo conv_data)
      ∧ (∀ k, k ≠ pinfo.num → oob_snapshot (some T0) k = oob_snapshot conv_data k)
      ∧ oob_other pinfo T0 = oob_other pinfo (conv_data.getD
          { rml_tag_1 := 0, nbytes_1 := 0, rml_tag_2 := 0, nbytes_2 := 0, old := [] })
      ∧ dissect_mpi_oob tvb pinfo tree the_offset conv_data
        = (dissect_mpi_oob_loop tvb pinfo tree (tvb_captured_length tvb) the_offset T0).map
          (fun r => (Res.prepend ([Ev.hdr (Hdr.oob pinfo.srcport pinfo.destport)]
            ++ (if tree = true then [Ev.item "proto_mpi" 0 (tvb_captured_length tvb)]
                else [])) r.1, some r.2)) := by
  have hsnap : ∀ k, oob_snapshot conv_data k
      = oob_snapshot (some (conv_data.getD
          { rml_tag_1 := 0, nbytes_1 := 0, rml_tag_2 := 0, nbytes_2 := 0, old := [] })) k := by
    intro k
    cases conv_data with
    | none => simp [oob_snapshot, g_hash_table_lookup]
    | some t => rfl
  obtain ⟨t0, ht0⟩ : ∃ t0 : mpi_oob_trans_t, t0 = conv_data.getD
      { rml_tag_1 := 0, nbytes_1 := 0, rml_tag_2 := 0, nbytes_2 := 0, old := [] } := ⟨_, rfl⟩
  rw [← ht0] at hsnap ⊢
  have hpof : oob_pending_of pinfo conv_data = oob_pending pinfo t0 := by
    rw [ht0, oob_pending_of_getD]
  cases hvis : pinfo.visited with
  | false =>
    refine ⟨_, ?_, ?_, ?_, ?_,
      oob_first_visit tvb pinfo tree the_offset conv_data t0 hports hvis ht0 hreg⟩
    · rw [oob_pending_old, hpof]; simp
    · simp only [oob_snapshot, g_hash_table_lookup_insert, hpof, Bool.false_eq_true, if_false]
      unfold oob_pending
      split_ifs <;> rfl
    · intro k hk
      rw [hsnap k]
      simp only [oob_snapshot, g_hash_table_lookup_insert_ne _ _ _ _ hk]
    · rw [oob_other_old]
  | true =>
    obtain ⟨value, hv⟩ : ∃ value : mpi_oob_old_t, value
        = (g_hash_table_lookup t0.old pinfo.num).getD { rml_tag := 0, nbytes := 0 } := ⟨_, rfl⟩
    have hval : oob_snapshot conv_data pinfo.num = (value.rml_tag, value.nbytes) := by
      rw [hsnap, hv]
      dsimp only [oob_snapshot]
      cases g_hash_table_lookup t0.old pinfo.num <;> rfl
    refine ⟨_, ?_, ?_, ?_, ?_,
      oob_revisit tvb pinfo tree the_offset conv_data t0 value hports hvis ht0 hv hreg⟩
    · rw [oob_pending_old, oob_pending_set, hval]; simp
    · rw [hval]
      simp only [oob_snapshot, g_hash_table_lookup_insert, if_true]
    · intro k hk
      rw [hsnap k]
      simp only [oob_snapshot, g_hash_table_lookup_insert_ne _ _ _ _ hk]
    · rw [oob_other_old, oob_other_set]


theorem oob_snapshot_old (t u : mpi_oob_trans_t) (h : t.old = u.old) (k : Nat) :
    oob_snapshot (some t) k = oob_snapshot (some u) k := by
  unfold oob_snapshot
  simp only [h]

/-- A call of `dissect_mpi_oob` that enters the loop. -/
theorem oob_call_regular (tvb : tvbuff_t) (pinfo : packet_info) (tree : Bool)
    (the_offset : Nat) (conv_data : Option mpi_oob_trans_t)
    (hports : 32768 ≤ pinfo.srcport ∧ MAX_TCP_PORT ≥ pinfo.srcport ∧
      32768 ≤ pinfo.destport ∧ MAX_TCP_PORT ≥ pinfo.destport)
    (hreg : conv_data = none → ¬ 28 > guint_sub (tvb_captured_length tvb) the_offset) :
    ∃ (T0 : mpi_oob_trans_t) (r : Res Nat) (t' : mpi_oob_trans_t),
      oob_pending pinfo T0
          = (if pinfo.visited = true then oob_snapshot conv_data pinfo.num
             else oob_pending_of pinfo conv_data)
      ∧ dissect_mpi_oob_loop tvb pinfo tree (tvb_captured_length tvb) the_offset T0
          = some (r, t')
      ∧ dissect_mpi_oob tvb pinfo tree the_offset conv_data
          = some (Res.prepend ([Ev.hdr (Hdr.oob pinfo.srcport pinfo.destport)]
            ++ (if tree = true then [Ev.item "proto_mpi" 0 (tvb_captured_length tvb)]
                else [])) r, some t')
      ∧ oob_other pinfo t' = oob_other pinfo (conv_data.getD
          { rml_tag_1 := 0, nbytes_1 := 0, rml_tag_2 := 0, nbytes_2 := 0, old := [] })
      ∧ oob_snapshot (some t') pinfo.num
          = (if pinfo.visited = true then oob_snapshot conv_data pinfo.num
             else oob_pending_of pinfo conv_data)
      ∧ (∀ k, k ≠ pinfo.num → oob_snapshot (some t') k = oob_snapshot conv_data k) := by
  obtain ⟨T0, hp, hsn, hsk, ho, hrun⟩ := oob_top tvb pinfo tree the_offset conv_data hports hreg
  obtain ⟨r, t', hl⟩ := oob_loop_total tvb pinfo tree (tvb_captured_length tvb) the_offset T0
    (by omega)
  obtain ⟨hfo, hfold⟩ := oob_loop_frame tvb pinfo tree _ _ _ _ _ hl
  refine ⟨T0, r, t', hp, hl, ?_, hfo.trans ho, ?_, ?_⟩
  · rw [hrun, hl]; rfl
  · rw [oob_snapshot_old t' T0 hfold, hsn]
  · intro k hk
    rw [oob_snapshot_old t' T0 hfold, hsk k hk]

/-- A call of `dissect_mpi_oob` on a buffer shorter than a header, entered at
offset 0 when nothing is pending for the packet's direction. -/
theorem oob_call_short (tvb : tvbuff_t) (pinfo : packet_info) (tree : Bool)
    (conv_data : Option mpi_oob_trans_t)
    (hports : 32768 ≤ pinfo.srcport ∧ MAX_TCP_PORT ≥ pinfo.srcport ∧
      32768 ≤ pinfo.destport ∧ MAX_TCP_PORT ≥ pinfo.destport)
    (hshort : tvb_captured_length tvb < 28)
    (hz : (if pinfo.visited = true then oob_snapshot conv_data pinfo.num
             else oob_pending_of pinfo conv_data).2 = 0) :
    ∃ c' : Option mpi_oob_trans_t,
      dissect_mpi_oob tvb pinfo tree 0 conv_data
          = some (Res.ok 0 ([Ev.hdr (Hdr.oob pinfo.srcport pinfo.destport)]
            ++ (if tree = true then [Ev.item "proto_mpi" 0 (tvb_captured_length tvb)]
                else [])), c')
      ∧ oob_pending_of pinfo c'
          = (if pinfo.visited = true then oob_snapshot conv_data pinfo.num
             else oob_pending_of pinfo conv_data)
      ∧ oob_snapshot c' pinfo.num
          = (if pinfo.visited = true then oob_snapshot conv_data pinfo.num
             else oob_pending_of pinfo conv_data)
      ∧ (∀ k, k ≠ pinfo.num → oob_snapshot c' k = oob_snapshot conv_data k) := by
  cases conv_data with
  | none =>
    refine ⟨none, oob_no_state_short tvb pinfo tree 0 hports (by omega) (by omega), ?_, ?_, ?_⟩
    · simp [oob_pending_of, oob_snapshot]
    · simp [oob_pending_of, oob_snapshot]
    · intro k _; rfl
  | some t =>
    obtain ⟨T0, hp, hsn, hsk, ho, hrun⟩ := oob_top tvb pinfo tree 0 (some t) hports
      (fun h => by cases h)
    have hstate : (if pinfo.srcport > pinfo.destport then T0.nbytes_1 else T0.nbytes_2) = 0 := by
      rw [oob_pending_nbytes, hp]; exact hz
    have hl := oob_loop_short tvb pinfo tree (tvb_captured_length tvb) 0 T0 hstate
      (by omega) (by omega) (by omega)
    refine ⟨some T0, ?_, hp, hsn, hsk⟩
    rw [hrun, hl]
    simp


/-- The first-visit call on a packet and the call on the same packet flagged
as visited, on OOB data whose table holds for the frame the values that were
pending when the first call was made. -/
theorem oob_replay_call (tvb : tvbuff_t) (pinfo : packet_info) (tree : Bool)
    (s u : Option mpi_oob_trans_t)
    (hports : 32768 ≤ pinfo.srcport ∧ MAX_TCP_PORT ≥ pinfo.srcport ∧
      32768 ≤ pinfo.destport ∧ MAX_TCP_PORT ≥ pinfo.destport)
    (hvis : pinfo.visited = false)
    (hsu : oob_snapshot u pinfo.num = oob_pending_of pinfo s) :
    ∃ (r : Res Nat) (s' u' : Option mpi_oob_trans_t),
      dissect_mpi_oob tvb pinfo tree 0 s = some (r, s')
      ∧ dissect_mpi_oob tvb { pinfo with visited := true } tree 0 u = some (r, u')
      ∧ oob_pending_of pinfo u' = oob_pending_of pinfo s'
      ∧ (∀ k, oob_snapshot u' k = oob_snapshot u k) := by
  have hlt := tvb.reported_lt
  have hcap := tvb.captured_le
  have hports' : 32768 ≤ ({ pinfo with visited := true } : packet_info).srcport
      ∧ MAX_TCP_PORT ≥ ({ pinfo with visited := true } : packet_info).srcport
      ∧ 32768 ≤ ({ pinfo with visited := true } : packet_info).destport
      ∧ MAX_TCP_PORT ≥ ({ pinfo with visited := true } : packet_info).destport := hports
  by_cases hsh : tvb_captured_length tvb < 28 ∧ (oob_pending_of pinfo s).2 = 0
  · obtain ⟨hshort, hz⟩ := hsh
    obtain ⟨s', h1, hp1, _, _⟩ := oob_call_short tvb pinfo tree s hports hshort
      (by rw [hvis]; simpa using hz)
    obtain ⟨u', h2, hp2, hs2, hk2⟩ := oob_call_short tvb { pinfo with visited := true } tree u
      hports' hshort (by simp only [if_true]; rw [hsu]; exact hz)
    refine ⟨_, s', u', h1, h2, ?_, ?_⟩
    · rw [hvis] at hp1
      simp only [Bool.false_eq_true, if_false] at hp1
      simp only [if_true] at hp2
      rw [hp1, ← hsu]
      exact hp2
    · intro k
      by_cases hk : k = pinfo.num
      · subst hk
        simp only [if_true] at hs2
        exact hs2
      · exact hk2 k hk
  · have g : guint_sub (tvb_captured_length tvb) 0 = tvb_captured_length tvb := by
      unfold tvb_captured_length at *
      exact guint_sub_eq (by omega) (by omega)
    have hreg1 : s = none → ¬ 28 > guint_sub (tvb_captured_length tvb) 0 := by
      intro hs hlt28
      rw [g] at hlt28
      exact hsh ⟨hlt28, by rw [hs]; rfl⟩
    have hreg2 : u = none → ¬ 28 > guint_sub (tvb_captured_length tvb) 0 := by
      intro hu hlt28
      rw [g] at hlt28
      refine hsh ⟨hlt28, ?_⟩
      rw [← hsu, hu]; rfl
    obtain ⟨T0, r, t', hpT, hlT, hrT, _, _, _⟩ :=
      oob_call_regular tvb pinfo tree 0 s hports hreg1
    obtain ⟨U0, r2, u', hpU, hlU, hrU, _, hsU, hkU⟩ :=
      oob_call_regular tvb { pinfo with visited := true } tree 0 u hports' hreg2
    rw [hvis] at hpT
    simp only [Bool.false_eq_true, if_false] at hpT
    simp only [if_true] at hpU hsU
    rw [oob_loop_ports tvb { pinfo with visited := true } pinfo tree rfl rfl] at hlU
    have hpU' : oob_pending pinfo U0 = oob_snapshot u pinfo.num := hpU
    obtain ⟨u'', hl2, hp2⟩ := oob_loop_iso tvb pinfo tree _ _ T0 U0
      (by rw [hpT, hpU', hsu]) r t' hlT
    rw [hl2] at hlU
    injection hlU with hlU
    injection hlU with e1 e2
    subst e1; subst e2
    refine ⟨_, some t', some u'', hrT, hrU, hp2, ?_⟩
    intro k
    by_cases hk : k = pinfo.num
    · subst hk; exact hsU
    · exact hkU k hk

/-- What a first-visit call leaves in the table `old`. -/
theorem oob_first_call (tvb : tvbuff_t) (pinfo : packet_info) (tree : Bool)
    (s : Option mpi_oob_trans_t)
    (hports : 32768 ≤ pinfo.srcport ∧ MAX_TCP_PORT ≥ pinfo.srcport ∧
      32768 ≤ pinfo.destport ∧ MAX_TCP_PORT ≥ pinfo.destport)
    (hvis : pinfo.visited = false) :
    ∃ (r : Res Nat) (s' : Option mpi_oob_trans_t),
      dissect_mpi_oob tvb pinfo tree 0 s = some (r, s')
      ∧ oob_snapshot s' pinfo.num = oob_pending_of pinfo s
      ∧ (∀ k, k ≠ pinfo.num → oob_snapshot s' k = oob_snapshot s k) := by
  have hlt := tvb.reported_lt
  have hcap := tvb.captured_le
  by_cases hsh : tvb_captured_length tvb < 28 ∧ (oob_pending_of pinfo s).2 = 0
  · obtain ⟨hshort, hz⟩ := hsh
    obtain ⟨s', h1, _, hs1, hk1⟩ := oob_call_short tvb pinfo tree s hports hshort
      (by rw [hvis]; simpa using hz)
    rw [hvis] at hs1
    exact ⟨_, s', h1, by simpa using hs1, hk1⟩
  · have g : guint_sub (tvb_captured_length tvb) 0 = tvb_captured_length tvb := by
      unfold tvb_captured_length at *
      exact guint_sub_eq (by omega) (by omega)
    have hreg1 : s = none → ¬ 28 > guint_sub (tvb_captured_length tvb) 0 := by
      intro hs hlt28
      rw [g] at hlt28
      exact hsh ⟨hlt28, by rw [hs]; rfl⟩
    obtain ⟨T0, r, t', _, _, hrT, _, hsT, hkT⟩ :=
      oob_call_regular tvb pinfo tree 0 s hports hreg1
    rw [hvis] at hsT
    exact ⟨_, some t', hrT, by simpa using hsT, hkT⟩


theorem oob_pass_replay (tree : Bool) :
    ∀ (ps : List (tvbuff_t × packet_info)) (s : Option mpi_oob_trans_t),
      (∀ p ∈ ps, 32768 ≤ p.2.srcport ∧ MAX_TCP_PORT ≥ p.2.srcport ∧
        32768 ≤ p.2.destport ∧ MAX_TCP_PORT ≥ p.2.destport) →
      (∀ p ∈ ps, p.2.visited = false) →
      (ps.map (fun p => p.2.num)).Nodup →
      ∃ (rs : List (Res Nat × (Nat × Nat))) (S : Option mpi_oob_trans_t),
        oob_pass tree ps s = some (rs, S)
        ∧ (∀ k, k ∉ ps.map (fun p => p.2.num) → oob_snapshot S k = oob_snapshot s k)
        ∧ ∀ u : Option mpi_oob_trans_t,
            (∀ p ∈ ps, oob_snapshot u p.2.num = oob_snapshot S p.2.num) →
            ∃ U : Option mpi_oob_trans_t,
              oob_pass tree (revisit ps) u = some (rs, U)
              ∧ ∀ k, oob_snapshot U k = oob_snapshot u k := by
  intro ps
  induction ps with
  | nil =>
    intro s _ _ _
    exact ⟨[], s, rfl, fun _ _ => rfl, fun u _ => ⟨u, rfl, fun _ => rfl⟩⟩
  | cons p ps ih =>
    intro s hports hvis hnd
    have hp := hports p (List.mem_cons_self _ _)
    have hv := hvis p (List.mem_cons_self _ _)
    simp only [List.map_cons, List.nodup_cons] at hnd
    obtain ⟨hnot, hnd'⟩ := hnd
    obtain ⟨r, s1, h1, hs1, hk1⟩ := oob_first_call p.1 p.2 tree s hp hv
    obtain ⟨rs, S, hpass, hframe, hrep⟩ := ih s1
      (fun q hq => hports q (List.mem_cons_of_mem _ hq))
      (fun q hq => hvis q (List.mem_cons_of_mem _ hq)) hnd'
    have hSp : oob_snapshot S p.2.num = oob_pending_of p.2 s := by
      rw [hframe _ hnot, hs1]
    refine ⟨(r, oob_pending_of p.2 s1) :: rs, S, ?_, ?_, ?_⟩
    · unfold oob_pass
      rw [h1]
      simp only [hpass, Option.map_some']
    · intro k hk
      simp only [List.map_cons, List.mem_cons, not_or] at hk
      rw [hframe k hk.2, hk1 k hk.1]
    · intro u hu
      have hup : oob_snapshot u p.2.num = oob_pending_of p.2 s := by
        rw [hu p (List.mem_cons_self _ _), hSp]
      obtain ⟨r', s1', u1, h1', h2, hpu, hsu⟩ := oob_replay_call p.1 p.2 tree s u hp hv hup
      rw [h1] at h1'
      injection h1' with h1'
      injection h1' with e1 e2
      subst e1; subst e2
      obtain ⟨U, hU, hUk⟩ := hrep u1 (fun q hq => by
        rw [hsu, hu q (List.mem_cons_of_mem _ hq)])
      refine ⟨U, ?_, fun k => by rw [hUk, hsu]⟩
      unfold revisit at hU ⊢
      simp only [List.map_cons]
      unfold oob_pass
      simp only [h2, hU, Option.map_some']
      have : oob_pending_of { p.2 with visited := true } u1 = oob_pending_of p.2 s1 := hpu
      rw [this]


/-! ## The Sync transaction matcher: single calls -/

theorem sync_first_request (tvb : tvbuff_t) (pinfo : packet_info) (tree : Bool)
    (the_offset : Nat)
    (hlen : tvb_captured_length tvb = the_offset + 8)
    (hvis : pinfo.visited = false) :
    ∃ lg,
      dissect_mpi_sync tvb pinfo tree the_offset none
        = (Res.ok (the_offset + 8) lg,
            some { pdus := [((tvb_value false tvb 0 4, pinfo.num),
              { jobid := tvb_value false tvb 0 4, vpid := tvb_value false tvb 4 4,
                req_frame := pinfo.num, rep_frame := 0, req_time := pinfo.abs_ts })] })
      ∧ hdrs lg = [Hdr.sync pinfo.srcport pinfo.destport (tvb_value false tvb 0 4)
          (tvb_value false tvb 4 4) true]
      ∧ reads lg = [(0, 4), (4, 4)] := by
  have hlt := tvb.reported_lt
  have hcap := tvb.captured_le
  unfold tvb_captured_length at hlen
  have g : guint_sub (the_offset + 8) the_offset = 8 := by
    rw [guint_sub_eq (by omega) (by omega)]; omega
  unfold dissect_mpi_sync tvb_value
  cases tree <;>
  simp (disch := omega) only [tvb_captured_length, hlen, g, ne_eq, not_true_eq_false, if_false,
    tvb_get_ntohl, tvb_fetch_ok, Res.bind_eq, Res.bind_ok, Res.pure_eq, Res.prepend_ok,
    Res.prepend_prepend, Res.emit_eq, Res.prepend_nil, List.append_nil, List.nil_append,
    proto_tree_add_item, proto_tree_add_uint, proto_tree_add_time, hvis, Bool.false_eq_true,
    not_false_eq_true, if_true, ↓reduceIte, wmem_tree_insert32_array, if_pos, if_neg,
    hlen]
  all_goals exact ⟨_, rfl, by simp, by simp⟩


theorem wmem_tree_lookup_single (j f k : Nat) (tr : mpi_sync_trans_t) (h : f ≤ k) :
    wmem_tree_lookup32_array_le [((j, f), tr)] (j, k) = some ((j, f), tr) := by
  simp [wmem_tree_lookup32_array_le, wmem_tree_lookup32_le, h]

theorem sync_response (tvb : tvbuff_t) (pinfo : packet_info) (tree : Bool)
    (j v f : Nat) (t : Int)
    (hlen : tvb_captured_length tvb = 8)
    (hvis : pinfo.visited = false)
    (hj : tvb_value false tvb 0 4 = j)
    (hf0 : 0 < f) (hf : f ≤ pinfo.num) :
    ∃ lg,
      dissect_mpi_sync tvb pinfo tree 0
          (some { pdus := [((j, f),
            { jobid := j, vpid := v, req_frame := f, rep_frame := 0, req_time := t })] })
        = (Res.ok 8 lg,
            some { pdus := [((j, f),
              { jobid := j, vpid := v, req_frame := f, rep_frame := pinfo.num,
                req_time := t })] })
      ∧ hdrs lg = [Hdr.sync pinfo.srcport pinfo.destport j (tvb_value false tvb 4 4) false]
          ++ (if tree = true then
                [Hdr.uint "hf_mpi_response_to" f, Hdr.time "hf_mpi_time" (pinfo.abs_ts - t)]
              else []) := by
  have hlt := tvb.reported_lt
  have hcap := tvb.captured_le
  unfold tvb_captured_length at hlen
  have g : guint_sub 8 0 = 8 := by decide
  have hf0' : ¬ f = 0 := by omega
  unfold tvb_value at hj ⊢
  simp only [Bool.false_eq_true, if_false] at hj
  unfold dissect_mpi_sync
  cases tree <;>
  simp (disch := omega) only [tvb_captured_length, hlen, g, ne_eq, not_true_eq_false, if_false,
    tvb_get_ntohl, tvb_fetch_ok, Res.bind_eq, Res.bind_ok, Res.pure_eq, Res.prepend_ok,
    Res.prepend_prepend, Res.emit_eq, Res.prepend_nil, List.append_nil, List.nil_append,
    proto_tree_add_item, proto_tree_add_uint, proto_tree_add_time, hvis, Bool.false_eq_true,
    not_false_eq_true, if_true, ↓reduceIte, wmem_tree_insert32_array, if_pos, if_neg,
    hj, wmem_tree_lookup_single j f pinfo.num _ hf, hf0']
  all_goals exact ⟨_, rfl, by simp⟩

theorem sync_revisit_request (tvb : tvbuff_t) (pinfo : packet_info) (tree : Bool)
    (j v f2 : Nat) (t : Int)
    (hlen : tvb_captured_length tvb = 8)
    (hvis : pinfo.visited = true)
    (hj : tvb_value false tvb 0 4 = j)
    (hv : tvb_value false tvb 4 4 = v)
    (hf2 : 0 < f2) :
    ∃ lg,
      dissect_mpi_sync tvb pinfo tree 0
          (some { pdus := [((j, pinfo.num),
            { jobid := j, vpid := v, req_frame := pinfo.num, rep_frame := f2,
              req_time := t })] })
        = (Res.ok 8 lg,
            some { pdus := [((j, pinfo.num),
              { jobid := j, vpid := v, req_frame := pinfo.num, rep_frame := f2,
                req_time := t })] })
      ∧ hdrs lg = [Hdr.sync pinfo.srcport pinfo.destport j v true]
          ++ (if tree = true then [Hdr.uint "hf_mpi_response_in" f2] else []) := by
  have hlt := tvb.reported_lt
  have hcap := tvb.captured_le
  unfold tvb_captured_length at hlen
  have g : guint_sub 8 0 = 8 := by decide
  have hf2' : ¬ f2 = 0 := by omega
  unfold tvb_value at hj hv
  simp only [Bool.false_eq_true, if_false] at hj hv
  unfold dissect_mpi_sync
  cases tree <;>
  simp (disch := omega) only [tvb_captured_length, hlen, g, ne_eq, not_true_eq_false, if_false,
    tvb_get_ntohl, tvb_fetch_ok, Res.bind_eq, Res.bind_ok, Res.pure_eq, Res.prepend_ok,
    Res.prepend_prepend, Res.emit_eq, Res.prepend_nil, List.append_nil, List.nil_append,
    proto_tree_add_item, proto_tree_add_uint, proto_tree_add_time, hvis, Bool.false_eq_true,
    not_false_eq_true, if_true, ↓reduceIte, wmem_tree_insert32_array, if_pos, if_neg,
    hj, hv, wmem_tree_lookup_single j pinfo.num pinfo.num _ (le_refl _), hf2']
  all_goals exact ⟨_, rfl, by simp⟩


/-! ## The OOB reassembler: the message branch after the switch -/

/-- The message branch when the switch has consumed `w` of the `m` octets. -/
theorem oob_body_decoded (tvb : tvbuff_t) (pinfo : packet_info) (tree : Bool) (c : Nat)
    (t : mpi_oob_trans_t) (T N m w : Nat) (lgx : List Ev)
    (hT : oob_pending pinfo t = (T, N)) (hN : N ≠ 0) (hN32 : N < 4294967296)
    (hc : c < tvb_captured_length tvb)
    (hm : m = min N (tvb_captured_length tvb - c))
    (hx : dissect_mpi_oob_msg tvb tree T m c = Res.ok (c + w) lgx)
    (hw : w ≤ m) :
    ∃ lg,
      dissect_mpi_oob_body tvb pinfo tree c t
        = (Res.ok (oob_flow.next (c + m)) lg,
          if pinfo.srcport > pinfo.destport then { t with nbytes_1 := N - m }
          else { t with nbytes_2 := N - m })
      ∧ hdrs lg = [Hdr.oob_msg T] ++ hdrs lgx
          ++ (if 0 < m - w then [Hdr.oob_length (m - w)] else []) := by
  have hlt := tvb.reported_lt
  have hcap := tvb.captured_le
  rw [oob_body_message tvb pinfo tree c t T N m hT hN hc hm, hx]
  unfold tvb_captured_length at *
  have hm1 : 0 < m := by omega
  have hm2 : c + m ≤ tvb.data.length := by omega
  have g0 : guint_sub (c + w) c = w := by unfold guint_sub; omega
  have g1 : guint_sub m w = m - w := by unfold guint_sub; omega
  have g2 : guint_add (c + w) (m - w) = c + m := by unfold guint_add; omega
  have hne : ¬ m - w = 4294967295 := by omega
  have e1 : (if tvb.data.length - c < N then guint_sub N (tvb.data.length - c) else 0)
      = N - m := by
    split_ifs with h
    · rw [guint_sub_eq (by omega) hN32]; omega
    · omega
  rw [e1]
  by_cases hz : 0 < m - w
  · have hgt : tvb.data.length > c + w := by omega
    cases tree <;>
    simp (disch := omega) only [Res.bind_eq, Res.emit_eq, Res.bind_ok, Res.pure_eq,
      Res.prepend_ok, Res.prepend_prepend, Res.prepend_nil, proto_tree_add_subtree,
      proto_tree_add_item_bytes, proto_tree_add_item, tvb_captured_length,
      Bool.false_eq_true, if_false, if_true, ↓reduceIte, g0, g1, g2, hz, hgt, hne, if_pos,
      if_neg, List.append_nil, List.nil_append, gt_iff_lt]
    all_goals exact ⟨_, rfl, by simp⟩
  · have hmw : m = w := by omega
    subst hmw
    have g3 : guint_add (c + m) 0 = c + m := by unfold guint_add; omega
    have g4 : guint_sub m m = 0 := by unfold guint_sub; omega
    have hz0 : ¬ 0 < 0 := by omega
    have hne0 : ¬ 0 = 4294967295 := by omega
    simp only [Nat.sub_self, hz0, if_false, List.append_nil]
    by_cases hgt : tvb.data.length > c + m
    · cases tree <;>
      simp (disch := omega) only [Res.bind_eq, Res.emit_eq, Res.bind_ok, Res.pure_eq,
        Res.prepend_ok, Res.prepend_prepend, Res.prepend_nil, proto_tree_add_subtree,
        proto_tree_add_item_bytes, proto_tree_add_item, tvb_captured_length,
        Bool.false_eq_true, if_false, if_true, ↓reduceIte, g0, g3, g4, hz0, hgt, hne0, if_pos,
        if_neg, List.append_nil, List.nil_append, gt_iff_lt]
      all_goals exact ⟨_, rfl, by simp⟩
    · cases tree <;>
      simp only [Res.bind_eq, Res.emit_eq, Res.bind_ok, Res.pure_eq,
        Res.prepend_ok, Res.prepend_prepend, Res.prepend_nil, proto_tree_add_subtree,
        tvb_captured_length,
        Bool.false_eq_true, if_false, if_true, ↓reduceIte, g0, g4, hz0, hgt,
        List.append_nil, List.nil_append]
      all_goals exact ⟨_, rfl, by simp⟩

/-! ## The OOB reassembler: split and coalesced messages -/

/-- C21: a message split over two packets of one direction. Let nothing be
pending for the direction of the first packet (the conversation may have no OOB
data yet); let its buffer hold a 28-octet header whose field `nbytes` is `n`
and whose `rml_tag` has no case in the switch, followed by `k` octets of the
body, `0 < k < n`; and let the buffer of the second packet, of the same ports,
hold the remaining `n - k` octets. Both packets are visited for the first time,
with or without a tree. The first call returns `28 + k` and leaves the header's
`rml_tag` and `n - k` octets pending for the direction; it reports the header,
the message record and the length `k`. The second call returns `n - k` and
leaves 0 octets pending; it reports the message record and the length
`n - k`. -/
theorem C21_oob_split (tvb1 tvb2 : tvbuff_t) (pinfo1 pinfo2 : packet_info) (tree : Bool)
    (conv_data : Option mpi_oob_trans_t) (n k : Nat)
    (hports : 32768 ≤ pinfo1.srcport ∧ MAX_TCP_PORT ≥ pinfo1.srcport ∧
      32768 ≤ pinfo1.destport ∧ MAX_TCP_PORT ≥ pinfo1.destport)
    (hsrc : pinfo2.srcport = pinfo1.srcport) (hdst : pinfo2.destport = pinfo1.destport)
    (hvis1 : pinfo1.visited = false) (hvis2 : pinfo2.visited = false)
    (hp : (oob_pending_of pinfo1 conv_data).2 = 0)
    (hlen1 : tvb_captured_length tvb1 = 28 + k)
    (hn : tvb_value false tvb1 24 4 = n)
    (hop : oob_no_case (tvb_value false tvb1 20 4))
    (hk : 0 < k) (hkn : k < n)
    (hlen2 : tvb_captured_length tvb2 = n - k) :
    ∃ lg1 st1 lg2 st2,
      dissect_mpi_oob tvb1 pinfo1 tree 0 conv_data = some (Res.ok (28 + k) lg1, some st1)
      ∧ oob_pending pinfo1 st1 = (tvb_value false tvb1 20 4, n - k)
      ∧ hdrs lg1 = [Hdr.oob pinfo1.srcport pinfo1.destport,
          Hdr.oob_hdr (tvb_value false tvb1 0 4) (tvb_value false tvb1 4 4)
            (tvb_value false tvb1 8 4) (tvb_value false tvb1 12 4)
            (tvb_value false tvb1 16 4) (tvb_value false tvb1 20 4) n,
          Hdr.oob_msg (tvb_value false tvb1 20 4), Hdr.oob_length k]
      ∧ dissect_mpi_oob tvb2 pinfo2 tree 0 (some st1) = some (Res.ok (n - k) lg2, some st2)
      ∧ oob_pending pinfo2 st2 = (tvb_value false tvb1 20 4, 0)
      ∧ hdrs lg2 = [Hdr.oob pinfo2.srcport pinfo2.destport,
          Hdr.oob_msg (tvb_value false tvb1 20 4), Hdr.oob_length (n - k)] := by
  have hn32 : n < 4294967296 := by
    have hcapd : tvb_captured_length tvb1 = tvb1.data.length := rfl
    have := tvb_value_lt false tvb1 24 4 (by omega)
    rw [hn] at this; simpa using this
  obtain ⟨lg1, st1, h1, hp1, hh1⟩ := oob_split_first tvb1 pinfo1 tree conv_data n k hports
    hvis1 hp hlen1 hn hop hk (by omega)
  have hp2 : oob_pending pinfo2 st1 = (tvb_value false tvb1 20 4, n - k) := by
    rw [← hp1]; unfold oob_pending; rw [hsrc, hdst]
  obtain ⟨lg2, st2, h2, hp2', hh2⟩ := oob_split_rest tvb2 pinfo2 tree st1
    (tvb_value false tvb1 20 4) (n - k) (by rw [hsrc, hdst]; exact hports) hvis2 hp2 hop
    (by omega) (by omega) hlen2
  exact ⟨lg1, st1, lg2, st2, h1, hp1, hh1, h2, hp2', hh2⟩

/-- Worked instance of C21 (`n = 100`, `k = 40`): a header with `rml_tag` 99 and
`nbytes` 100 followed by 40 octets in frame 1, the remaining 60 octets in
frame 2, both from port 40000 to port 50000 on a conversation without OOB
data. -/
theorem C21_oob_split_witness :
    ∃ lg1 st1 lg2 st2,
      dissect_mpi_oob
          (tvb_of ([0, 0, 0, 1, 0, 0, 0, 2, 0, 0, 0, 3, 0, 0, 0, 4, 0, 0, 0, 5,
            0, 0, 0, 99, 0, 0, 0, 100] ++ List.replicate 40 7) (by decide))
          pinfo_oob false 0 none
        = some (Res.ok 68 lg1, some st1)
      ∧ oob_pending pinfo_oob st1 = (99, 60)
      ∧ dissect_mpi_oob (tvb_of (List.replicate 60 7) (by decide))
          { pinfo_oob with num := 2 } false 0 (some st1)
        = some (Res.ok 60 lg2, some st2)
      ∧ oob_pending { pinfo_oob with num := 2 } st2 = (99, 0) := by
  obtain ⟨lg1, st1, lg2, st2, h1, hp1, _, h2, hp2, _⟩ := C21_oob_split
    (tvb_of ([0, 0, 0, 1, 0, 0, 0, 2, 0, 0, 0, 3, 0, 0, 0, 4, 0, 0, 0, 5,
      0, 0, 0, 99, 0, 0, 0, 100] ++ List.replicate 40 7) (by decide))
    (tvb_of (List.replicate 60 7) (by decide))
    pinfo_oob { pinfo_oob with num := 2 } false none 100 40
    (by decide) rfl rfl rfl rfl (by decide) (by decide) (by decide) (by decide)
    (by decide) (by decide) (by decide)
  have e : tvb_value false (tvb_of ([0, 0, 0, 1, 0, 0, 0, 2, 0, 0, 0, 3, 0, 0, 0, 4,
      0, 0, 0, 5, 0, 0, 0, 99, 0, 0, 0, 100] ++ List.replicate 40 7) (by decide)) 20 4
      = 99 := by decide
  rw [e] at hp1 hp2
  exact ⟨lg1, st1, lg2, st2, h1, hp1, h2, hp2⟩

/-- C22 fails on the code: a pass through the message branch for
`rml_tag` 0 (`ORTE_RML_TAG_INVALID`) with 14 octets pending and 15 octets
available at cursor 28. The two NUL-terminated strings are fetched without
regard to the 14 octets of the message; here they take 6 and 9 octets, and the
pass ends with the cursor at 43, one octet beyond the end of the message at 42,
after the subtraction `nbytes -= offset - the_offset` has wrapped to
4294967295. Called on the whole buffer (frame header and 15 octets) the
reassembler returns 43. With a credential one octet shorter the pass ends at
42 and the reassembler returns 42, leaving the last octet to the next header. -/
theorem C22_oob_invalid_overrun :
    dissect_mpi_oob_body
        (tvb_of [0, 0, 0, 1, 0, 0, 0, 2, 0, 0, 0, 3, 0, 0, 0, 4, 0, 0, 0, 5,
          0, 0, 0, 0, 0, 0, 0, 14,
          49, 46, 56, 46, 52, 0, 49, 50, 51, 52, 53, 54, 55, 56, 0] (by decide))
        pinfo_oob false 28
        { rml_tag_1 := 0, nbytes_1 := 0, rml_tag_2 := 0, nbytes_2 := 14, old := [] }
      = (Res.ok (oob_flow.next 43)
          [Ev.hdr (Hdr.oob_msg 0), Ev.read 28 6, Ev.read 34 9,
            Ev.hdr (Hdr.oob_length 4294967295)],
          { rml_tag_1 := 0, nbytes_1 := 0, rml_tag_2 := 0, nbytes_2 := 0, old := [] })
    ∧ (dissect_mpi_oob
        (tvb_of [0, 0, 0, 1, 0, 0, 0, 2, 0, 0, 0, 3, 0, 0, 0, 4, 0, 0, 0, 5,
          0, 0, 0, 0, 0, 0, 0, 14,
          49, 46, 56, 46, 52, 0, 49, 50, 51, 52, 53, 54, 55, 56, 0] (by decide))
        pinfo_oob false 0 none).map (fun r => r.1.value) = some (some 43)
    ∧ dissect_mpi_oob_body
        (tvb_of [0, 0, 0, 1, 0, 0, 0, 2, 0, 0, 0, 3, 0, 0, 0, 4, 0, 0, 0, 5,
          0, 0, 0, 0, 0, 0, 0, 14,
          49, 46, 56, 46, 52, 0, 49, 50, 51, 52, 53, 54, 55, 0, 9] (by decide))
        pinfo_oob false 28
        { rml_tag_1 := 0, nbytes_1 := 0, rml_tag_2 := 0, nbytes_2 := 14, old := [] }
      = (Res.ok (oob_flow.next 42)
          [Ev.hdr (Hdr.oob_msg 0), Ev.read 28 6, Ev.read 34 8],
          { rml_tag_1 := 0, nbytes_1 := 0, rml_tag_2 := 0, nbytes_2 := 0, old := [] })
    ∧ (dissect_mpi_oob
        (tvb_of [0, 0, 0, 1, 0, 0, 0, 2, 0, 0, 0, 3, 0, 0, 0, 4, 0, 0, 0, 5,
          0, 0, 0, 0, 0, 0, 0, 14,
          49, 46, 56, 46, 52, 0, 49, 50, 51, 52, 53, 54, 55, 0, 9] (by decide))
        pinfo_oob false 0 none).map (fun r => r.1.value) = some (some 42) := by
  decide

/-- C23: coalesced frames. Let the captured octets of the buffer be the
concatenation of the frames `frames`, at least one, each of them a 28-octet
header whose field `nbytes` counts the octets that follow it in the frame and
whose `rml_tag` has no case in the switch (`oob_frame`); let nothing be pending
for the packet's direction (the conversation may have no OOB data yet), on a
first visit, with or without a tree. Then `dissect_mpi_oob` returns the
captured length, reports after the summary the values of the frames in order
(`oob_frame_hdrs`: the seven header fields, and for a body that is not empty
the message record and its length), and leaves 0 octets pending for the
direction. -/
theorem C23_oob_coalesced (tvb : tvbuff_t) (pinfo : packet_info) (tree : Bool)
    (frames : List (List Byte)) (conv_data : Option mpi_oob_trans_t)
    (hports : 32768 ≤ pinfo.srcport ∧ MAX_TCP_PORT ≥ pinfo.srcport ∧
      32768 ≤ pinfo.destport ∧ MAX_TCP_PORT ≥ pinfo.destport)
    (hvis : pinfo.visited = false)
    (hne : frames ≠ [])
    (hfr : ∀ f ∈ frames, oob_frame f)
    (hdata : tvb.data = frames.flatten)
    (hp : (oob_pending_of pinfo conv_data).2 = 0) :
    ∃ lg t',
      dissect_mpi_oob tvb pinfo tree 0 conv_data
        = some (Res.ok (tvb_captured_length tvb) lg, some t')
      ∧ hdrs lg = Hdr.oob pinfo.srcport pinfo.destport
          :: (frames.map oob_frame_hdrs).flatten
      ∧ (oob_pending pinfo t').2 = 0 :=
  oob_frames_run tvb pinfo tree frames conv_data hports hvis hne hfr hdata hp

/-- Worked instance of C23: a frame with `rml_tag` 99 and a body of 3 octets
followed by a frame with `rml_tag` 98 and an empty body, 59 octets in all. -/
theorem C23_oob_coalesced_witness :
    ∃ lg t',
      dissect_mpi_oob
          (tvb_of [0, 0, 0, 1, 0, 0, 0, 2, 0, 0, 0, 3, 0, 0, 0, 4, 0, 0, 0, 5,
            0, 0, 0, 99, 0, 0, 0, 3, 7, 8, 9,
            0, 0, 0, 6, 0, 0, 0, 7, 0, 0, 0, 8, 0, 0, 0, 9, 0, 0, 0, 10,
            0, 0, 0, 98, 0, 0, 0, 0] (by decide))
          pinfo_oob false 0 none
        = some (Res.ok 59 lg, some t')
      ∧ hdrs lg = [Hdr.oob 40000 50000, Hdr.oob_hdr 1 2 3 4 5 99 3, Hdr.oob_msg 99,
          Hdr.oob_length 3, Hdr.oob_hdr 6 7 8 9 10 98 0]
      ∧ (oob_pending pinfo_oob t').2 = 0 := by
  obtain ⟨lg, t', h, hh, hp⟩ := C23_oob_coalesced
    (tvb_of [0, 0, 0, 1, 0, 0, 0, 2, 0, 0, 0, 3, 0, 0, 0, 4, 0, 0, 0, 5,
      0, 0, 0, 99, 0, 0, 0, 3, 7, 8, 9,
      0, 0, 0, 6, 0, 0, 0, 7, 0, 0, 0, 8, 0, 0, 0, 9, 0, 0, 0, 10,
      0, 0, 0, 98, 0, 0, 0, 0] (by decide))
    pinfo_oob false
    [[0, 0, 0, 1, 0, 0, 0, 2, 0, 0, 0, 3, 0, 0, 0, 4, 0, 0, 0, 5,
      0, 0, 0, 99, 0, 0, 0, 3, 7, 8, 9],
     [0, 0, 0, 6, 0, 0, 0, 7, 0, 0, 0, 8, 0, 0, 0, 9, 0, 0, 0, 10,
      0, 0, 0, 98, 0, 0, 0, 0]]
    none (by decide) rfl (by decide) (by decide) (by decide) (by decide)
  refine ⟨lg, t', h, ?_, hp⟩
  rw [hh]
  decide

/-! ## The OOB reassembler: replay and direction isolation -/

/-- C24: replay. Let `ps` be packets of one connection on OOB ports with
pairwise different frame numbers, none of them visited yet, and let
`conv_data` be the OOB data of the conversation before the first of them
(`none`: no OOB data yet). A first pass (`oob_pass` on `ps`) calls
`dissect_mpi_oob` on each packet in order; it yields for every packet its run
(the value returned and the whole log, with the header values and message
records) and the values left pending for the packet's direction, `rs`, and the
OOB data `S` of the conversation. A second pass over the same packets flagged
as visited (`revisit ps`), started on `S`, yields the same `rs`: for every
packet the same run and the same pending values of its direction. Both passes
return a result (no call runs out of loop passes). -/
theorem C24_oob_replay (tree : Bool) (ps : List (tvbuff_t × packet_info))
    (conv_data : Option mpi_oob_trans_t)
    (hports : ∀ p ∈ ps, 32768 ≤ p.2.srcport ∧ MAX_TCP_PORT ≥ p.2.srcport ∧
      32768 ≤ p.2.destport ∧ MAX_TCP_PORT ≥ p.2.destport)
    (hvis : ∀ p ∈ ps, p.2.visited = false)
    (hnum : (ps.map (fun p => p.2.num)).Nodup) :
    ∃ rs S S',
      oob_pass tree ps conv_data = some (rs, S)
      ∧ oob_pass tree (revisit ps) S = some (rs, S') := by
  obtain ⟨rs, S, h1, _, h2⟩ := oob_pass_replay tree ps conv_data hports hvis hnum
  obtain ⟨U, hU, _⟩ := h2 S (fun _ _ => rfl)
  exact ⟨rs, S, U, h1, hU⟩

/-- Worked instance of C24: the two packets of a message of 100 octets split
after 40 octets (frames 1 and 2, port 40000 to port 50000). The first pass
returns 68 and 60 and leaves 60 and 0 octets pending; so does the second. -/
theorem C24_oob_replay_witness :
    ∃ rs S S',
      oob_pass false
          [(tvb_of ([0, 0, 0, 1, 0, 0, 0, 2, 0, 0, 0, 3, 0, 0, 0, 4, 0, 0, 0, 5,
              0, 0, 0, 99, 0, 0, 0, 100] ++ List.replicate 40 7) (by decide), pinfo_oob),
            (tvb_of (List.replicate 60 7) (by decide), { pinfo_oob with num := 2 })]
          none = some (rs, S)
      ∧ oob_pass false
          (revisit
            [(tvb_of ([0, 0, 0, 1, 0, 0, 0, 2, 0, 0, 0, 3, 0, 0, 0, 4, 0, 0, 0, 5,
                0, 0, 0, 99, 0, 0, 0, 100] ++ List.replicate 40 7) (by decide), pinfo_oob),
              (tvb_of (List.replicate 60 7) (by decide), { pinfo_oob with num := 2 })])
          S = some (rs, S')
      ∧ rs.map (fun x => (x.1.value, x.2)) = [(some 68, (99, 60)), (some 60, (99, 0))] := by
  obtain ⟨rs, S, S', h1, h2⟩ := C24_oob_replay false
    [(tvb_of ([0, 0, 0, 1, 0, 0, 0, 2, 0, 0, 0, 3, 0, 0, 0, 4, 0, 0, 0, 5,
        0, 0, 0, 99, 0, 0, 0, 100] ++ List.replicate 40 7) (by decide), pinfo_oob),
      (tvb_of (List.replicate 60 7) (by decide), { pinfo_oob with num := 2 })]
    none (by decide) (by decide) (by decide)
  refine ⟨rs, S, S', h1, h2, ?_⟩
  have e : (oob_pass false
      [(tvb_of ([0, 0, 0, 1, 0, 0, 0, 2, 0, 0, 0, 3, 0, 0, 0, 4, 0, 0, 0, 5,
          0, 0, 0, 99, 0, 0, 0, 100] ++ List.replicate 40 7) (by decide), pinfo_oob),
        (tvb_of (List.replicate 60 7) (by decide), { pinfo_oob with num := 2 })]
      none).map (fun r => r.1.map (fun x => (x.1.value, x.2)))
      = some [(some 68, (99, 60)), (some 60, (99, 0))] := by decide
  rw [h1] at e
  simpa using e

/-- C25: direction isolation. Let `t` and `u` be OOB data of a conversation that
agree on what a call for the packet `pinfo` reads of its direction: the pending
values `oob_pending` (the fields `rml_tag_1`, `nbytes_1` if the source port is
greater than the destination port, the fields `rml_tag_2`, `nbytes_2`
otherwise) for a packet not visited yet, the values kept for the frame in the
table `old` for a visited one. Then `dissect_mpi_oob`, on OOB ports, with or
without a tree, returns a result on both, the run is the same, the values left
pending for the packet's direction are the same, and in both the pending
values of the other direction (`oob_other`) are left as they were. -/
theorem C25_oob_direction_isolation (tvb : tvbuff_t) (pinfo : packet_info) (tree : Bool)
    (the_offset : Nat) (t u : mpi_oob_trans_t)
    (hports : 32768 ≤ pinfo.srcport ∧ MAX_TCP_PORT ≥ pinfo.srcport ∧
      32768 ≤ pinfo.destport ∧ MAX_TCP_PORT ≥ pinfo.destport)
    (hp : pinfo.visited = false → oob_pending pinfo t = oob_pending pinfo u)
    (hs : pinfo.visited = true →
      oob_snapshot (some t) pinfo.num = oob_snapshot (some u) pinfo.num) :
    ∃ r t' u',
      dissect_mpi_oob tvb pinfo tree the_offset (some t) = some (r, some t')
      ∧ dissect_mpi_oob tvb pinfo tree the_offset (some u) = some (r, some u')
      ∧ oob_pending pinfo t' = oob_pending pinfo u'
      ∧ oob_other pinfo t' = oob_other pinfo t
      ∧ oob_other pinfo u' = oob_other pinfo u := by
  obtain ⟨T0, r, t', hpT, hlT, hrT, hoT, _, _⟩ :=
    oob_call_regular tvb pinfo tree the_offset (some t) hports (fun h => by cases h)
  obtain ⟨U0, r2, u', hpU, hlU, hrU, hoU, _, _⟩ :=
    oob_call_regular tvb pinfo tree the_offset (some u) hports (fun h => by cases h)
  have hTU : oob_pending pinfo T0 = oob_pending pinfo U0 := by
    rw [hpT, hpU]
    cases hv : pinfo.visited with
    | false => simpa [oob_pending_of] using hp hv
    | true => simpa using hs hv
  obtain ⟨u'', hl2, hp2⟩ := oob_loop_iso tvb pinfo tree _ _ T0 U0 hTU r t' hlT
  rw [hl2] at hlU
  injection hlU with hlU
  injection hlU with e1 e2
  subst e1; subst e2
  exact ⟨_, t', u'', hrT, hrU, hp2.symm, hoT, hoU⟩

/-- Worked instance of C25: the 60 remaining octets of a message with `rml_tag`
99 arrive from port 40000 to port 50000 (direction 2), on OOB data whose
direction 1 holds nothing and on OOB data whose direction 1 holds `(5, 7)`:
the same run, the same values pending for direction 2, and direction 1 as it
was. -/
theorem C25_oob_direction_isolation_witness :
    ∃ r t' u',
      dissect_mpi_oob (tvb_of (List.replicate 60 7) (by decide)) pinfo_oob false 0
          (some { rml_tag_1 := 0, nbytes_1 := 0, rml_tag_2 := 99, nbytes_2 := 60, old := [] })
        = some (r, some t')
      ∧ dissect_mpi_oob (tvb_of (List.replicate 60 7) (by decide)) pinfo_oob false 0
          (some { rml_tag_1 := 5, nbytes_1 := 7, rml_tag_2 := 99, nbytes_2 := 60, old := [] })
        = some (r, some u')
      ∧ (t'.rml_tag_2, t'.nbytes_2) = (u'.rml_tag_2, u'.nbytes_2)
      ∧ (t'.rml_tag_1, t'.nbytes_1) = (0, 0)
      ∧ (u'.rml_tag_1, u'.nbytes_1) = (5, 7) := by
  obtain ⟨r, t', u', h1, h2, h3, h4, h5⟩ := C25_oob_direction_isolation
    (tvb_of (List.replicate 60 7) (by decide)) pinfo_oob false 0
    { rml_tag_1 := 0, nbytes_1 := 0, rml_tag_2 := 99, nbytes_2 := 60, old := [] }
    { rml_tag_1 := 5, nbytes_1 := 7, rml_tag_2 := 99, nbytes_2 := 60, old := [] }
    (by decide) (by decide) (by decide)
  exact ⟨r, t', u', h1, h2, h3, h4, h5⟩

/-- C26, as stated, fails: a pass through the message branch in which the
message is split. For `rml_tag` 15 (`ORTE_RML_TAG_XCAST`) 100 octets are
pending and 8 octets are available at cursor 28; the pass decodes the daemon
command 7 from them and leaves 92 octets pending. -/
theorem C26_oob_split_decodes_xcast :
    dissect_mpi_oob_body
        (tvb_of [0, 0, 0, 1, 0, 0, 0, 2, 0, 0, 0, 3, 0, 0, 0, 4, 0, 0, 0, 5,
          0, 0, 0, 15, 0, 0, 0, 100, 9, 0, 0, 0, 1, 49, 12, 7] (by decide))
        pinfo_oob false 28
        { rml_tag_1 := 0, nbytes_1 := 0, rml_tag_2 := 15, nbytes_2 := 100, old := [] }
      = (Res.ok (oob_flow.next 36)
          [Ev.hdr (Hdr.oob_msg 15), Ev.read 28 1, Ev.read 35 1, Ev.hdr (Hdr.oob_xcast 7)],
          { rml_tag_1 := 0, nbytes_1 := 0, rml_tag_2 := 15, nbytes_2 := 92, old := [] }) := by
  decide

/-- C26 (amended): a pass through the message branch in which the message is
split (`rml_tag` `T` and `N` octets pending for the packet's direction, fewer
than `N` octets available at the cursor `c`), with or without a tree.
* The run of the pass is the run of the pass that consumes the rest of a
  message of the same `rml_tag` with exactly the available octets pending: the
  switch on `rml_tag` is applied to the available octets in both.
* The pass leaves `N` less the available octets pending.
* For `rml_tag` 15 (`ORTE_RML_TAG_XCAST`), when the octet at `c` is 9 and at
  least 8 octets are available, the daemon command (the octet at `c + 7`) is
  decoded, and the cursor ends at the end of the captured data.
* For a `rml_tag` without a case in the switch no field is decoded: the message
  record and the number of available octets are reported, and the cursor ends
  at the end of the captured data. -/
theorem C26_oob_split_step (tvb : tvbuff_t) (pinfo : packet_info) (tree : Bool) (c : Nat)
    (t t2 : mpi_oob_trans_t) (T N : Nat)
    (hT : oob_pending pinfo t = (T, N)) (hN32 : N < 4294967296)
    (hc : c < tvb_captured_length tvb)
    (hsplit : tvb_captured_length tvb - c < N)
    (hT2 : oob_pending pinfo t2 = (T, tvb_captured_length tvb - c)) :
    (dissect_mpi_oob_body tvb pinfo tree c t).1 = (dissect_mpi_oob_body tvb pinfo tree c t2).1
    ∧ oob_pending pinfo (dissect_mpi_oob_body tvb pinfo tree c t).2
        = (T, N - (tvb_captured_length tvb - c))
    ∧ (T = ORTE_RML_TAG_XCAST → tvb_value true tvb c 1 = 9 →
        8 ≤ tvb_captured_length tvb - c →
        ∃ lg, (dissect_mpi_oob_body tvb pinfo tree c t).1
            = Res.ok (oob_flow.next (tvb_captured_length tvb)) lg
          ∧ hdrs lg = [Hdr.oob_msg T, Hdr.oob_xcast (tvb_value true tvb (c + 7) 1)]
              ++ (if 0 < tvb_captured_length tvb - c - 8 then
                    [Hdr.oob_length (tvb_captured_length tvb - c - 8)] else []))
    ∧ (oob_no_case T →
        ∃ lg, (dissect_mpi_oob_body tvb pinfo tree c t).1
            = Res.ok (oob_flow.next (tvb_captured_length tvb)) lg
          ∧ hdrs lg = [Hdr.oob_msg T, Hdr.oob_length (tvb_captured_length tvb - c)]) := by
  have hlt := tvb.reported_lt
  have hcap := tvb.captured_le
  have hcapd : tvb_captured_length tvb = tvb.data.length := rfl
  have hm : tvb_captured_length tvb - c = min N (tvb_captured_length tvb - c) := by omega
  have hm2 : tvb_captured_length tvb - c
      = min (tvb_captured_length tvb - c) (tvb_captured_length tvb - c) := by omega
  have hb := oob_body_message tvb pinfo tree c t T N _ hT (by omega) hc hm
  have hb2 := oob_body_message tvb pinfo tree c t2 T _ _ hT2 (by omega) hc hm2
  have hend : c + (tvb_captured_length tvb - c) = tvb_captured_length tvb := by omega
  refine ⟨?_, ?_, ?_, ?_⟩
  · rw [hb, hb2]
  · rw [hb]
    simp only [hsplit, if_true]
    rw [oob_pending_set_nbytes, hT, guint_sub_eq (by omega) hN32]
  · intro hx h9 h8
    subst hx
    obtain ⟨lgx, hmsg, hhx, _⟩ := (oob_msg_xcast tvb tree (tvb_captured_length tvb - c) c
      (by omega) (by omega)).1 h9 h8
    obtain ⟨lg, hbd, hh⟩ := oob_body_decoded tvb pinfo tree c t ORTE_RML_TAG_XCAST N
      (tvb_captured_length tvb - c) 8 lgx hT (by omega) hN32 hc hm hmsg h8
    rw [hend] at hbd
    refine ⟨lg, by rw [hbd], ?_⟩
    rw [hh, hhx]
    rfl
  · intro hop
    have hbo := oob_body_no_case tvb pinfo tree c t T N (tvb_captured_length tvb - c) hT
      (by omega) hN32 hc hm hop
    rw [hend] at hbo
    refine ⟨_, by rw [hbo], ?_⟩
    exact hdrs_no_case_log tree _ _ _

/-- Worked instance of the amended C26: the split XCAST message above. -/
theorem C26_oob_split_step_witness :
    ∃ lg,
      (dissect_mpi_oob_body
        (tvb_of [0, 0, 0, 1, 0, 0, 0, 2, 0, 0, 0, 3, 0, 0, 0, 4, 0, 0, 0, 5,
          0, 0, 0, 15, 0, 0, 0, 100, 9, 0, 0, 0, 1, 49, 12, 7] (by decide))
        pinfo_oob false 28
        { rml_tag_1 := 0, nbytes_1 := 0, rml_tag_2 := 15, nbytes_2 := 100, old := [] }).1
        = Res.ok (oob_flow.next 36) lg
      ∧ hdrs lg = [Hdr.oob_msg 15, Hdr.oob_xcast 7] := by
  obtain ⟨lg, h, hh⟩ := (C26_oob_split_step
    (tvb_of [0, 0, 0, 1, 0, 0, 0, 2, 0, 0, 0, 3, 0, 0, 0, 4, 0, 0, 0, 5,
      0, 0, 0, 15, 0, 0, 0, 100, 9, 0, 0, 0, 1, 49, 12, 7] (by decide))
    pinfo_oob false 28
    { rml_tag_1 := 0, nbytes_1 := 0, rml_tag_2 := 15, nbytes_2 := 100, old := [] }
    { rml_tag_1 := 0, nbytes_1 := 0, rml_tag_2 := 15, nbytes_2 := 8, old := [] }
    15 100 (by decide) (by decide) (by decide) (by decide) (by decide)).2.2.1
    (by decide) (by decide) (by decide)
  refine ⟨lg, h, ?_⟩
  rw [hh]
  decide

/-! ## The OOB reassembler: the IOF and XCAST messages -/

/-- C27: the switch of the message branch for `rml_tag` 2
(`ORTE_RML_TAG_IOF_HNP`) or 3 (`ORTE_RML_TAG_IOF_PROXY`), on `m ≥ 1` message
octets captured at `b`, with or without a tree.
* If the octet at `b` is 9 and `m ≥ 30`: `iof_type` is the octet at `b + 7`,
  `jobid` the big-endian u32 at `b + 15`, `vpid` the big-endian u32 at
  `b + 20`, and the offset after the switch is `b + 30`.
* If the octet at `b` is not 9 and `m ≥ 21`: `iof_type` is the octet at
  `b + 4`, `jobid` the big-endian u32 at `b + 9`, `vpid` the big-endian u32 at
  `b + 13`, and the offset after the switch is `b + 21`.
* Below the respective minimum only the octet at `b` is fetched, nothing is
  reported and the offset stays at `b` (the message is left to the data
  item). -/
theorem C27_oob_iof (tvb : tvbuff_t) (tree : Bool) (rml_tag m b : Nat)
    (htag : rml_tag = ORTE_RML_TAG_IOF_HNP ∨ rml_tag = ORTE_RML_TAG_IOF_PROXY)
    (hm : 1 ≤ m) (hb : b + m ≤ tvb_captured_length tvb) :
    (tvb_value true tvb b 1 = 9 → 30 ≤ m →
      ∃ lg, dissect_mpi_oob_msg tvb tree rml_tag m b = Res.ok (b + 30) lg
        ∧ hdrs lg = [Hdr.oob_iof 9 (tvb_value true tvb (b + 7) 1)
            (tvb_value false tvb (b + 15) 4) (tvb_value false tvb (b + 20) 4)]
        ∧ reads lg = [(b, 1), (b + 7, 1), (b + 15, 4), (b + 20, 4)])
    ∧ (tvb_value true tvb b 1 ≠ 9 → 21 ≤ m →
      ∃ lg, dissect_mpi_oob_msg tvb tree rml_tag m b = Res.ok (b + 21) lg
        ∧ hdrs lg = [Hdr.oob_iof (tvb_value true tvb b 1) (tvb_value true tvb (b + 4) 1)
            (tvb_value false tvb (b + 9) 4) (tvb_value false tvb (b + 13) 4)]
        ∧ reads lg = [(b, 1), (b + 4, 1), (b + 9, 4), (b + 13, 4)])
    ∧ ((tvb_value true tvb b 1 = 9 ∧ m < 30) ∨ (tvb_value true tvb b 1 ≠ 9 ∧ m < 21) →
      dissect_mpi_oob_msg tvb tree rml_tag m b = Res.ok b [Ev.read b 1]) :=
  oob_msg_iof tvb tree rml_tag m b htag hm hb

/-- Worked instance of C27: a debug body of 30 octets with `iof_type` 1,
`jobid` 42 and `vpid` 5, for `rml_tag` 2. -/
theorem C27_oob_iof_witness :
    ∃ lg,
      dissect_mpi_oob_msg
          (tvb_of [9, 0, 0, 0, 1, 14, 12, 1, 9, 0, 0, 0, 1, 26, 13, 0, 0, 0, 42, 13,
            0, 0, 0, 5, 9, 0, 0, 0, 1, 0] (by decide))
          false 2 30 0
        = Res.ok 30 lg
      ∧ hdrs lg = [Hdr.oob_iof 9 1 42 5] := by
  obtain ⟨lg, h, hh, _⟩ := (C27_oob_iof
    (tvb_of [9, 0, 0, 0, 1, 14, 12, 1, 9, 0, 0, 0, 1, 26, 13, 0, 0, 0, 42, 13,
      0, 0, 0, 5, 9, 0, 0, 0, 1, 0] (by decide))
    false 2 30 0 (by decide) (by decide) (by decide)).1 (by decide) (by decide)
  refine ⟨lg, h, ?_⟩
  rw [hh]
  decide

/-- C28: the switch of the message branch for `rml_tag` 15
(`ORTE_RML_TAG_XCAST`), on `m ≥ 1` message octets captured at `b`, with or
without a tree.
* If the octet at `b` is 9 and `m ≥ 8`: the daemon command is the octet at
  `b + 7`, and the offset after the switch is `b + 8`.
* If the octet at `b` is not 9 and `m ≥ 5`: the daemon command is the octet at
  `b + 4`, and the offset after the switch is `b + 5`.
* Below the respective minimum only the octet at `b` is fetched and the offset
  stays at `b`.
* The MPI_Abort bodies `09 00 00 00 01 31 0c 07` and `00 00 00 01 07` of the
  comments in the code both yield the daemon command 7
  (`ORTE_DAEMON_EXIT_CMD`). -/
theorem C28_oob_xcast (tvb : tvbuff_t) (tree : Bool) (m b : Nat)
    (hm : 1 ≤ m) (hb : b + m ≤ tvb_captured_length tvb) :
    (tvb_value true tvb b 1 = 9 → 8 ≤ m →
      ∃ lg, dissect_mpi_oob_msg tvb tree ORTE_RML_TAG_XCAST m b = Res.ok (b + 8) lg
        ∧ hdrs lg = [Hdr.oob_xcast (tvb_value true tvb (b + 7) 1)]
        ∧ reads lg = [(b, 1), (b + 7, 1)])
    ∧ (tvb_value true tvb b 1 ≠ 9 → 5 ≤ m →
      ∃ lg, dissect_mpi_oob_msg tvb tree ORTE_RML_TAG_XCAST m b = Res.ok (b + 5) lg
        ∧ hdrs lg = [Hdr.oob_xcast (tvb_value true tvb (b + 4) 1)]
        ∧ reads lg = [(b, 1), (b + 4, 1)])
    ∧ ((tvb_value true tvb b 1 = 9 ∧ m < 8) ∨ (tvb_value true tvb b 1 ≠ 9 ∧ m < 5) →
      dissect_mpi_oob_msg tvb tree ORTE_RML_TAG_XCAST m b = Res.ok b [Ev.read b 1])
    ∧ (∃ lg, dissect_mpi_oob_msg (tvb_of [9, 0, 0, 0, 1, 49, 12, 7] (by decide)) tree
          ORTE_RML_TAG_XCAST 8 0 = Res.ok 8 lg
        ∧ hdrs lg = [Hdr.oob_xcast ORTE_DAEMON_EXIT_CMD])
    ∧ (∃ lg, dissect_mpi_oob_msg (tvb_of [0, 0, 0, 1, 7] (by decide)) tree
          ORTE_RML_TAG_XCAST 5 0 = Res.ok 5 lg
        ∧ hdrs lg = [Hdr.oob_xcast ORTE_DAEMON_EXIT_CMD]) := by
  obtain ⟨h1, h2, h3⟩ := oob_msg_xcast tvb tree m b hm hb
  refine ⟨h1, h2, h3, ?_, ?_⟩
  · obtain ⟨lg, h, hh, _⟩ := (oob_msg_xcast (tvb_of [9, 0, 0, 0, 1, 49, 12, 7] (by decide))
      tree 8 0 (by decide) (by decide)).1 (by decide) (by decide)
    refine ⟨lg, h, ?_⟩
    rw [hh]
    decide
  · obtain ⟨lg, h, hh, _⟩ := (oob_msg_xcast (tvb_of [0, 0, 0, 1, 7] (by decide))
      tree 5 0 (by decide) (by decide)).2.1 (by decide) (by decide)
    refine ⟨lg, h, ?_⟩
    rw [hh]
    decide

/-- Worked instance of C28: the compact MPI_Abort body at offset 28 of a buffer,
after a frame header with `rml_tag` 15 and `nbytes` 5. -/
theorem C28_oob_xcast_witness :
    ∃ lg,
      dissect_mpi_oob_msg
          (tvb_of [0, 0, 0, 1, 0, 0, 0, 2, 0, 0, 0, 3, 0, 0, 0, 4, 0, 0, 0, 5,
            0, 0, 0, 15, 0, 0, 0, 5, 0, 0, 0, 1, 7] (by decide))
          true ORTE_RML_TAG_XCAST 5 28
        = Res.ok 33 lg
      ∧ hdrs lg = [Hdr.oob_xcast 7] := by
  obtain ⟨lg, h, hh, _⟩ := (C28_oob_xcast
    (tvb_of [0, 0, 0, 1, 0, 0, 0, 2, 0, 0, 0, 3, 0, 0, 0, 4, 0, 0, 0, 5,
      0, 0, 0, 15, 0, 0, 0, 5, 0, 0, 0, 1, 7] (by decide))
    true 5 28 (by decide) (by decide)).2.1 (by decide) (by decide)
  refine ⟨lg, h, ?_⟩
  rw [hh]
  decide

/-! ## The Sync transaction matcher -/

/-- C29: the first Sync packet of a conversation. Let the buffer hold 8 octets
from `the_offset` on, let the conversation have no Sync data yet and the packet
not be visited yet, with or without a tree. `dissect_mpi_sync` (which has no
endianness parameter) returns the captured length, reports the packet as a
request (the flag `is_request` of the summary is true) with `jobid` the
big-endian u32 of the octets 0..3 and `vpid` the big-endian u32 of the octets
4..7, fetched in that order, and attaches Sync data with exactly one
transaction: that `jobid` and `vpid`, `req_frame` the frame number, `rep_frame`
0 and `req_time` the time stamp of the packet. -/
theorem C29_sync_first_request (tvb : tvbuff_t) (pinfo : packet_info) (tree : Bool)
    (the_offset : Nat)
    (hlen : tvb_captured_length tvb = the_offset + 8)
    (hvis : pinfo.visited = false) :
    ∃ lg,
      dissect_mpi_sync tvb pinfo tree the_offset none
        = (Res.ok (the_offset + 8) lg,
            some { pdus := [((tvb_value false tvb 0 4, pinfo.num),
              { jobid := tvb_value false tvb 0 4, vpid := tvb_value false tvb 4 4,
                req_frame := pinfo.num, rep_frame := 0, req_time := pinfo.abs_ts })] })
      ∧ hdrs lg = [Hdr.sync pinfo.srcport pinfo.destport (tvb_value false tvb 0 4)
          (tvb_value false tvb 4 4) true]
      ∧ reads lg = [(0, 4), (4, 4)] :=
  sync_first_request tvb pinfo tree the_offset hlen hvis

/-- Worked instance of C29: the packet `{jobid = 7, vpid = 3}` at frame 10 and
time 1000. -/
theorem C29_sync_first_request_witness :
    ∃ lg,
      dissect_mpi_sync (tvb_of [0, 0, 0, 7, 0, 0, 0, 3] (by decide))
          { srcport := 40000, destport := 1024, num := 10, visited := false, abs_ts := 1000 }
          false 0 none
        = (Res.ok 8 lg,
            some { pdus := [((7, 10),
              { jobid := 7, vpid := 3, req_frame := 10, rep_frame := 0,
                req_time := 1000 })] })
      ∧ hdrs lg = [Hdr.sync 40000 1024 7 3 true] := by
  obtain ⟨lg, h, hh, _⟩ := C29_sync_first_request (tvb_of [0, 0, 0, 7, 0, 0, 0, 3] (by decide))
    { srcport := 40000, destport := 1024, num := 10, visited := false, abs_ts := 1000 }
    false 0 (by decide) rfl
  have e0 : tvb_value false (tvb_of [0, 0, 0, 7, 0, 0, 0, 3] (by decide)) 0 4 = 7 := by
    decide
  have e4 : tvb_value false (tvb_of [0, 0, 0, 7, 0, 0, 0, 3] (by decide)) 4 4 = 3 := by
    decide
  rw [e0, e4] at h hh
  exact ⟨lg, h, hh⟩

/-- C30: request and response. Let two Sync packets of 8 octets with the same
`jobid` arrive on a conversation without Sync data, the first at frame `f1 > 0`
(0 is the value of an unset frame field) and time `t1`, the second at a frame
`f2 > f1` and a time `t2 > t1`, both not visited yet, with or without a tree.
* The first call attaches Sync data `I1`.
* The second call on `I1` reports the packet as a response (`is_request` is
  false), and the Sync data `I2` it leaves holds the one transaction with
  `req_frame = f1`, `rep_frame = f2` and `req_time = t1`. With a tree the run
  adds the generated items `hf_mpi_response_to` with the value `f1` and
  `hf_mpi_time` with the value `t2 - t1`, which is positive.
* A call on `I2` for the first packet flagged as visited reports a request
  and, with a tree, adds the generated item `hf_mpi_response_in` with the
  value `f2`; the Sync data stays `I2`. -/
theorem C30_sync_match (tvb1 tvb2 : tvbuff_t) (pinfo1 pinfo2 : packet_info) (tree : Bool)
    (hlen1 : tvb_captured_length tvb1 = 8) (hlen2 : tvb_captured_length tvb2 = 8)
    (hvis1 : pinfo1.visited = false) (hvis2 : pinfo2.visited = false)
    (hj : tvb_value false tvb2 0 4 = tvb_value false tvb1 0 4)
    (hf1 : 0 < pinfo1.num) (hf : pinfo1.num < pinfo2.num)
    (ht : pinfo1.abs_ts < pinfo2.abs_ts) :
    ∃ lg1 lg2 lg3 I1 I2,
      dissect_mpi_sync tvb1 pinfo1 tree 0 none = (Res.ok 8 lg1, some I1)
      ∧ dissect_mpi_sync tvb2 pinfo2 tree 0 (some I1) = (Res.ok 8 lg2, some I2)
      ∧ I2 = { pdus := [((tvb_value false tvb1 0 4, pinfo1.num),
          { jobid := tvb_value false tvb1 0 4, vpid := tvb_value false tvb1 4 4,
            req_frame := pinfo1.num, rep_frame := pinfo2.num,
            req_time := pinfo1.abs_ts })] }
      ∧ hdrs lg2 = [Hdr.sync pinfo2.srcport pinfo2.destport (tvb_value false tvb1 0 4)
            (tvb_value false tvb2 4 4) false]
          ++ (if tree = true then
                [Hdr.uint "hf_mpi_response_to" pinfo1.num,
                  Hdr.time "hf_mpi_time" (pinfo2.abs_ts - pinfo1.abs_ts)]
              else [])
      ∧ 0 < pinfo2.abs_ts - pinfo1.abs_ts
      ∧ dissect_mpi_sync tvb1 { pinfo1 with visited := true } tree 0 (some I2)
          = (Res.ok 8 lg3, some I2)
      ∧ hdrs lg3 = [Hdr.sync pinfo1.srcport pinfo1.destport (tvb_value false tvb1 0 4)
            (tvb_value false tvb1 4 4) true]
          ++ (if tree = true then [Hdr.uint "hf_mpi_response_in" pinfo2.num] else []) := by
  obtain ⟨lg1, h1, _, _⟩ := sync_first_request tvb1 pinfo1 tree 0 (by rw [hlen1]) hvis1
  obtain ⟨lg2, h2, hh2⟩ := sync_response tvb2 pinfo2 tree (tvb_value false tvb1 0 4)
    (tvb_value false tvb1 4 4) pinfo1.num pinfo1.abs_ts hlen2 hvis2 hj hf1 (by omega)
  obtain ⟨lg3, h3, hh3⟩ := sync_revisit_request tvb1 { pinfo1 with visited := true } tree
    (tvb_value false tvb1 0 4) (tvb_value false tvb1 4 4) pinfo2.num pinfo1.abs_ts
    hlen1 rfl rfl rfl (by omega)
  exact ⟨lg1, lg2, lg3, _, _, h1, h2, rfl, hh2, by omega, h3, hh3⟩

/-- Worked instance of C30: `{jobid = 7, vpid = 3}` at frame 10 and time 1000,
then `{jobid = 7, vpid = 9}` at frame 12 and time 1250, with a tree. -/
theorem C30_sync_match_witness :
    ∃ lg1 lg2 lg3 I1 I2,
      dissect_mpi_sync (tvb_of [0, 0, 0, 7, 0, 0, 0, 3] (by decide))
          { srcport := 40000, destport := 1024, num := 10, visited := false, abs_ts := 1000 }
          true 0 none = (Res.ok 8 lg1, some I1)
      ∧ dissect_mpi_sync (tvb_of [0, 0, 0, 7, 0, 0, 0, 9] (by decide))
          { srcport := 1024, destport := 40000, num := 12, visited := false, abs_ts := 1250 }
          true 0 (some I1) = (Res.ok 8 lg2, some I2)
      ∧ I2 = { pdus := [((7, 10),
          { jobid := 7, vpid := 3, req_frame := 10, rep_frame := 12, req_time := 1000 })] }
      ∧ hdrs lg2 = [Hdr.sync 1024 40000 7 9 false, Hdr.uint "hf_mpi_response_to" 10,
          Hdr.time "hf_mpi_time" 250]
      ∧ dissect_mpi_sync (tvb_of [0, 0, 0, 7, 0, 0, 0, 3] (by decide))
          { srcport := 40000, destport := 1024, num := 10, visited := true, abs_ts := 1000 }
          true 0 (some I2) = (Res.ok 8 lg3, some I2)
      ∧ hdrs lg3 = [Hdr.sync 40000 1024 7 3 true, Hdr.uint "hf_mpi_response_in" 12] := by
  obtain ⟨lg1, lg2, lg3, I1, I2, h1, h2, hI, hh2, _, h3, hh3⟩ := C30_sync_match
    (tvb_of [0, 0, 0, 7, 0, 0, 0, 3] (by decide)) (tvb_of [0, 0, 0, 7, 0, 0, 0, 9] (by decide))
    { srcport := 40000, destport := 1024, num := 10, visited := false, abs_ts := 1000 }
    { srcport := 1024, destport := 40000, num := 12, visited := false, abs_ts := 1250 }
    true (by decide) (by decide) rfl rfl (by decide) (by decide) (by decide) (by decide)
  have e0 : tvb_value false (tvb_of [0, 0, 0, 7, 0, 0, 0, 3] (by decide)) 0 4 = 7 := by
    decide
  have e4 : tvb_value false (tvb_of [0, 0, 0, 7, 0, 0, 0, 3] (by decide)) 4 4 = 3 := by
    decide
  have e9 : tvb_value false (tvb_of [0, 0, 0, 7, 0, 0, 0, 9] (by decide)) 4 4 = 9 := by
    decide
  rw [e0, e4] at hI hh3
  rw [e0, e9] at hh2
  refine ⟨lg1, lg2, lg3, I1, I2, h1, h2, hI, ?_, h3, ?_⟩
  · rw [hh2]; decide
  · rw [hh3]; rfl

/-! ## Runs under the two policies, Sync sequences and the prefix of the BTL path -/

theorem shape_append (l m : List Ev) : shape (l ++ m) = shape l ++ shape m := by
  induction l with
  | nil => rfl
  | cons e es ih => cases e <;> simp [shape, ih]

theorem same_course_pure {α β : Type} {Q : α → β → Prop} {a : α} {b : β} (h : Q a b) :
    same_course Q (pure a : Res α) (pure b : Res β) :=
  ⟨h, rfl⟩

theorem same_course_bind {α β γ δ : Type} {Q : α → β → Prop} {Q' : γ → δ → Prop}
    {r : Res α} {s : Res β} {f : α → Res γ} {g : β → Res δ}
    (h : same_course Q r s) (hf : ∀ a b, Q a b → same_course Q' (f a) (g b)) :
    same_course Q' (r >>= f) (s >>= g) := by
  cases r with
  | ok a l =>
    cases s with
    | ok b m =>
      obtain ⟨hq, hl⟩ := h
      have := hf a b hq
      simp only [Res.bind_eq, Res.bind_ok]
      cases hfa : f a with
      | ok c l' =>
        cases hgb : g b with
        | ok d m' =>
          rw [hfa, hgb] at this
          exact ⟨this.1, by simp only [shape_append, hl, this.2]⟩
        | exn m' => rw [hfa, hgb] at this; exact this.elim
      | exn l' =>
        cases hgb : g b with
        | ok d m' => rw [hfa, hgb] at this; exact this.elim
        | exn m' =>
          rw [hfa, hgb] at this
          show shape (l ++ l') = shape (m ++ m')
          simp only [shape_append, hl]
          exact congrArg _ this
    | exn m => exact h.elim
  | exn l =>
    cases s with
    | ok b m => exact h.elim
    | exn m => exact h

theorem same_course_ite {α β : Type} {Q : α → β → Prop} {c : Prop} [Decidable c]
    {r r' : Res α} {s s' : Res β}
    (h1 : c → same_course Q r s) (h2 : ¬ c → same_course Q r' s') :
    same_course Q (if c then r else r') (if c then s else s') := by
  by_cases h : c
  · rw [if_pos h, if_pos h]; exact h1 h
  · rw [if_neg h, if_neg h]; exact h2 h

theorem same_course_ite_iff {α β : Type} {Q : α → β → Prop} {c d : Prop} [Decidable c]
    [Decidable d] {r r' : Res α} {s s' : Res β} (hcd : c ↔ d)
    (h1 : c → same_course Q r s) (h2 : ¬ c → same_course Q r' s') :
    same_course Q (if c then r else r') (if d then s else s') := by
  by_cases h : c
  · rw [if_pos h, if_pos (hcd.1 h)]; exact h1 h
  · rw [if_neg h, if_neg (fun hd => h (hcd.2 hd))]; exact h2 h

theorem same_course_refl {α : Type} (r : Res α) : same_course Eq r r := by
  cases r with
  | ok a l => exact ⟨rfl, rfl⟩
  | exn l => exact rfl

theorem same_course_mono {α β : Type} {Q Q' : α → β → Prop} {r : Res α} {s : Res β}
    (h : same_course Q r s) (hq : ∀ a b, Q a b → Q' a b) : same_course Q' r s := by
  cases r with
  | ok a l =>
    cases s with
    | ok b m => exact ⟨hq _ _ h.1, h.2⟩
    | exn m => exact h.elim
  | exn l =>
    cases s with
    | ok b m => exact h.elim
    | exn m => exact h

theorem same_course_emit_hdr (h h' : Hdr) :
    same_course (fun _ _ => True) (Res.emit (Ev.hdr h)) (Res.emit (Ev.hdr h')) :=
  ⟨trivial, rfl⟩

theorem be_zero_iff (bs : List Byte) : 0 = le_value bs ↔ 0 = be_value bs := by
  rw [be_value_eq]
  constructor
  · intro h
    have := (le_value_eq_zero_iff bs).1 h.symm
    exact ((le_value_eq_zero_iff bs.reverse).2 (fun b hb => this b (List.mem_reverse.1 hb))).symm
  · intro h
    have := (le_value_eq_zero_iff bs.reverse).1 h.symm
    exact ((le_value_eq_zero_iff bs).2 (fun b hb => this b (List.mem_reverse.2 hb))).symm

/-- A little-endian and a big-endian fetch of the same span: the values are
zero together, and the span lies inside the captured data. -/
theorem same_course_fetch (tvb : tvbuff_t) (o n : Nat) :
    same_course (fun a b => (0 = a ↔ 0 = b) ∧ o + n ≤ tvb.data.length)
      (tvb_fetch tvb o n >>= fun bs => pure (le_value bs))
      (tvb_fetch tvb o n >>= fun bs => pure (be_value bs)) := by
  unfold tvb_fetch
  by_cases h : o + n ≤ tvb.data.length
  · rw [if_pos h]
    exact ⟨⟨be_zero_iff _, h⟩, rfl⟩
  · rw [if_neg h]
    exact rfl

/-- A fetch made alike in both runs. -/
theorem same_course_fetch_refl (tvb : tvbuff_t) (o n : Nat) (f : List Byte → Nat) :
    same_course (fun a b => a = b ∧ o + n ≤ tvb.data.length)
      (tvb_fetch tvb o n >>= fun bs => pure (f bs))
      (tvb_fetch tvb o n >>= fun bs => pure (f bs)) := by
  unfold tvb_fetch
  by_cases h : o + n ≤ tvb.data.length
  · rw [if_pos h]
    exact ⟨⟨rfl, h⟩, rfl⟩
  · rw [if_neg h]
    exact rfl

theorem same_course_item (tree : Bool) (hf : String) (tvb : tvbuff_t) (o n : Nat) :
    same_course (fun _ _ => o + n ≤ tvb.data.length)
      (proto_tree_add_item tree hf tvb o n) (proto_tree_add_item tree hf tvb o n) := by
  unfold proto_tree_add_item
  by_cases h : o + n ≤ tvb.data.length
  · rw [if_pos h]
    exact ⟨h, rfl⟩
  · rw [if_neg h]
    exact rfl

theorem same_course_subtree (ett : String) :
    same_course (fun _ _ => True) (proto_tree_add_subtree ett) (proto_tree_add_subtree ett) :=
  ⟨trivial, rfl⟩

theorem guint_add_le (a b : Nat) : guint_add a b ≤ a + b := by
  unfold guint_add
  exact Nat.mod_le _ _

theorem match_course (tvb : tvbuff_t) (tree : Bool) (off : Nat) :
    same_course (fun a b => a = b ∧ (off ≤ tvb.data.length → a ≤ tvb.data.length))
      (dissect_mpi_match true tvb tree off) (dissect_mpi_match false tvb tree off) := by
  unfold dissect_mpi_match tvb_get_letohs tvb_get_ntohs tvb_get_letohl tvb_get_ntohl
  simp only [if_true, Bool.false_eq_true, if_false]
  refine same_course_ite (fun _ => same_course_pure ⟨rfl, id⟩) (fun _ => ?_)
  refine same_course_bind
    (Q := fun x y => match x, y with
      | (_, _, _, _, p, o), (_, _, _, _, p', o') =>
        (0 = p ↔ 0 = p') ∧ o = o' ∧ o ≤ tvb.data.length) ?_ ?_
  · refine same_course_bind (same_course_fetch tvb _ _) (fun _ _ _ => ?_)
    refine same_course_bind (same_course_fetch tvb _ _) (fun _ _ _ => ?_)
    refine same_course_bind (same_course_fetch tvb _ _) (fun _ _ _ => ?_)
    refine same_course_bind (same_course_fetch tvb _ _) (fun _ _ hs => ?_)
    have hb : guint_add (guint_add (guint_add (guint_add off 2) 4) 4) 2 ≤ tvb.data.length :=
      le_trans (guint_add_le _ _) hs.2
    refine same_course_ite (fun _ => ?_) (fun _ => same_course_pure ⟨Iff.rfl, rfl, hb⟩)
    refine same_course_bind (same_course_refl _) (fun t t' ht => ?_)
    subst ht
    refine same_course_ite (fun _ => ?_) (fun _ => same_course_pure ⟨Iff.rfl, rfl, hb⟩)
    refine same_course_bind (same_course_fetch tvb _ _) (fun _ _ hp => ?_)
    exact same_course_pure ⟨hp.1, rfl, le_trans (guint_add_le _ _) hp.2⟩
  · rintro ⟨c, s, t, q, p, o⟩ ⟨c', s', t', q', p', o'⟩ ⟨hp, ho, hb⟩
    subst ho
    refine same_course_bind (same_course_emit_hdr _ _) (fun _ _ _ => ?_)
    refine same_course_ite (fun _ => ?_) (fun _ => same_course_pure ⟨rfl, fun _ => hb⟩)
    refine same_course_bind (same_course_subtree _) (fun _ _ _ => ?_)
    refine same_course_bind (same_course_item _ _ _ _ _) (fun _ _ _ => ?_)
    refine same_course_bind (same_course_item _ _ _ _ _) (fun _ _ _ => ?_)
    refine same_course_bind (same_course_item _ _ _ _ _) (fun _ _ _ => ?_)
    refine same_course_bind (same_course_item _ _ _ _ _) (fun _ _ hi => ?_)
    refine same_course_ite_iff hp (fun _ => ?_)
      (fun _ => same_course_pure ⟨rfl, fun _ => le_trans (guint_add_le _ _) hi⟩)
    refine same_course_bind (same_course_item _ _ _ _ _) (fun _ _ hi2 => ?_)
    exact same_course_pure ⟨rfl, fun _ => le_trans (guint_add_le _ _) hi2⟩

theorem rndv_course (tvb : tvbuff_t) (tree : Bool) (off : Nat) :
    same_course (fun a b => a = b ∧ (off ≤ tvb.data.length → a ≤ tvb.data.length))
      (dissect_mpi_rndv true tvb tree off) (dissect_mpi_rndv false tvb tree off) := by
  unfold dissect_mpi_rndv tvb_get_letoh64 tvb_get_ntoh64 tvb_get_guint8
  simp only [if_true, Bool.false_eq_true, if_false]
  refine same_course_ite (fun _ => same_course_pure ⟨rfl, id⟩) (fun _ => ?_)
  refine same_course_bind (match_course tvb tree off) ?_
  rintro p p' ⟨hpp, hpb⟩
  subst hpp
  refine same_course_ite (fun _ => same_course_pure ⟨rfl, hpb⟩) (fun _ => ?_)
  refine same_course_bind
    (Q := fun x y => match x, y with
      | (_, _, _, b, o), (_, _, _, b', o') => b = b' ∧ o = o' ∧ o ≤ tvb.data.length) ?_ ?_
  · refine same_course_bind (same_course_fetch tvb _ _) (fun _ _ _ => ?_)
    refine same_course_bind (same_course_fetch tvb _ _) (fun _ _ hs => ?_)
    refine same_course_ite (fun _ => ?_)
      (fun _ => same_course_pure ⟨rfl, rfl, le_trans (guint_add_le _ _) hs.2⟩)
    refine same_course_bind (same_course_fetch tvb _ _) (fun _ _ hd => ?_)
    exact same_course_pure ⟨rfl, rfl, le_trans (guint_add_le _ _) hd.2⟩
  · rintro ⟨m, s, d, b, o⟩ ⟨m', s', d', b', o'⟩ ⟨hb, ho, hle⟩
    subst hb; subst ho
    refine same_course_bind (Q := fun o1 o2 => o1 = o2 ∧ o1 ≤ tvb.data.length) ?_ ?_
    · refine same_course_ite (fun _ => ?_) (fun _ => ?_)
      · refine same_course_bind (same_course_fetch_refl tvb _ _ _) (fun _ _ hr => ?_)
        refine same_course_bind (same_course_emit_hdr _ _) (fun _ _ _ => ?_)
        exact same_course_pure ⟨rfl, le_trans (guint_add_le _ _) hr.2⟩
      · refine same_course_bind (same_course_emit_hdr _ _) (fun _ _ _ => ?_)
        exact same_course_pure ⟨rfl, hle⟩
    · rintro o1 o2 ⟨ho12, hle1⟩
      subst ho12
      refine same_course_ite (fun _ => ?_) (fun _ => same_course_pure ⟨rfl, fun _ => hle1⟩)
      refine same_course_bind (same_course_subtree _) (fun _ _ _ => ?_)
      refine same_course_bind (same_course_item _ _ _ _ _) (fun _ _ _ => ?_)
      refine same_course_bind (same_course_item _ _ _ _ _) (fun _ _ _ => ?_)
      refine same_course_bind (same_course_item _ _ _ _ _) (fun _ _ _ => ?_)
      refine same_course_bind (same_course_item _ _ _ _ _) (fun _ _ hi => ?_)
      refine same_course_ite (fun _ => ?_)
        (fun _ => same_course_pure ⟨rfl, fun _ => le_trans (guint_add_le _ _) hi⟩)
      refine same_course_bind (same_course_item _ _ _ _ _) (fun _ _ _ => ?_)
      refine same_course_bind (same_course_item _ _ _ _ _) (fun _ _ _ => ?_)
      refine same_course_bind (same_course_item _ _ _ _ _) (fun _ _ _ => ?_)
      refine same_course_bind (same_course_item _ _ _ _ _) (fun _ _ hi2 => ?_)
      exact same_course_pure ⟨rfl, fun _ => le_trans (guint_add_le _ _) hi2⟩

theorem rget_course (tvb : tvbuff_t) (tree : Bool) (off : Nat) :
    same_course (fun a b => a = b ∧ (off ≤ tvb.data.length → a ≤ tvb.data.length))
      (dissect_mpi_rget true tvb tree off) (dissect_mpi_rget false tvb tree off) := by
  unfold dissect_mpi_rget tvb_get_letoh64 tvb_get_ntoh64 tvb_get_letohl tvb_get_ntohl
  simp only [if_true, Bool.false_eq_true, if_false, ge_iff_le]
  refine same_course_ite (fun _ => same_course_pure ⟨rfl, id⟩) (fun _ => ?_)
  refine same_course_bind (rndv_course tvb tree off) ?_
  rintro p p' ⟨hpp, hpb⟩
  subst hpp
  refine same_course_ite (fun _ => same_course_pure ⟨rfl, hpb⟩) (fun _ => ?_)
  refine same_course_bind
    (Q := fun x y => match x, y with
      | (_, q, _, o), (_, q', _, o') => (0 = q ↔ 0 = q') ∧ o = o' ∧ o ≤ tvb.data.length) ?_ ?_
  · refine same_course_bind (same_course_fetch tvb _ _) (fun _ _ _ => ?_)
    refine same_course_bind
      (Q := fun x y => match x, y with
        | (q, o), (q', o') => (0 = q ↔ 0 = q') ∧ o = o') ?_ ?_
    · refine same_course_ite (fun _ => ?_) (fun _ => same_course_pure ⟨Iff.rfl, rfl⟩)
      refine same_course_bind (same_course_fetch tvb _ _) (fun _ _ hq => ?_)
      exact same_course_pure ⟨hq.1, rfl⟩
    · rintro ⟨q, o⟩ ⟨q', o'⟩ ⟨hq, ho⟩
      subst ho
      refine same_course_bind (same_course_fetch tvb _ _) (fun _ _ hd => ?_)
      exact same_course_pure ⟨hq, rfl, le_trans (guint_add_le _ _) hd.2⟩
  · rintro ⟨c, q, d, o⟩ ⟨c', q', d', o'⟩ ⟨hq, ho, hle⟩
    subst ho
    refine same_course_bind (same_course_emit_hdr _ _) (fun _ _ _ => ?_)
    refine same_course_ite (fun _ => ?_) (fun _ => same_course_pure ⟨rfl, fun _ => hle⟩)
    refine same_course_bind (same_course_subtree _) (fun _ _ _ => ?_)
    refine same_course_bind (same_course_item _ _ _ _ _) (fun _ _ _ => ?_)
    refine same_course_bind (Q := fun o1 o2 => o1 = o2) ?_ ?_
    · refine same_course_ite_iff hq (fun _ => ?_) (fun _ => same_course_pure rfl)
      refine same_course_bind (same_course_item _ _ _ _ _) (fun _ _ _ => ?_)
      exact same_course_pure rfl
    · rintro o1 o2 ho12
      subst ho12
      refine same_course_bind (same_course_item _ _ _ _ _) (fun _ _ hi => ?_)
      exact same_course_pure ⟨rfl, fun _ => le_trans (guint_add_le _ _) hi⟩

theorem frag_course (tvb : tvbuff_t) (tree : Bool) (off : Nat) :
    same_course (fun a b => a = b ∧ (off ≤ tvb.data.length → a ≤ tvb.data.length))
      (dissect_mpi_frag true tvb tree off) (dissect_mpi_frag false tvb tree off) := by
  unfold dissect_mpi_frag tvb_get_letoh64 tvb_get_ntoh64 tvb_get_letoh48 tvb_get_ntoh48
  simp only [if_true, Bool.false_eq_true, if_false]
  refine same_course_ite (fun _ => same_course_pure ⟨rfl, id⟩) (fun _ => ?_)
  refine same_course_bind
    (Q := fun x y => match x, y with
      | (q, _, _, _, o), (q', _, _, _, o') =>
        (0 = q ↔ 0 = q') ∧ o = o' ∧ o ≤ tvb.data.length) ?_ ?_
  · refine same_course_bind
      (Q := fun x y => match x, y with
        | (q, o), (q', o') => (0 = q ↔ 0 = q') ∧ o = o') ?_ ?_
    · refine same_course_ite (fun _ => ?_) (fun _ => same_course_pure ⟨Iff.rfl, rfl⟩)
      refine same_course_bind (same_course_fetch tvb _ _) (fun _ _ hq => ?_)
      exact same_course_pure ⟨hq.1, rfl⟩
    · rintro ⟨q, o⟩ ⟨q', o'⟩ ⟨hq, ho⟩
      subst ho
      refine same_course_bind (same_course_fetch tvb _ _) (fun _ _ _ => ?_)
      refine same_course_bind (same_course_fetch tvb _ _) (fun _ _ _ => ?_)
      refine same_course_bind (same_course_fetch tvb _ _) (fun _ _ hd => ?_)
      exact same_course_pure ⟨hq, rfl, le_trans (guint_add_le _ _) hd.2⟩
  · rintro ⟨q, a, b, c, o⟩ ⟨q', a', b', c', o'⟩ ⟨hq, ho, hle⟩
    subst ho
    refine same_course_bind (same_course_emit_hdr _ _) (fun _ _ _ => ?_)
    refine same_course_ite (fun _ => ?_) (fun _ => same_course_pure ⟨rfl, fun _ => hle⟩)
    refine same_course_bind (same_course_subtree _) (fun _ _ _ => ?_)
    refine same_course_bind (Q := fun o1 o2 => o1 = o2) ?_ ?_
    · refine same_course_ite_iff hq (fun _ => ?_) (fun _ => same_course_pure rfl)
      refine same_course_bind (same_course_item _ _ _ _ _) (fun _ _ _ => ?_)
      exact same_course_pure rfl
    · rintro o1 o2 ho12
      subst ho12
      refine same_course_bind (same_course_item _ _ _ _ _) (fun _ _ _ => ?_)
      refine same_course_bind (same_course_item _ _ _ _ _) (fun _ _ _ => ?_)
      refine same_course_bind (same_course_item _ _ _ _ _) (fun _ _ _ => ?_)
      refine same_course_bind (same_course_item _ _ _ _ _) (fun _ _ _ => ?_)
      refine same_course_bind (same_course_item _ _ _ _ _) (fun _ _ _ => ?_)
      refine same_course_bind (same_course_item _ _ _ _ _) (fun _ _ _ => ?_)
      refine same_course_bind (same_course_item _ _ _ _ _) (fun _ _ hi => ?_)
      exact same_course_pure ⟨rfl, fun _ => le_trans (guint_add_le _ _) hi⟩

theorem ack_course (tvb : tvbuff_t) (tree : Bool) (off : Nat) :
    same_course (fun a b => a = b ∧ (off ≤ tvb.data.length → a ≤ tvb.data.length))
      (dissect_mpi_ack true tvb tree off) (dissect_mpi_ack false tvb tree off) := by
  unfold dissect_mpi_ack tvb_get_letoh64 tvb_get_ntoh64 tvb_get_letoh48 tvb_get_ntoh48
  simp only [if_true, Bool.false_eq_true, if_false]
  refine same_course_ite (fun _ => same_course_pure ⟨rfl, id⟩) (fun _ => ?_)
  refine same_course_bind
    (Q := fun x y => match x, y with
      | (q, _, _, _, o), (q', _, _, _, o') =>
        (0 = q ↔ 0 = q') ∧ o = o' ∧ o ≤ tvb.data.length) ?_ ?_
  · refine same_course_bind
      (Q := fun x y => match x, y with
        | (q, o), (q', o') => (0 = q ↔ 0 = q') ∧ o = o') ?_ ?_
    · refine same_course_ite (fun _ => ?_) (fun _ => same_course_pure ⟨Iff.rfl, rfl⟩)
      refine same_course_bind (same_course_fetch tvb _ _) (fun _ _ hq => ?_)
      exact same_course_pure ⟨hq.1, rfl⟩
    · rintro ⟨q, o⟩ ⟨q', o'⟩ ⟨hq, ho⟩
      subst ho
      refine same_course_bind (same_course_fetch tvb _ _) (fun _ _ _ => ?_)
      refine same_course_bind (same_course_fetch tvb _ _) (fun _ _ _ => ?_)
      refine same_course_bind (same_course_fetch tvb _ _) (fun _ _ hd => ?_)
      exact same_course_pure ⟨hq, rfl, le_trans (guint_add_le _ _) hd.2⟩
  · rintro ⟨q, a, b, c, o⟩ ⟨q', a', b', c', o'⟩ ⟨hq, ho, hle⟩
    subst ho
    refine same_course_bind (same_course_emit_hdr _ _) (fun _ _ _ => ?_)
    refine same_course_ite (fun _ => ?_) (fun _ => same_course_pure ⟨rfl, fun _ => hle⟩)
    refine same_course_bind (same_course_subtree _) (fun _ _ _ => ?_)
    refine same_course_bind (Q := fun o1 o2 => o1 = o2) ?_ ?_
    · refine same_course_ite_iff hq (fun _ => ?_) (fun _ => same_course_pure rfl)
      refine same_course_bind (same_course_item _ _ _ _ _) (fun _ _ _ => ?_)
      exact same_course_pure rfl
    · rintro o1 o2 ho12
      subst ho12
      refine same_course_bind (same_course_item _ _ _ _ _) (fun _ _ _ => ?_)
      refine same_course_bind (same_course_item _ _ _ _ _) (fun _ _ _ => ?_)
      refine same_course_bind (same_course_item _ _ _ _ _) (fun _ _ _ => ?_)
      refine same_course_bind (same_course_item _ _ _ _ _) (fun _ _ _ => ?_)
      refine same_course_bind (same_course_item _ _ _ _ _) (fun _ _ _ => ?_)
      refine same_course_bind (same_course_item _ _ _ _ _) (fun _ _ _ => ?_)
      refine same_course_bind (same_course_item _ _ _ _ _) (fun _ _ hi => ?_)
      exact same_course_pure ⟨rfl, fun _ => le_trans (guint_add_le _ _) hi⟩

theorem rdma_course (tvb : tvbuff_t) (tree : Bool) (off : Nat) :
    same_course (fun a b => a = b ∧ (off ≤ tvb.data.length → a ≤ tvb.data.length))
      (dissect_mpi_rdma true tvb tree off) (dissect_mpi_rdma false tvb tree off) := by
  unfold dissect_mpi_rdma tvb_get_letoh64 tvb_get_ntoh64 tvb_get_letohl tvb_get_ntohl
    tvb_get_letohs
  simp only [if_true, Bool.false_eq_true, if_false]
  refine same_course_ite (fun _ => same_course_pure ⟨rfl, id⟩) (fun _ => ?_)
  refine same_course_bind
    (Q := fun x y => match x, y with
      | (q, _, _, _, _, o), (q', _, _, _, _, o') =>
        q = q' ∧ o = o' ∧ o ≤ tvb.data.length) ?_ ?_
  · refine same_course_bind
      (Q := fun x y => match x, y with
        | (q, o), (q', o') => q = q' ∧ o = o') ?_ ?_
    · refine same_course_ite (fun _ => ?_) (fun _ => same_course_pure ⟨rfl, rfl⟩)
      refine same_course_bind (same_course_fetch_refl tvb _ _ _) (fun _ _ hq => ?_)
      exact same_course_pure ⟨hq.1, rfl⟩
    · rintro ⟨q, o⟩ ⟨q', o'⟩ ⟨hq, ho⟩
      subst ho
      refine same_course_bind (same_course_fetch tvb _ _) (fun _ _ _ => ?_)
      refine same_course_bind (same_course_fetch tvb _ _) (fun _ _ _ => ?_)
      refine same_course_bind (same_course_fetch tvb _ _) (fun _ _ _ => ?_)
      refine same_course_bind (same_course_fetch tvb _ _) (fun _ _ hd => ?_)
      exact same_course_pure ⟨hq, rfl, le_trans (guint_add_le _ _) hd.2⟩
  · rintro ⟨q, a, b, c, d, o⟩ ⟨q', a', b', c', d', o'⟩ ⟨hq, ho, hle⟩
    subst ho; subst hq
    refine same_course_bind (same_course_emit_hdr _ _) (fun _ _ _ => ?_)
    refine same_course_ite (fun _ => ?_) (fun _ => same_course_pure ⟨rfl, fun _ => hle⟩)
    refine same_course_bind (same_course_subtree _) (fun _ _ _ => ?_)
    refine same_course_bind (same_course_refl _) ?_
    rintro o1 o2 ho12
    subst ho12
    iterate 14 refine same_course_bind (same_course_item _ _ _ _ _) (fun _ _ _ => ?_)
    refine same_course_bind (same_course_item _ _ _ _ _) (fun _ _ hi => ?_)
    exact same_course_pure ⟨rfl, fun _ => le_trans (guint_add_le _ _) hi⟩

theorem fin_course (tvb : tvbuff_t) (tree : Bool) (off : Nat) :
    same_course (fun a b => a = b ∧ (off ≤ tvb.data.length → a ≤ tvb.data.length))
      (dissect_mpi_fin true tvb tree off) (dissect_mpi_fin false tvb tree off) := by
  unfold dissect_mpi_fin tvb_get_letoh64 tvb_get_ntoh64 tvb_get_letohl tvb_get_ntohl
    tvb_get_letohs tvb_get_ntohs
  simp only [if_true, Bool.false_eq_true, if_false]
  refine same_course_ite (fun _ => same_course_pure ⟨rfl, id⟩) (fun _ => ?_)
  refine same_course_bind
    (Q := fun x y => match x, y with
      | (q, _, _, _, _, o), (q', _, _, _, _, o') =>
        (0 = q ↔ 0 = q') ∧ o = o' ∧ o ≤ tvb.data.length) ?_ ?_
  · refine same_course_bind
      (Q := fun x y => match x, y with
        | (q, o), (q', o') => (0 = q ↔ 0 = q') ∧ o = o') ?_ ?_
    · refine same_course_ite (fun _ => ?_) (fun _ => same_course_pure ⟨Iff.rfl, rfl⟩)
      refine same_course_bind (same_course_fetch tvb _ _) (fun _ _ hq => ?_)
      exact same_course_pure ⟨hq.1, rfl⟩
    · rintro ⟨q, o⟩ ⟨q', o'⟩ ⟨hq, ho⟩
      subst ho
      refine same_course_bind (Q := fun o1 o2 => o1 = o2) ?_ ?_
      · refine same_course_ite
          (fun _ => same_course_mono (match_course tvb tree _) (fun _ _ h => h.1))
          (fun _ => same_course_pure rfl)
      · rintro o1 o2 ho12
        subst ho12
        refine same_course_bind (same_course_fetch tvb _ _) (fun _ _ _ => ?_)
        refine same_course_bind (same_course_fetch tvb _ _) (fun _ _ _ => ?_)
        refine same_course_bind (same_course_fetch tvb _ _) (fun _ _ _ => ?_)
        refine same_course_bind (same_course_fetch tvb _ _) (fun _ _ hd => ?_)
        exact same_course_pure ⟨hq, rfl, le_trans (guint_add_le _ _) hd.2⟩
  · rintro ⟨q, a, b, c, d, o⟩ ⟨q', a', b', c', d', o'⟩ ⟨hq, ho, hle⟩
    subst ho
    refine same_course_bind (same_course_emit_hdr _ _) (fun _ _ _ => ?_)
    refine same_course_ite (fun _ => ?_) (fun _ => same_course_pure ⟨rfl, fun _ => hle⟩)
    refine same_course_bind (same_course_subtree _) (fun _ _ _ => ?_)
    refine same_course_bind (Q := fun o1 o2 => o1 = o2) ?_ ?_
    · refine same_course_ite_iff hq (fun _ => ?_) (fun _ => same_course_pure rfl)
      refine same_course_bind (same_course_item _ _ _ _ _) (fun _ _ _ => ?_)
      exact same_course_pure rfl
    · rintro o1 o2 ho12
      subst ho12
      refine same_course_bind (same_course_item _ _ _ _ _) (fun _ _ _ => ?_)
      refine same_course_bind (same_course_item _ _ _ _ _) (fun _ _ _ => ?_)
      refine same_course_bind (same_course_item _ _ _ _ _) (fun _ _ _ => ?_)
      refine same_course_bind (same_course_item _ _ _ _ _) (fun _ _ hi => ?_)
      exact same_course_pure ⟨rfl, fun _ => le_trans (guint_add_le _ _) hi⟩

theorem rndvrestartnotify_course (tvb : tvbuff_t) (tree : Bool) (off : Nat) :
    same_course (fun a b => a = b ∧ (off ≤ tvb.data.length → a ≤ tvb.data.length))
      (dissect_mpi_rndvrestartnotify true tvb tree off)
      (dissect_mpi_rndvrestartnotify false tvb tree off) := by
  unfold dissect_mpi_rndvrestartnotify tvb_get_letoh64 tvb_get_ntoh64 tvb_get_letohl
    tvb_get_ntohl tvb_get_letoh48 tvb_get_ntoh48 tvb_get_guint8
  simp only [if_true, Bool.false_eq_true, if_false]
  refine same_course_ite (fun _ => same_course_pure ⟨rfl, id⟩) (fun _ => ?_)
  refine same_course_bind (match_course tvb tree off) ?_
  rintro p p' ⟨hpp, _⟩
  subst hpp
  refine same_course_bind (same_course_fetch_refl tvb _ _ _) ?_
  rintro r r' ⟨hr, _⟩
  subst hr
  refine same_course_bind
    (Q := fun x y => match x, y with
      | (q, _, _, _, _, _, o), (q', _, _, _, _, _, o') =>
        (0 = q ↔ 0 = q') ∧ o = o' ∧ o ≤ tvb.data.length) ?_ ?_
  · refine same_course_bind
      (Q := fun x y => match x, y with
        | (q, o), (q', o') => (0 = q ↔ 0 = q') ∧ o = o') ?_ ?_
    · refine same_course_ite (fun _ => ?_) (fun _ => same_course_pure ⟨Iff.rfl, rfl⟩)
      refine same_course_bind (same_course_fetch tvb _ _) (fun _ _ hq => ?_)
      exact same_course_ite_iff hq.1 (fun _ => same_course_pure ⟨hq.1, rfl⟩)
        (fun _ => same_course_pure ⟨hq.1, rfl⟩)
    · rintro ⟨q, o⟩ ⟨q', o'⟩ ⟨hq, ho⟩
      subst ho
      refine same_course_bind (same_course_fetch tvb _ _) (fun _ _ _ => ?_)
      refine same_course_bind (same_course_fetch tvb _ _) (fun _ _ _ => ?_)
      refine same_course_bind (same_course_fetch tvb _ _) (fun _ _ _ => ?_)
      refine same_course_bind (same_course_fetch tvb _ _) (fun _ _ _ => ?_)
      refine same_course_bind (same_course_fetch tvb _ _) (fun _ _ hd => ?_)
      exact same_course_pure ⟨hq, rfl, le_trans (guint_add_le _ _) hd.2⟩
  · rintro ⟨q, a, b, c, d, e, o⟩ ⟨q', a', b', c', d', e', o'⟩ ⟨hq, ho, hle⟩
    subst ho
    refine same_course_bind (same_course_emit_hdr _ _) (fun _ _ _ => ?_)
    refine same_course_ite (fun _ => ?_) (fun _ => same_course_pure ⟨rfl, fun _ => hle⟩)
    refine same_course_bind (same_course_subtree _) (fun _ _ _ => ?_)
    refine same_course_bind (Q := fun o1 o2 => o1 = o2) ?_ ?_
    · refine same_course_ite_iff hq (fun _ => ?_) (fun _ => same_course_pure rfl)
      refine same_course_bind (same_course_item _ _ _ _ _) (fun _ _ _ => ?_)
      exact same_course_pure rfl
    · rintro o1 o2 ho12
      subst ho12
      iterate 8 refine same_course_bind (same_course_item _ _ _ _ _) (fun _ _ _ => ?_)
      refine same_course_bind (same_course_item _ _ _ _ _) (fun _ _ hi => ?_)
      exact same_course_pure ⟨rfl, fun _ => le_trans (guint_add_le _ _) hi⟩

/-- A Sync call on existing Sync data when the lookup finds no transaction of
the packet's `jobid`. -/
theorem sync_not_found (tvb : tvbuff_t) (pinfo : packet_info) (tree : Bool)
    (the_offset : Nat) (I : mpi_info_t)
    (hlen : tvb_captured_length tvb = the_offset + 8)
    (hno : ∀ k tr, wmem_tree_lookup32_array_le I.pdus (tvb_value false tvb 0 4, pinfo.num)
      = some (k, tr) → tr.jobid ≠ tvb_value false tvb 0 4) :
    ∃ lg,
      dissect_mpi_sync tvb pinfo tree the_offset (some I) = (Res.ok (the_offset + 8) lg, some I)
      ∧ hdrs lg = [Hdr.sync pinfo.srcport pinfo.destport (tvb_value false tvb 0 4)
          (tvb_value false tvb 4 4) false] := by
  have hlt := tvb.reported_lt
  have hcap := tvb.captured_le
  unfold tvb_captured_length at hlen
  have g : guint_sub (the_offset + 8) the_offset = 8 := by
    rw [guint_sub_eq (by omega) (by omega)]; omega
  unfold tvb_value at hno ⊢
  simp only [Bool.false_eq_true, if_false] at hno
  unfold dissect_mpi_sync
  cases hL : wmem_tree_lookup32_array_le I.pdus
      (be_value (List.take 4 (List.drop 0 tvb.data)), pinfo.num) with
  | none =>
    cases tree <;> cases hvis : pinfo.visited <;>
    simp (disch := omega) only [tvb_captured_length, hlen, g, ne_eq, not_true_eq_false,
      if_false, tvb_get_ntohl, tvb_fetch_ok, Res.bind_eq, Res.bind_ok, Res.pure_eq,
      Res.prepend_ok, Res.prepend_prepend, Res.emit_eq, Res.prepend_nil, List.append_nil,
      List.nil_append, proto_tree_add_item, proto_tree_add_uint, proto_tree_add_time, hvis,
      Bool.false_eq_true, not_false_eq_true, if_true, ↓reduceIte, if_pos, if_neg, hL]
    all_goals exact ⟨_, rfl, by simp⟩
  | some e =>
    obtain ⟨k, tr⟩ := e
    have hne := hno k tr hL
    cases tree <;> cases hvis : pinfo.visited <;>
    simp (disch := omega) only [tvb_captured_length, hlen, g, ne_eq, not_true_eq_false,
      if_false, tvb_get_ntohl, tvb_fetch_ok, Res.bind_eq, Res.bind_ok, Res.pure_eq,
      Res.prepend_ok, Res.prepend_prepend, Res.emit_eq, Res.prepend_nil, List.append_nil,
      List.nil_append, proto_tree_add_item, proto_tree_add_uint, proto_tree_add_time, hvis,
      Bool.false_eq_true, not_false_eq_true, if_true, ↓reduceIte, if_pos, if_neg, hL, hne]
    all_goals exact ⟨_, rfl, by simp⟩

/-- A re-visit on a conversation without Sync data. -/
theorem sync_revisit_none (tvb : tvbuff_t) (pinfo : packet_info) (tree : Bool)
    (the_offset : Nat)
    (hlen : tvb_captured_length tvb = the_offset + 8)
    (hvis : pinfo.visited = true) :
    ∃ lg,
      dissect_mpi_sync tvb pinfo tree the_offset none
        = (Res.ok (the_offset + 8) lg, some { pdus := [] })
      ∧ hdrs lg = [Hdr.sync pinfo.srcport pinfo.destport (tvb_value false tvb 0 4)
          (tvb_value false tvb 4 4) true] := by
  have hlt := tvb.reported_lt
  have hcap := tvb.captured_le
  unfold tvb_captured_length at hlen
  have g : guint_sub (the_offset + 8) the_offset = 8 := by
    rw [guint_sub_eq (by omega) (by omega)]; omega
  have hL : ∀ key, wmem_tree_lookup32_array_le [] key = none := fun _ => rfl
  unfold tvb_value
  unfold dissect_mpi_sync
  cases tree <;>
  simp (disch := omega) only [tvb_captured_length, hlen, g, ne_eq, not_true_eq_false,
    if_false, tvb_get_ntohl, tvb_fetch_ok, Res.bind_eq, Res.bind_ok, Res.pure_eq,
    Res.prepend_ok, Res.prepend_prepend, Res.emit_eq, Res.prepend_nil, List.append_nil,
    List.nil_append, proto_tree_add_item, proto_tree_add_uint, proto_tree_add_time, hvis,
    Bool.false_eq_true, not_false_eq_true, if_true, ↓reduceIte, if_pos, if_neg, hL]
  all_goals exact ⟨_, rfl, by simp⟩

/-- A first-visit call on existing Sync data when the lookup finds a
transaction of the packet's `jobid`. -/
theorem sync_first_found (tvb : tvbuff_t) (pinfo : packet_info) (tree : Bool)
    (the_offset : Nat) (I : mpi_info_t) (k : Nat × Nat) (tr : mpi_sync_trans_t)
    (hlen : tvb_captured_length tvb = the_offset + 8)
    (hvis : pinfo.visited = false)
    (hL : wmem_tree_lookup32_array_le I.pdus (tvb_value false tvb 0 4, pinfo.num)
      = some (k, tr))
    (hj : tr.jobid = tvb_value false tvb 0 4) :
    ∃ lg,
      dissect_mpi_sync tvb pinfo tree the_offset (some I)
        = (Res.ok (the_offset + 8) lg,
            some { pdus := (wmem_tree_insert32_array I.pdus k
              { tr with rep_frame := pinfo.num }) })
      ∧ hdrs lg = [Hdr.sync pinfo.srcport pinfo.destport (tvb_value false tvb 0 4)
            (tvb_value false tvb 4 4) false]
          ++ (if tree = true ∧ tr.req_frame ≠ 0 then
                [Hdr.uint "hf_mpi_response_to" tr.req_frame,
                  Hdr.time "hf_mpi_time" (pinfo.abs_ts - tr.req_time)]
              else []) := by
  have hlt := tvb.reported_lt
  have hcap := tvb.captured_le
  unfold tvb_captured_length at hlen
  have g : guint_sub (the_offset + 8) the_offset = 8 := by
    rw [guint_sub_eq (by omega) (by omega)]; omega
  unfold tvb_value at hL hj ⊢
  simp only [Bool.false_eq_true, if_false] at hL hj
  have hj' : ¬ tr.jobid ≠ be_value (List.take 4 (List.drop 0 tvb.data)) := by
    rw [hj]; simp
  unfold dissect_mpi_sync
  by_cases hr : tr.req_frame = 0 <;> cases tree <;>
  simp (disch := omega) only [tvb_captured_length, hlen, g, ne_eq, not_true_eq_false,
    if_false, tvb_get_ntohl, tvb_fetch_ok, Res.bind_eq, Res.bind_ok, Res.pure_eq,
    Res.prepend_ok, Res.prepend_prepend, Res.emit_eq, Res.prepend_nil, List.append_nil,
    List.nil_append, proto_tree_add_item, proto_tree_add_uint, proto_tree_add_time, hvis,
    Bool.false_eq_true, not_false_eq_true, if_true, ↓reduceIte, if_pos, if_neg, hL, hj', hr,
    false_and, and_false, true_and, and_true]
  all_goals exact ⟨_, rfl, by simp⟩

/-- A re-visit when the lookup finds a transaction of the packet's `jobid`:
the role is derived from the `vpid`. -/
theorem sync_revisit_found (tvb : tvbuff_t) (pinfo : packet_info) (tree : Bool)
    (the_offset : Nat) (I : mpi_info_t) (k : Nat × Nat) (tr : mpi_sync_trans_t)
    (hlen : tvb_captured_length tvb = the_offset + 8)
    (hvis : pinfo.visited = true)
    (hL : wmem_tree_lookup32_array_le I.pdus (tvb_value false tvb 0 4, pinfo.num)
      = some (k, tr))
    (hj : tr.jobid = tvb_value false tvb 0 4) :
    ∃ lg,
      dissect_mpi_sync tvb pinfo tree the_offset (some I)
        = (Res.ok (the_offset + 8) lg, some I)
      ∧ hdrs lg = [Hdr.sync pinfo.srcport pinfo.destport (tvb_value false tvb 0 4)
            (tvb_value false tvb 4 4) (decide (tr.vpid = tvb_value false tvb 4 4))]
          ++ (if tr.vpid = tvb_value false tvb 4 4 then
                (if tree = true ∧ tr.rep_frame ≠ 0 then
                  [Hdr.uint "hf_mpi_response_in" tr.rep_frame] else [])
              else
                (if tree = true ∧ tr.req_frame ≠ 0 then
                  [Hdr.uint "hf_mpi_response_to" tr.req_frame,
                    Hdr.time "hf_mpi_time" (pinfo.abs_ts - tr.req_time)]
                else [])) := by
  have hlt := tvb.reported_lt
  have hcap := tvb.captured_le
  unfold tvb_captured_length at hlen
  have g : guint_sub (the_offset + 8) the_offset = 8 := by
    rw [guint_sub_eq (by omega) (by omega)]; omega
  unfold tvb_value at hL hj ⊢
  simp only [Bool.false_eq_true, if_false] at hL hj
  have hj' : ¬ tr.jobid ≠ be_value (List.take 4 (List.drop 0 tvb.data)) := by
    rw [hj]; simp
  unfold dissect_mpi_sync
  by_cases hv : tr.vpid = be_value (List.take 4 (List.drop 4 tvb.data)) <;>
  by_cases hr : tr.req_frame = 0 <;> by_cases hp : tr.rep_frame = 0 <;> cases tree <;>
  simp (disch := omega) only [tvb_captured_length, hlen, g, ne_eq, not_true_eq_false,
    if_false, tvb_get_ntohl, tvb_fetch_ok, Res.bind_eq, Res.bind_ok, Res.pure_eq,
    Res.prepend_ok, Res.prepend_prepend, Res.emit_eq, Res.prepend_nil, List.append_nil,
    List.nil_append, proto_tree_add_item, proto_tree_add_uint, proto_tree_add_time, hvis,
    Bool.false_eq_true, not_false_eq_true, if_true, ↓reduceIte, if_pos, if_neg, hL, hj', hr,
    hp, hv, false_and, and_false, true_and, and_true, decide_True, decide_False,
    not_true_eq_false, not_false_eq_true]
  all_goals exact ⟨_, rfl, by simp⟩

theorem sync_guard (tvb : tvbuff_t) (pinfo : packet_info) (tree : Bool)
    (the_offset : Nat) (conv_data : Option mpi_info_t)
    (h : 8 ≠ guint_sub (tvb_captured_length tvb) the_offset) :
    dissect_mpi_sync tvb pinfo tree the_offset conv_data = (Res.ok the_offset [], conv_data) := by
  unfold dissect_mpi_sync
  rw [if_pos h]
  rfl

theorem wmem_tree_lookup_find (pdus : List ((Nat × Nat) × mpi_sync_trans_t))
    (key k : Nat × Nat) (tr : mpi_sync_trans_t)
    (h : wmem_tree_lookup32_array_le pdus key = some (k, tr)) :
    pdus.find? (fun e => decide (e.1 = k)) = some (k, tr) := by
  unfold wmem_tree_lookup32_array_le at h
  split at h
  · exact absurd h (by simp)
  · split at h
    · exact absurd h (by simp)
    · rename_i j _ f _
      have hk := List.find?_some h
      simp only [decide_eq_true_eq] at hk
      subst hk
      exact h

theorem wmem_tree_insert_fixed (pdus : List ((Nat × Nat) × mpi_sync_trans_t))
    (k : Nat × Nat) (tr : mpi_sync_trans_t) (n : Nat)
    (h : pdus.find? (fun e => decide (e.1 = k)) = some (k, tr)) :
    (wmem_tree_insert32_array pdus k { tr with rep_frame := n }).map sync_fixed
      = pdus.map sync_fixed := by
  induction pdus with
  | nil => exact absurd h (by simp)
  | cons e es ih =>
    unfold wmem_tree_insert32_array
    by_cases he : e.1 = k
    · rw [if_pos he]
      rw [List.find?_cons_of_pos _ (by simpa using he)] at h
      injection h with h
      subst h
      rfl
    · rw [if_neg he]
      rw [List.find?_cons_of_neg _ (by simpa using he)] at h
      rw [List.map_cons, List.map_cons, ih h]

theorem wmem_tree_insert_mem (pdus : List ((Nat × Nat) × mpi_sync_trans_t))
    (k : Nat × Nat) (d : mpi_sync_trans_t) (e : (Nat × Nat) × mpi_sync_trans_t)
    (h : e ∈ wmem_tree_insert32_array pdus k d) : e ∈ pdus ∨ e = (k, d) := by
  induction pdus with
  | nil =>
    right
    simpa [wmem_tree_insert32_array] using h
  | cons x xs ih =>
    unfold wmem_tree_insert32_array at h
    by_cases hx : x.1 = k
    · rw [if_pos hx] at h
      rcases List.mem_cons.mp h with h | h
      · exact Or.inr h
      · exact Or.inl (List.mem_cons_of_mem _ h)
    · rw [if_neg hx] at h
      rcases List.mem_cons.mp h with h | h
      · exact Or.inl (h ▸ List.mem_cons_self _ _)
      · rcases ih h with h | h
        · exact Or.inl (List.mem_cons_of_mem _ h)
        · exact Or.inr h

theorem guint_sub_zero (tvb : tvbuff_t) :
    guint_sub (tvb_captured_length tvb) 0 = tvb_captured_length tvb := by
  have hlt := tvb.reported_lt
  have hcap := tvb.captured_le
  unfold tvb_captured_length
  rw [guint_sub_eq (by omega) (by omega)]; omega

/-- One Sync call on existing Sync data: the data stay, the parts of each
transaction written at its creation are unchanged, a re-visit changes nothing
and a first visit can only write its own frame number into `rep_frame`. -/
theorem sync_step (tvb : tvbuff_t) (pinfo : packet_info) (tree : Bool) (I : mpi_info_t) :
    ∃ J, (dissect_mpi_sync tvb pinfo tree 0 (some I)).2 = some J
      ∧ J.pdus.map sync_fixed = I.pdus.map sync_fixed
      ∧ (pinfo.visited = true → J = I)
      ∧ (∀ e ∈ J.pdus, e ∈ I.pdus ∨ e.2.rep_frame = pinfo.num) := by
  by_cases hg : 8 ≠ guint_sub (tvb_captured_length tvb) 0
  · rw [sync_guard _ _ _ _ _ hg]
    exact ⟨I, rfl, rfl, fun _ => rfl, fun e he => Or.inl he⟩
  · have hlen : tvb_captured_length tvb = 0 + 8 := by
      rw [guint_sub_zero] at hg
      omega
    by_cases hno : ∀ k tr,
        wmem_tree_lookup32_array_le I.pdus (tvb_value false tvb 0 4, pinfo.num)
          = some (k, tr) → tr.jobid ≠ tvb_value false tvb 0 4
    · obtain ⟨lg, h, _⟩ := sync_not_found tvb pinfo tree 0 I hlen hno
      rw [h]
      exact ⟨I, rfl, rfl, fun _ => rfl, fun e he => Or.inl he⟩
    · simp only [not_forall, ne_eq, not_not] at hno
      obtain ⟨k, tr, hL, hj⟩ := hno
      cases hvis : pinfo.visited with
      | true =>
        obtain ⟨lg, h, _⟩ := sync_revisit_found tvb pinfo tree 0 I k tr hlen hvis hL hj
        rw [h]
        exact ⟨I, rfl, rfl, fun _ => rfl, fun e he => Or.inl he⟩
      | false =>
        obtain ⟨lg, h, _⟩ := sync_first_found tvb pinfo tree 0 I k tr hlen hvis hL hj
        rw [h]
        refine ⟨_, rfl, wmem_tree_insert_fixed _ _ _ _ (wmem_tree_lookup_find _ _ _ _ hL),
          fun hc => absurd hc (by simp), fun e he => ?_⟩
        rcases wmem_tree_insert_mem _ _ _ _ he with h1 | h1
        · exact Or.inl h1
        · exact Or.inr (by rw [h1])

/-- One Sync call on a conversation without Sync data. -/
theorem sync_step_none (tvb : tvbuff_t) (pinfo : packet_info) (tree : Bool) :
    (dissect_mpi_sync tvb pinfo tree 0 none).2 = none
    ∨ (pinfo.visited = true ∧ (dissect_mpi_sync tvb pinfo tree 0 none).2 = some { pdus := [] })
    ∨ (pinfo.visited = false ∧ tvb_captured_length tvb = 8
        ∧ (dissect_mpi_sync tvb pinfo tree 0 none).2
          = some { pdus := [((tvb_value false tvb 0 4, pinfo.num),
              { jobid := tvb_value false tvb 0 4, vpid := tvb_value false tvb 4 4,
                req_frame := pinfo.num, rep_frame := 0, req_time := pinfo.abs_ts })] }) := by
  by_cases hg : 8 ≠ guint_sub (tvb_captured_length tvb) 0
  · rw [sync_guard _ _ _ _ _ hg]
    exact Or.inl rfl
  · have hlen : tvb_captured_length tvb = 0 + 8 := by
      rw [guint_sub_zero] at hg
      omega
    cases hvis : pinfo.visited with
    | true =>
      obtain ⟨lg, h, _⟩ := sync_revisit_none tvb pinfo tree 0 hlen hvis
      rw [h]
      exact Or.inr (Or.inl ⟨rfl, rfl⟩)
    | false =>
      obtain ⟨lg, h, _⟩ := sync_first_request tvb pinfo tree 0 hlen hvis
      rw [h]
      exact Or.inr (Or.inr ⟨rfl, by omega, rfl⟩)

theorem sync_pass_nil (tree : Bool) (c : Option mpi_info_t) :
    sync_pass tree [] c = ([], c) := rfl

theorem sync_pass_cons (tree : Bool) (p : tvbuff_t × packet_info)
    (ps : List (tvbuff_t × packet_info)) (c : Option mpi_info_t) :
    sync_pass tree (p :: ps) c
      = ((dissect_mpi_sync p.1 p.2 tree 0 c).1
            :: (sync_pass tree ps (dissect_mpi_sync p.1 p.2 tree 0 c).2).1,
          (sync_pass tree ps (dissect_mpi_sync p.1 p.2 tree 0 c).2).2) := rfl

/-- A sequence of Sync calls on existing Sync data. -/
theorem sync_pass_some (tree : Bool) (ps : List (tvbuff_t × packet_info)) (I : mpi_info_t) :
    ∃ J, (sync_pass tree ps (some I)).2 = some J
      ∧ J.pdus.map sync_fixed = I.pdus.map sync_fixed
      ∧ ((∀ p ∈ ps, p.2.visited = true) → J = I) := by
  induction ps generalizing I with
  | nil => exact ⟨I, rfl, rfl, fun _ => rfl⟩
  | cons p ps ih =>
    obtain ⟨K, hK, hfix, hvis, _⟩ := sync_step p.1 p.2 tree I
    obtain ⟨J, hJ, hfix2, hvis2⟩ := ih K
    rw [sync_pass_cons, hK]
    refine ⟨J, hJ, hfix2.trans hfix, fun h => ?_⟩
    rw [hvis2 (fun q hq => h q (List.mem_cons_of_mem _ hq)),
      hvis (h p (List.mem_cons_self _ _))]

/-- A sequence of Sync calls on a fresh conversation leaves at most one
transaction. -/
theorem sync_pass_none (tree : Bool) (ps : List (tvbuff_t × packet_info)) (I : mpi_info_t)
    (h : (sync_pass tree ps none).2 = some I) : I.pdus.length ≤ 1 := by
  induction ps with
  | nil => exact absurd h (by simp [sync_pass_nil])
  | cons p ps ih =>
    rw [sync_pass_cons] at h
    rcases sync_step_none p.1 p.2 tree with h0 | ⟨_, h0⟩ | ⟨_, _, h0⟩
    · rw [h0] at h
      exact ih h
    · rw [h0] at h
      obtain ⟨J, hJ, hfix, _⟩ := sync_pass_some tree ps { pdus := [] }
      rw [hJ] at h
      injection h with h
      subst h
      have := congrArg List.length hfix
      simp only [List.length_map, List.length_nil] at this
      omega
    · rw [h0] at h
      obtain ⟨J, hJ, hfix, _⟩ := sync_pass_some tree ps _
      rw [hJ] at h
      injection h with h
      subst h
      have := congrArg List.length hfix
      simp only [List.length_map, List.length_singleton] at this
      omega

theorem wmem_tree_lookup_one (j0 f0 j f : Nat) (tr : mpi_sync_trans_t) :
    wmem_tree_lookup32_array_le [((j0, f0), tr)] (j, f)
      = if j0 ≤ j ∧ f0 ≤ f then some ((j0, f0), tr) else none := by
  by_cases h1 : j0 ≤ j <;> by_cases h2 : f0 ≤ f <;>
  simp [wmem_tree_lookup32_array_le, wmem_tree_lookup32_le, h1, h2]

theorem sync_role_of (r : Res Nat) (a b c d : Nat) (e : Bool) (tl : List Hdr)
    (h : hdrs r.log = Hdr.sync a b c d e :: tl) : sync_role r = some e := by
  unfold sync_role
  rw [h]

/-- A first-visit Sync call on a table that holds one transaction created at
frame `f0`, for a packet of a later frame. -/
theorem sync_first_on_one (tvb : tvbuff_t) (pinfo : packet_info) (tree : Bool)
    (j0 v0 f0 r : Nat) (t0 : Int)
    (hlen : tvb_captured_length tvb = 8)
    (hvis : pinfo.visited = false)
    (hf : f0 ≤ pinfo.num) :
    sync_role (dissect_mpi_sync tvb pinfo tree 0
        (some { pdus := [((j0, f0),
          { jobid := j0, vpid := v0, req_frame := f0, rep_frame := r, req_time := t0 })] })).1
      = some false
    ∧ ∃ r', (dissect_mpi_sync tvb pinfo tree 0
        (some { pdus := [((j0, f0),
          { jobid := j0, vpid := v0, req_frame := f0, rep_frame := r, req_time := t0 })] })).2
      = some { pdus := [((j0, f0),
          { jobid := j0, vpid := v0, req_frame := f0, rep_frame := r', req_time := t0 })] } := by
  have hlen' : tvb_captured_length tvb = 0 + 8 := by omega
  by_cases hj : tvb_value false tvb 0 4 = j0
  · have hL : wmem_tree_lookup32_array_le
        (mpi_info_t.mk [((j0, f0),
          { jobid := j0, vpid := v0, req_frame := f0, rep_frame := r, req_time := t0 })]).pdus
        (tvb_value false tvb 0 4, pinfo.num) = some ((j0, f0),
          { jobid := j0, vpid := v0, req_frame := f0, rep_frame := r, req_time := t0 }) := by
      rw [wmem_tree_lookup_one, if_pos ⟨by omega, hf⟩]
    obtain ⟨lg, h, hh⟩ := sync_first_found tvb pinfo tree 0 _ _ _ hlen' hvis hL hj.symm
    rw [h]
    refine ⟨sync_role_of _ _ _ _ _ _ _ hh, pinfo.num, ?_⟩
    simp [wmem_tree_insert32_array]
  · have hno : ∀ k tr, wmem_tree_lookup32_array_le
        (mpi_info_t.mk [((j0, f0),
          { jobid := j0, vpid := v0, req_frame := f0, rep_frame := r, req_time := t0 })]).pdus
        (tvb_value false tvb 0 4, pinfo.num) = some (k, tr)
          → tr.jobid ≠ tvb_value false tvb 0 4 := by
      intro k tr hL
      rw [wmem_tree_lookup_one] at hL
      split at hL
      · injection hL with hL
        injection hL with _ e2
        subst e2
        exact fun hc => hj hc.symm
      · exact absurd hL (by simp)
    obtain ⟨lg, h, hh⟩ := sync_not_found tvb pinfo tree 0 _ hlen' hno
    rw [h]
    exact ⟨sync_role_of _ _ _ _ _ _ _ hh, r, rfl⟩

/-- A re-visit on a table that holds one transaction created at frame `f0`,
for a packet of that frame or a later one. -/
theorem sync_revisit_on_one (tvb : tvbuff_t) (pinfo : packet_info) (tree : Bool)
    (j0 v0 f0 r : Nat) (t0 : Int)
    (hlen : tvb_captured_length tvb = 8)
    (hvis : pinfo.visited = true)
    (hf : f0 ≤ pinfo.num) :
    sync_role (dissect_mpi_sync tvb pinfo tree 0
        (some { pdus := [((j0, f0),
          { jobid := j0, vpid := v0, req_frame := f0, rep_frame := r, req_time := t0 })] })).1
      = some (decide (tvb_value false tvb 0 4 = j0 ∧ tvb_value false tvb 4 4 = v0))
    ∧ (dissect_mpi_sync tvb pinfo tree 0
        (some { pdus := [((j0, f0),
          { jobid := j0, vpid := v0, req_frame := f0, rep_frame := r, req_time := t0 })] })).2
      = some { pdus := [((j0, f0),
          { jobid := j0, vpid := v0, req_frame := f0, rep_frame := r, req_time := t0 })] } := by
  have hlen' : tvb_captured_length tvb = 0 + 8 := by omega
  by_cases hj : tvb_value false tvb 0 4 = j0
  · have hL : wmem_tree_lookup32_array_le
        (mpi_info_t.mk [((j0, f0),
          { jobid := j0, vpid := v0, req_frame := f0, rep_frame := r, req_time := t0 })]).pdus
        (tvb_value false tvb 0 4, pinfo.num) = some ((j0, f0),
          { jobid := j0, vpid := v0, req_frame := f0, rep_frame := r, req_time := t0 }) := by
      rw [wmem_tree_lookup_one, if_pos ⟨by omega, hf⟩]
    obtain ⟨lg, h, hh⟩ := sync_revisit_found tvb pinfo tree 0 _ _ _ hlen' hvis hL hj.symm
    rw [h]
    refine ⟨?_, rfl⟩
    rw [sync_role_of (Res.ok (0 + 8) lg) _ _ _ _ _ _ hh]
    simp [hj, eq_comm]
  · have hno : ∀ k tr, wmem_tree_lookup32_array_le
        (mpi_info_t.mk [((j0, f0),
          { jobid := j0, vpid := v0, req_frame := f0, rep_frame := r, req_time := t0 })]).pdus
        (tvb_value false tvb 0 4, pinfo.num) = some (k, tr)
          → tr.jobid ≠ tvb_value false tvb 0 4 := by
      intro k tr hL
      rw [wmem_tree_lookup_one] at hL
      split at hL
      · injection hL with hL
        injection hL with _ e2
        subst e2
        exact fun hc => hj hc.symm
      · exact absurd hL (by simp)
    obtain ⟨lg, h, hh⟩ := sync_not_found tvb pinfo tree 0 _ hlen' hno
    rw [h]
    refine ⟨?_, rfl⟩
    rw [sync_role_of (Res.ok (0 + 8) lg) _ _ _ _ _ _ hh]
    simp [hj]

/-- First visits of later packets on a table with one transaction: each is
shown as a response, and the table keeps its one transaction. -/
theorem sync_pass_first_on_one (tree : Bool) (ps : List (tvbuff_t × packet_info))
    (j0 v0 f0 r : Nat) (t0 : Int)
    (h8 : ∀ p ∈ ps, tvb_captured_length p.1 = 8)
    (hvis : ∀ p ∈ ps, p.2.visited = false)
    (hord : ∀ p ∈ ps, f0 ≤ p.2.num) :
    (sync_pass tree ps (some { pdus := [((j0, f0),
        { jobid := j0, vpid := v0, req_frame := f0, rep_frame := r, req_time := t0 })] })).1.map
      sync_role = ps.map (fun _ => some false)
    ∧ ∃ r', (sync_pass tree ps (some { pdus := [((j0, f0),
        { jobid := j0, vpid := v0, req_frame := f0, rep_frame := r, req_time := t0 })] })).2
      = some { pdus := [((j0, f0),
          { jobid := j0, vpid := v0, req_frame := f0, rep_frame := r', req_time := t0 })] } := by
  induction ps generalizing r with
  | nil => exact ⟨rfl, r, rfl⟩
  | cons p ps ih =>
    obtain ⟨hrole, r1, hst⟩ := sync_first_on_one p.1 p.2 tree j0 v0 f0 r t0
      (h8 p (List.mem_cons_self _ _)) (hvis p (List.mem_cons_self _ _))
      (hord p (List.mem_cons_self _ _))
    obtain ⟨hroles, r2, hst2⟩ := ih r1 (fun q hq => h8 q (List.mem_cons_of_mem _ hq))
      (fun q hq => hvis q (List.mem_cons_of_mem _ hq))
      (fun q hq => hord q (List.mem_cons_of_mem _ hq))
    rw [sync_pass_cons, hst]
    refine ⟨?_, r2, hst2⟩
    rw [List.map_cons, List.map_cons, hrole, hroles]

/-- Re-visits on a table with one transaction: the role of each packet is
decided by its `jobid` and `vpid`, and the table is unchanged. -/
theorem sync_pass_revisit_on_one (tree : Bool) (ps : List (tvbuff_t × packet_info))
    (j0 v0 f0 r : Nat) (t0 : Int)
    (h8 : ∀ p ∈ ps, tvb_captured_length p.1 = 8)
    (hvis : ∀ p ∈ ps, p.2.visited = true)
    (hord : ∀ p ∈ ps, f0 ≤ p.2.num) :
    (sync_pass tree ps (some { pdus := [((j0, f0),
        { jobid := j0, vpid := v0, req_frame := f0, rep_frame := r, req_time := t0 })] })).1.map
      sync_role = ps.map (fun p => some (decide (tvb_value false p.1 0 4 = j0
        ∧ tvb_value false p.1 4 4 = v0))) := by
  induction ps with
  | nil => rfl
  | cons p ps ih =>
    obtain ⟨hrole, hst⟩ := sync_revisit_on_one p.1 p.2 tree j0 v0 f0 r t0
      (h8 p (List.mem_cons_self _ _)) (hvis p (List.mem_cons_self _ _))
      (hord p (List.mem_cons_self _ _))
    have hroles := ih (fun q hq => h8 q (List.mem_cons_of_mem _ hq))
      (fun q hq => hvis q (List.mem_cons_of_mem _ hq))
      (fun q hq => hord q (List.mem_cons_of_mem _ hq))
    rw [sync_pass_cons, hst, List.map_cons, List.map_cons, hrole, hroles]

theorem course_bound {r s : Res Nat} {off n : Nat}
    (h : same_course (fun a b => a = b ∧ (off ≤ n → a ≤ n)) r s) (hoff : off ≤ n) :
    (∀ a l, r = Res.ok a l → a ≤ n) ∧ (∀ b m, s = Res.ok b m → b ≤ n) := by
  cases r <;> cases s
  · obtain ⟨⟨e, hb⟩, _⟩ := h
    refine ⟨fun a l ha => ?_, fun b m hb' => ?_⟩
    · injection ha with e1 _
      rw [← e1]
      exact hb hoff
    · injection hb' with e1 _
      rw [← e1, ← e]
      exact hb hoff
  · exact absurd h (by simp [same_course])
  · exact absurd h (by simp [same_course])
  · exact ⟨fun a l ha => (by cases ha), fun b m hb => (by cases hb)⟩

theorem course_value {r s : Res Nat} {Q : Nat → Nat → Prop}
    (h : same_course (fun a b => a = b ∧ Q a b) r s) :
    r.value = s.value ∧ shape r.log = shape s.log := by
  cases r <;> cases s
  · obtain ⟨⟨e, _⟩, hs⟩ := h
    exact ⟨by rw [e]; rfl, hs⟩
  · exact absurd h (by simp [same_course])
  · exact absurd h (by simp [same_course])
  · exact ⟨rfl, h⟩

theorem reads_shape (l : List Ev) : reads (shape l) = reads l := by
  induction l with
  | nil => rfl
  | cons e es ih =>
    cases e <;> simp [shape, reads, ih]

/-- The offset returned by the `switch` entered inside the captured octets
stays inside them. -/
theorem switch_bound (le : Bool) (tvb : tvbuff_t) (tree : Bool) (v off o : Nat)
    (lg : List Ev) (hacc : 65 ≤ v ∧ v ≤ 77) (hoff : off ≤ tvb.data.length)
    (h : dissect_mpi_switch le tvb tree v off = Res.ok o lg) : o ≤ tvb.data.length := by
  rw [switch_eq le tvb tree v off hacc] at h
  have hm := course_bound (match_course tvb tree off) hoff
  have hr := course_bound (rndv_course tvb tree off) hoff
  have hg := course_bound (rget_course tvb tree off) hoff
  have ha := course_bound (ack_course tvb tree off) hoff
  have hf := course_bound (frag_course tvb tree off) hoff
  have hd := course_bound (rdma_course tvb tree off) hoff
  have hn := course_bound (fin_course tvb tree off) hoff
  have hs := course_bound (rndvrestartnotify_course tvb tree off) hoff
  by_cases h1 : v = 65
  · rw [if_pos h1] at h
    cases le
    · exact hm.2 _ _ h
    · exact hm.1 _ _ h
  rw [if_neg h1] at h
  by_cases h2 : v = 66
  · rw [if_pos h2] at h
    cases le
    · exact hr.2 _ _ h
    · exact hr.1 _ _ h
  rw [if_neg h2] at h
  by_cases h3 : v = 67
  · rw [if_pos h3] at h
    cases le
    · exact hg.2 _ _ h
    · exact hg.1 _ _ h
  rw [if_neg h3] at h
  by_cases h4 : v = 68
  · rw [if_pos h4] at h
    cases le
    · exact ha.2 _ _ h
    · exact ha.1 _ _ h
  rw [if_neg h4] at h
  by_cases h5 : v = 70
  · rw [if_pos h5] at h
    cases le
    · exact hf.2 _ _ h
    · exact hf.1 _ _ h
  rw [if_neg h5] at h
  by_cases h6 : v = 72
  · rw [if_pos h6] at h
    cases le
    · exact hd.2 _ _ h
    · exact hd.1 _ _ h
  rw [if_neg h6] at h
  by_cases h7 : v = 73
  · rw [if_pos h7] at h
    cases le
    · exact hn.2 _ _ h
    · exact hn.1 _ _ h
  rw [if_neg h7] at h
  by_cases h8 : v = 74
  · rw [if_pos h8] at h
    cases le
    · exact hs.2 _ _ h
    · exact hs.1 _ _ h
  rw [if_neg h8] at h
  injection h with e _
  rw [← e]
  exact hoff

/-- On a buffer accepted on the BTL path, `dissect_mpi` is the 10-octet prefix,
then the `switch` entered at offset 10, then the trailing data item. -/
theorem btl_form (le : Bool) (tvb : tvbuff_t) (pinfo : packet_info) (tree : Bool)
    (b : Byte) (hb : tvb.data.head? = some b) (hcap : 10 ≤ tvb_captured_length tvb)
    (hacc : 65 ≤ b.val ∧ b.val ≤ 77) :
    dissect_mpi_btl le tvb pinfo tree
      = Res.prepend
          (if tree = true then
            [Ev.read 0 1, Ev.summary pinfo.srcport pinfo.destport b.val,
              Ev.item "proto_mpi" 0 (tvb_captured_length tvb),
              Ev.read 1 1, Ev.read 8 1, Ev.read 9 1, Ev.read 2 2, Ev.read 4 4,
              Ev.subtree "ett_mpi_base",
              Ev.item "hf_mpi_base_hdr_base" 0 1, Ev.item "hf_mpi_base_hdr_type" 1 1,
              Ev.item "hf_mpi_base_hdr_count" 2 2, Ev.item "hf_mpi_base_hdr_size" 4 4,
              Ev.hdr (Hdr.base b.val (tvb_value true tvb 1 1) (tvb_value le tvb 2 2)
                (tvb_value le tvb 4 4)),
              Ev.subtree "ett_mpi_common",
              Ev.item "hf_mpi_common_hdr_type" 8 1, Ev.item "hf_mpi_common_hdr_flags" 9 1,
              Ev.hdr (Hdr.common (tvb_value true tvb 8 1) (tvb_value true tvb 9 1))]
          else [Ev.read 0 1, Ev.summary pinfo.srcport pinfo.destport b.val])
          ((dissect_mpi_switch le tvb tree b.val 10).bind (fun offset =>
            if tvb_captured_length tvb > offset then
              (proto_tree_add_item tree "hf_mpi_oob_data" tvb offset
                (guint_sub (tvb_captured_length tvb) offset)).bind
                  (fun _ => Res.ok (tvb_captured_length tvb) [])
            else Res.ok offset [])) := by
  unfold tvb_captured_length at hcap
  have hrep := tvb.captured_le
  have hv := le_value_head tvb b hb
  unfold dissect_mpi_btl tvb_value
  have hg : ¬ (10 > tvb.reported_length ∨ 65 > b.val ∨ 77 < b.val) := by omega
  cases tree <;> cases le <;>
  simp (disch := omega) only [tvb_get_guint8, tvb_get_letohs, tvb_get_letohl, tvb_get_ntohs,
    tvb_get_ntohl, tvb_fetch_ok, Res.bind_eq, Res.bind_ok, Res.pure_eq, Res.prepend_ok,
    Res.prepend_prepend, Res.emit_eq, hv, tvb_reported_length, if_neg hg, Bool.false_eq_true,
    if_false, if_true, proto_tree_add_item, proto_tree_add_subtree, tvb_captured_length,
    guint_add_eq, Nat.zero_add, if_pos, List.append_nil, List.nil_append, Nat.reduceAdd,
    Nat.reduceLeDiff, ↓reduceIte, List.cons_append, List.singleton_append]

theorem guint_sub_rep (tvb : tvbuff_t) (off : Nat) (hoff : off ≤ tvb_reported_length tvb) :
    guint_sub (tvb_reported_length tvb) off = tvb_reported_length tvb - off := by
  have hlt := tvb.reported_lt
  unfold tvb_reported_length at hoff ⊢
  exact guint_sub_eq hoff (by omega)

/-- The offsets the Match decoder returns with and without a tree. -/
theorem match_values (le : Bool) (tvb : tvbuff_t) (off : Nat)
    (hfull : tvb_captured_length tvb = tvb_reported_length tvb)
    (hoff : off ≤ tvb_reported_length tvb) :
    ∃ lt ln,
      dissect_mpi_match le tvb true off
        = Res.ok (if off + 12 ≤ tvb_reported_length tvb then
            (if match_reads_padding tvb off ∧ tvb_value le tvb (off + 12) 2 = 0
              then off + 14 else off + 12) else off) lt
      ∧ dissect_mpi_match le tvb false off
        = Res.ok (if off + 12 ≤ tvb_reported_length tvb then
            (if match_reads_padding tvb off then off + 14 else off + 12) else off) ln := by
  by_cases h12 : off + 12 ≤ tvb_reported_length tvb
  · obtain ⟨lt, ht, _⟩ := match_run le tvb true off hfull h12
    obtain ⟨ln, hn, _⟩ := match_run le tvb false off hfull h12
    refine ⟨lt, ln, ?_, ?_⟩
    · rw [ht, if_pos h12]
      simp only [forall_const]
    · rw [hn, if_pos h12]
      simp only [Bool.false_eq_true, false_implies, and_true]
  · have hg : 12 > guint_sub (tvb_reported_length tvb) off := by
      rw [guint_sub_rep tvb off hoff]; omega
    refine ⟨[], [], ?_, ?_⟩
    · rw [match_guard le tvb true off hg, if_neg h12]
    · rw [match_guard le tvb false off hg, if_neg h12]

/-- The Match decoder returns the same offset with and without a tree exactly
when it fetches no non-zero padding. -/
theorem match_tree_iff (le : Bool) (tvb : tvbuff_t) (off : Nat)
    (hfull : tvb_captured_length tvb = tvb_reported_length tvb)
    (hoff : off ≤ tvb_reported_length tvb) :
    (dissect_mpi_match le tvb true off).value = (dissect_mpi_match le tvb false off).value
      ↔ ¬ (match_reads_padding tvb off ∧ tvb_value le tvb (off + 12) 2 ≠ 0) := by
  obtain ⟨lt, ln, ht, hn⟩ := match_values le tvb off hfull hoff
  rw [ht, hn, Res.value_ok, Res.value_ok]
  by_cases h12 : off + 12 ≤ tvb_reported_length tvb
  · by_cases hp : match_reads_padding tvb off <;>
    by_cases hz : tvb_value le tvb (off + 12) 2 = 0 <;>
    simp [h12, hp, hz]
  · have hp : ¬ match_reads_padding tvb off := by
      unfold match_reads_padding
      intro h
      omega
    simp [h12, hp]

/-- The Rendezvous decoder after its Match part. -/
theorem rndv_value (le : Bool) (tvb : tvbuff_t) (tree : Bool) (off p : Nat) (lg : List Ev)
    (hfull : tvb_captured_length tvb = tvb_reported_length tvb)
    (hm : dissect_mpi_match le tvb tree off = Res.ok p lg)
    (hp : p ≤ tvb_reported_length tvb) :
    ∃ lg', dissect_mpi_rndv le tvb tree off
      = Res.ok (if tvb_reported_length tvb - p < 16 then p
          else if 25 ≤ tvb_reported_length tvb - p then p + 25 else p + 16) lg' := by
  by_cases hE : tvb_reported_length tvb - p < 16
  · exact ⟨lg, by rw [rndv_of_match_short le tvb tree off p lg hm hp hE, if_pos hE]⟩
  · obtain ⟨lg', h, _⟩ := rndv_run le tvb tree off p lg hfull hm (by omega)
    exact ⟨lg ++ lg', by rw [h, if_neg hE]⟩

/-- The Rendezvous decoder returns the same offset with and without a tree
exactly when its Match part fetches no non-zero padding. -/
theorem rndv_tree_iff (le : Bool) (tvb : tvbuff_t) (off : Nat)
    (hfull : tvb_captured_length tvb = tvb_reported_length tvb)
    (hoff : off ≤ tvb_reported_length tvb) :
    (dissect_mpi_rndv le tvb true off).value = (dissect_mpi_rndv le tvb false off).value
      ↔ ¬ (match_reads_padding tvb off ∧ tvb_value le tvb (off + 12) 2 ≠ 0) := by
  obtain ⟨lt, ln, ht, hn⟩ := match_values le tvb off hfull hoff
  by_cases h12 : off + 12 ≤ tvb_reported_length tvb
  · have hmp : match_reads_padding tvb off → off + 14 ≤ tvb_reported_length tvb :=
      fun h => h.1
    rw [if_pos h12] at ht hn
    by_cases hp : match_reads_padding tvb off
    · have h14 := hmp hp
      by_cases hz : tvb_value le tvb (off + 12) 2 = 0
      · rw [if_pos ⟨hp, hz⟩] at ht
        rw [if_pos hp] at hn
        obtain ⟨l1, h1⟩ := rndv_value le tvb true off _ lt hfull ht h14
        obtain ⟨l2, h2⟩ := rndv_value le tvb false off _ ln hfull hn h14
        rw [h1, h2]
        simp [hz]
      · rw [if_neg (fun h => hz h.2)] at ht
        rw [if_pos hp] at hn
        obtain ⟨l1, h1⟩ := rndv_value le tvb true off _ lt hfull ht h12
        obtain ⟨l2, h2⟩ := rndv_value le tvb false off _ ln hfull hn h14
        rw [h1, h2, Res.value_ok, Res.value_ok]
        simp only [hp, hz, ne_eq, not_false_eq_true, and_self, not_true_eq_false, iff_false,
          Option.some.injEq]
        split_ifs <;> omega
    · rw [if_neg (fun h => hp h.1)] at ht
      rw [if_neg hp] at hn
      obtain ⟨l1, h1⟩ := rndv_value le tvb true off _ lt hfull ht h12
      obtain ⟨l2, h2⟩ := rndv_value le tvb false off _ ln hfull hn h12
      rw [h1, h2]
      simp [hp]
  · have hg : 12 > guint_sub (tvb_reported_length tvb) off := by
      rw [guint_sub_rep tvb off hoff]; omega
    have hp : ¬ match_reads_padding tvb off := by
      unfold match_reads_padding
      intro h
      omega
    rw [rndv_guard le tvb true off hg, rndv_guard le tvb false off hg]
    simp [hp]

/-- The RendezvousGet decoder after its Rendezvous part. -/
theorem rget_value (le : Bool) (tvb : tvbuff_t) (tree : Bool) (off q : Nat) (lg : List Ev)
    (hfull : tvb_captured_length tvb = tvb_reported_length tvb)
    (hoff : off ≤ tvb_reported_length tvb)
    (hm : dissect_mpi_rndv le tvb tree off = Res.ok q lg)
    (hq : q ≤ tvb_reported_length tvb) :
    ∃ lg', dissect_mpi_rget le tvb tree off
      = Res.ok (if tvb_reported_length tvb - off < 28 then off
          else if tvb_reported_length tvb - q < 12 then q
          else if 16 ≤ tvb_reported_length tvb - q ∧
            (tree = true → tvb_value le tvb (q + 4) 4 = 0) then q + 16 else q + 12) lg' := by
  by_cases h28 : tvb_reported_length tvb - off < 28
  · have hg : 28 > guint_sub (tvb_reported_length tvb) off := by
      rw [guint_sub_rep tvb off hoff]; omega
    exact ⟨[], by rw [rget_guard le tvb tree off hg, if_pos h28]⟩
  · have hg : ¬ 28 > guint_sub (tvb_reported_length tvb) off := by
      rw [guint_sub_rep tvb off hoff]; omega
    by_cases hE : tvb_reported_length tvb - q < 12
    · exact ⟨lg, by rw [rget_of_rndv_short le tvb tree off q lg hm hg hq hE, if_neg h28,
        if_pos hE]⟩
    · obtain ⟨lg', h, _⟩ := rget_run le tvb tree off q lg hfull hg hm (by omega)
      exact ⟨lg ++ lg', by rw [h, if_neg h28, if_neg hE]⟩

/-- When the Match part fetches no non-zero padding, the RendezvousGet decoder
returns the same offset with and without a tree exactly when it fetches no
non-zero padding of its own; `q` is the offset after the Rendezvous part. -/
theorem rget_tree_iff (le : Bool) (tvb : tvbuff_t) (off q : Nat) (lg : List Ev)
    (hfull : tvb_captured_length tvb = tvb_reported_length tvb)
    (hoff : off ≤ tvb_reported_length tvb)
    (hpad : ¬ (match_reads_padding tvb off ∧ tvb_value le tvb (off + 12) 2 ≠ 0))
    (hq : dissect_mpi_rndv le tvb false off = Res.ok q lg) :
    (dissect_mpi_rget le tvb true off).value = (dissect_mpi_rget le tvb false off).value
      ↔ ¬ (28 ≤ tvb_reported_length tvb - off ∧ 16 ≤ tvb_reported_length tvb - q
          ∧ tvb_value le tvb (q + 4) 4 ≠ 0) := by
  have hv := (rndv_tree_iff le tvb off hfull hoff).mpr hpad
  obtain ⟨q', lg', hq', _, hle⟩ := rndv_safe le tvb true off hfull hoff
  obtain ⟨q2, lg2, hq2, _, hle2⟩ := rndv_safe le tvb false off hfull hoff
  rw [hq', hq, Res.value_ok, Res.value_ok] at hv
  injection hv with hv
  subst hv
  rw [hq] at hq2
  injection hq2 with e _
  subst e
  obtain ⟨l1, h1⟩ := rget_value le tvb true off q' lg' hfull hoff hq' hle
  obtain ⟨l2, h2⟩ := rget_value le tvb false off q' lg hfull hoff hq hle
  rw [h1, h2, Res.value_ok, Res.value_ok]
  by_cases h28 : tvb_reported_length tvb - off < 28
  · simp only [h28, if_true, true_iff]
    omega
  · by_cases hE : tvb_reported_length tvb - q' < 12
    · simp only [h28, hE, if_true, if_false, true_iff]
      omega
    · by_cases h16 : 16 ≤ tvb_reported_length tvb - q' <;>
      by_cases hz : tvb_value le tvb (q' + 4) 4 = 0 <;>
      simp [h28, hE, h16, hz]

/-- The Fragment decoder returns the same offset with and without a tree
exactly when it fetches no non-zero padding. -/
theorem frag_tree_iff (le : Bool) (tvb : tvbuff_t) (off : Nat)
    (hfull : tvb_captured_length tvb = tvb_reported_length tvb)
    (hoff : off ≤ tvb_reported_length tvb) :
    (dissect_mpi_frag le tvb true off).value = (dissect_mpi_frag le tvb false off).value
      ↔ ¬ (30 ≤ tvb_reported_length tvb - off ∧ tvb_value le tvb off 6 ≠ 0) := by
  by_cases hR : 24 ≤ tvb_reported_length tvb - off
  · obtain ⟨lt, ht, _⟩ := frag_run le tvb true off hfull hoff hR
    obtain ⟨ln, hn, _⟩ := frag_run le tvb false off hfull hoff hR
    rw [ht, hn, Res.value_ok, Res.value_ok]
    by_cases h30 : 30 ≤ tvb_reported_length tvb - off <;>
    by_cases hz : tvb_value le tvb off 6 = 0 <;>
    simp [h30, hz]
  · have hg : 24 > guint_sub (tvb_reported_length tvb) off := by
      rw [guint_sub_rep tvb off hoff]; omega
    rw [frag_guard le tvb true off hg, frag_guard le tvb false off hg]
    simp only [true_iff, not_and]
    intro h
    omega

/-- The Ack decoder returns the same offset with and without a tree exactly
when it fetches no non-zero padding. -/
theorem ack_tree_iff (le : Bool) (tvb : tvbuff_t) (off : Nat)
    (hfull : tvb_captured_length tvb = tvb_reported_length tvb)
    (hoff : off ≤ tvb_reported_length tvb) :
    (dissect_mpi_ack le tvb true off).value = (dissect_mpi_ack le tvb false off).value
      ↔ ¬ (30 ≤ tvb_reported_length tvb - off ∧ tvb_value le tvb off 6 ≠ 0) := by
  by_cases hR : 24 ≤ tvb_reported_length tvb - off
  · obtain ⟨lt, ht, _⟩ := ack_run le tvb true off hfull hoff hR
    obtain ⟨ln, hn, _⟩ := ack_run le tvb false off hfull hoff hR
    rw [ht, hn, Res.value_ok, Res.value_ok]
    by_cases h30 : 30 ≤ tvb_reported_length tvb - off <;>
    by_cases hz : tvb_value le tvb off 6 = 0 <;>
    simp [h30, hz]
  · have hg : 24 > guint_sub (tvb_reported_length tvb) off := by
      rw [guint_sub_rep tvb off hoff]; omega
    rw [ack_guard le tvb true off hg, ack_guard le tvb false off hg]
    simp only [true_iff, not_and]
    intro h
    omega

theorem fin_guard (le : Bool) (tvb : tvbuff_t) (tree : Bool) (off : Nat)
    (hg : 12 > guint_sub (tvb_reported_length tvb) off) :
    dissect_mpi_fin le tvb tree off = Res.ok off [] := by
  unfold dissect_mpi_fin
  rw [if_pos hg]
  rfl

/-- Outside the lengths with an embedded Match header, the Fin decoder returns
the same offset with and without a tree exactly when it fetches no non-zero
padding. -/
theorem fin_tree_iff (le : Bool) (tvb : tvbuff_t) (off : Nat)
    (hfull : tvb_captured_length tvb = tvb_reported_length tvb)
    (hoff : off ≤ tvb_reported_length tvb)
    (h24 : tvb_reported_length tvb - off ≠ 24) (h26 : tvb_reported_length tvb - off ≠ 26)
    (h28 : tvb_reported_length tvb - off ≠ 28) :
    (dissect_mpi_fin le tvb true off).value = (dissect_mpi_fin le tvb false off).value
      ↔ ¬ (tvb_reported_length tvb - off = 14 ∧ tvb_value le tvb off 2 ≠ 0) := by
  by_cases hR : 12 ≤ tvb_reported_length tvb - off
  · obtain ⟨ht1, ht2, _⟩ := fin_run le tvb true off hfull hoff hR
    obtain ⟨hn1, hn2, _⟩ := fin_run le tvb false off hfull hoff hR
    by_cases h14 : tvb_reported_length tvb - off = 14
    · obtain ⟨lt, ht, _⟩ := ht2 h14
      obtain ⟨ln, hn, _⟩ := hn2 h14
      rw [ht, hn, Res.value_ok, Res.value_ok]
      by_cases hz : tvb_value le tvb off 2 = 0 <;> simp [h14, hz]
    · obtain ⟨lt, ht, _⟩ := ht1 h14 h24 h26 h28
      obtain ⟨ln, hn, _⟩ := hn1 h14 h24 h26 h28
      rw [ht, hn]
      simp [h14]
  · have hg : 12 > guint_sub (tvb_reported_length tvb) off := by
      rw [guint_sub_rep tvb off hoff]; omega
    rw [fin_guard le tvb true off hg, fin_guard le tvb false off hg]
    simp only [true_iff, not_and]
    intro h
    omega

/-! ## The Sync matcher on sequences, the BTL prefix and the tree mode -/

/-- C31: a Sync packet without a matching transaction. Let the buffer hold 8
octets from `the_offset` on, on a first visit or a re-visit, with or without a
tree, whatever the `vpid` of the packet.
* On a conversation with Sync data `I`, when the lookup with the key
  (`jobid`, frame number) finds nothing or finds a transaction whose `jobid`
  differs from the packet's: the call returns the captured length, the only
  header it reports is the Sync summary with `is_request` false (no
  `hf_mpi_response_in`, no `hf_mpi_response_to`, no `hf_mpi_time`), and the
  Sync data are `I` as before, so every stored `rep_frame` is unchanged.
* On a re-visit of a conversation without Sync data (the lookup runs on an
  empty tree): the only header is the Sync summary and the Sync data become
  the empty tree. -/
theorem C31_sync_no_transaction (tvb : tvbuff_t) (pinfo : packet_info) (tree : Bool)
    (the_offset : Nat)
    (hlen : tvb_captured_length tvb = the_offset + 8) :
    (∀ I : mpi_info_t,
      (∀ k tr, wmem_tree_lookup32_array_le I.pdus (tvb_value false tvb 0 4, pinfo.num)
        = some (k, tr) → tr.jobid ≠ tvb_value false tvb 0 4) →
      ∃ lg,
        dissect_mpi_sync tvb pinfo tree the_offset (some I)
          = (Res.ok (the_offset + 8) lg, some I)
        ∧ hdrs lg = [Hdr.sync pinfo.srcport pinfo.destport (tvb_value false tvb 0 4)
            (tvb_value false tvb 4 4) false])
    ∧ (pinfo.visited = true →
      ∃ lg,
        dissect_mpi_sync tvb pinfo tree the_offset none
          = (Res.ok (the_offset + 8) lg, some { pdus := [] })
        ∧ hdrs lg = [Hdr.sync pinfo.srcport pinfo.destport (tvb_value false tvb 0 4)
            (tvb_value false tvb 4 4) true]) :=
  ⟨fun I hno => sync_not_found tvb pinfo tree the_offset I hlen hno,
    fun hvis => sync_revisit_none tvb pinfo tree the_offset hlen hvis⟩

/-- Worked instance of C31: the packet `{jobid = 8, vpid = 3}` at frame 14, with
a tree, after the transaction of job 7 (request at frame 10, response at frame
12) was stored. -/
theorem C31_sync_no_transaction_witness :
    ∃ lg,
      dissect_mpi_sync (tvb_of [0, 0, 0, 8, 0, 0, 0, 3] (by decide))
          { srcport := 40000, destport := 1024, num := 14, visited := false, abs_ts := 1500 }
          true 0
          (some { pdus := [((7, 10),
            { jobid := 7, vpid := 3, req_frame := 10, rep_frame := 12, req_time := 1000 })] })
        = (Res.ok 8 lg,
            some { pdus := [((7, 10),
              { jobid := 7, vpid := 3, req_frame := 10, rep_frame := 12,
                req_time := 1000 })] })
      ∧ hdrs lg = [Hdr.sync 40000 1024 8 3 false] := by
  have e0 : tvb_value false (tvb_of [0, 0, 0, 8, 0, 0, 0, 3] (by decide)) 0 4 = 8 := by
    decide
  have e4 : tvb_value false (tvb_of [0, 0, 0, 8, 0, 0, 0, 3] (by decide)) 4 4 = 3 := by
    decide
  obtain ⟨lg, h, hh⟩ := (C31_sync_no_transaction (tvb_of [0, 0, 0, 8, 0, 0, 0, 3] (by decide))
    { srcport := 40000, destport := 1024, num := 14, visited := false, abs_ts := 1500 }
    true 0 (by decide)).1
    { pdus := [((7, 10),
      { jobid := 7, vpid := 3, req_frame := 10, rep_frame := 12, req_time := 1000 })] }
    (by
      intro k tr hL
      rw [e0] at hL ⊢
      rw [wmem_tree_lookup_one] at hL
      split at hL
      · injection hL with hL
        injection hL with _ e2
        subst e2
        decide
      · exact absurd hL (by simp))
  rw [e0, e4] at hh
  exact ⟨lg, h, hh⟩

/-- Counterexample to C32: three first visits with `jobid` 7 at the frames 10,
12 and 14. After the second packet the transaction has `rep_frame` 12; the
third packet changes it to 14. -/
theorem C32_sync_rep_frame_overwritten :
    (sync_pass true
        [(tvb_of [0, 0, 0, 7, 0, 0, 0, 3] (by decide),
            { srcport := 40000, destport := 1024, num := 10, visited := false,
              abs_ts := 1000 }),
          (tvb_of [0, 0, 0, 7, 0, 0, 0, 9] (by decide),
            { srcport := 1024, destport := 40000, num := 12, visited := false,
              abs_ts := 1250 })] none).2
      = some { pdus := [((7, 10),
          { jobid := 7, vpid := 3, req_frame := 10, rep_frame := 12, req_time := 1000 })] }
    ∧ (sync_pass true
        [(tvb_of [0, 0, 0, 7, 0, 0, 0, 3] (by decide),
            { srcport := 40000, destport := 1024, num := 10, visited := false,
              abs_ts := 1000 }),
          (tvb_of [0, 0, 0, 7, 0, 0, 0, 9] (by decide),
            { srcport := 1024, destport := 40000, num := 12, visited := false,
              abs_ts := 1250 }),
          (tvb_of [0, 0, 0, 7, 0, 0, 0, 5] (by decide),
            { srcport := 1024, destport := 40000, num := 14, visited := false,
              abs_ts := 1500 })] none).2
      = some { pdus := [((7, 10),
          { jobid := 7, vpid := 3, req_frame := 10, rep_frame := 14, req_time := 1000 })] } := by
  decide

/-- C32 (amended): for every sequence `ps` of Sync calls on a conversation with
Sync data `I`, with or without a tree,
* the Sync data stay attached and every stored transaction keeps its key, its
  `jobid`, `vpid`, `req_frame` and `req_time`;
* when every packet of `ps` is a re-visit the Sync data are unchanged, so no
  `rep_frame` changes;
* a first visit of 8 octets for which the lookup finds a transaction of the
  packet's `jobid` writes its frame number into the `rep_frame` of that
  transaction, whatever value `rep_frame` had. -/
theorem C32_sync_transaction_updates (tree : Bool) (ps : List (tvbuff_t × packet_info))
    (I : mpi_info_t) :
    (∃ J, (sync_pass tree ps (some I)).2 = some J
      ∧ J.pdus.map sync_fixed = I.pdus.map sync_fixed
      ∧ ((∀ p ∈ ps, p.2.visited = true) → J = I))
    ∧ (∀ (tvb : tvbuff_t) (pinfo : packet_info) (k : Nat × Nat) (tr : mpi_sync_trans_t),
        tvb_captured_length tvb = 8 →
        pinfo.visited = false →
        wmem_tree_lookup32_array_le I.pdus (tvb_value false tvb 0 4, pinfo.num)
          = some (k, tr) →
        tr.jobid = tvb_value false tvb 0 4 →
        (dissect_mpi_sync tvb pinfo tree 0 (some I)).2
          = some { pdus := (wmem_tree_insert32_array I.pdus k
              { jobid := tr.jobid, vpid := tr.vpid, req_frame := tr.req_frame,
                rep_frame := pinfo.num, req_time := tr.req_time }) }) := by
  refine ⟨sync_pass_some tree ps I, fun tvb pinfo k tr hlen hvis hL hj => ?_⟩
  obtain ⟨lg, h, _⟩ := sync_first_found tvb pinfo tree 0 I k tr (by omega) hvis hL hj
  rw [h]

/-- Worked instance of C32 (amended): on the transaction of job 7 with
`rep_frame` 12, the first visit of `{jobid = 7, vpid = 5}` at frame 14 leaves
the key and the fields written at creation and sets `rep_frame` to 14. -/
theorem C32_sync_transaction_updates_witness :
    (dissect_mpi_sync (tvb_of [0, 0, 0, 7, 0, 0, 0, 5] (by decide))
        { srcport := 1024, destport := 40000, num := 14, visited := false, abs_ts := 1500 }
        true 0
        (some { pdus := [((7, 10),
          { jobid := 7, vpid := 3, req_frame := 10, rep_frame := 12, req_time := 1000 })] })).2
      = some { pdus := [((7, 10),
          { jobid := 7, vpid := 3, req_frame := 10, rep_frame := 14, req_time := 1000 })] } := by
  have h := (C32_sync_transaction_updates true []
    { pdus := [((7, 10),
      { jobid := 7, vpid := 3, req_frame := 10, rep_frame := 12, req_time := 1000 })] }).2
    (tvb_of [0, 0, 0, 7, 0, 0, 0, 5] (by decide))
    { srcport := 1024, destport := 40000, num := 14, visited := false, abs_ts := 1500 }
    (7, 10) { jobid := 7, vpid := 3, req_frame := 10, rep_frame := 12, req_time := 1000 }
    (by decide) rfl (by decide) (by decide)
  rw [h]
  rfl

/-- Counterexample to C33: the packet `{jobid = 7, vpid = 3}` at frame 10 and
the same content again at frame 12. On the first visits the second packet is
shown as a response, on the re-visits as a request. -/
theorem C33_sync_role_changes :
    (sync_pass false
        [(tvb_of [0, 0, 0, 7, 0, 0, 0, 3] (by decide),
            { srcport := 40000, destport := 1024, num := 10, visited := false,
              abs_ts := 1000 }),
          (tvb_of [0, 0, 0, 7, 0, 0, 0, 3] (by decide),
            { srcport := 1024, destport := 40000, num := 12, visited := false,
              abs_ts := 1250 })] none).1.map sync_role
      = [some true, some false]
    ∧ (sync_pass false
        (revisit
          [(tvb_of [0, 0, 0, 7, 0, 0, 0, 3] (by decide),
              { srcport := 40000, destport := 1024, num := 10, visited := false,
                abs_ts := 1000 }),
            (tvb_of [0, 0, 0, 7, 0, 0, 0, 3] (by decide),
              { srcport := 1024, destport := 40000, num := 12, visited := false,
                abs_ts := 1250 })])
        (sync_pass false
          [(tvb_of [0, 0, 0, 7, 0, 0, 0, 3] (by decide),
              { srcport := 40000, destport := 1024, num := 10, visited := false,
                abs_ts := 1000 }),
            (tvb_of [0, 0, 0, 7, 0, 0, 0, 3] (by decide),
              { srcport := 1024, destport := 40000, num := 12, visited := false,
                abs_ts := 1250 })] none).2).1.map sync_role
      = [some true, some true] := by
  decide

/-- C33 (amended): let `p0 :: rest` be Sync packets of 8 octets on a fresh
conversation, in capture order (no frame number below that of `p0`), processed
first as first visits and then as re-visits, with or without a tree.
* On the first visits `p0` is shown as a request and every later packet as a
  response.
* On the re-visits a packet is shown as a request exactly when it carries the
  `jobid` and the `vpid` of `p0`, and as a response otherwise.
* Hence, when no later packet carries both the `jobid` and the `vpid` of `p0`,
  every packet has the same role on both passes. -/
theorem C33_sync_revisit_roles (tree : Bool) (p0 : tvbuff_t × packet_info)
    (rest : List (tvbuff_t × packet_info))
    (h8 : ∀ p ∈ p0 :: rest, tvb_captured_length p.1 = 8)
    (hvis : ∀ p ∈ p0 :: rest, p.2.visited = false)
    (hord : ∀ p ∈ rest, p0.2.num ≤ p.2.num) :
    (sync_pass tree (p0 :: rest) none).1.map sync_role
      = some true :: rest.map (fun _ => some false)
    ∧ (sync_pass tree (revisit (p0 :: rest)) (sync_pass tree (p0 :: rest) none).2).1.map
        sync_role
      = (p0 :: rest).map (fun p => some (decide (tvb_value false p.1 0 4
            = tvb_value false p0.1 0 4
          ∧ tvb_value false p.1 4 4 = tvb_value false p0.1 4 4)))
    ∧ ((∀ p ∈ rest, ¬ (tvb_value false p.1 0 4 = tvb_value false p0.1 0 4
          ∧ tvb_value false p.1 4 4 = tvb_value false p0.1 4 4)) →
        (sync_pass tree (revisit (p0 :: rest)) (sync_pass tree (p0 :: rest) none).2).1.map
            sync_role
          = (sync_pass tree (p0 :: rest) none).1.map sync_role) := by
  obtain ⟨lg, h0, hh0, _⟩ := sync_first_request p0.1 p0.2 tree 0
    (by rw [h8 p0 (List.mem_cons_self _ _)]) (hvis p0 (List.mem_cons_self _ _))
  obtain ⟨hroles, r, hst⟩ := sync_pass_first_on_one tree rest (tvb_value false p0.1 0 4)
    (tvb_value false p0.1 4 4) p0.2.num 0 p0.2.abs_ts
    (fun q hq => h8 q (List.mem_cons_of_mem _ hq))
    (fun q hq => hvis q (List.mem_cons_of_mem _ hq)) hord
  have hfirst : (sync_pass tree (p0 :: rest) none).1.map sync_role
      = some true :: rest.map (fun _ => some false) := by
    rw [sync_pass_cons, h0, List.map_cons, hroles,
      sync_role_of (Res.ok (0 + 8) lg) _ _ _ _ _ _ hh0]
  have hstate : (sync_pass tree (p0 :: rest) none).2
      = some { pdus := [((tvb_value false p0.1 0 4, p0.2.num),
          { jobid := tvb_value false p0.1 0 4, vpid := tvb_value false p0.1 4 4,
            req_frame := p0.2.num, rep_frame := r, req_time := p0.2.abs_ts })] } := by
    rw [sync_pass_cons, h0]
    exact hst
  have hsecond := sync_pass_revisit_on_one tree (revisit (p0 :: rest))
    (tvb_value false p0.1 0 4) (tvb_value false p0.1 4 4) p0.2.num r p0.2.abs_ts
    (by
      intro q hq
      obtain ⟨p, hp, rfl⟩ := List.mem_map.mp hq
      exact h8 p hp)
    (by
      intro q hq
      obtain ⟨p, hp, rfl⟩ := List.mem_map.mp hq
      rfl)
    (by
      intro q hq
      obtain ⟨p, hp, rfl⟩ := List.mem_map.mp hq
      rcases List.mem_cons.mp hp with hp | hp
      · rw [hp]
      · exact hord p hp)
  have hrev : (sync_pass tree (revisit (p0 :: rest)) (sync_pass tree (p0 :: rest) none).2).1.map
        sync_role
      = (p0 :: rest).map (fun p => some (decide (tvb_value false p.1 0 4
            = tvb_value false p0.1 0 4
          ∧ tvb_value false p.1 4 4 = tvb_value false p0.1 4 4))) := by
    rw [hstate, hsecond]
    unfold revisit
    rw [List.map_map]
    rfl
  refine ⟨hfirst, hrev, fun hne => ?_⟩
  have e2 : rest.map (fun p => some (decide (tvb_value false p.1 0 4
        = tvb_value false p0.1 0 4 ∧ tvb_value false p.1 4 4 = tvb_value false p0.1 4 4)))
      = rest.map (fun _ => some false) := by
    apply List.map_congr_left
    intro p hp
    rw [decide_eq_false (hne p hp)]
  rw [hrev, hfirst, List.map_cons, e2]
  simp only [and_self, decide_True]

/-- Worked instance of C33 (amended): `{7, 3}` at frame 10, `{7, 9}` at frame 12
and `{8, 3}` at frame 14 have the roles request, response, response on both
passes. -/
theorem C33_sync_revisit_roles_witness :
    (sync_pass true
        (revisit
          [(tvb_of [0, 0, 0, 7, 0, 0, 0, 3] (by decide),
              { srcport := 40000, destport := 1024, num := 10, visited := false,
                abs_ts := 1000 }),
            (tvb_of [0, 0, 0, 7, 0, 0, 0, 9] (by decide),
              { srcport := 1024, destport := 40000, num := 12, visited := false,
                abs_ts := 1250 }),
            (tvb_of [0, 0, 0, 8, 0, 0, 0, 3] (by decide),
              { srcport := 1024, destport := 40000, num := 14, visited := false,
                abs_ts := 1500 })])
        (sync_pass true
          [(tvb_of [0, 0, 0, 7, 0, 0, 0, 3] (by decide),
              { srcport := 40000, destport := 1024, num := 10, visited := false,
                abs_ts := 1000 }),
            (tvb_of [0, 0, 0, 7, 0, 0, 0, 9] (by decide),
              { srcport := 1024, destport := 40000, num := 12, visited := false,
                abs_ts := 1250 }),
            (tvb_of [0, 0, 0, 8, 0, 0, 0, 3] (by decide),
              { srcport := 1024, destport := 40000, num := 14, visited := false,
                abs_ts := 1500 })] none).2).1.map sync_role
      = [some true, some false, some false] := by
  have h := (C33_sync_revisit_roles true
    (tvb_of [0, 0, 0, 7, 0, 0, 0, 3] (by decide),
      { srcport := 40000, destport := 1024, num := 10, visited := false, abs_ts := 1000 })
    [(tvb_of [0, 0, 0, 7, 0, 0, 0, 9] (by decide),
        { srcport := 1024, destport := 40000, num := 12, visited := false, abs_ts := 1250 }),
      (tvb_of [0, 0, 0, 8, 0, 0, 0, 3] (by decide),
        { srcport := 1024, destport := 40000, num := 14, visited := false, abs_ts := 1500 })]
    (by decide) (by decide) (by decide)).2.1
  rw [h]
  simp only [List.map_cons, List.map_nil]
  decide

/-- Counterexample to C34: a 22-octet Match packet, little endian. With a tree
the base header is decoded from the octets 0..7 (`size` is the u32 of the
octets 4..7), the common header from the octets 8 and 9 (not 5 and 6), and the
Match field `ctx` is the u16 at offset 10; without a tree the first fetch of the
Match decoder is at offset 10, not 7. -/
theorem C34_btl_ten_octets :
    hdrs (dissect_mpi_btl true
        (tvb_of [65, 1, 2, 0, 4, 5, 6, 7, 8, 9, 10, 0, 1, 0, 0, 0, 2, 0, 0, 0, 3, 0]
          (by decide)) pinfo_btl true).log
      = [Hdr.base 65 1 2 117835012, Hdr.common 8 9, Hdr.match_hdr 10 1 2 3 1]
    ∧ reads (dissect_mpi_btl true
        (tvb_of [65, 1, 2, 0, 4, 5, 6, 7, 8, 9, 10, 0, 1, 0, 0, 0, 2, 0, 0, 0, 3, 0]
          (by decide)) pinfo_btl false).log
      = [(0, 1), (10, 2), (12, 4), (16, 4), (20, 2)] := by
  decide

/-- C34 (amended): on every buffer accepted on the BTL path (at least 10
captured octets, first octet in 65..77), under either policy, `dissect_mpi`
is the run of the `switch` on the first octet entered at offset 10, preceded by
the prefix and followed by the trailing data item.
* With a tree the prefix fetches `base` at 0, `type` at 1, the common `type` at
  8, the common `flags` at 9, `count` (u16) at 2 and `size` (u32) at 4, and adds
  the base header as the items 0..1, 1..2, 2..4, 4..8 (8 octets) and the common
  header as the items 8..9 and 9..10 (2 octets), which follow the base header
  immediately.
* Without a tree the prefix only fetches the first octet.
In both modes the kind decoder is entered at offset 10. -/
theorem C34_btl_header_layout (le : Bool) (tvb : tvbuff_t) (pinfo : packet_info) (tree : Bool)
    (b : Byte) (hb : tvb.data.head? = some b) (hcap : 10 ≤ tvb_captured_length tvb)
    (hacc : 65 ≤ b.val ∧ b.val ≤ 77) :
    dissect_mpi_btl le tvb pinfo tree
      = Res.prepend
          (if tree = true then
            [Ev.read 0 1, Ev.summary pinfo.srcport pinfo.destport b.val,
              Ev.item "proto_mpi" 0 (tvb_captured_length tvb),
              Ev.read 1 1, Ev.read 8 1, Ev.read 9 1, Ev.read 2 2, Ev.read 4 4,
              Ev.subtree "ett_mpi_base",
              Ev.item "hf_mpi_base_hdr_base" 0 1, Ev.item "hf_mpi_base_hdr_type" 1 1,
              Ev.item "hf_mpi_base_hdr_count" 2 2, Ev.item "hf_mpi_base_hdr_size" 4 4,
              Ev.hdr (Hdr.base b.val (tvb_value true tvb 1 1) (tvb_value le tvb 2 2)
                (tvb_value le tvb 4 4)),
              Ev.subtree "ett_mpi_common",
              Ev.item "hf_mpi_common_hdr_type" 8 1, Ev.item "hf_mpi_common_hdr_flags" 9 1,
              Ev.hdr (Hdr.common (tvb_value true tvb 8 1) (tvb_value true tvb 9 1))]
          else [Ev.read 0 1, Ev.summary pinfo.srcport pinfo.destport b.val])
          ((dissect_mpi_switch le tvb tree b.val 10).bind (fun offset =>
            if tvb_captured_length tvb > offset then
              (proto_tree_add_item tree "hf_mpi_oob_data" tvb offset
                (guint_sub (tvb_captured_length tvb) offset)).bind
                  (fun _ => Res.ok (tvb_captured_length tvb) [])
            else Res.ok offset [])) :=
  btl_form le tvb pinfo tree b hb hcap hacc

/-- Worked instance of C34 (amended): a 26-octet Match packet, big endian, with
a tree. -/
theorem C34_btl_header_layout_witness :
    hdrs (dissect_mpi_btl false
        (tvb_of [65, 1, 0, 2, 0, 0, 0, 4, 8, 9, 0, 10, 0, 0, 0, 1, 0, 0, 0, 2, 0, 3,
          0, 0, 7, 7] (by decide)) pinfo_btl true).log
      = [Hdr.base 65 1 2 4, Hdr.common 8 9, Hdr.match_hdr 10 1 2 3 0] := by
  rw [C34_btl_header_layout false
    (tvb_of [65, 1, 0, 2, 0, 0, 0, 4, 8, 9, 0, 10, 0, 0, 0, 1, 0, 0, 0, 2, 0, 3,
      0, 0, 7, 7] (by decide)) pinfo_btl true 65 rfl (by decide) (by decide)]
  decide

/-- C35: on every buffer accepted on the BTL path (at least 10 captured octets,
first octet in 65..77) on which the `switch` returns an offset `o`, under
either policy, with or without a tree: `o` is at most the captured length,
`dissect_mpi` returns the captured length, and after the log of the `switch`
it adds, when a tree is built and `o` is before the end, the one item
`hf_mpi_oob_data` that spans the octets from `o` to the end of the buffer. -/
theorem C35_btl_returns_length (le : Bool) (tvb : tvbuff_t) (pinfo : packet_info)
    (tree : Bool) (b : Byte) (o : Nat) (lgsw : List Ev)
    (hb : tvb.data.head? = some b) (hcap : 10 ≤ tvb_captured_length tvb)
    (hacc : 65 ≤ b.val ∧ b.val ≤ 77)
    (hsw : dissect_mpi_switch le tvb tree b.val 10 = Res.ok o lgsw) :
    o ≤ tvb_captured_length tvb
    ∧ ∃ pre,
        dissect_mpi_btl le tvb pinfo tree
          = Res.ok (tvb_captured_length tvb)
              (pre ++ lgsw
                ++ (if tree = true ∧ o < tvb_captured_length tvb then
                      [Ev.item "hf_mpi_oob_data" o (tvb_captured_length tvb - o)] else []))
        ∧ (∀ x ∈ reads pre, x.1 + x.2 ≤ 10) := by
  have ho : o ≤ tvb.data.length :=
    switch_bound le tvb tree b.val 10 o lgsw hacc hcap hsw
  refine ⟨ho, ?_⟩
  have hlt := tvb.reported_lt
  have hrep := tvb.captured_le
  rw [btl_form le tvb pinfo tree b hb hcap hacc, hsw]
  unfold tvb_captured_length at hcap ⊢
  have g : guint_sub tvb.data.length o = tvb.data.length - o :=
    guint_sub_eq ho (by omega)
  by_cases hlast : o < tvb.data.length
  · cases tree <;>
    simp (disch := omega) only [Res.bind_ok, Res.prepend_ok, proto_tree_add_item, g, hlast,
      gt_iff_lt, if_true, if_pos, Bool.false_eq_true, if_false, false_and, true_and,
      List.append_nil, Res.ok.injEq, List.append_assoc, ↓reduceIte]
    all_goals
      refine ⟨_, rfl, ?_⟩
      simp
  · have e : o = tvb.data.length := by omega
    cases tree <;>
    simp (disch := omega) only [Res.bind_ok, Res.prepend_ok, hlast, gt_iff_lt, if_true,
      Bool.false_eq_true, if_false, false_and, and_false, List.append_nil, Res.ok.injEq,
      ↓reduceIte]
    all_goals
      refine ⟨_, ⟨e, rfl⟩, ?_⟩
      simp

/-- Worked instance of C35: a 26-octet Match packet, big endian, with a tree;
the Match decoder ends at 24 and the two octets 24..25 become the data item. -/
theorem C35_btl_returns_length_witness :
    24 ≤ 26
    ∧ ∃ pre,
        dissect_mpi_btl false
            (tvb_of [65, 1, 0, 2, 0, 0, 0, 4, 8, 9, 0, 10, 0, 0, 0, 1, 0, 0, 0, 2, 0, 3,
              0, 0, 7, 7] (by decide)) pinfo_btl true
          = Res.ok 26
              (pre ++ [Ev.read 10 2, Ev.read 12 4, Ev.read 16 4, Ev.read 20 2, Ev.read 22 4,
                  Ev.read 22 2, Ev.hdr (Hdr.match_hdr 10 1 2 3 0),
                  Ev.subtree "ett_mpi_match", Ev.item "hf_mpi_match_hdr_ctx" 10 2,
                  Ev.item "hf_mpi_match_hdr_src" 12 4, Ev.item "hf_mpi_match_hdr_tag" 16 4,
                  Ev.item "hf_mpi_match_hdr_seq" 20 2, Ev.item "hf_mpi_padding2" 22 2]
                ++ [Ev.item "hf_mpi_oob_data" 24 2])
        ∧ (∀ x ∈ reads pre, x.1 + x.2 ≤ 10) :=
  C35_btl_returns_length false
    (tvb_of [65, 1, 0, 2, 0, 0, 0, 4, 8, 9, 0, 10, 0, 0, 0, 1, 0, 0, 0, 2, 0, 3,
      0, 0, 7, 7] (by decide)) pinfo_btl true 65 24 _ rfl (by decide) (by decide) (by decide)

/-- Counterexample to C36: the Match decoder, big endian, entered at offset 2 of
a 20-octet buffer whose two octets after `seq` are `00 07`. With a tree it
returns 14, without a tree 16. -/
theorem C36_match_tree_offset_differs :
    (dissect_mpi_match false
        (tvb_of [9, 9, 0, 10, 0, 0, 0, 1, 0, 0, 0, 2, 0, 3, 0, 7, 1, 2, 3, 4] (by decide))
        true 2).value = some 14
    ∧ (dissect_mpi_match false
        (tvb_of [9, 9, 0, 10, 0, 0, 0, 1, 0, 0, 0, 2, 0, 3, 0, 7, 1, 2, 3, 4] (by decide))
        false 2).value = some 16 := by
  decide

/-- C36 (amended): on every fully captured buffer, for every entry offset inside
it and either policy, the offset returned with a tree is compared with the
offset returned without one.
* Match and Rendezvous: the offsets are equal exactly when the Match part
  fetches no padding or the padding it fetches is zero.
* RendezvousGet, when the Match part fetches no non-zero padding: the offsets
  are equal exactly when the 4 padding octets after `seg_count`, if fetched,
  are zero (`q` is the offset after the Rendezvous part).
* Fragment and Ack: the offsets are equal exactly when the 6 padding octets,
  if fetched, are zero.
* Fin, when the remaining length is not 24, 26 or 28: the offsets are equal
  exactly when the 2 padding octets, if fetched, are zero. -/
theorem C36_tree_offsets (le : Bool) (tvb : tvbuff_t) (off : Nat)
    (hfull : tvb_captured_length tvb = tvb_reported_length tvb)
    (hoff : off ≤ tvb_reported_length tvb) :
    ((dissect_mpi_match le tvb true off).value = (dissect_mpi_match le tvb false off).value
      ↔ ¬ (match_reads_padding tvb off ∧ tvb_value le tvb (off + 12) 2 ≠ 0))
    ∧ ((dissect_mpi_rndv le tvb true off).value = (dissect_mpi_rndv le tvb false off).value
      ↔ ¬ (match_reads_padding tvb off ∧ tvb_value le tvb (off + 12) 2 ≠ 0))
    ∧ (∀ q lg, ¬ (match_reads_padding tvb off ∧ tvb_value le tvb (off + 12) 2 ≠ 0) →
        dissect_mpi_rndv le tvb false off = Res.ok q lg →
        ((dissect_mpi_rget le tvb true off).value = (dissect_mpi_rget le tvb false off).value
          ↔ ¬ (28 ≤ tvb_reported_length tvb - off ∧ 16 ≤ tvb_reported_length tvb - q
              ∧ tvb_value le tvb (q + 4) 4 ≠ 0)))
    ∧ ((dissect_mpi_frag le tvb true off).value = (dissect_mpi_frag le tvb false off).value
      ↔ ¬ (30 ≤ tvb_reported_length tvb - off ∧ tvb_value le tvb off 6 ≠ 0))
    ∧ ((dissect_mpi_ack le tvb true off).value = (dissect_mpi_ack le tvb false off).value
      ↔ ¬ (30 ≤ tvb_reported_length tvb - off ∧ tvb_value le tvb off 6 ≠ 0))
    ∧ (tvb_reported_length tvb - off ≠ 24 → tvb_reported_length tvb - off ≠ 26 →
        tvb_reported_length tvb - off ≠ 28 →
        ((dissect_mpi_fin le tvb true off).value = (dissect_mpi_fin le tvb false off).value
          ↔ ¬ (tvb_reported_length tvb - off = 14 ∧ tvb_value le tvb off 2 ≠ 0))) :=
  ⟨match_tree_iff le tvb off hfull hoff, rndv_tree_iff le tvb off hfull hoff,
    fun q lg hpad hq => rget_tree_iff le tvb off q lg hfull hoff hpad hq,
    frag_tree_iff le tvb off hfull hoff, ack_tree_iff le tvb off hfull hoff,
    fun h24 h26 h28 => fin_tree_iff le tvb off hfull hoff h24 h26 h28⟩

/-- Worked instance of C36 (amended): the Fragment decoder, little endian, on a
32-octet buffer entered at offset 2 with 6 zero padding octets, returns the
same offset with and without a tree. -/
theorem C36_tree_offsets_witness :
    (dissect_mpi_frag true
        (tvb_of [9, 9, 0, 0, 0, 0, 0, 0, 17, 4, 0, 0, 0, 0, 0, 0, 23, 5, 0, 0, 0, 0, 0, 0,
          31, 6, 0, 0, 0, 0, 0, 0] (by decide)) true 2).value
      = (dissect_mpi_frag true
        (tvb_of [9, 9, 0, 0, 0, 0, 0, 0, 17, 4, 0, 0, 0, 0, 0, 0, 23, 5, 0, 0, 0, 0, 0, 0,
          31, 6, 0, 0, 0, 0, 0, 0] (by decide)) false 2).value :=
  (C36_tree_offsets true
    (tvb_of [9, 9, 0, 0, 0, 0, 0, 0, 17, 4, 0, 0, 0, 0, 0, 0, 23, 5, 0, 0, 0, 0, 0, 0,
      31, 6, 0, 0, 0, 0, 0, 0] (by decide)) 2 (by decide) (by decide)).2.2.2.1.mpr (by decide)

/-- C37: field boundaries do not depend on the endianness policy. For each of
the eight kind decoders, every buffer (fully captured or not), every entry
offset and either tree mode, the run under the little-endian policy and the
run under the big-endian policy
* both raise an exception or both return, and then return the same offset;
* fetch the same spans in the same order (in particular the same padding
  spans);
* have the same log once the reported header values are left out (`shape`):
  the same fetches, subtrees, items (so the same padding items) and notices. -/
theorem C37_policy_independent (tvb : tvbuff_t) (tree : Bool) (off : Nat) :
    ∀ dec ∈ [dissect_mpi_match, dissect_mpi_rndv, dissect_mpi_rget, dissect_mpi_frag,
        dissect_mpi_ack, dissect_mpi_rdma, dissect_mpi_fin, dissect_mpi_rndvrestartnotify],
      (dec true tvb tree off).value = (dec false tvb tree off).value
      ∧ reads (dec true tvb tree off).log = reads (dec false tvb tree off).log
      ∧ shape (dec true tvb tree off).log = shape (dec false tvb tree off).log := by
  have key : ∀ r s : Res Nat,
      same_course (fun a b => a = b ∧ (off ≤ tvb.data.length → a ≤ tvb.data.length)) r s →
      r.value = s.value ∧ reads r.log = reads s.log ∧ shape r.log = shape s.log := by
    intro r s h
    obtain ⟨hv, hs⟩ := course_value h
    refine ⟨hv, ?_, hs⟩
    rw [← reads_shape r.log, ← reads_shape s.log, hs]
  intro dec hdec
  simp only [List.mem_cons, List.mem_singleton, List.not_mem_nil, or_false] at hdec
  rcases hdec with h | h | h | h | h | h | h | h <;> subst h
  · exact key _ _ (match_course tvb tree off)
  · exact key _ _ (rndv_course tvb tree off)
  · exact key _ _ (rget_course tvb tree off)
  · exact key _ _ (frag_course tvb tree off)
  · exact key _ _ (ack_course tvb tree off)
  · exact key _ _ (rdma_course tvb tree off)
  · exact key _ _ (fin_course tvb tree off)
  · exact key _ _ (rndvrestartnotify_course tvb tree off)

/-- Worked instance of C37: the Rdma decoder with a tree on a 56-octet buffer
entered at offset 2. -/
theorem C37_policy_independent_witness :
    (dissect_mpi_rdma true
        (tvb_of [9, 9, 0, 0, 21, 2, 3, 4, 0, 0, 0, 0, 0, 0, 0, 0, 64, 1, 0, 0, 0, 0, 0, 0,
          0, 48, 2, 0, 0, 0, 0, 0, 5, 0, 0, 0, 0, 0, 0, 6, 7, 0, 0, 0, 0, 0, 0, 8,
          9, 0, 0, 0, 0, 0, 0, 10] (by decide)) true 2).value
      = (dissect_mpi_rdma false
        (tvb_of [9, 9, 0, 0, 21, 2, 3, 4, 0, 0, 0, 0, 0, 0, 0, 0, 64, 1, 0, 0, 0, 0, 0, 0,
          0, 48, 2, 0, 0, 0, 0, 0, 5, 0, 0, 0, 0, 0, 0, 6, 7, 0, 0, 0, 0, 0, 0, 8,
          9, 0, 0, 0, 0, 0, 0, 10] (by decide)) true 2).value :=
  (C37_policy_independent
    (tvb_of [9, 9, 0, 0, 21, 2, 3, 4, 0, 0, 0, 0, 0, 0, 0, 0, 64, 1, 0, 0, 0, 0, 0, 0,
      0, 48, 2, 0, 0, 0, 0, 0, 5, 0, 0, 0, 0, 0, 0, 6, 7, 0, 0, 0, 0, 0, 0, 8,
      9, 0, 0, 0, 0, 0, 0, 10] (by decide)) true 2 dissect_mpi_rdma (by simp)).1

/-- C38: the Sync data of a conversation hold at most one transaction. For
every sequence `ps` of Sync calls (first visits and re-visits, buffers of any
length), with or without a tree:
* started on a conversation without Sync data, the Sync data left by `ps`, if
  any, hold at most one transaction;
* started on a conversation with Sync data `I`, the keys of the tree are
  those of `I`: no call on existing Sync data adds a transaction;
* when a first visit `p0` of 8 octets precedes `ps` on a conversation without
  Sync data, the tree left holds exactly one transaction, with the key
  (`jobid`, frame number) of `p0` and the `jobid`, `vpid`, frame number and
  time stamp of `p0`. -/
theorem C38_sync_single_transaction (tree : Bool) (ps : List (tvbuff_t × packet_info)) :
    (∀ I, (sync_pass tree ps none).2 = some I → I.pdus.length ≤ 1)
    ∧ (∀ I, ∃ J, (sync_pass tree ps (some I)).2 = some J
        ∧ J.pdus.map Prod.fst = I.pdus.map Prod.fst)
    ∧ (∀ p0 : tvbuff_t × packet_info,
        tvb_captured_length p0.1 = 8 →
        p0.2.visited = false →
        ∃ J, (sync_pass tree (p0 :: ps) none).2 = some J
          ∧ J.pdus.map sync_fixed
            = [((tvb_value false p0.1 0 4, p0.2.num), tvb_value false p0.1 0 4,
                tvb_value false p0.1 4 4, p0.2.num, p0.2.abs_ts)]) := by
  refine ⟨fun I h => sync_pass_none tree ps I h, fun I => ?_, fun p0 h8 hvis => ?_⟩
  · obtain ⟨J, hJ, hfix, _⟩ := sync_pass_some tree ps I
    refine ⟨J, hJ, ?_⟩
    have := congrArg (List.map Prod.fst) hfix
    simpa only [List.map_map] using this
  · obtain ⟨lg, h0, _⟩ := sync_first_request p0.1 p0.2 tree 0 (by rw [h8]) hvis
    obtain ⟨J, hJ, hfix, _⟩ := sync_pass_some tree ps
      { pdus := [((tvb_value false p0.1 0 4, p0.2.num),
        { jobid := tvb_value false p0.1 0 4, vpid := tvb_value false p0.1 4 4,
          req_frame := p0.2.num, rep_frame := 0, req_time := p0.2.abs_ts })] }
    refine ⟨J, ?_, hfix⟩
    rw [sync_pass_cons, h0]
    exact hJ

/-- Worked instance of C38: after `{7, 3}` at frame 10, `{7, 9}` at frame 12 and
`{8, 3}` at frame 14 the tree holds the one transaction created at frame 10. -/
theorem C38_sync_single_transaction_witness :
    ∃ J, (sync_pass true
        [(tvb_of [0, 0, 0, 7, 0, 0, 0, 3] (by decide),
            { srcport := 40000, destport := 1024, num := 10, visited := false,
              abs_ts := 1000 }),
          (tvb_of [0, 0, 0, 7, 0, 0, 0, 9] (by decide),
            { srcport := 1024, destport := 40000, num := 12, visited := false,
              abs_ts := 1250 }),
          (tvb_of [0, 0, 0, 8, 0, 0, 0, 3] (by decide),
            { srcport := 1024, destport := 40000, num := 14, visited := false,
              abs_ts := 1500 })] none).2 = some J
      ∧ J.pdus.map sync_fixed = [((7, 10), 7, 3, 10, 1000)] := by
  obtain ⟨J, hJ, hfix⟩ := (C38_sync_single_transaction true
    [(tvb_of [0, 0, 0, 7, 0, 0, 0, 9] (by decide),
        { srcport := 1024, destport := 40000, num := 12, visited := false, abs_ts := 1250 }),
      (tvb_of [0, 0, 0, 8, 0, 0, 0, 3] (by decide),
        { srcport := 1024, destport := 40000, num := 14, visited := false,
          abs_ts := 1500 })]).2.2
    (tvb_of [0, 0, 0, 7, 0, 0, 0, 3] (by decide),
      { srcport := 40000, destport := 1024, num := 10, visited := false, abs_ts := 1000 })
    (by decide) rfl
  refine ⟨J, hJ, ?_⟩
  rw [hfix]
  decide

/-- C39 fails on the code: the switch of the message branch for `rml_tag` 0
(`ORTE_RML_TAG_INVALID`) with 14 message octets at offset 28 of a 43-octet
buffer, with a tree. The two NUL-terminated strings take 6 and 9 octets, so
the switch moves the offset from 28 to 43, which is 15 octets for a message of
14; the subtraction `nbytes -= offset - the_offset` on 32 bits yields
4294967295, and this is the length the pass reports. -/
theorem C39_oob_residual_wraps :
    dissect_mpi_oob_msg
        (tvb_of [0, 0, 0, 1, 0, 0, 0, 2, 0, 0, 0, 3, 0, 0, 0, 4, 0, 0, 0, 5,
          0, 0, 0, 0, 0, 0, 0, 14,
          49, 46, 56, 46, 52, 0, 49, 50, 51, 52, 53, 54, 55, 56, 0] (by decide))
        true 0 14 28
      = Res.ok 43 [Ev.read 28 6, Ev.item "hf_mpi_oob_version" 28 6, Ev.read 34 9,
          Ev.item "hf_mpi_oob_credential" 34 9,
          Ev.hdr (Hdr.oob_invalid [49, 46, 56, 46, 52] [49, 50, 51, 52, 53, 54, 55, 56])]
    ∧ guint_sub 14 (guint_sub 43 28) = 4294967295
    ∧ hdrs (dissect_mpi_oob_body
        (tvb_of [0, 0, 0, 1, 0, 0, 0, 2, 0, 0, 0, 3, 0, 0, 0, 4, 0, 0, 0, 5,
          0, 0, 0, 0, 0, 0, 0, 14,
          49, 46, 56, 46, 52, 0, 49, 50, 51, 52, 53, 54, 55, 56, 0] (by decide))
        pinfo_oob true 28
        { rml_tag_1 := 0, nbytes_1 := 0, rml_tag_2 := 0, nbytes_2 := 14, old := [] }).1.log
      = [Hdr.oob_msg 0,
          Hdr.oob_invalid [49, 46, 56, 46, 52] [49, 50, 51, 52, 53, 54, 55, 56],
          Hdr.oob_length 4294967295] := by
  decide

end MpiDissector
